import Mathlib

/-!
# urtwm: buffer pools, transfer callbacks, command queue, frame codec, register
sequences and transmit power

A shallow embedding of `sys/dev/urtwm/if_urtwm.c` (a FreeBSD driver for Realtek
RTL8821AU adapters).  The softc is an explicit state record, the STAILQ queues are
lists, and every call that leaves the driver (USB stack, net80211, mbuf allocator) is
appended to a trace kept in the state.  Register access goes through a model of the
control pipe: the answers of `usbd_do_request_flags` are a parameter, the accesses made
are logged in the state of the pipe.
-/

namespace Urtwm

/-! ## Constants -/

/-- Constants declared in `if_urtwmreg.h` and `if_urtwmvar.h`.  These two headers are
not part of the source tree, so every definition takes the constants as a parameter. -/
structure urtwm_hdr where
  /-- Number of entries of `sc_tx[]`. -/
  URTWM_TX_LIST_COUNT : Nat
  /-- Number of entries of `sc_rx[]`. -/
  URTWM_RX_LIST_COUNT : Nat
  /-- Number of slots of `cmdq[]`. -/
  URTWM_CMDQ_SIZE : Nat
  /-- Bit of `sc_flags`. -/
  URTWM_RUNNING : Nat
  /-- Value of `sizeof(union sec_param)`. -/
  sizeof_sec_param : Nat
  /-- Value of `sizeof(struct r88a_tx_desc)`. -/
  sizeof_tx_desc : Nat
  /-- Byte offset of the field `txdsum` in `struct r88a_tx_desc`. -/
  offsetof_txdsum : Nat
  /-- Value of `sizeof(struct r92c_rx_stat)`. -/
  sizeof_rx_stat : Nat
  R92C_RXDW0_PKTLEN_M : Nat
  R92C_RXDW0_PKTLEN_S : Nat
  R92C_RXDW0_INFOSZ_M : Nat
  R92C_RXDW0_INFOSZ_S : Nat
  R92C_RXDW0_CRCERR : Nat
  R92C_RXDW0_ICVERR : Nat
  /-- Indices into `sc_xfer[]`. -/
  URTWM_BULK_TX_BE : Nat
  URTWM_BULK_TX_BK : Nat
  URTWM_BULK_TX_VI : Nat
  URTWM_BULK_TX_VO : Nat

/-! Kernel constants (`sys/errno.h`, `dev/usb/usbdi.h`, `net80211/ieee80211.h`,
`net80211/ieee80211_crypto.h`). -/

def ENOMEM : Nat := 12
def EINVAL : Nat := 22
def EAGAIN : Nat := 35
def ENETDOWN : Nat := 50
def ENOBUFS : Nat := 55

def USB_ERR_CANCELLED : Nat := 5

def IEEE80211_FC0_TYPE_MASK : Nat := 0x0c
def IEEE80211_FC0_TYPE_MGT : Nat := 0x00
def IEEE80211_FC0_TYPE_CTL : Nat := 0x04
def IEEE80211_FC0_TYPE_DATA : Nat := 0x08
def IEEE80211_FC1_PROTECTED : Nat := 0x40

def IEEE80211_CIPHER_WEP : Nat := 0
def IEEE80211_CIPHER_TKIP : Nat := 1
def IEEE80211_CIPHER_AES_CCM : Nat := 3
def IEEE80211_KEY_SWCRYPT : Nat := 0x30

def IEEE80211_BPF_CRYPTO : Nat := 0x08

/-- Value of `sizeof(struct ieee80211_frame_ack)`: frame control, duration, receiver. -/
def sizeof_ieee80211_frame_ack : Nat := 10

/-- The three values of `USB_GET_STATE(xfer)`. -/
inductive usb_state where
  | USB_ST_SETUP
  | USB_ST_TRANSFERRED
  | USB_ST_ERROR
  deriving DecidableEq, Repr

/-! ## Data model -/

/-- The part of `struct mbuf` the data path reads: the bytes, the length
(`m_len`, `m_pkthdr.len`), the node stored in `m_pkthdr.rcvif` and the WME access
category (`M_WME_GETAC`). -/
structure mbuf where
  m_data : List Nat
  m_len : Nat
  rcvif : Nat
  wme_ac : Nat
  deriving DecidableEq, Repr

/-- The part of `struct ieee80211_key` read by the encoder. -/
structure ieee80211_key where
  wk_flags : Nat
  ic_cipher : Nat
  deriving DecidableEq, Repr

/-- The part of `struct ieee80211_bpf_params` that decides the control flow of
`urtwm_tx_raw`. -/
structure ieee80211_bpf_params where
  ibp_flags : Nat
  deriving DecidableEq, Repr

/-- A buffer descriptor `struct urtwm_data`.  `id` is the index of the descriptor in
`sc_tx[]` (or `sc_rx[]`); the bytes of `buf` are not tracked at this level. -/
structure urtwm_data where
  id : Nat
  ni : Option Nat
  m : Option mbuf
  buflen : Nat
  deriving DecidableEq, Repr

/-- One slot of the command queue, `struct urtwm_cmdq`: the parameter bytes and the
handler (`none` is the NULL function pointer). -/
structure urtwm_cmdq where
  data : List Nat
  func : Option Nat
  deriving DecidableEq, Repr

/-- Calls that leave the driver, in the order in which they are issued. -/
inductive kcall where
  | usbd_xfer_set_stall (xfer : Nat)
  | usbd_transfer_submit (xfer : Nat)
  | usbd_transfer_start (xfer : Nat)
  | usbd_xfer_set_frame_data (xfer : Nat) (data : Nat) (len : Option Nat)
  | usbd_xfer_set_frame_len (xfer : Nat)
  | usbd_copy_out (xfer : Nat)
  | ieee80211_tx_complete (ni : Nat) (m : Option mbuf) (status : Nat)
  | ieee80211_input (m : mbuf)
  | ieee80211_free_node (ni : Nat)
  | ieee80211_runtask
  | m_freem (m : mbuf)
  | cmd_func (func : Nat) (data : List Nat)
  deriving DecidableEq, Repr

/-- What the kernel answers to the driver: whether the n-th `m_get2` call (of the given
size) returns a buffer, what `ieee80211_crypto_encap` returns for a frame (the key and
the frame after encapsulation), and whether the i-th `malloc` of `urtwm_alloc_list`
succeeds. -/
structure kernel where
  m_get2 : Nat → Nat → Bool
  ieee80211_crypto_encap : Nat → mbuf → Option (ieee80211_key × mbuf)
  malloc : Nat → Bool

/-- The fields of `struct urtwm_softc` used by the data path, the two error counters
(`ic_ierrors`, the interface counter `IFCOUNTER_OERRORS`), the number of `m_get2`
calls made so far and the trace of outgoing calls. -/
structure urtwm_softc where
  sc_flags : Nat
  sc_tx_active : List urtwm_data
  sc_tx_inactive : List urtwm_data
  sc_tx_pending : List urtwm_data
  sc_tx_n_active : Nat
  sc_rx_active : List urtwm_data
  sc_rx_inactive : List urtwm_data
  sc_snd : List mbuf
  cmdq : List urtwm_cmdq
  cmdq_first : Nat
  cmdq_last : Nat
  ic_ierrors : Nat
  oerrors : Nat
  n_m_get2 : Nat
  trace : List kcall
  deriving DecidableEq, Repr

/-- Append one outgoing call to the trace. -/
def call (sc : urtwm_softc) (c : kcall) : urtwm_softc :=
  { sc with trace := sc.trace ++ [c] }

/-! ## Buffer lists -/

/-- The descriptor `&data[i]` as `urtwm_alloc_list` leaves it. -/
def fresh_data (i : Nat) : urtwm_data :=
  { id := i, ni := none, m := none, buflen := 0 }

/-- Model of `urtwm_alloc_list`: returns 0 when every `malloc` succeeds and `ENOMEM`
otherwise. -/
def urtwm_alloc_list (k : kernel) (ndata : Nat) : Nat :=
  if (List.range ndata).all k.malloc then 0 else ENOMEM

/-- Model of `urtwm_alloc_tx_list`: on success the three queues are initialised and
`&sc_tx[i]` is inserted at the head of the inactive queue for i = 0, 1, ... -/
def urtwm_alloc_tx_list (h : urtwm_hdr) (k : kernel) (sc : urtwm_softc) :
    Nat × urtwm_softc :=
  let error := urtwm_alloc_list k h.URTWM_TX_LIST_COUNT
  if error ≠ 0 then (error, sc)
  else
    (0, { sc with
            sc_tx_active := []
            sc_tx_pending := []
            sc_tx_inactive :=
              (List.range h.URTWM_TX_LIST_COUNT).foldl
                (fun q i => fresh_data i :: q) [] })

/-- Model of `urtwm_alloc_rx_list`. -/
def urtwm_alloc_rx_list (h : urtwm_hdr) (k : kernel) (sc : urtwm_softc) :
    Nat × urtwm_softc :=
  let error := urtwm_alloc_list k h.URTWM_RX_LIST_COUNT
  if error ≠ 0 then (error, sc)
  else
    (0, { sc with
            sc_rx_active := []
            sc_rx_inactive :=
              (List.range h.URTWM_RX_LIST_COUNT).foldl
                (fun q i => fresh_data i :: q) [] })

/-- Model of `_urtwm_getbuf`: the head of the inactive TX queue, removed from it. -/
def _urtwm_getbuf (sc : urtwm_softc) : Option urtwm_data × urtwm_softc :=
  match sc.sc_tx_inactive with
  | [] => (none, sc)
  | bf :: rest => (some bf, { sc with sc_tx_inactive := rest })

/-- Model of `urtwm_getbuf`. -/
def urtwm_getbuf (sc : urtwm_softc) : Option urtwm_data × urtwm_softc :=
  _urtwm_getbuf sc

/-- Model of `urtwm_txeof`. -/
def urtwm_txeof (sc : urtwm_softc) (data : urtwm_data) (status : Nat) : urtwm_softc :=
  let sc1 :=
    match data.ni with
    | some ni => call sc (kcall.ieee80211_tx_complete ni data.m status)
    | none => sc
  let sc2 :=
    if sc1.sc_tx_n_active > 0 then { sc1 with sc_tx_n_active := sc1.sc_tx_n_active - 1 }
    else sc1
  { sc2 with sc_tx_inactive := sc2.sc_tx_inactive ++ [{ data with ni := none, m := none }] }

/-! ## Transmit path -/

/-- The table `wme2queue[ac].qid`. -/
def wme2queue_qid (h : urtwm_hdr) (ac : Nat) : Nat :=
  [h.URTWM_BULK_TX_BE, h.URTWM_BULK_TX_BK, h.URTWM_BULK_TX_VI, h.URTWM_BULK_TX_VO].getD ac 0

/-- Model of `urtwm_tx_start`: select the transfer, record the transfer length, keep
the frame when the descriptor has a node, append the descriptor to the pending queue
and start the transfer. -/
def urtwm_tx_start (h : urtwm_hdr) (sc : urtwm_softc) (m : mbuf) (type : Nat)
    (data : urtwm_data) : urtwm_softc :=
  let xfer :=
    if type = IEEE80211_FC0_TYPE_CTL ∨ type = IEEE80211_FC0_TYPE_MGT then
      h.URTWM_BULK_TX_VO
    else wme2queue_qid h m.wme_ac
  let xferlen := h.sizeof_tx_desc + m.m_len
  let data1 := { data with buflen := xferlen }
  let data2 := if data1.ni ≠ none then { data1 with m := some m } else data1
  call { sc with sc_tx_pending := sc.sc_tx_pending ++ [data2] }
    (kcall.usbd_transfer_start xfer)

/-- The cipher switch shared by `urtwm_tx_data` and `urtwm_tx_raw`: true when the
cipher of the key is one of WEP, TKIP and AES-CCM. -/
def known_cipher (key : ieee80211_key) : Bool :=
  key.ic_cipher = IEEE80211_CIPHER_WEP ∨ key.ic_cipher = IEEE80211_CIPHER_TKIP ∨
    key.ic_cipher = IEEE80211_CIPHER_AES_CCM

/-- Control flow of `urtwm_tx_data`.  The frame type and the protected bit are read
from the first two bytes of the frame; the fields written into the TX descriptor are
not tracked. -/
def urtwm_tx_data (h : urtwm_hdr) (k : kernel) (sc : urtwm_softc) (ni : Nat) (m : mbuf)
    (data : urtwm_data) : Nat × urtwm_softc :=
  let type := m.m_data.getD 0 0 &&& IEEE80211_FC0_TYPE_MASK
  let finish (m1 : mbuf) : Nat × urtwm_softc :=
    (0, urtwm_tx_start h sc m1 type { data with ni := some ni })
  if m.m_data.getD 1 0 &&& IEEE80211_FC1_PROTECTED ≠ 0 then
    match k.ieee80211_crypto_encap ni m with
    | none => (ENOBUFS, sc)
    | some (key, m1) =>
      if key.wk_flags &&& IEEE80211_KEY_SWCRYPT = 0 then
        if known_cipher key then finish m1 else (EINVAL, sc)
      else finish m1
  else finish m

/-- Control flow of `urtwm_tx_raw`. -/
def urtwm_tx_raw (h : urtwm_hdr) (k : kernel) (sc : urtwm_softc) (ni : Nat) (m : mbuf)
    (data : urtwm_data) (params : ieee80211_bpf_params) : Nat × urtwm_softc :=
  let finish (m1 : mbuf) : Nat × urtwm_softc :=
    (0, urtwm_tx_start h sc m1 (m1.m_data.getD 0 0 &&& IEEE80211_FC0_TYPE_MASK)
          { data with ni := some ni })
  if params.ibp_flags &&& IEEE80211_BPF_CRYPTO ≠ 0 then
    match k.ieee80211_crypto_encap ni m with
    | none => (ENOBUFS, sc)
    | some (key, m1) =>
      if key.wk_flags &&& IEEE80211_KEY_SWCRYPT = 0 then
        if known_cipher key then finish m1 else (EINVAL, sc)
      else finish m1
  else finish m

/-- The loop of `urtwm_start` over the frames of the send queue: `m` is the frame
returned by `mbufq_dequeue` and `q` what is left in `sc_snd`. -/
def urtwm_start_loop (h : urtwm_hdr) (k : kernel) :
    List mbuf → urtwm_softc → urtwm_softc
  | [], sc => { sc with sc_snd := [] }
  | m :: q, sc =>
    match urtwm_getbuf { sc with sc_snd := q } with
    | (none, sc1) => { sc1 with sc_snd := m :: sc1.sc_snd }
    | (some bf, sc1) =>
      match urtwm_tx_data h k sc1 m.rcvif m bf with
      | (0, sc2) => urtwm_start_loop h k q sc2
      | (_, sc2) =>
        call
          (call
            { sc2 with
                oerrors := sc2.oerrors + 1
                sc_tx_inactive := bf :: sc2.sc_tx_inactive }
            (kcall.m_freem m))
          (kcall.ieee80211_free_node m.rcvif)

/-- Model of `urtwm_start`. -/
def urtwm_start (h : urtwm_hdr) (k : kernel) (sc : urtwm_softc) : urtwm_softc :=
  urtwm_start_loop h k sc.sc_snd sc

/-- Model of `urtwm_tx_beacon`; `bcn_mbuf` is `uvp->bcn_mbuf`. -/
def urtwm_tx_beacon (h : urtwm_hdr) (sc : urtwm_softc) (bcn_mbuf : mbuf) :
    Nat × urtwm_softc :=
  match urtwm_getbuf sc with
  | (none, sc1) => (ENOMEM, sc1)
  | (some bf, sc1) => (0, urtwm_tx_start h sc1 bcn_mbuf IEEE80211_FC0_TYPE_MGT bf)

/-- Model of `urtwm_raw_xmit`; `params = none` is the NULL pointer. -/
def urtwm_raw_xmit (h : urtwm_hdr) (k : kernel) (sc : urtwm_softc) (ni : Nat) (m : mbuf)
    (params : Option ieee80211_bpf_params) : Nat × urtwm_softc :=
  if sc.sc_flags &&& h.URTWM_RUNNING = 0 then (ENETDOWN, call sc (kcall.m_freem m))
  else
    match urtwm_getbuf sc with
    | (none, sc1) => (ENOBUFS, call sc1 (kcall.m_freem m))
    | (some bf, sc1) =>
      let r :=
        match params with
        | none => urtwm_tx_data h k sc1 ni m bf
        | some p => urtwm_tx_raw h k sc1 ni m bf p
      if r.1 ≠ 0 then
        (r.1, call { r.2 with sc_tx_inactive := bf :: r.2.sc_tx_inactive } (kcall.m_freem m))
      else (r.1, r.2)

/-- The label `tr_setup` of `urtwm_bulk_tx_callback`: submit the head of the pending
queue, or reset the pacer when the pending queue is empty. -/
def tx_tr_setup (sc : urtwm_softc) (xfer : Nat) : urtwm_softc :=
  match sc.sc_tx_pending with
  | [] => { sc with sc_tx_n_active := 0 }
  | data :: rest =>
    let sc1 := { sc with sc_tx_pending := rest, sc_tx_active := sc.sc_tx_active ++ [data] }
    let sc2 := call sc1 (kcall.usbd_xfer_set_frame_data xfer data.id (some data.buflen))
    let sc3 := call sc2 (kcall.usbd_transfer_submit xfer)
    { sc3 with sc_tx_n_active := sc3.sc_tx_n_active + 1 }

/-- The switch of `urtwm_bulk_tx_callback`, up to the label `finish`. -/
def tx_callback_switch (sc : urtwm_softc) (xfer : Nat) (st : usb_state) (error : Nat) :
    urtwm_softc :=
  match st with
  | usb_state.USB_ST_TRANSFERRED =>
    match sc.sc_tx_active with
    | [] => tx_tr_setup sc xfer
    | data :: rest => tx_tr_setup (urtwm_txeof { sc with sc_tx_active := rest } data 0) xfer
  | usb_state.USB_ST_SETUP => tx_tr_setup sc xfer
  | usb_state.USB_ST_ERROR =>
    match sc.sc_tx_active with
    | [] => tx_tr_setup sc xfer
    | data :: rest =>
      let sc1 := urtwm_txeof { sc with sc_tx_active := rest } data 1
      if error ≠ USB_ERR_CANCELLED then
        tx_tr_setup (call sc1 (kcall.usbd_xfer_set_stall xfer)) xfer
      else sc1

/-- Model of `urtwm_bulk_tx_callback` for the transfer `xfer`, entered in state `st`
with error code `error`. -/
def urtwm_bulk_tx_callback (h : urtwm_hdr) (k : kernel) (sc : urtwm_softc) (xfer : Nat)
    (st : usb_state) (error : Nat) : urtwm_softc :=
  urtwm_start h k (tx_callback_switch sc xfer st error)

/-! ## Receive path -/

/-- The macro `MS(val, field)`: `(val & field_M) >> field_S`. -/
def MS (val mask shift : Nat) : Nat :=
  (val &&& mask) >>> shift

/-- The macro `roundup2(x, 8)`. -/
def roundup2_8 (x : Nat) : Nat :=
  (x + 7) / 8 * 8

/-- The 32-bit little-endian word at byte offset `off` of `buf` (`le32toh` of the
first field of the RX status descriptor).  Bytes past the end of the list read as 0. -/
def le32_at (buf : List Nat) (off : Nat) : Nat :=
  buf.getD off 0 + 256 * buf.getD (off + 1) 0 + 65536 * buf.getD (off + 2) 0 +
    16777216 * buf.getD (off + 3) 0

/-- Conversion of an `int` to `size_t` (64 bits), as the comparison
`len >= sizeof(*stat)` does. -/
def to_size_t (x : Int) : Nat :=
  (x % (2 : Int) ^ 64).toNat

/-- The fresh mbuf filled by `urtwm_rx_copy_to_mbuf`: `totlen` bytes copied from the
status descriptor at offset `off`. -/
def rx_mbuf (buf : List Nat) (off totlen : Nat) : mbuf :=
  { m_data := (buf.drop off).take totlen, m_len := totlen, rcvif := 0, wme_ac := 0 }

/-- Model of `urtwm_rx_copy_to_mbuf`; `stat` is the byte offset of the status
descriptor in `buf`. -/
def urtwm_rx_copy_to_mbuf (h : urtwm_hdr) (k : kernel) (sc : urtwm_softc)
    (buf : List Nat) (stat : Nat) (totlen : Nat) : Option mbuf × urtwm_softc :=
  if sc.sc_flags &&& h.URTWM_RUNNING = 0 then (none, sc)
  else
    let fail : Option mbuf × urtwm_softc := (none, { sc with ic_ierrors := sc.ic_ierrors + 1 })
    let rxdw0 := le32_at buf stat
    if rxdw0 &&& (h.R92C_RXDW0_CRCERR ||| h.R92C_RXDW0_ICVERR) ≠ 0 then fail
    else
      let pktlen := MS rxdw0 h.R92C_RXDW0_PKTLEN_M h.R92C_RXDW0_PKTLEN_S
      if pktlen < sizeof_ieee80211_frame_ack then fail
      else if k.m_get2 sc.n_m_get2 totlen then
        (some (rx_mbuf buf stat totlen), { sc with n_m_get2 := sc.n_m_get2 + 1 })
      else
        (none, { sc with n_m_get2 := sc.n_m_get2 + 1, ic_ierrors := sc.ic_ierrors + 1 })

/-- The loop of `urtwm_rxeof`.  `off` is the distance of the moving pointer `buf` from
the start of the buffer, `len` the remaining length, and `chain` the frames linked so
far through `m_next` (a frame is linked exactly when the copy returned one).  The
result is `none` when the fuel runs out before the loop ends. -/
def urtwm_rxeof_loop (h : urtwm_hdr) (k : kernel) :
    Nat → urtwm_softc → List Nat → Nat → Int → List mbuf →
      Option (List mbuf × urtwm_softc)
  | 0, _, _, _, _, _ => none
  | fuel + 1, sc, buf, off, len, chain =>
    if to_size_t len ≥ h.sizeof_rx_stat then
      let rxdw0 := le32_at buf off
      let pktlen := MS rxdw0 h.R92C_RXDW0_PKTLEN_M h.R92C_RXDW0_PKTLEN_S
      if pktlen = 0 then some (chain, sc)
      else
        let infosz := MS rxdw0 h.R92C_RXDW0_INFOSZ_M h.R92C_RXDW0_INFOSZ_S * 8
        let totlen := h.sizeof_rx_stat + infosz + pktlen
        if (totlen : Int) > len then some (chain, sc)
        else
          let r := urtwm_rx_copy_to_mbuf h k sc buf off totlen
          let chain1 :=
            match r.1 with
            | some m => chain ++ [m]
            | none => chain
          let totlen1 := if (totlen : Int) < len then roundup2_8 totlen else totlen
          urtwm_rxeof_loop h k fuel r.2 buf (off + totlen1) (len - (totlen1 : Int)) chain1
    else some (chain, sc)

/-- Model of `urtwm_rxeof`: the chain of frames parsed from the first `len` bytes. -/
def urtwm_rxeof (h : urtwm_hdr) (k : kernel) (sc : urtwm_softc) (buf : List Nat)
    (len : Int) : Option (List mbuf × urtwm_softc) :=
  urtwm_rxeof_loop h k (len.toNat + 1) sc buf 0 len []

/-- Model of `urtwm_report_intr`; `len` is the transferred length reported by
`usbd_xfer_status` and `buf` the content of `data->buf`. -/
def urtwm_report_intr (h : urtwm_hdr) (k : kernel) (sc : urtwm_softc) (buf : List Nat)
    (len : Nat) : Option (List mbuf × urtwm_softc) :=
  if len < h.sizeof_rx_stat then some ([], { sc with ic_ierrors := sc.ic_ierrors + 1 })
  else urtwm_rxeof h k sc buf (len : Int)

/-- The label `tr_setup` of `urtwm_bulk_rx_callback`: arm the head of the inactive
queue and hand the frames of the chain `m` to net80211. -/
def rx_tr_setup (sc : urtwm_softc) (xfer : Nat) (m : List mbuf) : urtwm_softc :=
  match sc.sc_rx_inactive with
  | [] => sc
  | data :: rest =>
    let sc1 := { sc with sc_rx_inactive := rest, sc_rx_active := sc.sc_rx_active ++ [data] }
    let sc2 := call sc1 (kcall.usbd_xfer_set_frame_data xfer data.id none)
    let sc3 := call sc2 (kcall.usbd_transfer_submit xfer)
    m.foldl (fun s f => call s (kcall.ieee80211_input f)) sc3

/-- The switch of `urtwm_bulk_rx_callback`, up to the label `finish`. -/
def rx_callback_switch (h : urtwm_hdr) (k : kernel) (sc : urtwm_softc) (xfer : Nat)
    (st : usb_state) (error : Nat) (buf : List Nat) (len : Nat) : Option urtwm_softc :=
  match st with
  | usb_state.USB_ST_TRANSFERRED =>
    match sc.sc_rx_active with
    | [] => some (rx_tr_setup sc xfer [])
    | data :: rest =>
      match urtwm_report_intr h k { sc with sc_rx_active := rest } buf len with
      | none => none
      | some (m, sc1) =>
        some (rx_tr_setup { sc1 with sc_rx_inactive := sc1.sc_rx_inactive ++ [data] } xfer m)
  | usb_state.USB_ST_SETUP => some (rx_tr_setup sc xfer [])
  | usb_state.USB_ST_ERROR =>
    let sc1 :=
      match sc.sc_rx_active with
      | [] => sc
      | data :: rest =>
        { sc with sc_rx_active := rest, sc_rx_inactive := sc.sc_rx_inactive ++ [data] }
    if error ≠ USB_ERR_CANCELLED then
      let sc2 := call sc1 (kcall.usbd_xfer_set_stall xfer)
      some (rx_tr_setup { sc2 with ic_ierrors := sc2.ic_ierrors + 1 } xfer [])
    else some sc1

/-- Model of `urtwm_bulk_rx_callback`, entered in state `st` with error code `error`
after the hardware has put `len` bytes into the buffer `buf` of the active descriptor.
The post-processing of each frame by `urtwm_rx_frame` is not tracked: the trace
records the frame as `urtwm_rxeof` returned it. -/
def urtwm_bulk_rx_callback (h : urtwm_hdr) (k : kernel) (sc : urtwm_softc) (xfer : Nat)
    (st : usb_state) (error : Nat) (buf : List Nat) (len : Nat) : Option urtwm_softc :=
  (rx_callback_switch h k sc xfer st error buf len).map (urtwm_start h k)

/-- The label `tr_setup` of `urtwm_intr_rx_callback`. -/
def intr_tr_setup (sc : urtwm_softc) (xfer : Nat) : urtwm_softc :=
  call (call sc (kcall.usbd_xfer_set_frame_len xfer)) (kcall.usbd_transfer_submit xfer)

/-- Model of `urtwm_intr_rx_callback`. -/
def urtwm_intr_rx_callback (sc : urtwm_softc) (xfer : Nat) (st : usb_state)
    (error : Nat) : urtwm_softc :=
  match st with
  | usb_state.USB_ST_TRANSFERRED => intr_tr_setup (call sc (kcall.usbd_copy_out xfer)) xfer
  | usb_state.USB_ST_SETUP => intr_tr_setup sc xfer
  | usb_state.USB_ST_ERROR =>
    if error ≠ USB_ERR_CANCELLED then
      intr_tr_setup (call sc (kcall.usbd_xfer_set_stall xfer)) xfer
    else sc

/-! ## Command queue -/

/-- A slot after `memset(item, 0, sizeof(*item))`. -/
def cmdq_zero (h : urtwm_hdr) : urtwm_cmdq :=
  { data := List.replicate h.sizeof_sec_param 0, func := none }

/-- The slot `sc->cmdq[i]`. -/
def cmdq_at (h : urtwm_hdr) (sc : urtwm_softc) (i : Nat) : urtwm_cmdq :=
  sc.cmdq.getD i (cmdq_zero h)

/-- The effect of `memcpy(dst, src, len)` on the bytes of `dst`. -/
def memcpy (dst src : List Nat) (len : Nat) : List Nat :=
  src.take len ++ dst.drop len

/-- Model of `urtwm_cmd_sleepable`; `ptr = none` is the NULL pointer and `func = none`
the NULL handler. -/
def urtwm_cmd_sleepable (h : urtwm_hdr) (sc : urtwm_softc) (ptr : Option (List Nat))
    (len : Nat) (func : Option Nat) : Nat × urtwm_softc :=
  if (cmdq_at h sc sc.cmdq_last).func ≠ none then (EAGAIN, sc)
  else
    let slot := cmdq_at h sc sc.cmdq_last
    let data :=
      match ptr with
      | some p => memcpy slot.data p len
      | none => slot.data
    (0, call
          { sc with
              cmdq := sc.cmdq.set sc.cmdq_last { data := data, func := func }
              cmdq_last := (sc.cmdq_last + 1) % h.URTWM_CMDQ_SIZE }
          kcall.ieee80211_runtask)

/-- The loop of `urtwm_cmdq_cb`.  A handler invocation `item->func(sc, &item->data)` is
recorded in the trace with the bytes handed to it; the handlers of this driver
(`urtwm_key_set_cb`, `urtwm_key_del_cb`, `urtwm_update_slot_cb`) do not touch the
command queue.  The result is `none` when the fuel runs out before the loop ends. -/
def urtwm_cmdq_loop (h : urtwm_hdr) : Nat → urtwm_softc → Option urtwm_softc
  | fuel, sc =>
    match (cmdq_at h sc sc.cmdq_first).func with
    | none => some sc
    | some f =>
      match fuel with
      | 0 => none
      | fuel1 + 1 =>
        let item := sc.cmdq_first
        let sc1 := { sc with cmdq_first := (sc.cmdq_first + 1) % h.URTWM_CMDQ_SIZE }
        let sc2 := call sc1 (kcall.cmd_func f (cmdq_at h sc1 item).data)
        urtwm_cmdq_loop h fuel1 { sc2 with cmdq := sc2.cmdq.set item (cmdq_zero h) }

/-- Model of `urtwm_cmdq_cb`.  Every iteration of the loop clears one occupied slot, so
the number of slots is enough fuel. -/
def urtwm_cmdq_cb (h : urtwm_hdr) (sc : urtwm_softc) : Option urtwm_softc :=
  if sc.sc_flags &&& h.URTWM_RUNNING = 0 then some sc
  else urtwm_cmdq_loop h sc.cmdq.length sc

/-! ## TX descriptor checksum -/

/-- The 16-bit word `((uint16_t *)txd)[i]` as the host reads it; `be` is true on a
big-endian host. -/
def read16 (be : Bool) (txd : List Nat) (i : Nat) : Nat :=
  if be then 256 * txd.getD (2 * i) 0 + txd.getD (2 * i + 1) 0
  else txd.getD (2 * i) 0 + 256 * txd.getD (2 * i + 1) 0

/-- The bytes of the descriptor after the host stores the 16-bit value `v` at byte
offset `off`. -/
def write16 (be : Bool) (txd : List Nat) (off v : Nat) : List Nat :=
  if be then (txd.set off (v / 256)).set (off + 1) (v % 256)
  else (txd.set off (v % 256)).set (off + 1) (v / 256)

/-- The loop of `urtwm_tx_checksum`: `sum ^= ((uint16_t *)txd)[i]` for i below `n`,
in a `uint16_t`. -/
def tx_checksum_sum (be : Bool) (txd : List Nat) (n : Nat) : Nat :=
  (List.range n).foldl (fun sum i => (sum ^^^ read16 be txd i) % 65536) 0

/-- Model of `urtwm_tx_checksum` on the bytes of the TX descriptor. -/
def urtwm_tx_checksum (h : urtwm_hdr) (be : Bool) (txd : List Nat) : List Nat :=
  write16 be txd h.offsetof_txdsum (tx_checksum_sum be txd (32 / 2))

/-! ## Operation sequences and pool contents -/

/-- The operations that move TX descriptors between the three queues. -/
inductive tx_op where
  | start
  | raw_xmit (ni : Nat) (m : mbuf) (params : Option ieee80211_bpf_params)
  | tx_beacon (bcn_mbuf : mbuf)
  | bulk_tx_callback (xfer : Nat) (st : usb_state) (error : Nat)

/-- One operation applied to the softc. -/
def tx_step (h : urtwm_hdr) (k : kernel) (sc : urtwm_softc) : tx_op → urtwm_softc
  | tx_op.start => urtwm_start h k sc
  | tx_op.raw_xmit ni m params => (urtwm_raw_xmit h k sc ni m params).2
  | tx_op.tx_beacon bcn_mbuf => (urtwm_tx_beacon h sc bcn_mbuf).2
  | tx_op.bulk_tx_callback xfer st error => urtwm_bulk_tx_callback h k sc xfer st error

/-- A finite sequence of operations applied from left to right. -/
def tx_run (h : urtwm_hdr) (k : kernel) (sc : urtwm_softc) (ops : List tx_op) :
    urtwm_softc :=
  ops.foldl (tx_step h k) sc

/-- The indices of the descriptors of a queue, in queue order. -/
def ids (q : List urtwm_data) : List Nat :=
  q.map urtwm_data.id

/-- The indices of the TX descriptors held by the three TX queues, with multiplicity. -/
def tx_ids (sc : urtwm_softc) : Multiset Nat :=
  (ids sc.sc_tx_inactive : Multiset Nat) + (ids sc.sc_tx_active : Multiset Nat) +
    (ids sc.sc_tx_pending : Multiset Nat)

/-- The indices of the RX descriptors held by the two RX queues, with multiplicity. -/
def rx_ids (sc : urtwm_softc) : Multiset Nat :=
  (ids sc.sc_rx_inactive : Multiset Nat) + (ids sc.sc_rx_active : Multiset Nat)

/-! ## Sample values -/

/-- A set of header constants: four TX buffers, two RX buffers, four command slots
and the RX status layout of the RTL8188/8821 family (a 24-byte status descriptor
whose first word holds the packet length, the error flags and the info size). -/
def sample_hdr : urtwm_hdr :=
  { URTWM_TX_LIST_COUNT := 4
    URTWM_RX_LIST_COUNT := 2
    URTWM_CMDQ_SIZE := 4
    URTWM_RUNNING := 0x02
    sizeof_sec_param := 4
    sizeof_tx_desc := 40
    offsetof_txdsum := 28
    sizeof_rx_stat := 24
    R92C_RXDW0_PKTLEN_M := 0x00003fff
    R92C_RXDW0_PKTLEN_S := 0
    R92C_RXDW0_INFOSZ_M := 0x000f0000
    R92C_RXDW0_INFOSZ_S := 16
    R92C_RXDW0_CRCERR := 0x00004000
    R92C_RXDW0_ICVERR := 0x00008000
    URTWM_BULK_TX_BE := 1
    URTWM_BULK_TX_BK := 2
    URTWM_BULK_TX_VI := 3
    URTWM_BULK_TX_VO := 4 }

/-- A kernel in which every allocation succeeds and no frame is encapsulated. -/
def sample_kernel : kernel :=
  { m_get2 := fun _ _ => true
    ieee80211_crypto_encap := fun _ _ => none
    malloc := fun _ => true }

/-- A kernel in which every `m_get2` call fails. -/
def nomem_kernel : kernel :=
  { m_get2 := fun _ _ => false
    ieee80211_crypto_encap := fun _ _ => none
    malloc := fun _ => true }

/-- The softc as `device_attach` finds it: all fields zero, `cmdq[]` with
`n` zeroed slots of `p` parameter bytes. -/
def softc_zero (n p : Nat) : urtwm_softc :=
  { sc_flags := 0
    sc_tx_active := []
    sc_tx_inactive := []
    sc_tx_pending := []
    sc_tx_n_active := 0
    sc_rx_active := []
    sc_rx_inactive := []
    sc_snd := []
    cmdq := List.replicate n { data := List.replicate p 0, func := none }
    cmdq_first := 0
    cmdq_last := 0
    ic_ierrors := 0
    oerrors := 0
    n_m_get2 := 0
    trace := [] }

/-- An unprotected data frame for the node `ni`, tagged by its third byte. -/
def sample_frame (tag ni : Nat) : mbuf :=
  { m_data := [IEEE80211_FC0_TYPE_DATA, 0, tag], m_len := 3, rcvif := ni, wme_ac := 0 }

/-! ## Frame conditions and event sequences -/

/-- The two states agree on everything but the input-error counter and the number of
`m_get2` calls. -/
def counters_only (sc sc1 : urtwm_softc) : Prop :=
  sc1 = { sc with ic_ierrors := sc1.ic_ierrors, n_m_get2 := sc1.n_m_get2 }

/-- Calls other than `usbd_xfer_set_stall` and `usbd_transfer_submit`. -/
def quiet : kcall → Bool
  | kcall.usbd_xfer_set_stall _ => false
  | kcall.usbd_transfer_submit _ => false
  | _ => true

/-- The step from `sc` to `sc1` leaves the RX queues alone and appends to the trace only
calls that neither stall nor submit a transfer. -/
def tx_side (sc sc1 : urtwm_softc) : Prop :=
  sc1.sc_rx_active = sc.sc_rx_active ∧ sc1.sc_rx_inactive = sc.sc_rx_inactive ∧
    ∃ t, sc1.trace = sc.trace ++ t ∧ ∀ c ∈ t, quiet c = true

/-- One invocation of `urtwm_bulk_rx_callback`: the transfer, its state and error
code, and the bytes and length the hardware delivered. -/
structure rx_event where
  xfer : Nat
  st : usb_state
  error : Nat
  buf : List Nat
  len : Nat

/-- A finite sequence of `urtwm_bulk_rx_callback` invocations. -/
def rx_run (h : urtwm_hdr) (k : kernel) : urtwm_softc → List rx_event → Option urtwm_softc
  | sc, [] => some sc
  | sc, e :: es =>
    match urtwm_bulk_rx_callback h k sc e.xfer e.st e.error e.buf e.len with
    | none => none
    | some sc1 => rx_run h k sc1 es

/-! ## Command sequences -/

/-- One submission to `urtwm_cmd_sleepable` with a non-NULL handler `func`. -/
structure cmd_req where
  ptr : Option (List Nat)
  len : Nat
  func : Nat

/-- The slot written by a submission, given the parameter bytes `old` the slot held. -/
def cmd_slot (old : List Nat) (r : cmd_req) : urtwm_cmdq :=
  { data :=
      match r.ptr with
      | some p => memcpy old p r.len
      | none => old
    func := some r.func }

/-- Consecutive calls of `urtwm_cmd_sleepable`, with no drain in between: the return
values and the final state. -/
def cmd_submit_all (h : urtwm_hdr) : urtwm_softc → List cmd_req → List Nat × urtwm_softc
  | sc, [] => ([], sc)
  | sc, r :: rs =>
    ((urtwm_cmd_sleepable h sc r.ptr r.len (some r.func)).1 ::
        (cmd_submit_all h (urtwm_cmd_sleepable h sc r.ptr r.len (some r.func)).2 rs).1,
      (cmd_submit_all h (urtwm_cmd_sleepable h sc r.ptr r.len (some r.func)).2 rs).2)

/-- The commands (handler, parameter bytes) queued by the submissions `rs`, the i-th of
which went into slot `(l + i) % URTWM_CMDQ_SIZE` of the queue of `sc`. -/
def cmd_queued (h : urtwm_hdr) (sc : urtwm_softc) (l : Nat) :
    Nat → List cmd_req → List (Nat × List Nat)
  | _, [] => []
  | i, r :: rs =>
    (r.func, (cmd_slot (cmdq_at h sc ((l + i) % h.URTWM_CMDQ_SIZE)).data r).data) ::
      cmd_queued h sc l (i + 1) rs

/-- The handler invocations `item->func(sc, &item->data)` for a list of commands. -/
def cmd_calls (cmds : List (Nat × List Nat)) : List kcall :=
  cmds.map (fun c => kcall.cmd_func c.1 c.2)

/-- The queue of `sc` holds exactly the commands `cmds` (handler and parameter bytes),
in consecutive slots starting at `cmdq_first`, and every other slot is free. -/
def holds_cmds (h : urtwm_hdr) (sc : urtwm_softc) (cmds : List (Nat × List Nat)) : Prop :=
  sc.cmdq.length = h.URTWM_CMDQ_SIZE ∧ sc.cmdq_first < h.URTWM_CMDQ_SIZE ∧
    cmds.length ≤ h.URTWM_CMDQ_SIZE ∧
    (∀ i c, cmds[i]? = some c →
      cmdq_at h sc ((sc.cmdq_first + i) % h.URTWM_CMDQ_SIZE) = { data := c.2, func := some c.1 }) ∧
    (∀ j, (∀ i, i < cmds.length → j ≠ (sc.cmdq_first + i) % h.URTWM_CMDQ_SIZE) →
      (cmdq_at h sc j).func = none)

/-- Four submissions: two with parameter bytes, one with a NULL parameter pointer and
one that copies a single byte. -/
def sample_reqs : List cmd_req :=
  [{ ptr := some [1, 2, 3, 4], len := 4, func := 11 },
    { ptr := some [5, 6, 7, 8], len := 4, func := 12 },
    { ptr := none, len := 0, func := 13 },
    { ptr := some [9, 9], len := 1, func := 11 }]

/-- The XOR of `f 0`, ..., `f (n - 1)`. -/
def xor_fold (f : Nat → Nat) (n : Nat) : Nat :=
  (List.range n).foldl (fun s i => s ^^^ f i) 0

/-- The 16-bit value the host reads at byte offset `off` of the descriptor. -/
def read16_at (be : Bool) (txd : List Nat) (off : Nat) : Nat :=
  if be then 256 * txd.getD off 0 + txd.getD (off + 1) 0
  else txd.getD off 0 + 256 * txd.getD (off + 1) 0

/-- A 40-byte TX descriptor with a stale value in the `txdsum` field (bytes 28, 29). -/
def sample_txd : List Nat :=
  [0x2a, 0x00, 0x28, 0x8c, 0x00, 0x12, 0x00, 0x00, 0x00, 0x00, 0x01, 0x00,
    0x00, 0x01, 0x00, 0x00, 0x0b, 0x1f, 0x00, 0x00, 0x00, 0x00, 0x00, 0x00,
    0x00, 0x00, 0x00, 0x00, 0xaa, 0x55, 0x00, 0x00, 0x00, 0x80, 0x00, 0x00,
    0x00, 0x00, 0x00, 0x00]

/-! ## Records of a receive buffer -/

/-- The declared packet length of the record whose status descriptor starts at `off`. -/
def rec_pktlen (h : urtwm_hdr) (buf : List Nat) (off : Nat) : Nat :=
  MS (le32_at buf off) h.R92C_RXDW0_PKTLEN_M h.R92C_RXDW0_PKTLEN_S

/-- The info size, in bytes, of the record at `off`. -/
def rec_infosz (h : urtwm_hdr) (buf : List Nat) (off : Nat) : Nat :=
  MS (le32_at buf off) h.R92C_RXDW0_INFOSZ_M h.R92C_RXDW0_INFOSZ_S * 8

/-- The total length of the record at `off`: status descriptor, info block, packet. -/
def rec_totlen (h : urtwm_hdr) (buf : List Nat) (off : Nat) : Nat :=
  h.sizeof_rx_stat + rec_infosz h buf off + rec_pktlen h buf off

/-- The record at `off` is well formed: neither the CRC nor the ICV error flag is set
and the declared packet length is at least `sizeof(struct ieee80211_frame_ack)`. -/
def rec_ok (h : urtwm_hdr) (buf : List Nat) (off : Nat) : Bool :=
  le32_at buf off &&& (h.R92C_RXDW0_CRCERR ||| h.R92C_RXDW0_ICVERR) = 0 ∧
    sizeof_ieee80211_frame_ack ≤ rec_pktlen h buf off

/-- The distance from the record at `off` to the next one when `len` bytes remain: the
total length, rounded up to a multiple of 8 unless the record ends the buffer. -/
def rec_adv (h : urtwm_hdr) (buf : List Nat) (off len : Nat) : Nat :=
  if rec_totlen h buf off < len then roundup2_8 (rec_totlen h buf off)
  else rec_totlen h buf off

/-- The `len` bytes of `buf` from offset `off` on hold exactly the records that start at
the offsets `offs`: each record has a non-zero packet length and lies inside the
remaining bytes, the next one starts `rec_adv` bytes later, and what follows the last
record is not a complete record (fewer bytes than a status descriptor, a zero packet
length, or a total length that exceeds the remaining bytes). -/
def rx_holds (h : urtwm_hdr) (buf : List Nat) : Nat → Nat → List Nat → Bool
  | off, len, [] =>
    decide (len < h.sizeof_rx_stat ∨ rec_pktlen h buf off = 0 ∨ len < rec_totlen h buf off)
  | off, len, o :: os =>
    decide (o = off ∧ rec_pktlen h buf off ≠ 0 ∧ rec_totlen h buf off ≤ len) &&
      ((decide (rec_adv h buf off len ≤ len) &&
          rx_holds h buf (off + rec_adv h buf off len) (len - rec_adv h buf off len) os) ||
        decide (len < rec_adv h buf off len ∧ os = []))

/-- The frames expected for the records at `offs`: one per well-formed record, in order. -/
def rx_frames (h : urtwm_hdr) (buf : List Nat) (offs : List Nat) : List mbuf :=
  offs.filterMap (fun o => if rec_ok h buf o then some (rx_mbuf buf o (rec_totlen h buf o)) else none)

/-- The number of well-formed records among those at `offs`. -/
def rx_good (h : urtwm_hdr) (buf : List Nat) (offs : List Nat) : Nat :=
  (offs.filter (fun o => rec_ok h buf o)).length

/-- The number of malformed records among those at `offs`. -/
def rx_bad (h : urtwm_hdr) (buf : List Nat) (offs : List Nat) : Nat :=
  (offs.filter (fun o => !rec_ok h buf o)).length

/-- A record for the sample layout: the status word `rxdw0`, the rest of the 24-byte
status descriptor, and `n` further bytes of value `b`. -/
def sample_rec (rxdw0 n b : Nat) : List Nat :=
  [rxdw0 % 256, rxdw0 / 256 % 256, rxdw0 / 65536 % 256, rxdw0 / 16777216 % 256] ++
    List.replicate 20 0 ++ List.replicate n b

/-- Two well-formed records: 12 packet bytes (36 bytes, padded to 40) and 10 packet
bytes (34 bytes). -/
def sample_rxbuf : List Nat :=
  sample_rec 12 12 0xaa ++ List.replicate 4 0 ++ sample_rec 10 10 0xbb

/-- A record with the CRC error flag between two well-formed records. -/
def sample_rxbuf_crc : List Nat :=
  sample_rec 12 12 0xaa ++ List.replicate 4 0 ++ sample_rec (0x4000 + 16) 16 0xcc ++
    sample_rec 10 10 0xbb

/-- A record with a zero packet length followed by a well-formed record. -/
def sample_rxbuf_zero : List Nat :=
  sample_rec 0 0 0 ++ sample_rec 10 10 0xbb

/-- The zeroed softc with the RUNNING flag set. -/
def sample_running : urtwm_softc :=
  { softc_zero 4 4 with sc_flags := 2 }

/-! ## Frames that encode successfully -/

/-- The frame handed to `urtwm_tx_start` by `urtwm_tx_data`: the frame itself, or what
`ieee80211_crypto_encap` made of it when the protected bit is set. -/
def tx_sent (k : kernel) (m : mbuf) : mbuf :=
  if m.m_data.getD 1 0 &&& IEEE80211_FC1_PROTECTED ≠ 0 then
    match k.ieee80211_crypto_encap m.rcvif m with
    | some (_, m1) => m1
    | none => m
  else m

/-- The frame encodes successfully: `urtwm_tx_data` returns 0 for it (see
`tx_data_ok_iff`). -/
def tx_encodable (k : kernel) (m : mbuf) : Bool :=
  if m.m_data.getD 1 0 &&& IEEE80211_FC1_PROTECTED ≠ 0 then
    match k.ieee80211_crypto_encap m.rcvif m with
    | some (key, _) => key.wk_flags &&& IEEE80211_KEY_SWCRYPT ≠ 0 || known_cipher key
    | none => false
  else true

/-- The descriptor `bf` as `urtwm_tx_data` and `urtwm_tx_start` leave it for the frame
`m`: node and frame recorded, transfer length set. -/
def tx_filled (h : urtwm_hdr) (k : kernel) (m : mbuf) (bf : urtwm_data) : urtwm_data :=
  { id := bf.id, ni := some m.rcvif, m := some (tx_sent k m),
    buflen := h.sizeof_tx_desc + (tx_sent k m).m_len }

/-- Five frames for the send queue. -/
def sample_snd : List mbuf :=
  [sample_frame 1 7, sample_frame 2 7, sample_frame 3 7, sample_frame 4 7, sample_frame 5 7]

/-! ## Calls issued by one callback -/

/-- The calls appended to the trace on the way from `sc` to `sc1`. -/
def new_calls (sc sc1 : urtwm_softc) : List kcall :=
  sc1.trace.drop sc.trace.length

/-- A TX descriptor that carries a frame of 3 bytes for node 7. -/
def sample_txdata (i : Nat) : urtwm_data :=
  { id := i, ni := some 7, m := some (sample_frame i 7), buflen := 43 }

/-- A running device with one TX buffer in flight and one pending. -/
def sample_tx_busy : urtwm_softc :=
  { sample_running with sc_tx_active := [sample_txdata 0], sc_tx_pending := [sample_txdata 1] }

/-- A running device with one TX buffer in flight and nothing pending. -/
def sample_tx_last : urtwm_softc :=
  { sample_running with sc_tx_active := [sample_txdata 0] }

/-- A running device with no TX buffer in flight and one pending. -/
def sample_tx_idle : urtwm_softc :=
  { sample_running with sc_tx_pending := [sample_txdata 1] }

/-! ## Transmit power: channel groups -/

/-- A `struct ieee80211_channel`, reduced to the fields the driver reads. -/
structure ieee80211_channel where
  ic_flags : Nat
  ic_ieee : Nat
  deriving DecidableEq, Repr

def IEEE80211_CHAN_2GHZ : Nat := 0x00000080
def IEEE80211_CHAN_5GHZ : Nat := 0x00000100
def IEEE80211_CHAN_HT20 : Nat := 0x00010000
def IEEE80211_CHAN_HT40U : Nat := 0x00020000
def IEEE80211_CHAN_HT40D : Nat := 0x00040000
def IEEE80211_CHAN_HT40 : Nat := IEEE80211_CHAN_HT40U ||| IEEE80211_CHAN_HT40D

def IEEE80211_IS_CHAN_2GHZ (c : ieee80211_channel) : Bool :=
  c.ic_flags &&& IEEE80211_CHAN_2GHZ ≠ 0

def IEEE80211_IS_CHAN_5GHZ (c : ieee80211_channel) : Bool :=
  c.ic_flags &&& IEEE80211_CHAN_5GHZ ≠ 0

def IEEE80211_IS_CHAN_HT20 (c : ieee80211_channel) : Bool :=
  c.ic_flags &&& IEEE80211_CHAN_HT20 ≠ 0

def IEEE80211_IS_CHAN_HT40 (c : ieee80211_channel) : Bool :=
  c.ic_flags &&& IEEE80211_CHAN_HT40 ≠ 0

/-- The table `urtwm_chan_2ghz[]`. -/
def urtwm_chan_2ghz : List Nat :=
  [1, 2, 3, 4, 5, 6, 7, 8, 9, 10, 11, 12, 13, 14]

/-- The table `urtwm_chan_5ghz[]`. -/
def urtwm_chan_5ghz : List Nat :=
  [36, 38, 40, 42, 44, 46, 48, 50, 52, 54, 56, 58, 60, 62, 64,
   100, 102, 104, 106, 108, 110, 112, 114, 116, 118, 120, 122, 124,
   126, 128, 130, 132, 134, 136, 138, 140, 142, 144,
   149, 151, 153, 155, 157, 159, 161, 163, 165, 167, 168, 169, 171,
   173, 175, 177]

/-- Model of `urtwm_get_power_group`.  The channel number is held in a `uint8_t`; the
`KASSERT(0, ...)` branches return `-1`. -/
def urtwm_get_power_group (c : ieee80211_channel) : Int :=
  let chan := c.ic_ieee % 256
  if IEEE80211_IS_CHAN_2GHZ c then
    if chan ≤ 2 then 0
    else if chan ≤ 5 then 1
    else if chan ≤ 8 then 2
    else if chan ≤ 11 then 3
    else if chan ≤ 14 then 4
    else -1
  else if IEEE80211_IS_CHAN_5GHZ c then
    if chan ≥ 36 ∧ chan ≤ 42 then 0
    else if chan ≤ 48 then 1
    else if chan ≤ 58 then 2
    else if chan ≤ 64 then 3
    else if chan ≤ 106 then 4
    else if chan ≤ 114 then 5
    else if chan ≤ 122 then 6
    else if chan ≤ 130 then 7
    else if chan ≤ 138 then 8
    else if chan ≤ 144 then 9
    else if chan ≤ 155 then 10
    else if chan ≤ 161 then 11
    else if chan ≤ 171 then 12
    else if chan ≤ 177 then 13
    else -1
  else -1

/-- A channel of the 2.4 GHz band as net80211 hands it to the driver: the band bit is
set; the remaining flag bits are free. -/
def chan_2ghz (ieee flags : Nat) : ieee80211_channel :=
  { ic_flags := flags ||| IEEE80211_CHAN_2GHZ, ic_ieee := ieee }

/-- A channel of the 5 GHz band: the 5 GHz bit is set; the remaining flag bits, the
2.4 GHz bit apart, are free. -/
def chan_5ghz (ieee flags : Nat) : ieee80211_channel :=
  { ic_flags := (flags &&& (0xffffffff ^^^ IEEE80211_CHAN_2GHZ)) ||| IEEE80211_CHAN_5GHZ,
    ic_ieee := ieee }

/-- A 40-byte TX descriptor as `urtwm_tx_data` leaves it before the checksum is computed:
the `txdsum` field (bytes 28, 29) is still zero from the `memset`. -/
def sample_txd_fresh : List Nat :=
  [0x2a, 0x00, 0x28, 0x8c, 0x00, 0x12, 0x00, 0x00, 0x00, 0x00, 0x01, 0x00,
    0x00, 0x01, 0x00, 0x00, 0x0b, 0x1f, 0x00, 0x00, 0x00, 0x00, 0x00, 0x00,
    0x00, 0x00, 0x00, 0x00, 0x00, 0x00, 0x00, 0x00, 0x00, 0x80, 0x00, 0x00,
    0x00, 0x00, 0x00, 0x00]

/-! ## Frames with an unknown hardware cipher -/

/-- The key `ieee80211_crypto_encap` returns for the frame is handled by the hardware
(`IEEE80211_KEY_SWCRYPT` clear) and its cipher is none of WEP, TKIP and AES-CCM. -/
def unknown_cipher (k : kernel) (ni : Nat) (m : mbuf) : Bool :=
  match k.ieee80211_crypto_encap ni m with
  | some (key, _) => key.wk_flags &&& IEEE80211_KEY_SWCRYPT = 0 && !known_cipher key
  | none => false

/-- A kernel whose `ieee80211_crypto_encap` returns a hardware key of cipher number 6
for every frame. -/
def cipher6_kernel : kernel :=
  { m_get2 := fun _ _ => true
    ieee80211_crypto_encap := fun _ m => some ({ wk_flags := 0, ic_cipher := 6 }, m)
    malloc := fun _ => true }

/-- A protected data frame for the node `ni`. -/
def sample_protected (tag ni : Nat) : mbuf :=
  { m_data := [IEEE80211_FC0_TYPE_DATA, IEEE80211_FC1_PROTECTED, tag], m_len := 3,
    rcvif := ni, wme_ac := 0 }

/-- A running softc with two idle descriptors, one pending and one in flight, and the
protected frame first in the send queue. -/
def sample_tx_mixed : urtwm_softc :=
  { sample_running with
      sc_tx_inactive := [sample_txdata 2, sample_txdata 3]
      sc_tx_pending := [sample_txdata 1]
      sc_tx_active := [sample_txdata 0]
      sc_snd := [sample_protected 1 7, sample_frame 2 7] }

/-! ## Register access over the control pipe -/

def EIO : Nat := 5
def ETIMEDOUT : Nat := 60

/-- The USB stack below the driver, seen from `urtwm_do_request`: the `usb_error_t` the
n-th call of `usbd_do_request_flags` returns (0 is `USB_ERR_NORMAL_COMPLETION`) and,
for a read request, the bytes it delivers, taken as a little-endian number. -/
structure usb_stack where
  req_error : Nat → Nat
  req_data : Nat → Nat

/-- One register access made through `urtwm_write_region_1` or `urtwm_read_region_1`:
address, length in bytes, the value (little-endian) and the `usb_error_t` returned by
`urtwm_do_request`. -/
inductive reg_op where
  | write (addr len val err : Nat)
  | read (addr len val err : Nat)
  deriving DecidableEq, Repr

/-- The state of the control pipe: the number of `usbd_do_request_flags` calls made so
far and the register accesses made so far, oldest first. -/
structure ctl_state where
  n_req : Nat
  ops : List reg_op
  deriving DecidableEq, Repr

/-- The loop `while (ntries--)` of `urtwm_do_request`: `n` counts the calls of
`usbd_do_request_flags` made so far, the result is the value of `err` after the loop
and the new count. -/
def urtwm_do_request_loop (u : usb_stack) : Nat → Nat → Nat → Nat × Nat
  | 0, n, err => (err, n)
  | ntries + 1, n, _ =>
    let err := u.req_error n
    if err = 0 then (err, n + 1)
    else urtwm_do_request_loop u ntries (n + 1) err

/-- Model of `urtwm_do_request`.  `err` is not initialised in the source; it is assigned
in the first of the ten iterations. -/
def urtwm_do_request (u : usb_stack) (n : Nat) : Nat × Nat :=
  urtwm_do_request_loop u 10 n 0

/-- Model of `urtwm_write_region_1`; `addr` is a `uint16_t`. -/
def urtwm_write_region_1 (u : usb_stack) (s : ctl_state) (addr val len : Nat) :
    Nat × ctl_state :=
  let r := urtwm_do_request u s.n_req
  (r.1, { n_req := r.2, ops := s.ops ++ [reg_op.write (addr % 65536) len val r.1] })

def urtwm_write_1 (u : usb_stack) (s : ctl_state) (addr val : Nat) : Nat × ctl_state :=
  urtwm_write_region_1 u s addr (val % 2 ^ 8) 1

def urtwm_write_2 (u : usb_stack) (s : ctl_state) (addr val : Nat) : Nat × ctl_state :=
  urtwm_write_region_1 u s addr (val % 2 ^ 16) 2

def urtwm_write_4 (u : usb_stack) (s : ctl_state) (addr val : Nat) : Nat × ctl_state :=
  urtwm_write_region_1 u s addr (val % 2 ^ 32) 4

/-- Model of `urtwm_read_region_1`: the error, the bytes read and the new state. -/
def urtwm_read_region_1 (u : usb_stack) (s : ctl_state) (addr len : Nat) :
    Nat × Nat × ctl_state :=
  let r := urtwm_do_request u s.n_req
  let val := u.req_data (r.2 - 1) % 2 ^ (8 * len)
  (r.1, val, { n_req := r.2, ops := s.ops ++ [reg_op.read (addr % 65536) len val r.1] })

def urtwm_read_1 (u : usb_stack) (s : ctl_state) (addr : Nat) : Nat × ctl_state :=
  let r := urtwm_read_region_1 u s addr 1
  (if r.1 ≠ 0 then 0xff else r.2.1, r.2.2)

def urtwm_read_2 (u : usb_stack) (s : ctl_state) (addr : Nat) : Nat × ctl_state :=
  let r := urtwm_read_region_1 u s addr 2
  (if r.1 ≠ 0 then 0xffff else r.2.1, r.2.2)

def urtwm_read_4 (u : usb_stack) (s : ctl_state) (addr : Nat) : Nat × ctl_state :=
  let r := urtwm_read_region_1 u s addr 4
  (if r.1 ≠ 0 then 0xffffffff else r.2.1, r.2.2)

/-- Model of `urtwm_setbits_1`; `clr` and `set` are `uint8_t`. -/
def urtwm_setbits_1 (u : usb_stack) (s : ctl_state) (addr clr set : Nat) : Nat × ctl_state :=
  let r := urtwm_read_1 u s addr
  urtwm_write_1 u r.2 addr ((r.1 &&& (0xff ^^^ (clr % 2 ^ 8))) ||| (set % 2 ^ 8))

/-- Model of `urtwm_setbits_1_shift`; `clr` and `set` are `uint32_t`, `NBBY` is 8. -/
def urtwm_setbits_1_shift (u : usb_stack) (s : ctl_state) (addr clr set shift : Nat) :
    Nat × ctl_state :=
  urtwm_setbits_1 u s (addr + shift) ((clr % 2 ^ 32) >>> (shift * 8))
    ((set % 2 ^ 32) >>> (shift * 8))

def urtwm_setbits_2 (u : usb_stack) (s : ctl_state) (addr clr set : Nat) : Nat × ctl_state :=
  let r := urtwm_read_2 u s addr
  urtwm_write_2 u r.2 addr ((r.1 &&& (0xffff ^^^ (clr % 2 ^ 16))) ||| (set % 2 ^ 16))

def urtwm_setbits_4 (u : usb_stack) (s : ctl_state) (addr clr set : Nat) : Nat × ctl_state :=
  let r := urtwm_read_4 u s addr
  urtwm_write_4 u r.2 addr ((r.1 &&& (0xffffffff ^^^ (clr % 2 ^ 32))) ||| (set % 2 ^ 32))

/-- A stack in which the first `k` calls of `usbd_do_request_flags` fail with
`USB_ERR_TIMEOUT` (18) and every later call succeeds. -/
def flaky_stack (k : Nat) : usb_stack :=
  { req_error := fun n => if n < k then 18 else 0
    req_data := fun _ => 0 }

/-! ## Transmit power: per-rate values -/

/-- The rate-index constants and macros of `if_urtwmreg.h` that `urtwm_get_txpower`
uses, and the limit `R92C_MAX_TX_PWR`. -/
structure urtwm_rates where
  URTWM_RIDX_CCK1 : Int
  URTWM_RIDX_CCK11 : Int
  URTWM_RIDX_OFDM6 : Int
  /-- The macro `URTWM_RIDX_MCS(i)`. -/
  URTWM_RIDX_MCS : Int → Int
  /-- The macro `URTWM_RATE_IS_OFDM(ridx)`. -/
  URTWM_RATE_IS_OFDM : Int → Bool
  R92C_MAX_TX_PWR : Nat

/-- The calibration tables of the softc that `urtwm_parse_rom` fills, indexed
`[chain][group]` or `[chain][i]`; an entry is the byte stored in the table. -/
structure urtwm_txpwr where
  ntxchains : Int
  cck_tx_pwr : Int → Int → Nat
  ht40_tx_pwr_2g : Int → Int → Nat
  ht40_tx_pwr_5g : Int → Int → Nat
  ofdm_tx_pwr_diff_2g : Int → Int → Nat
  bw20_tx_pwr_diff_2g : Int → Int → Nat
  bw40_tx_pwr_diff_2g : Int → Int → Nat
  bw20_tx_pwr_diff_5g : Int → Int → Nat
  bw40_tx_pwr_diff_5g : Int → Int → Nat

/-- The entry `power[ridx]` of the array `uint16_t power[URTWM_RIDX_COUNT]`, held as
the list of its entries; an index outside the array reads 0. -/
def power_get (power : List Nat) (ridx : Int) : Nat :=
  if 0 ≤ ridx then power.getD ridx.toNat 0 else 0

/-- The array after `power[ridx] = v`; a store outside the array is dropped. -/
def power_set (power : List Nat) (ridx : Int) (v : Nat) : List Nat :=
  if 0 ≤ ridx then power.set ridx.toNat v else power

/-- The loop `for (ridx = lo; ridx <= hi; ridx++) power[ridx] = f(power[ridx]);`. -/
def for_ridx (lo hi : Int) (f : Nat → Nat) (power : List Nat) : List Nat :=
  (List.range (hi + 1 - lo).toNat).foldl
    (fun p (i : Nat) => power_set p (lo + (i : Int)) (f (power_get p (lo + (i : Int))))) power

/-- The loop over `i < sc->ntxchains` of `urtwm_get_txpower` that adds the bandwidth
correction: `pwr_diff` and `min_mcs` are `uint8_t`, the entries of `power[]` are
`uint16_t`.  On a channel that is neither HT20 nor HT40 `pwr_diff` is not assigned; its
indeterminate value in iteration `i` is `junk i`. -/
def txpower_bw (rt : urtwm_rates) (sc : urtwm_txpwr) (junk : Int → Nat) (chain : Int)
    (c : ieee80211_channel) (bw20 bw40 : Int → Int → Nat) (max_mcs : Int)
    (power : List Nat) : List Nat :=
  (List.range sc.ntxchains.toNat).foldl
    (fun p (i : Nat) =>
      let pwr_diff :=
        (if IEEE80211_IS_CHAN_HT20 c then bw20 chain (i : Int)
         else if IEEE80211_IS_CHAN_HT40 c then bw40 chain (i : Int)
         else junk (i : Int)) % 256
      let min_mcs := rt.URTWM_RIDX_MCS ((i : Int) * 8 + 7) % 256
      for_ridx min_mcs max_mcs (fun v => (v + pwr_diff) % 65536) p)
    power

/-- The body of `urtwm_get_txpower` for a valid group, up to the comment
"Apply max limit". -/
def txpower_unclamped (rt : urtwm_rates) (sc : urtwm_txpwr) (junk : Int → Nat) (chain : Int)
    (c : ieee80211_channel) (group : Int) (power : List Nat) : List Nat :=
  let max_mcs := rt.URTWM_RIDX_MCS (sc.ntxchains * 8 - 1)
  if IEEE80211_IS_CHAN_2GHZ c then
    let p1 := for_ridx rt.URTWM_RIDX_CCK1 rt.URTWM_RIDX_CCK11
      (fun _ => sc.cck_tx_pwr chain group % 256) power
    let p2 := for_ridx rt.URTWM_RIDX_OFDM6 max_mcs
      (fun _ => sc.ht40_tx_pwr_2g chain group % 256) p1
    let ridx := max rt.URTWM_RIDX_OFDM6 (max_mcs + 1)
    let p3 :=
      if rt.URTWM_RATE_IS_OFDM ridx then
        let pwr_diff := sc.ofdm_tx_pwr_diff_2g chain 0 % 256
        for_ridx rt.URTWM_RIDX_CCK1 max_mcs (fun v => (v + pwr_diff) % 65536) p2
      else p2
    txpower_bw rt sc junk chain c sc.bw20_tx_pwr_diff_2g sc.bw40_tx_pwr_diff_2g max_mcs p3
  else
    let p1 := for_ridx rt.URTWM_RIDX_OFDM6 max_mcs
      (fun _ => sc.ht40_tx_pwr_5g chain group % 256) power
    txpower_bw rt sc junk chain c sc.bw20_tx_pwr_diff_5g sc.bw40_tx_pwr_diff_5g max_mcs p1

/-- Model of `urtwm_get_txpower`; `power` is the array on entry, the result the array
on return. -/
def urtwm_get_txpower (rt : urtwm_rates) (sc : urtwm_txpwr) (junk : Int → Nat) (chain : Int)
    (c : ieee80211_channel) (power : List Nat) : List Nat :=
  let group := urtwm_get_power_group c
  if group = -1 then power
  else
    let max_mcs := rt.URTWM_RIDX_MCS (sc.ntxchains * 8 - 1)
    for_ridx rt.URTWM_RIDX_CCK1 max_mcs
      (fun v => if v > rt.R92C_MAX_TX_PWR then rt.R92C_MAX_TX_PWR else v)
      (txpower_unclamped rt sc junk chain c group power)

/-- The array `power[]` after the `memset` of `urtwm_set_txpower`, `n` being
`URTWM_RIDX_COUNT`. -/
def power_zero (n : Nat) : List Nat := List.replicate n 0

/-- Rate indices CCK1..CCK11 = 0..3, OFDM6..OFDM54 = 4..11, MCS(i) = 12 + i, and the
limit 0x3f. -/
def sample_rates : urtwm_rates :=
  { URTWM_RIDX_CCK1 := 0
    URTWM_RIDX_CCK11 := 3
    URTWM_RIDX_OFDM6 := 4
    URTWM_RIDX_MCS := fun i => 12 + i
    URTWM_RATE_IS_OFDM := fun r => decide (4 ≤ r ∧ r ≤ 11)
    R92C_MAX_TX_PWR := 0x3f }

/-- One transmit chain; every base power is `b`, the OFDM difference is 0 and every
bandwidth difference is the table entry `d`. -/
def sample_txpwr (b d : Nat) : urtwm_txpwr :=
  { ntxchains := 1
    cck_tx_pwr := fun _ _ => b
    ht40_tx_pwr_2g := fun _ _ => b
    ht40_tx_pwr_5g := fun _ _ => b
    ofdm_tx_pwr_diff_2g := fun _ _ => 0
    bw20_tx_pwr_diff_2g := fun _ _ => d
    bw40_tx_pwr_diff_2g := fun _ _ => d
    bw20_tx_pwr_diff_5g := fun _ _ => d
    bw40_tx_pwr_diff_5g := fun _ _ => d }

/-! ## Register sequences -/

/-- The value of a constant of `if_urtwmreg.h` or `if_urtwmvar.h` (a register address,
a bit mask, a field shift, a table size), looked up by its name in the source. -/
abbrev urtwm_consts := String → Nat

/-- The macro `SM(field, val)` with the mask and the shift of the field. -/
def SM (mask shift val : Nat) : Nat :=
  (val <<< shift) &&& mask

/-- The value `urtwm_read_1`, `urtwm_read_2` or `urtwm_read_4` hands to its caller for
a logged read: all ones when the request failed. -/
def reg_op.value : reg_op → Nat
  | reg_op.read _ len val err => if err ≠ 0 then 2 ^ (8 * len) - 1 else val
  | reg_op.write _ _ val _ => val

/-- The addresses of the register writes of a log, oldest first. -/
def write_addrs (ops : List reg_op) : List Nat :=
  ops.filterMap (fun op =>
    match op with
    | reg_op.write addr _ _ _ => some addr
    | reg_op.read _ _ _ _ => none)

/-- One statement of a register sequence. -/
inductive seq_step where
  /-- The statement `URTWM_CHK(a)`: `return ( EIO)` unless `a` is
  `USB_ERR_NORMAL_COMPLETION`. -/
  | chk (a : ctl_state → Nat × ctl_state)
  /-- The statements `error = a; if (error != 0) return (error);`. -/
  | ret (a : ctl_state → Nat × ctl_state)
  /-- A call whose result is discarded. -/
  | ign (a : ctl_state → Nat × ctl_state)
  /-- The loop `for (ntries = 0; ntries < n; ntries++) { if (done(rd)) break; delay; }`
  followed by `if (ntries == n) return (err);`. -/
  | poll (n : Nat) (rd : ctl_state → Nat × ctl_state) (done : Nat → Bool) (err : Nat)

/-- The polling loop: true when some read satisfied `done` within `n` tries. -/
def poll_loop (rd : ctl_state → Nat × ctl_state) (done : Nat → Bool) :
    Nat → ctl_state → Bool × ctl_state
  | 0, s => (false, s)
  | n + 1, s =>
    let r := rd s
    if done r.1 then (true, r.2) else poll_loop rd done n r.2

/-- Run the statements in order; `some e` when a `return (e)` was executed, `none` when
control reached the end of the sequence. -/
def run_steps : List seq_step → ctl_state → Option Nat × ctl_state
  | [], s => (none, s)
  | seq_step.chk a :: rest, s =>
    let r := a s
    if r.1 ≠ 0 then (some EIO, r.2) else run_steps rest r.2
  | seq_step.ret a :: rest, s =>
    let r := a s
    if r.1 ≠ 0 then (some r.1, r.2) else run_steps rest r.2
  | seq_step.ign a :: rest, s => run_steps rest (a s).2
  | seq_step.poll n rd done err :: rest, s =>
    let r := poll_loop rd done n s
    if r.1 then run_steps rest r.2 else (some err, r.2)

/-! ## Power off -/

/-- The statements of `urtwm_power_off`.  The function returns nothing: both `return;`
statements are given the value 0.  The calls of `urtwm_delay` are left out. -/
def urtwm_power_off_steps (k : urtwm_consts) (u : usb_stack) : List seq_step :=
  [ seq_step.ign (fun s => urtwm_setbits_1 u s (k "R88E_TX_RPT_CTRL")
      (k "R88E_TX_RPT1_ENA" ||| k "R88E_TX_RPT2_ENA") 0),
    seq_step.ign (fun s => urtwm_write_1 u s (k "R92C_CR") 0),
    seq_step.ign (fun s => urtwm_write_1 u s (k "R92C_TXPAUSE") (k "R92C_TX_QUEUE_ALL")),
    seq_step.poll 5000 (fun s => urtwm_read_4 u s (k "R88E_SCH_TXCMD"))
      (fun v => v = 0) 0,
    seq_step.ign (fun s => urtwm_setbits_1 u s (k "R92C_SYS_FUNC_EN")
      (k "R92C_SYS_FUNC_EN_BBRSTB") 0),
    seq_step.ign (fun s => urtwm_setbits_1 u s (k "R92C_SYS_FUNC_EN")
      (k "R92C_SYS_FUNC_EN_BB_GLB_RST") 0),
    seq_step.ign (fun s => urtwm_write_1 u s (k "R92C_CR")
      (k "R92C_CR_HCI_TXDMA_EN" ||| k "R92C_CR_HCI_RXDMA_EN")),
    seq_step.ign (fun s => urtwm_setbits_1_shift u s (k "R92C_CR")
      (k "R92C_CR_ENSWBCN") 0 1),
    seq_step.ign (fun s => urtwm_setbits_1 u s (k "R92C_DUAL_TSF_RST") 0
      (k "R92C_DUAL_TSF_RST_TXOK")),
    seq_step.ign (fun s => urtwm_setbits_1_shift u s (k "R92C_SYS_FUNC_EN")
      (k "R92C_SYS_FUNC_EN_CPUEN") 0 1),
    seq_step.ign (fun s => urtwm_write_1 u s (k "R92C_MCUFWDL") 0),
    seq_step.ign (fun s => urtwm_write_1 u s (k "R92C_RF_CTRL") 0),
    seq_step.ign (fun s => urtwm_setbits_1 u s (k "R92C_LEDCFG3") 0x01 0),
    seq_step.ign (fun s => urtwm_setbits_1 u s (k "R92C_GPIO_INTM" + 1) 0x02 0),
    seq_step.ign (fun s => urtwm_setbits_1_shift u s (k "R92C_APS_FSMCO") 0
      (k "R92C_APS_FSMCO_RDY_MACON") 2),
    seq_step.ign (fun s => urtwm_setbits_1_shift u s (k "R92C_APS_FSMCO") 0
      (k "R92C_APS_FSMCO_APFM_OFF") 1),
    seq_step.poll 5000 (fun s => urtwm_read_2 u s (k "R92C_APS_FSMCO"))
      (fun v => v &&& k "R92C_APS_FSMCO_APFM_OFF" = 0) 0,
    seq_step.ign (fun s => urtwm_setbits_1 u s (k "R92C_SYS_ISO_CTRL") 0
      (k "R92C_SYS_ISO_CTRL_IP2MAC")),
    seq_step.ign (fun s => urtwm_setbits_1 u s (k "R92C_LDOA15_CTRL")
      (k "R92C_LDOA15_CTRL_EN") 0),
    seq_step.ign (fun s => urtwm_setbits_1_shift u s (k "R92C_APS_FSMCO")
      (k "R92C_APS_FSMCO_AFSM_PCIE") (k "R92C_APS_FSMCO_AFSM_HSUS") 1),
    seq_step.ign (fun s => urtwm_setbits_1 u s (k "R92C_GPIO_INTM" + 2) 0 0x01) ]

/-- Model of `urtwm_power_off`: `some 0` when one of the two `return;` statements was
executed, `none` when the function ran to its end. -/
def urtwm_power_off (k : urtwm_consts) (u : usb_stack) (s : ctl_state) :
    Option Nat × ctl_state :=
  run_steps (urtwm_power_off_steps k u) s

/-- The registers `urtwm_power_off` writes when it runs to its end, in program order. -/
def power_off_writes (k : urtwm_consts) : List Nat :=
  [ k "R88E_TX_RPT_CTRL" % 65536, k "R92C_CR" % 65536, k "R92C_TXPAUSE" % 65536,
    k "R92C_SYS_FUNC_EN" % 65536, k "R92C_SYS_FUNC_EN" % 65536, k "R92C_CR" % 65536,
    (k "R92C_CR" + 1) % 65536, k "R92C_DUAL_TSF_RST" % 65536,
    (k "R92C_SYS_FUNC_EN" + 1) % 65536, k "R92C_MCUFWDL" % 65536,
    k "R92C_RF_CTRL" % 65536, k "R92C_LEDCFG3" % 65536, (k "R92C_GPIO_INTM" + 1) % 65536,
    (k "R92C_APS_FSMCO" + 2) % 65536, (k "R92C_APS_FSMCO" + 1) % 65536,
    k "R92C_SYS_ISO_CTRL" % 65536, k "R92C_LDOA15_CTRL" % 65536,
    (k "R92C_APS_FSMCO" + 1) % 65536, (k "R92C_GPIO_INTM" + 2) % 65536 ]

/-- The control pipe before the first request. -/
def ctl_zero : ctl_state :=
  { n_req := 0, ops := [] }
/-- Values for some of the constants used by the power and initialisation sequences
(register addresses and bits as in the RTL8821AU register map, a packet buffer of six
pages of which three are TX pages); every other constant is 0. -/
def sample_consts : urtwm_consts := fun name =>
  match name with
  | "R88A_TX_PAGE_COUNT" => 3
  | "R88A_TXPKTBUF_COUNT" => 6
  | "R88A_PUBQ_NPAGES" => 1
  | "R88A_TX_PAGE_BOUNDARY" => 4
  | "R92C_LLT_INIT_OP_M" => 0xc0000000
  | "R92C_LLT_INIT_OP_S" => 30
  | "R92C_LLT_INIT_OP_WRITE" => 1
  | "R92C_LLT_INIT_ADDR_M" => 0x0000ff00
  | "R92C_LLT_INIT_ADDR_S" => 8
  | "R92C_LLT_INIT_DATA_M" => 0x000000ff
  | "R92C_SYS_CFG" => 0x0f0
  | "R92C_LLT_INIT" => 0x1e0
  | "R92C_RX_DRVINFO_SZ" => 0x60f
  | "R92C_MACID" => 0x610
  | "R92C_SYS_ISO_CTRL" => 0x000
  | "R92C_SYS_FUNC_EN" => 0x002
  | "R92C_APS_FSMCO" => 0x004
  | "R92C_RF_CTRL" => 0x01f
  | "R92C_LDOA15_CTRL" => 0x020
  | "R92C_GPIO_INTM" => 0x048
  | "R92C_LEDCFG3" => 0x04f
  | "R92C_MCUFWDL" => 0x080
  | "R92C_CR" => 0x100
  | "R88E_TX_RPT_CTRL" => 0x4ec
  | "R92C_TXPAUSE" => 0x522
  | "R92C_DUAL_TSF_RST" => 0x553
  | "R88E_SCH_TXCMD" => 0x5f8
  | "R92C_APS_FSMCO_APFM_ONMAC" => 0x100
  | "R92C_APS_FSMCO_APFM_OFF" => 0x200
  | "R92C_APS_FSMCO_SUS_HOST" => 0x800
  | "R92C_TX_QUEUE_ALL" => 0xff
  | _ => 0

/-- A stack in which every request succeeds and every read delivers zero. -/
def quiet_stack : usb_stack :=
  { req_error := fun _ => 0
    req_data := fun _ => 0 }

/-- A stack in which every request succeeds, the fifth request (the first read of the
Tx-queue drain poll of `urtwm_power_off`) delivers zero and every other read delivers
all ones. -/
def stuck_stack : usb_stack :=
  { req_error := fun _ => 0
    req_data := fun n => if n = 4 then 0 else 0xffffffff }

/-- Each of `urtwm_read_1`, `urtwm_read_2`, `urtwm_read_4` appends one read of its
register to the log and returns the value of that read. -/
def reads_reg (rd : ctl_state → Nat × ctl_state) (addr len : Nat) : Prop :=
  ∀ s, ∃ v e, (rd s).1 = (reg_op.read addr len v e).value ∧
    (rd s).2.ops = s.ops ++ [reg_op.read addr len v e]

/-! ## Power on -/

/-- The polling loop of `urtwm_llt_write`, with `n` tries left. -/
def llt_write_poll (k : urtwm_consts) (u : usb_stack) : Nat → ctl_state → Nat × ctl_state
  | 0, s => (ETIMEDOUT, s)
  | n + 1, s =>
    let r := urtwm_read_4 u s (k "R92C_LLT_INIT")
    if MS r.1 (k "R92C_LLT_INIT_OP_M") (k "R92C_LLT_INIT_OP_S") =
        k "R92C_LLT_INIT_OP_NO_ACTIVE" then (0, r.2)
    else llt_write_poll k u n r.2

/-- Model of `urtwm_llt_write`. -/
def urtwm_llt_write (k : urtwm_consts) (u : usb_stack) (s : ctl_state) (addr data : Nat) :
    Nat × ctl_state :=
  let r := urtwm_write_4 u s (k "R92C_LLT_INIT")
    (SM (k "R92C_LLT_INIT_OP_M") (k "R92C_LLT_INIT_OP_S") (k "R92C_LLT_INIT_OP_WRITE") |||
      SM (k "R92C_LLT_INIT_ADDR_M") (k "R92C_LLT_INIT_ADDR_S") addr |||
      SM (k "R92C_LLT_INIT_DATA_M") (k "R92C_LLT_INIT_DATA_S") data)
  if r.1 ≠ 0 then ( EIO, r.2) else llt_write_poll k u 20 r.2

/-- The loops `for (...; i++) if ((error = urtwm_llt_write(sc, i, i + 1)) != 0)
return (error);` of `urtwm_llt_init`, with `n` iterations left. -/
def llt_init_loop (k : urtwm_consts) (u : usb_stack) : Nat → Nat → ctl_state → Nat × ctl_state
  | 0, _, s => (0, s)
  | n + 1, i, s =>
    let r := urtwm_llt_write k u s i (i + 1)
    if r.1 ≠ 0 then r else llt_init_loop k u n (i + 1) r.2

/-- Model of `urtwm_llt_init`.  The first loop runs `page_count` times; the second
starts at `page_count + 1` and runs while `i < pktbuf_count - 1`. -/
def urtwm_llt_init (k : urtwm_consts) (u : usb_stack) (s : ctl_state) : Nat × ctl_state :=
  let page_count := k "R88A_TX_PAGE_COUNT"
  let pktbuf_count := k "R88A_TXPKTBUF_COUNT"
  let r1 := llt_init_loop k u page_count 0 s
  if r1.1 ≠ 0 then r1
  else
    let r2 := urtwm_llt_write k u r1.2 page_count 0xff
    if r2.1 ≠ 0 then r2
    else
      let n := pktbuf_count - 1 - (page_count + 1)
      let r3 := llt_init_loop k u n (page_count + 1) r2.2
      if r3.1 ≠ 0 then r3
      else urtwm_llt_write k u r3.2 (page_count + 1 + n) (page_count + 1)

/-- Conversion of an `int` to `uint32_t`. -/
def to_uint32 (x : Int) : Nat :=
  (x % (2 : Int) ^ 32).toNat

/-- The statements of `urtwm_dma_init`; `ntx` is `sc->ntx`.  The page counts are `int`s,
the division and the remainder truncate towards zero. -/
def urtwm_dma_init_steps (k : urtwm_consts) (u : usb_stack) (ntx : Nat) : List seq_step :=
  let haslq : Int := if ntx = 4 ∨ ntx = 3 then 1 else 0
  let hasnq : Int := if ntx = 4 ∨ ntx = 3 ∨ ntx = 2 then 1 else 0
  let nqueues : Int := 1 + hasnq + haslq
  let pagecount : Int := k "R88A_TX_PAGE_COUNT"
  let npubqpages : Int := k "R88A_PUBQ_NPAGES"
  let tx_boundary : Int := k "R88A_TX_PAGE_BOUNDARY"
  let nqpages : Int := Int.tdiv (pagecount - npubqpages) nqueues
  let nrempages : Int := Int.tmod (pagecount - npubqpages) nqueues
  let reg : Nat :=
    if nqueues = 1 then k "R92C_TRXDMA_CTRL_QMAP_HQ"
    else if nqueues = 2 then k "R92C_TRXDMA_CTRL_QMAP_HQ_NQ"
    else k "R92C_TRXDMA_CTRL_QMAP_3EP"
  [ seq_step.ret (fun s => urtwm_llt_init k u s),
    seq_step.chk (fun s => urtwm_write_1 u s (k "R92C_RQPN_NPQ")
      (to_uint32 (if hasnq ≠ 0 then nqpages else 0))),
    seq_step.chk (fun s => urtwm_write_4 u s (k "R92C_RQPN")
      (SM (k "R92C_RQPN_PUBQ_M") (k "R92C_RQPN_PUBQ_S") (to_uint32 npubqpages) |||
        SM (k "R92C_RQPN_HPQ_M") (k "R92C_RQPN_HPQ_S") (to_uint32 (nqpages + nrempages)) |||
        SM (k "R92C_RQPN_LPQ_M") (k "R92C_RQPN_LPQ_S")
          (to_uint32 (if haslq ≠ 0 then nqpages else 0)) |||
        k "R92C_RQPN_LD")),
    seq_step.chk (fun s => urtwm_write_1 u s (k "R92C_TXPKTBUF_BCNQ_BDNY")
      (to_uint32 tx_boundary)),
    seq_step.chk (fun s => urtwm_write_1 u s (k "R92C_TXPKTBUF_MGQ_BDNY")
      (to_uint32 tx_boundary)),
    seq_step.chk (fun s => urtwm_write_1 u s (k "R92C_TXPKTBUF_WMAC_LBK_BF_HD")
      (to_uint32 tx_boundary)),
    seq_step.chk (fun s => urtwm_write_1 u s (k "R92C_TRXFF_BNDY") (to_uint32 tx_boundary)),
    seq_step.chk (fun s => urtwm_write_1 u s (k "R92C_TDECTRL" + 1) (to_uint32 tx_boundary)),
    seq_step.chk (fun s => urtwm_write_1 u s (k "R88E_TXPKTBUF_BCNQ1_BDNY")
      (to_uint32 (tx_boundary + 8))),
    seq_step.chk (fun s => urtwm_write_1 u s (k "R88A_DWBCN1_CTRL" + 1)
      (to_uint32 (tx_boundary + 8))),
    seq_step.chk (fun s => urtwm_setbits_1 u s (k "R88A_DWBCN1_CTRL" + 2) 0
      (k "R88A_DWBCN1_CTRL_SEL_EN")),
    seq_step.chk (fun s => urtwm_setbits_2 u s (k "R92C_TRXDMA_CTRL")
      (k "R92C_TRXDMA_CTRL_QMAP_M") reg),
    seq_step.chk (fun s => urtwm_write_2 u s (k "R92C_TRXFF_BNDY" + 2)
      (to_uint32 ((k "R88A_RX_DMA_BUFFER_SIZE" : Int) - 1))),
    seq_step.chk (fun s => urtwm_write_1 u s (k "R92C_PBP")
      (SM (k "R92C_PBP_PSRX_M") (k "R92C_PBP_PSRX_S") (k "R92C_PBP_128") |||
        SM (k "R92C_PBP_PSTX_M") (k "R92C_PBP_PSTX_S") (k "R92C_PBP_512"))) ]

def IEEE80211_WEP_NKID : Nat := 4

/-- A stack in which every request succeeds and every read delivers 0x800: the
power-ready bit is set, the `APFM_ONMAC` bit is clear and no LLT operation is active. -/
def ready_stack : usb_stack :=
  { req_error := fun _ => 0
    req_data := fun _ => 0x800 }

/-- Conversion of an `int` to `int8_t`. -/
def to_int8 (x : Int) : Int :=
  (x + 128) % 256 - 128

/-- Model of `urtwm_get_rssi_cck`; `agc_rpt` is the byte `cck->agc_rpt` of the PHY
status.  `lna_idx` and `rssi` are `int8_t`: every assignment converts. -/
def urtwm_get_rssi_cck (agc_rpt : Nat) : Int :=
  let agc := agc_rpt % 256
  let lna_idx := to_int8 (((agc &&& 0xe0) >>> 5 : Nat) : Int)
  let rssi := to_int8 (-6 - 2 * ((agc &&& 0x1f : Nat) : Int))
  if lna_idx = 5 then to_int8 (rssi - 32)
  else if lna_idx = 4 then to_int8 (rssi - 24)
  else if lna_idx = 2 then to_int8 (rssi - 11)
  else if lna_idx = 1 then to_int8 (rssi + 5)
  else if lna_idx = 0 then to_int8 (rssi + 21)
  else rssi

/-- The correction the claim lists for each LNA index. -/
def rssi_cck_correction (lna : Nat) : Int :=
  if lna = 0 then 21
  else if lna = 1 then 5
  else if lna = 2 then -11
  else if lna = 4 then -24
  else if lna = 5 then -32
  else 0
/-! ## Page counts of the TX queues -/

/-- The page counts `urtwm_dma_init` computes from `sc->ntx`, the page budget
`pagecount` and the pages of the public queue `npubqpages`, all `int`. -/
structure dma_pages where
  hasnq : Int
  haslq : Int
  nqueues : Int
  nqpages : Int
  nrempages : Int
  deriving DecidableEq, Repr

/-- The computation of `urtwm_dma_init` between "Get Tx queues to USB endpoints mapping"
and the first register write. -/
def urtwm_dma_pages (ntx : Nat) (pagecount npubqpages : Int) : dma_pages :=
  let haslq : Int := if ntx = 4 ∨ ntx = 3 then 1 else 0
  let hasnq : Int := if ntx = 4 ∨ ntx = 3 ∨ ntx = 2 then 1 else 0
  let nqueues : Int := 1 + hasnq + haslq
  { hasnq := hasnq
    haslq := haslq
    nqueues := nqueues
    nqpages := Int.tdiv (pagecount - npubqpages) nqueues
    nrempages := Int.tmod (pagecount - npubqpages) nqueues }

/-- The pages given to the high, normal and low priority queues: the values
`urtwm_dma_init` writes to the HPQ field of `R92C_RQPN`, to `R92C_RQPN_NPQ` and to the
LPQ field of `R92C_RQPN`. -/
def dma_pages.high (p : dma_pages) : Int := p.nqpages + p.nrempages

def dma_pages.normal (p : dma_pages) : Int := if p.hasnq ≠ 0 then p.nqpages else 0

def dma_pages.low (p : dma_pages) : Int := if p.haslq ≠ 0 then p.nqpages else 0

/-! ## RTS/CTS protection -/

def IEEE80211_PROT_NONE : Nat := 0
def IEEE80211_PROT_CTSONLY : Nat := 1
def IEEE80211_PROT_RTSCTS : Nat := 2

/-- The fields of `struct r88a_tx_desc` that `urtwm_tx_protection` touches, as the
values of the little-endian words, and the remaining bytes of the descriptor.  Since
`htole32` only reorders bytes, `txd->txdw3 |= htole32(c)` sets the bits of `c` in the
value of the word. -/
structure r88a_tx_desc where
  txdw3 : Nat
  txdw4 : Nat
  rest : List Nat
  deriving DecidableEq, Repr

/-- Model of `urtwm_tx_protection`; the argument of `htole32` is a `uint32_t`. -/
def urtwm_tx_protection (k : urtwm_consts) (txd : r88a_tx_desc) (mode : Nat) :
    r88a_tx_desc :=
  let txd1 :=
    if mode = IEEE80211_PROT_CTSONLY then
      { txd with txdw3 := txd.txdw3 ||| k "R88A_TXDW3_CTS2SELF" % 2 ^ 32 }
    else if mode = IEEE80211_PROT_RTSCTS then
      { txd with txdw3 := txd.txdw3 ||| k "R88A_TXDW3_RTSEN" % 2 ^ 32 }
    else txd
  if mode = IEEE80211_PROT_CTSONLY ∨ mode = IEEE80211_PROT_RTSCTS then
    let txd2 := { txd1 with txdw3 := txd1.txdw3 ||| k "R88A_TXDW3_HWRTSEN" % 2 ^ 32 }
    let txd3 := { txd2 with
      txdw4 := txd2.txdw4 |||
        SM (k "R88A_TXDW4_RTSRATE_M") (k "R88A_TXDW4_RTSRATE_S")
          (k "URTWM_RIDX_OFDM24") % 2 ^ 32 }
    { txd3 with
      txdw4 := txd3.txdw4 |||
        SM (k "R88A_TXDW4_RTSRATE_FB_LMT_M") (k "R88A_TXDW4_RTSRATE_FB_LMT_S") 0xf % 2 ^ 32 }
  else txd1

/-- The layout of the protection bits and fields, as laid down in the header
`if_urtwmreg.h` (not part of the source tree): three disjoint bits of `txdw3`, and two
disjoint fields of `txdw4` of `w1` and `w2` contiguous bits that hold the rate index
and the value 0xf. -/
def prot_layout (k : urtwm_consts) (w1 w2 : Nat) : Prop :=
  k "R88A_TXDW3_CTS2SELF" < 2 ^ 32 ∧ k "R88A_TXDW3_RTSEN" < 2 ^ 32 ∧
  k "R88A_TXDW3_HWRTSEN" < 2 ^ 32 ∧
  k "R88A_TXDW3_CTS2SELF" &&& k "R88A_TXDW3_RTSEN" = 0 ∧
  k "R88A_TXDW3_HWRTSEN" &&& k "R88A_TXDW3_RTSEN" = 0 ∧
  k "R88A_TXDW3_HWRTSEN" &&& k "R88A_TXDW3_CTS2SELF" = 0 ∧
  k "R88A_TXDW4_RTSRATE_M" = (2 ^ w1 - 1) <<< k "R88A_TXDW4_RTSRATE_S" ∧
  k "R88A_TXDW4_RTSRATE_FB_LMT_M" = (2 ^ w2 - 1) <<< k "R88A_TXDW4_RTSRATE_FB_LMT_S" ∧
  k "R88A_TXDW4_RTSRATE_M" < 2 ^ 32 ∧ k "R88A_TXDW4_RTSRATE_FB_LMT_M" < 2 ^ 32 ∧
  k "R88A_TXDW4_RTSRATE_M" &&& k "R88A_TXDW4_RTSRATE_FB_LMT_M" = 0 ∧
  k "URTWM_RIDX_OFDM24" < 2 ^ w1 ∧ 0xf < 2 ^ w2

/-- The values of the RTL8821AU header for the protection bits and fields; the rate
index of OFDM 24 Mbit/s is 8. -/
def prot_consts : urtwm_consts := fun name =>
  match name with
  | "R88A_TXDW3_CTS2SELF" => 0x00000800
  | "R88A_TXDW3_RTSEN" => 0x00001000
  | "R88A_TXDW3_HWRTSEN" => 0x00002000
  | "R88A_TXDW4_RTSRATE_M" => 0x1f000000
  | "R88A_TXDW4_RTSRATE_S" => 24
  | "R88A_TXDW4_RTSRATE_FB_LMT_M" => 0x0001e000
  | "R88A_TXDW4_RTSRATE_FB_LMT_S" => 13
  | "URTWM_RIDX_OFDM24" => 8
  | _ => 0

/-- A descriptor with the retry limit set in `txdw4` and no protection bit. -/
def sample_desc : r88a_tx_desc :=
  { txdw3 := 0x00000100, txdw4 := 0x00020000, rest := [0x2a, 0x00] }

/-! ## Order of TX submissions -/

/-- The TX buffers handed to the USB stack in a trace, in order: the transfer and the
descriptor index of every `usbd_xfer_set_frame_data` call of the TX callback (the one
that passes a length). -/
def tx_submitted (t : List kcall) : List (Nat × Nat) :=
  t.filterMap fun c =>
    match c with
    | kcall.usbd_xfer_set_frame_data xfer data (some _) => some (xfer, data)
    | _ => none

/-- The transfers on which `usbd_transfer_submit` is called in a trace, in order. -/
def tx_submit_calls (t : List kcall) : List Nat :=
  t.filterMap fun c =>
    match c with
    | kcall.usbd_transfer_submit xfer => some xfer
    | _ => none

/-- The descriptors submitted so far followed by the descriptors that wait in
`sc_tx_pending`. -/
def tx_order (sc : urtwm_softc) : List Nat :=
  (tx_submitted sc.trace).map Prod.snd ++ ids sc.sc_tx_pending

/-- A management frame. -/
def sample_mgt (tag ni : Nat) : mbuf :=
  { m_data := [IEEE80211_FC0_TYPE_MGT, 0, tag], m_len := 3, rcvif := ni, wme_ac := 0 }

/-! ## Endpoint setup -/

/-- The field `endpoint` of the four TX entries of `urtwm_config[]`. -/
structure tx_config where
  BE : Nat
  BK : Nat
  VI : Nat
  VO : Nat
  deriving DecidableEq, Repr

def UE_ADDR_ANY : Nat := 0xff

/-- The initialiser of `urtwm_config[]`: every endpoint is `UE_ADDR_ANY`. -/
def urtwm_config : tx_config :=
  { BE := UE_ADDR_ANY, BK := UE_ADDR_ANY, VI := UE_ADDR_ANY, VO := UE_ADDR_ANY }

/-- The `switch (sc->ntx)` of `urtwm_setup_endpoints`.  No case ends in a `break`, so
the statements of a case label run whenever the switch was entered at that label or at
one above it. -/
def setup_endpoints_switch (ntx : Nat) (addr : List Nat) (c : tx_config) : tx_config :=
  let c3 :=
    if ntx = 4 ∨ ntx = 3 then
      { c with BE := addr.getD 2 0, BK := addr.getD 2 0, VI := addr.getD 1 0 }
    else c
  let c2 :=
    if ntx = 4 ∨ ntx = 3 ∨ ntx = 2 then
      { c3 with BE := addr.getD 1 0, BK := addr.getD 1 0, VI := addr.getD 0 0 }
    else c3
  if ntx = 4 ∨ ntx = 3 ∨ ntx = 2 ∨ ntx = 1 then
    { c2 with BE := addr.getD 0 0, BK := addr.getD 0 0, VI := addr.getD 0 0 }
  else c2

/-- Model of `urtwm_setup_endpoints` after the scan of the endpoints: `ntx` is the
number of bulk-out pipes found and `addr` the array of their addresses,
`max_epout` is `R88A_MAX_EPOUT`, `setup_error` what `usbd_transfer_setup` returns and
`c` the content of `urtwm_config[]` on entry. -/
def urtwm_setup_endpoints (max_epout ntx : Nat) (addr : List Nat) (setup_error : Nat)
    (c : tx_config) : Nat × tx_config :=
  if ntx = 0 ∨ ntx > max_epout then (EINVAL, c)
  else
    let c1 := setup_endpoints_switch ntx addr { c with VO := addr.getD 0 0 }
    if setup_error ≠ 0 then (setup_error, c1) else (0, c1)

/-- The mapping of priority classes to endpoints as the specification describes it: what
the `switch` of `urtwm_setup_endpoints` would give if every case ended in a `break`. -/
def spec_endpoint_mapping (ntx : Nat) (addr : List Nat) (c : tx_config) : tx_config :=
  if ntx = 4 ∨ ntx = 3 then
    { c with BE := addr.getD 2 0, BK := addr.getD 2 0, VI := addr.getD 1 0 }
  else if ntx = 2 then
    { c with BE := addr.getD 1 0, BK := addr.getD 1 0, VI := addr.getD 0 0 }
  else if ntx = 1 then
    { c with BE := addr.getD 0 0, BK := addr.getD 0 0, VI := addr.getD 0 0 }
  else c
/-! ## Reads of the RX parser -/

/-- The loop of `urtwm_rxeof` with the same control flow as `urtwm_rxeof_loop`,
recording at every read of `stat->rxdw0` the offset of `stat` in the buffer and the
remaining length `len` at that moment. -/
def urtwm_rxeof_reads (h : urtwm_hdr) (k : kernel) :
    Nat → urtwm_softc → List Nat → Nat → Int → List (Nat × Int)
  | 0, _, _, _, _ => []
  | fuel + 1, sc, buf, off, len =>
    if to_size_t len ≥ h.sizeof_rx_stat then
      let rxdw0 := le32_at buf off
      let pktlen := MS rxdw0 h.R92C_RXDW0_PKTLEN_M h.R92C_RXDW0_PKTLEN_S
      if pktlen = 0 then [(off, len)]
      else
        let infosz := MS rxdw0 h.R92C_RXDW0_INFOSZ_M h.R92C_RXDW0_INFOSZ_S * 8
        let totlen := h.sizeof_rx_stat + infosz + pktlen
        if (totlen : Int) > len then [(off, len)]
        else
          let r := urtwm_rx_copy_to_mbuf h k sc buf off totlen
          let totlen1 := if (totlen : Int) < len then roundup2_8 totlen else totlen
          (off, len) ::
            urtwm_rxeof_reads h k fuel r.2 buf (off + totlen1) (len - (totlen1 : Int))
    else []

/-- A transfer of 35 bytes: one record of 34 bytes (10 packet bytes) and one more
byte; the rest of the receive buffer holds what an earlier transfer left there. -/
def sample_rxbuf_odd : List Nat :=
  sample_rec 10 10 0xbb ++ [0] ++ List.replicate 5 0x11 ++ sample_rec 12 12 0xaa

/-! ## Shape of the LLT table -/

/-- The register writes of a log, oldest first: address, value and the
`usb_error_t` of each. -/
def reg_writes (ops : List reg_op) : List (Nat × Nat × Nat) :=
  ops.filterMap (fun op =>
    match op with
    | reg_op.write addr _ val err => some (addr, val, err)
    | reg_op.read _ _ _ _ => none)

/-- The word `urtwm_llt_write(sc, addr, data)` writes to `R92C_LLT_INIT`. -/
def llt_word (k : urtwm_consts) (addr data : Nat) : Nat :=
  (SM (k "R92C_LLT_INIT_OP_M") (k "R92C_LLT_INIT_OP_S") (k "R92C_LLT_INIT_OP_WRITE") |||
    SM (k "R92C_LLT_INIT_ADDR_M") (k "R92C_LLT_INIT_ADDR_S") addr |||
    SM (k "R92C_LLT_INIT_DATA_M") (k "R92C_LLT_INIT_DATA_S") data) % 2 ^ 32

/-- A list of `urtwm_llt_write(sc, addr, data)` calls made one after the other, each
followed by `if (error != 0) return (error);`. -/
def llt_run (k : urtwm_consts) (u : usb_stack) : List (Nat × Nat) → ctl_state → Nat × ctl_state
  | [], s => (0, s)
  | c :: rest, s =>
    let r := urtwm_llt_write k u s c.1 c.2
    if r.1 ≠ 0 then r else llt_run k u rest r.2

/-- The arguments `(addr, data)` of the `urtwm_llt_write` calls in the text of
`urtwm_llt_init`, in program order: the first loop, the end-of-list entry, the second
loop and the closing entry of the ring. -/
def llt_init_calls (page_count pktbuf_count : Nat) : List (Nat × Nat) :=
  (List.range' 0 page_count).map (fun i => (i, i + 1)) ++ [(page_count, 0xff)] ++
    (List.range' (page_count + 1) (pktbuf_count - 1 - (page_count + 1))).map
      (fun i => (i, i + 1)) ++
    [(page_count + 1 + (pktbuf_count - 1 - (page_count + 1)), page_count + 1)]

/-- The LLT table as the specification describes it: entry `i` for every
`i < pktbuf_count`, pointing to `i + 1` inside the two page ranges, holding 0xff at
`page_count` and pointing back to `page_count + 1` at the last page. -/
def spec_llt_table (page_count pktbuf_count : Nat) : List (Nat × Nat) :=
  (List.range' 0 pktbuf_count).map (fun i =>
    (i, if i < page_count then i + 1 else if i = page_count then 0xff
        else if i < pktbuf_count - 1 then i + 1 else page_count + 1))
/-! ## Hardware key installation -/

/-- The fields of `struct ieee80211_key` (`data->key`) that `urtwm_key_set_cb` reads:
the key index, the key length, the cipher `wk_cipher->ic_cipher`, the key bytes and the
MAC address bytes. -/
structure cam_key where
  wk_keyix : Nat
  wk_keylen : Nat
  ic_cipher : Nat
  wk_key : List Nat
  wk_macaddr : List Nat
  deriving DecidableEq, Repr

/-- The function-like macros of `if_urtwmreg.h` that give the CAM addresses of an
entry: `R92C_CAM_CTL0(entry)`, `R92C_CAM_CTL1(entry)` and `R92C_CAM_KEY(entry, i)`. -/
structure cam_macros where
  R92C_CAM_CTL0 : Nat → Nat
  R92C_CAM_CTL1 : Nat → Nat
  R92C_CAM_KEY : Nat → Nat → Nat

/-- Model of `urtwm_cam_write`. -/
def urtwm_cam_write (k : urtwm_consts) (u : usb_stack) (s : ctl_state) (addr data : Nat) :
    Nat × ctl_state :=
  let r1 := urtwm_write_4 u s (k "R92C_CAMWRITE") data
  if r1.1 ≠ 0 then ( EIO, r1.2)
  else
    let r2 := urtwm_write_4 u r1.2 (k "R92C_CAMCMD")
      (k "R92C_CAMCMD_POLLING" ||| k "R92C_CAMCMD_WRITE" |||
        SM (k "R92C_CAMCMD_ADDR_M") (k "R92C_CAMCMD_ADDR_S") addr)
    if r2.1 ≠ 0 then ( EIO, r2.2) else (0, r2.2)

/-- The loop `for (i = 0; i < 4; i++)` of `urtwm_key_set_cb`, with `n` iterations left. -/
def key_set_loop (k : urtwm_consts) (c : cam_macros) (u : usb_stack) (key : cam_key) :
    Nat → Nat → ctl_state → Nat × ctl_state
  | 0, _, s => (0, s)
  | n + 1, i, s =>
    let r := urtwm_cam_write k u s (c.R92C_CAM_KEY key.wk_keyix i) (le32_at key.wk_key (i * 4))
    if r.1 ≠ 0 then r else key_set_loop k c u key n (i + 1) r.2

/-- The cipher switch of `urtwm_key_set_cb`: the value of `algo` (a `uint8_t`), or
`none` in the `default` case. -/
def key_set_algo (k : urtwm_consts) (key : cam_key) : Option Nat :=
  if key.ic_cipher = IEEE80211_CIPHER_WEP then
    some ((if key.wk_keylen < 8 then k "R92C_CAM_ALGO_WEP40" else k "R92C_CAM_ALGO_WEP104") % 256)
  else if key.ic_cipher = IEEE80211_CIPHER_TKIP then some (k "R92C_CAM_ALGO_TKIP" % 256)
  else if key.ic_cipher = IEEE80211_CIPHER_AES_CCM then some (k "R92C_CAM_ALGO_AES" % 256)
  else none

/-- The control word 0 of a CAM entry as `urtwm_key_set_cb` composes it. -/
def cam_ctl0_word (k : urtwm_consts) (key : cam_key) (algo : Nat) : Nat :=
  let keyid := if key.wk_keyix < IEEE80211_WEP_NKID then key.wk_keyix % 256 else 0
  SM (k "R92C_CAM_ALGO_M") (k "R92C_CAM_ALGO_S") algo |||
    SM (k "R92C_CAM_KEYID_M") (k "R92C_CAM_KEYID_S") keyid |||
    SM (k "R92C_CAM_MACLO_M") (k "R92C_CAM_MACLO_S")
      (key.wk_macaddr.getD 0 0 + 256 * key.wk_macaddr.getD 1 0) |||
    k "R92C_CAM_VALID"

/-- Model of `urtwm_key_set_cb`.  The function returns nothing and assigns no field of
the softc; the `device_printf` calls are left out. -/
def urtwm_key_set_cb (k : urtwm_consts) (c : cam_macros) (u : usb_stack) (key : cam_key)
    (sc : urtwm_softc) (s : ctl_state) : urtwm_softc × ctl_state :=
  match key_set_algo k key with
  | none => (sc, s)
  | some algo =>
    let r1 := key_set_loop k c u key 4 0 s
    if r1.1 ≠ 0 then (sc, r1.2)
    else
      let r2 := urtwm_cam_write k u r1.2 (c.R92C_CAM_CTL1 key.wk_keyix)
        (le32_at key.wk_macaddr 2)
      if r2.1 ≠ 0 then (sc, r2.2)
      else
        let r3 := urtwm_cam_write k u r2.2 (c.R92C_CAM_CTL0 key.wk_keyix)
          (cam_ctl0_word k key algo)
        (sc, r3.2)

/-- A list of `urtwm_cam_write(sc, addr, data)` calls made one after the other, each
followed by `if (error != 0) goto fail;`. -/
def cam_run (k : urtwm_consts) (u : usb_stack) : List (Nat × Nat) → ctl_state → Nat × ctl_state
  | [], s => (0, s)
  | c :: rest, s =>
    let r := urtwm_cam_write k u s c.1 c.2
    if r.1 ≠ 0 then r else cam_run k u rest r.2

/-- The two register writes of a successful `urtwm_cam_write(sc, addr, data)`. -/
def cam_ops (k : urtwm_consts) (c : Nat × Nat) : List (Nat × Nat × Nat) :=
  [(k "R92C_CAMWRITE" % 65536, c.2 % 2 ^ 32, 0),
    (k "R92C_CAMCMD" % 65536,
      (k "R92C_CAMCMD_POLLING" ||| k "R92C_CAMCMD_WRITE" |||
        SM (k "R92C_CAMCMD_ADDR_M") (k "R92C_CAMCMD_ADDR_S") c.1) % 2 ^ 32, 0)]

/-- The register writes of a `urtwm_cam_write(sc, addr, data)` that fails: the data
write alone, failed, or the data write and the failed command write. -/
def cam_ops_failed (k : urtwm_consts) (c : Nat × Nat) (t : List (Nat × Nat × Nat)) : Prop :=
  ∃ e, e ≠ 0 ∧
    (t = [(k "R92C_CAMWRITE" % 65536, c.2 % 2 ^ 32, e)] ∨
     t = [(k "R92C_CAMWRITE" % 65536, c.2 % 2 ^ 32, 0),
       (k "R92C_CAMCMD" % 65536,
        (k "R92C_CAMCMD_POLLING" ||| k "R92C_CAMCMD_WRITE" |||
          SM (k "R92C_CAMCMD_ADDR_M") (k "R92C_CAMCMD_ADDR_S") c.1) % 2 ^ 32, e)])

/-- The CAM writes `(addr, data)` in the text of `urtwm_key_set_cb`, in program order:
the four key words, the control word 1 and the control word 0. -/
def key_set_calls (k : urtwm_consts) (c : cam_macros) (key : cam_key) (algo : Nat) :
    List (Nat × Nat) :=
  (List.range' 0 4).map (fun i => (c.R92C_CAM_KEY key.wk_keyix i, le32_at key.wk_key (i * 4))) ++
    [(c.R92C_CAM_CTL1 key.wk_keyix, le32_at key.wk_macaddr 2),
      (c.R92C_CAM_CTL0 key.wk_keyix, cam_ctl0_word k key algo)]

/-- Values of the CAM constants as in the RTL8192C register map. -/
def cam_consts : urtwm_consts := fun name =>
  match name with
  | "R92C_CAMCMD" => 0x670
  | "R92C_CAMWRITE" => 0x674
  | "R92C_CAMCMD_POLLING" => 0x80000000
  | "R92C_CAMCMD_WRITE" => 0x00010000
  | "R92C_CAMCMD_ADDR_M" => 0x0000ffff
  | "R92C_CAMCMD_ADDR_S" => 0
  | "R92C_CAM_ALGO_M" => 0x0000001c
  | "R92C_CAM_ALGO_S" => 2
  | "R92C_CAM_KEYID_M" => 0x00000003
  | "R92C_CAM_KEYID_S" => 0
  | "R92C_CAM_MACLO_M" => 0xffff0000
  | "R92C_CAM_MACLO_S" => 16
  | "R92C_CAM_VALID" => 0x00008000
  | "R92C_CAM_ALGO_WEP40" => 1
  | "R92C_CAM_ALGO_TKIP" => 2
  | "R92C_CAM_ALGO_AES" => 4
  | "R92C_CAM_ALGO_WEP104" => 5
  | _ => 0

/-- CAM entries of eight words: the two control words, then the key words. -/
def sample_cam : cam_macros :=
  { R92C_CAM_CTL0 := fun entry => entry * 8
    R92C_CAM_CTL1 := fun entry => entry * 8 + 1
    R92C_CAM_KEY := fun entry i => entry * 8 + 2 + i }

/-- An AES-CCM key for CAM entry 5. -/
def sample_key : cam_key :=
  { wk_keyix := 5, wk_keylen := 16, ic_cipher := IEEE80211_CIPHER_AES_CCM,
    wk_key := [1, 2, 3, 4, 5, 6, 7, 8, 9, 10, 11, 12, 13, 14, 15, 16],
    wk_macaddr := [0x0a, 0x0b, 0x0c, 0x0d, 0x0e, 0x0f] }

/-- A stack in which every request succeeds except the requests `n`, ..., `n + 9`,
which fail with `USB_ERR_TIMEOUT` (18): one register access fails for good. -/
def broken_stack (n : Nat) : usb_stack :=
  { req_error := fun i => if n ≤ i ∧ i < n + 10 then 18 else 0
    req_data := fun _ => 0 }
/-! ## Band change -/

/-- One statement of `urtwm_band_change` after the band check.  Every call there has
its result discarded; `urtwm_bb_setbits` is `urtwm_setbits_4`. -/
inductive band_step where
  /-- The statement `urtwm_bb_setbits(sc, addr, clr, set)` or `urtwm_setbits_4(...)`. -/
  | setbits_4 (addr clr set : Nat)
  /-- The statement `urtwm_write_1(sc, addr, val)`. -/
  | write_1 (addr val : Nat)
  /-- The loop `for (ntries = 0; ntries < 100; ntries++)` that reads
  `R88A_TXPKT_EMPTY` until `(val & 0x30) == 0x30`, and the read in the argument list
  of the `device_printf` that follows when `ntries == 100`. -/
  | txpkt_poll

/-- Run one statement. -/
def band_step.run (k : urtwm_consts) (u : usb_stack) : band_step → ctl_state → ctl_state
  | band_step.setbits_4 addr clr set, s => (urtwm_setbits_4 u s addr clr set).2
  | band_step.write_1 addr val, s => (urtwm_write_1 u s addr val).2
  | band_step.txpkt_poll, s =>
    let r := poll_loop (fun s1 => urtwm_read_2 u s1 (k "R88A_TXPKT_EMPTY"))
      (fun v => v &&& 0x30 = 0x30) 100 s
    if r.1 then r.2 else (urtwm_read_2 u r.2 (k "R88A_TXPKT_EMPTY")).2

/-- Run the statements in order. -/
def band_run (k : urtwm_consts) (u : usb_stack) (steps : List band_step) (s : ctl_state) :
    ctl_state :=
  steps.foldl (fun s1 st => st.run k u s1) s

/-- The register a statement writes, if any. -/
def band_step.writes : band_step → List Nat
  | band_step.setbits_4 addr _ _ => [addr % 65536]
  | band_step.write_1 addr _ => [addr % 65536]
  | band_step.txpkt_poll => []

/-- The `switch ((swing >> i) & 0x3)` of `urtwm_band_change`. -/
def band_swing_val (swing i : Nat) : Nat :=
  match (swing >>> i) &&& 0x3 with
  | 0 => 0x200
  | 1 => 0x16a
  | 2 => 0x101
  | _ => 0xb6

/-- The loop `for (i = 0; i < 2; i++)` at the end of `urtwm_band_change`; the names
`R88A_TX_SCALE(0)` and `R88A_TX_SCALE(1)` stand for the macro applied to 0 and 1. -/
def band_swing_steps (k : urtwm_consts) (swing : Nat) : List band_step :=
  [ band_step.setbits_4 (k "R88A_TX_SCALE(0)") (k "R88A_TX_SCALE_SWING_M")
      (band_swing_val swing 0 <<< k "R88A_TX_SCALE_SWING_S"),
    band_step.setbits_4 (k "R88A_TX_SCALE(1)") (k "R88A_TX_SCALE_SWING_M")
      (band_swing_val swing 1 <<< k "R88A_TX_SCALE_SWING_S") ]

/-- The statements of the 2.4 GHz branch; `lna_type` is `sc->lna_type`. -/
def band_2ghz_steps (k : urtwm_consts) (lna_type : Nat) : List band_step :=
  [ band_step.setbits_4 (k "R88A_OFDMCCK_EN")
      (k "R88A_OFDMCCK_EN_CCK" ||| k "R88A_OFDMCCK_EN_OFDM") 0,
    band_step.setbits_4 (k "R88A_RFE_PINMUX(0)") (k "R88A_RFE_PINMUX_LNA_MASK") 0x7,
    band_step.setbits_4 (k "R88A_RFE_PINMUX(0)") (k "R88A_RFE_PINMUX_PA_A_MASK") 0x7 ] ++
  (if lna_type &&& k "R88A_ROM_LNA_TYPE_EXTERNAL_2GHZ" ≠ 0 then
    [ band_step.setbits_4 (k "R88A_RFE_INV(0)") 0 0x00100000,
      band_step.setbits_4 (k "R88A_RFE_INV(0)") 0x00400000 0,
      band_step.setbits_4 (k "R88A_RFE_PINMUX(0)") 0x7 0x2,
      band_step.setbits_4 (k "R88A_RFE_PINMUX(0)") 0x700 0x200 ]
   else []) ++
  [ band_step.setbits_4 (k "R88A_TX_SCALE(0)") 0x0f00 0,
    band_step.setbits_4 (k "R92C_RRSR") (k "R92C_RRSR_RATE_BITMAP_M") 0x15d,
    band_step.setbits_4 (k "R88A_OFDMCCK_EN") 0
      (k "R88A_OFDMCCK_EN_CCK" ||| k "R88A_OFDMCCK_EN_OFDM"),
    band_step.write_1 (k "R88A_CCK_CHECK") 0 ]

/-- The statements of the 5 GHz branch. -/
def band_5ghz_steps (k : urtwm_consts) (lna_type : Nat) : List band_step :=
  [ band_step.setbits_4 (k "R88A_RFE_PINMUX(0)") (k "R88A_RFE_PINMUX_LNA_MASK") 0x5,
    band_step.setbits_4 (k "R88A_RFE_PINMUX(0)") (k "R88A_RFE_PINMUX_PA_A_MASK") 0x4 ] ++
  (if lna_type &&& k "R88A_ROM_LNA_TYPE_EXTERNAL_2GHZ" ≠ 0 then
    [ band_step.setbits_4 (k "R88A_RFE_INV(0)") 0x00100000 0,
      band_step.setbits_4 (k "R88A_RFE_INV(0)") 0x00400000 0,
      band_step.setbits_4 (k "R88A_RFE_PINMUX(0)") 0 0x7,
      band_step.setbits_4 (k "R88A_RFE_PINMUX(0)") 0 0x700 ]
   else []) ++
  [ band_step.write_1 (k "R88A_CCK_CHECK") 0x80,
    band_step.txpkt_poll,
    band_step.setbits_4 (k "R88A_OFDMCCK_EN")
      (k "R88A_OFDMCCK_EN_CCK" ||| k "R88A_OFDMCCK_EN_OFDM") 0,
    band_step.setbits_4 (k "R88A_TX_SCALE(0)") 0x0f00 0x0100,
    band_step.setbits_4 (k "R92C_RRSR") (k "R92C_RRSR_RATE_BITMAP_M") 0x150,
    band_step.setbits_4 (k "R88A_OFDMCCK_EN") 0 (k "R88A_OFDMCCK_EN_OFDM") ]

/-- The fields of the softc that `urtwm_band_change` reads (each a `uint8_t`). -/
structure band_softc where
  lna_type : Nat
  tx_bbswing_2g : Nat
  tx_bbswing_5g : Nat
  deriving DecidableEq, Repr

/-- The band check at the head of `urtwm_band_change`,
`!force && IEEE80211_IS_CHAN_5GHZ(c) ^ !(urtwm_read_1(sc, R88A_CCK_CHECK) &
R88A_CCK_CHECK_5GHZ)`: `^` binds tighter than `&&`, and with `force != 0` the register
is not read. -/
def band_check (k : urtwm_consts) (u : usb_stack) (c : ieee80211_channel) (force : Int)
    (s : ctl_state) : Bool × ctl_state :=
  if force ≠ 0 then (false, s)
  else
    let r := urtwm_read_1 u s (k "R88A_CCK_CHECK")
    (Bool.xor (IEEE80211_IS_CHAN_5GHZ c) (decide (r.1 &&& k "R88A_CCK_CHECK_5GHZ" = 0)), r.2)

/-- Model of `urtwm_band_change`; the calls of `urtwm_delay` and `device_printf` are
left out. -/
def urtwm_band_change (k : urtwm_consts) (u : usb_stack) (sc : band_softc)
    (c : ieee80211_channel) (force : Int) (s : ctl_state) : ctl_state :=
  let chk := band_check k u c force s
  if chk.1 then chk.2
  else if IEEE80211_IS_CHAN_2GHZ c then
    band_run k u (band_2ghz_steps k sc.lna_type ++ band_swing_steps k (sc.tx_bbswing_2g % 256))
      chk.2
  else if IEEE80211_IS_CHAN_5GHZ c then
    band_run k u (band_5ghz_steps k sc.lna_type ++ band_swing_steps k (sc.tx_bbswing_5g % 256))
      chk.2
  else chk.2

/-- The value `urtwm_read_1(sc, R88A_CCK_CHECK)` returns in state `s`. -/
def cck_check (k : urtwm_consts) (u : usb_stack) (s : ctl_state) : Nat :=
  (urtwm_read_1 u s (k "R88A_CCK_CHECK")).1

/-- Values of the band-change constants as in the RTL8821AU register map. -/
def band_consts : urtwm_consts := fun name =>
  match name with
  | "R88A_CCK_CHECK" => 0x454
  | "R88A_CCK_CHECK_5GHZ" => 0x80
  | "R88A_TXPKT_EMPTY" => 0x41a
  | "R88A_OFDMCCK_EN" => 0x808
  | "R88A_OFDMCCK_EN_CCK" => 0x10000000
  | "R88A_OFDMCCK_EN_OFDM" => 0x20000000
  | "R88A_RFE_PINMUX(0)" => 0xcb0
  | "R88A_RFE_PINMUX_LNA_MASK" => 0x0000f000
  | "R88A_RFE_PINMUX_PA_A_MASK" => 0x000000f0
  | "R88A_RFE_INV(0)" => 0xcb4
  | "R88A_ROM_LNA_TYPE_EXTERNAL_2GHZ" => 0x08
  | "R88A_TX_SCALE(0)" => 0xc1c
  | "R88A_TX_SCALE(1)" => 0xe1c
  | "R88A_TX_SCALE_SWING_M" => 0xffe00000
  | "R88A_TX_SCALE_SWING_S" => 21
  | "R92C_RRSR" => 0x440
  | "R92C_RRSR_RATE_BITMAP_M" => 0x000fffff
  | _ => 0

/-- A stack in which every request succeeds and every read delivers `v`. -/
def const_stack (v : Nat) : usb_stack :=
  { req_error := fun _ => 0
    req_data := fun _ => v }

def sample_band_softc : band_softc :=
  { lna_type := 0, tx_bbswing_2g := 0, tx_bbswing_5g := 0 }

/-! # Theorems -/

/-! ## Buffer pool conservation -/

theorem ids_append (p q : List urtwm_data) : ids (p ++ q) = ids p ++ ids q := by
  simp [ids]

theorem ids_cons (d : urtwm_data) (q : List urtwm_data) : ids (d :: q) = d.id :: ids q := by
  simp [ids]

theorem coe_ids_append (p q : List urtwm_data) :
    ((ids (p ++ q) : List Nat) : Multiset Nat) = (ids p : Multiset Nat) + (ids q : Multiset Nat) := by
  rw [ids_append, Multiset.coe_add]

theorem coe_ids_cons (d : urtwm_data) (q : List urtwm_data) :
    ((ids (d :: q) : List Nat) : Multiset Nat) = {d.id} + (ids q : Multiset Nat) := by
  rw [ids_cons, ← Multiset.cons_coe, Multiset.singleton_add]

theorem coe_ids_nil : ((ids [] : List Nat) : Multiset Nat) = 0 := rfl

theorem ids_alloc_fold (n : Nat) (q : List urtwm_data) :
    ((ids ((List.range n).foldl (fun q i => fresh_data i :: q) q) : List Nat) :
        Multiset Nat) = (List.range n : Multiset Nat) + (ids q : Multiset Nat) := by
  induction n with
  | zero => simp
  | succ n ih =>
    rw [List.range_succ, List.foldl_append]
    simp only [List.foldl_cons, List.foldl_nil]
    rw [coe_ids_cons, ih, ← Multiset.coe_add (List.range n) [n]]
    have : ((fresh_data n).id) = n := rfl
    rw [this, Multiset.coe_singleton]
    abel

theorem tx_ids_call (sc : urtwm_softc) (c : kcall) : tx_ids (call sc c) = tx_ids sc := rfl

theorem tx_ids_tx_start (h : urtwm_hdr) (sc : urtwm_softc) (m : mbuf) (type : Nat)
    (data : urtwm_data) :
    tx_ids (urtwm_tx_start h sc m type data) = {data.id} + tx_ids sc := by
  unfold urtwm_tx_start
  simp only [tx_ids_call]
  simp only [tx_ids, coe_ids_append, coe_ids_cons, coe_ids_nil]
  split <;> (simp only [add_zero]; abel)

theorem tx_ids_getbuf (sc : urtwm_softc) :
    ((urtwm_getbuf sc).1 = none ∧ (urtwm_getbuf sc).2 = sc) ∨
    (∃ bf, (urtwm_getbuf sc).1 = some bf ∧
      tx_ids sc = {bf.id} + tx_ids (urtwm_getbuf sc).2) := by
  unfold urtwm_getbuf _urtwm_getbuf
  cases hq : sc.sc_tx_inactive with
  | nil => left; simp
  | cons bf rest =>
    right
    refine ⟨bf, by simp, ?_⟩
    simp only [tx_ids, hq, coe_ids_cons]
    abel

theorem tx_data_cases (h : urtwm_hdr) (k : kernel) (sc : urtwm_softc) (ni : Nat) (m : mbuf)
    (data : urtwm_data) :
    ((urtwm_tx_data h k sc ni m data).1 = 0 ∧
        tx_ids (urtwm_tx_data h k sc ni m data).2 = {data.id} + tx_ids sc) ∨
    ((urtwm_tx_data h k sc ni m data).1 ≠ 0 ∧ (urtwm_tx_data h k sc ni m data).2 = sc) := by
  unfold urtwm_tx_data
  simp only
  split
  · split
    · right; simp [ENOBUFS]
    · split
      · split
        · left; simp [tx_ids_tx_start]
        · right; simp [EINVAL]
      · left; simp [tx_ids_tx_start]
  · left; simp [tx_ids_tx_start]

theorem tx_raw_cases (h : urtwm_hdr) (k : kernel) (sc : urtwm_softc) (ni : Nat) (m : mbuf)
    (data : urtwm_data) (p : ieee80211_bpf_params) :
    ((urtwm_tx_raw h k sc ni m data p).1 = 0 ∧
        tx_ids (urtwm_tx_raw h k sc ni m data p).2 = {data.id} + tx_ids sc) ∨
    ((urtwm_tx_raw h k sc ni m data p).1 ≠ 0 ∧ (urtwm_tx_raw h k sc ni m data p).2 = sc) := by
  unfold urtwm_tx_raw
  simp only
  split
  · split
    · right; simp [ENOBUFS]
    · split
      · split
        · left; simp [tx_ids_tx_start]
        · right; simp [EINVAL]
      · left; simp [tx_ids_tx_start]
  · left; simp [tx_ids_tx_start]

theorem tx_ids_snd (sc : urtwm_softc) (q : List mbuf) :
    tx_ids { sc with sc_snd := q } = tx_ids sc := rfl

theorem tx_ids_start_loop (h : urtwm_hdr) (k : kernel) (l : List mbuf) :
    ∀ sc : urtwm_softc, tx_ids (urtwm_start_loop h k l sc) = tx_ids sc := by
  induction l with
  | nil => intro sc; rfl
  | cons m q ih =>
    intro sc
    rw [urtwm_start_loop]
    rcases tx_ids_getbuf { sc with sc_snd := q } with ⟨h1, h2⟩ | ⟨bf, h1, h2⟩
    · have : urtwm_getbuf { sc with sc_snd := q } = (none, { sc with sc_snd := q }) :=
        Prod.ext h1 h2
      rw [this]
      rfl
    · obtain ⟨sc1, hsc1⟩ : ∃ sc1, (urtwm_getbuf { sc with sc_snd := q }).2 = sc1 := ⟨_, rfl⟩
      have hg : urtwm_getbuf { sc with sc_snd := q } = (some bf, sc1) := Prod.ext h1 hsc1
      rw [hsc1] at h2
      rw [hg]
      simp only
      rw [tx_ids_snd] at h2
      rcases tx_data_cases h k sc1 m.rcvif m bf with ⟨e1, e2⟩ | ⟨e1, e2⟩
      · obtain ⟨sc2, hsc2⟩ : ∃ sc2, (urtwm_tx_data h k sc1 m.rcvif m bf).2 = sc2 := ⟨_, rfl⟩
        have ht : urtwm_tx_data h k sc1 m.rcvif m bf = (0, sc2) := Prod.ext e1 hsc2
        rw [ht]
        simp only
        rw [ih, ← hsc2, e2, h2]
      · obtain ⟨e, he⟩ : ∃ e, (urtwm_tx_data h k sc1 m.rcvif m bf).1 = e := ⟨_, rfl⟩
        have ht : urtwm_tx_data h k sc1 m.rcvif m bf = (e, sc1) := Prod.ext he e2
        rw [ht]
        rw [he] at e1
        cases e with
        | zero => exact absurd rfl e1
        | succ e =>
          simp only [tx_ids_call]
          rw [h2]
          simp only [tx_ids, coe_ids_cons]
          abel

theorem tx_ids_start (h : urtwm_hdr) (k : kernel) (sc : urtwm_softc) :
    tx_ids (urtwm_start h k sc) = tx_ids sc :=
  tx_ids_start_loop h k _ sc

theorem tx_ids_txeof (sc : urtwm_softc) (data : urtwm_data) (status : Nat) :
    tx_ids (urtwm_txeof sc data status) = {data.id} + tx_ids sc := by
  unfold urtwm_txeof
  simp only [tx_ids, coe_ids_append, coe_ids_cons, coe_ids_nil, add_zero]
  cases data.ni <;> simp only [call] <;> split <;> abel

theorem tx_ids_tr_setup (sc : urtwm_softc) (xfer : Nat) :
    tx_ids (tx_tr_setup sc xfer) = tx_ids sc := by
  unfold tx_tr_setup
  cases hq : sc.sc_tx_pending with
  | nil => simp [tx_ids, hq]
  | cons d rest =>
    simp only [call, tx_ids, hq, coe_ids_append, coe_ids_cons, coe_ids_nil, add_zero]
    abel

theorem tx_ids_switch (sc : urtwm_softc) (xfer : Nat) (st : usb_state) (error : Nat) :
    tx_ids (tx_callback_switch sc xfer st error) = tx_ids sc := by
  unfold tx_callback_switch
  cases st with
  | USB_ST_SETUP => simp [tx_ids_tr_setup]
  | USB_ST_TRANSFERRED =>
    cases hq : sc.sc_tx_active with
    | nil => simp [tx_ids_tr_setup]
    | cons d rest =>
      simp only [tx_ids_tr_setup, tx_ids_txeof]
      simp only [tx_ids, hq, coe_ids_cons]
      abel
  | USB_ST_ERROR =>
    cases hq : sc.sc_tx_active with
    | nil => simp [tx_ids_tr_setup]
    | cons d rest =>
      simp only
      split
      · simp only [tx_ids_tr_setup, tx_ids_txeof, tx_ids_call]
        simp only [tx_ids, hq, coe_ids_cons]
        abel
      · simp only [tx_ids_tr_setup, tx_ids_txeof, tx_ids_call]
        simp only [tx_ids, hq, coe_ids_cons]
        abel

theorem tx_ids_bulk_tx_callback (h : urtwm_hdr) (k : kernel) (sc : urtwm_softc) (xfer : Nat)
    (st : usb_state) (error : Nat) :
    tx_ids (urtwm_bulk_tx_callback h k sc xfer st error) = tx_ids sc := by
  unfold urtwm_bulk_tx_callback
  rw [tx_ids_start, tx_ids_switch]

theorem tx_ids_tx_beacon (h : urtwm_hdr) (sc : urtwm_softc) (bcn : mbuf) :
    tx_ids (urtwm_tx_beacon h sc bcn).2 = tx_ids sc := by
  unfold urtwm_tx_beacon
  rcases tx_ids_getbuf sc with ⟨h1, h2⟩ | ⟨bf, h1, h2⟩
  · have : urtwm_getbuf sc = (none, sc) := Prod.ext h1 h2
    rw [this]
  · obtain ⟨sc1, hsc1⟩ : ∃ sc1, (urtwm_getbuf sc).2 = sc1 := ⟨_, rfl⟩
    have hg : urtwm_getbuf sc = (some bf, sc1) := Prod.ext h1 hsc1
    rw [hsc1] at h2
    rw [hg]
    simp only [tx_ids_tx_start]
    exact h2.symm

theorem tx_ids_raw_xmit (h : urtwm_hdr) (k : kernel) (sc : urtwm_softc) (ni : Nat) (m : mbuf)
    (params : Option ieee80211_bpf_params) :
    tx_ids (urtwm_raw_xmit h k sc ni m params).2 = tx_ids sc := by
  unfold urtwm_raw_xmit
  split
  · rfl
  · rcases tx_ids_getbuf sc with ⟨h1, h2⟩ | ⟨bf, h1, h2⟩
    · have : urtwm_getbuf sc = (none, sc) := Prod.ext h1 h2
      rw [this]
      rfl
    · obtain ⟨sc1, hsc1⟩ : ∃ sc1, (urtwm_getbuf sc).2 = sc1 := ⟨_, rfl⟩
      have hg : urtwm_getbuf sc = (some bf, sc1) := Prod.ext h1 hsc1
      rw [hsc1] at h2
      rw [hg]
      simp only
      have key : ∀ r : Nat × urtwm_softc,
          ((r.1 = 0 ∧ tx_ids r.2 = {bf.id} + tx_ids sc1) ∨ (r.1 ≠ 0 ∧ r.2 = sc1)) →
          tx_ids (if r.1 ≠ 0 then
            (r.1, call { r.2 with sc_tx_inactive := bf :: r.2.sc_tx_inactive } (kcall.m_freem m))
            else (r.1, r.2)).2 = tx_ids sc := by
        intro r hr
        rcases hr with ⟨e1, e2⟩ | ⟨e1, e2⟩
        · simp [e1, e2, h2]
        · simp only [e1, ne_eq, not_false_eq_true, if_true, tx_ids_call, e2]
          rw [h2]
          simp only [tx_ids, coe_ids_cons]
          abel
      cases params with
      | none => exact key _ (tx_data_cases h k sc1 ni m bf)
      | some p => exact key _ (tx_raw_cases h k sc1 ni m bf p)

theorem tx_ids_step (h : urtwm_hdr) (k : kernel) (sc : urtwm_softc) (op : tx_op) :
    tx_ids (tx_step h k sc op) = tx_ids sc := by
  cases op with
  | start => exact tx_ids_start h k sc
  | raw_xmit ni m params => exact tx_ids_raw_xmit h k sc ni m params
  | tx_beacon bcn => exact tx_ids_tx_beacon h sc bcn
  | bulk_tx_callback xfer st error => exact tx_ids_bulk_tx_callback h k sc xfer st error

theorem tx_ids_run (h : urtwm_hdr) (k : kernel) (ops : List tx_op) :
    ∀ sc : urtwm_softc, tx_ids (tx_run h k sc ops) = tx_ids sc := by
  induction ops with
  | nil => intro sc; rfl
  | cons op ops ih =>
    intro sc
    simp only [tx_run, List.foldl_cons] at ih ⊢
    rw [ih, tx_ids_step]

theorem tx_ids_alloc (h : urtwm_hdr) (k : kernel) (sc0 : urtwm_softc)
    (halloc : (urtwm_alloc_tx_list h k sc0).1 = 0) :
    tx_ids (urtwm_alloc_tx_list h k sc0).2 = (List.range h.URTWM_TX_LIST_COUNT : Multiset Nat) ∧
    (urtwm_alloc_tx_list h k sc0).2.sc_tx_active = [] ∧
    (urtwm_alloc_tx_list h k sc0).2.sc_tx_pending = [] := by
  unfold urtwm_alloc_tx_list at halloc ⊢
  simp only at halloc ⊢
  split
  · rename_i he
    rw [if_pos he] at halloc
    exact absurd halloc he
  · refine ⟨?_, rfl, rfl⟩
    simp only [tx_ids, ids_alloc_fold, coe_ids_nil, add_zero]

/-- C1 (TX buffer pool conservation).  From the state built by a successful
`urtwm_alloc_tx_list` (active and pending empty), after any finite sequence of
`urtwm_start`, `urtwm_raw_xmit`, `urtwm_tx_beacon` and `urtwm_bulk_tx_callback` (any
USB state, any error code, any kernel answers), every descriptor index below
`URTWM_TX_LIST_COUNT` occurs exactly once in the three queues taken together, no other
index occurs, and the three queue lengths sum to `URTWM_TX_LIST_COUNT`. -/
theorem tx_pool_conservation (h : urtwm_hdr) (k : kernel) (sc0 : urtwm_softc)
    (ops : List tx_op) (halloc : (urtwm_alloc_tx_list h k sc0).1 = 0) :
    (urtwm_alloc_tx_list h k sc0).2.sc_tx_active = [] ∧
    (urtwm_alloc_tx_list h k sc0).2.sc_tx_pending = [] ∧
    (urtwm_alloc_tx_list h k sc0).2.sc_tx_inactive.length = h.URTWM_TX_LIST_COUNT ∧
    (∀ i, i < h.URTWM_TX_LIST_COUNT →
      (ids (tx_run h k (urtwm_alloc_tx_list h k sc0).2 ops).sc_tx_inactive).count i +
      (ids (tx_run h k (urtwm_alloc_tx_list h k sc0).2 ops).sc_tx_active).count i +
      (ids (tx_run h k (urtwm_alloc_tx_list h k sc0).2 ops).sc_tx_pending).count i = 1) ∧
    (∀ i, h.URTWM_TX_LIST_COUNT ≤ i →
      (ids (tx_run h k (urtwm_alloc_tx_list h k sc0).2 ops).sc_tx_inactive).count i +
      (ids (tx_run h k (urtwm_alloc_tx_list h k sc0).2 ops).sc_tx_active).count i +
      (ids (tx_run h k (urtwm_alloc_tx_list h k sc0).2 ops).sc_tx_pending).count i = 0) ∧
    (tx_run h k (urtwm_alloc_tx_list h k sc0).2 ops).sc_tx_inactive.length +
      (tx_run h k (urtwm_alloc_tx_list h k sc0).2 ops).sc_tx_active.length +
      (tx_run h k (urtwm_alloc_tx_list h k sc0).2 ops).sc_tx_pending.length =
        h.URTWM_TX_LIST_COUNT := by
  obtain ⟨h0, ha, hp⟩ := tx_ids_alloc h k sc0 halloc
  have hrun := tx_ids_run h k ops (urtwm_alloc_tx_list h k sc0).2
  rw [h0] at hrun
  have hcount : ∀ i,
      (ids (tx_run h k (urtwm_alloc_tx_list h k sc0).2 ops).sc_tx_inactive).count i +
      (ids (tx_run h k (urtwm_alloc_tx_list h k sc0).2 ops).sc_tx_active).count i +
      (ids (tx_run h k (urtwm_alloc_tx_list h k sc0).2 ops).sc_tx_pending).count i =
      (List.range h.URTWM_TX_LIST_COUNT).count i := by
    intro i
    have := congrArg (Multiset.count i) hrun
    simpa only [tx_ids, Multiset.count_add, Multiset.coe_count] using this
  have hlen0 := congrArg Multiset.card h0
  have hlen := congrArg Multiset.card hrun
  simp only [tx_ids, Multiset.card_add, Multiset.coe_card, ids, List.length_map,
    List.length_range, ha, hp, List.length_nil, add_zero] at hlen hlen0
  refine ⟨ha, hp, hlen0, ?_, ?_, hlen⟩
  · intro i hi
    rw [hcount i]
    exact List.count_eq_one_of_mem (List.nodup_range _) (List.mem_range.mpr hi)
  · intro i hi
    rw [hcount i]
    exact List.count_eq_zero_of_not_mem (by simp [List.mem_range]; omega)

theorem tx_pool_conservation_witness :
    (urtwm_alloc_tx_list sample_hdr sample_kernel (softc_zero 4 4)).1 = 0 ∧
    (tx_run sample_hdr sample_kernel
        (urtwm_alloc_tx_list sample_hdr sample_kernel (softc_zero 4 4)).2
        [tx_op.tx_beacon (sample_frame 0 1),
          tx_op.bulk_tx_callback 4 usb_state.USB_ST_SETUP 0,
          tx_op.raw_xmit 1 (sample_frame 1 1) none,
          tx_op.bulk_tx_callback 4 usb_state.USB_ST_ERROR 7,
          tx_op.start]).sc_tx_inactive.length +
      (tx_run sample_hdr sample_kernel
        (urtwm_alloc_tx_list sample_hdr sample_kernel (softc_zero 4 4)).2
        [tx_op.tx_beacon (sample_frame 0 1),
          tx_op.bulk_tx_callback 4 usb_state.USB_ST_SETUP 0,
          tx_op.raw_xmit 1 (sample_frame 1 1) none,
          tx_op.bulk_tx_callback 4 usb_state.USB_ST_ERROR 7,
          tx_op.start]).sc_tx_active.length +
      (tx_run sample_hdr sample_kernel
        (urtwm_alloc_tx_list sample_hdr sample_kernel (softc_zero 4 4)).2
        [tx_op.tx_beacon (sample_frame 0 1),
          tx_op.bulk_tx_callback 4 usb_state.USB_ST_SETUP 0,
          tx_op.raw_xmit 1 (sample_frame 1 1) none,
          tx_op.bulk_tx_callback 4 usb_state.USB_ST_ERROR 7,
          tx_op.start]).sc_tx_pending.length = 4 :=
  ⟨by decide, (tx_pool_conservation sample_hdr sample_kernel (softc_zero 4 4) _
    (by decide)).2.2.2.2.2⟩

/-! ## Termination of the RX parser and frame conditions -/

theorem counters_only_refl (sc : urtwm_softc) : counters_only sc sc := rfl

theorem counters_only_trans {a b c : urtwm_softc} (h1 : counters_only a b)
    (h2 : counters_only b c) : counters_only a c := by
  unfold counters_only at *
  rw [h2, h1]

theorem rx_copy_counters (h : urtwm_hdr) (k : kernel) (sc : urtwm_softc) (buf : List Nat)
    (stat totlen : Nat) : counters_only sc (urtwm_rx_copy_to_mbuf h k sc buf stat totlen).2 := by
  unfold urtwm_rx_copy_to_mbuf
  simp only
  split
  · rfl
  · split
    · rfl
    · split
      · rfl
      · split <;> rfl

theorem roundup2_8_ge (x : Nat) : x ≤ roundup2_8 x := by
  unfold roundup2_8
  omega

theorem rxeof_loop_total (h : urtwm_hdr) (k : kernel) (buf : List Nat) :
    ∀ (fuel : Nat) (sc : urtwm_softc) (off : Nat) (len : Int) (chain : List mbuf),
      len ≤ fuel →
      ∃ r, urtwm_rxeof_loop h k (fuel + 1) sc buf off len chain = some r ∧
        counters_only sc r.2 := by
  intro fuel
  induction fuel with
  | zero =>
    intro sc off len chain hlen
    rw [urtwm_rxeof_loop]
    simp only
    generalize MS (le32_at buf off) h.R92C_RXDW0_PKTLEN_M h.R92C_RXDW0_PKTLEN_S = pktlen
    generalize MS (le32_at buf off) h.R92C_RXDW0_INFOSZ_M h.R92C_RXDW0_INFOSZ_S = infosz
    split
    · split
      · exact ⟨_, rfl, rfl⟩
      · split
        · exact ⟨_, rfl, rfl⟩
        · rename_i hp ht
          exfalso
          push_cast at ht hlen
          omega
    · exact ⟨_, rfl, rfl⟩
  | succ fuel ih =>
    intro sc off len chain hlen
    rw [urtwm_rxeof_loop]
    simp only
    generalize MS (le32_at buf off) h.R92C_RXDW0_PKTLEN_M h.R92C_RXDW0_PKTLEN_S = pktlen
    generalize MS (le32_at buf off) h.R92C_RXDW0_INFOSZ_M h.R92C_RXDW0_INFOSZ_S = infosz
    split
    · split
      · exact ⟨_, rfl, rfl⟩
      · split
        · exact ⟨_, rfl, rfl⟩
        · rename_i hp ht
          have hr := roundup2_8_ge (h.sizeof_rx_stat + infosz * 8 + pktlen)
          have hlen1 : len - ((if ((h.sizeof_rx_stat + infosz * 8 + pktlen : Nat) : Int) < len
              then roundup2_8 (h.sizeof_rx_stat + infosz * 8 + pktlen)
              else h.sizeof_rx_stat + infosz * 8 + pktlen : Nat) : Int) ≤ (fuel : Int) := by
            split <;> push_cast at ht hlen ⊢ <;> omega
          obtain ⟨r, hr1, hr2⟩ := ih
            (urtwm_rx_copy_to_mbuf h k sc buf off (h.sizeof_rx_stat + infosz * 8 + pktlen)).2
            (off + (if ((h.sizeof_rx_stat + infosz * 8 + pktlen : Nat) : Int) < len
              then roundup2_8 (h.sizeof_rx_stat + infosz * 8 + pktlen)
              else h.sizeof_rx_stat + infosz * 8 + pktlen))
            _
            (match (urtwm_rx_copy_to_mbuf h k sc buf off
                (h.sizeof_rx_stat + infosz * 8 + pktlen)).1 with
              | some m => chain ++ [m]
              | none => chain) hlen1
          exact ⟨r, hr1, counters_only_trans (rx_copy_counters _ _ _ _ _ _) hr2⟩
    · exact ⟨_, rfl, rfl⟩

theorem rxeof_total (h : urtwm_hdr) (k : kernel) (sc : urtwm_softc) (buf : List Nat)
    (len : Int) :
    ∃ r, urtwm_rxeof h k sc buf len = some r ∧ counters_only sc r.2 := by
  unfold urtwm_rxeof
  exact rxeof_loop_total h k buf len.toNat sc 0 len [] (Int.self_le_toNat len)

theorem report_intr_total (h : urtwm_hdr) (k : kernel) (sc : urtwm_softc) (buf : List Nat)
    (len : Nat) :
    ∃ r, urtwm_report_intr h k sc buf len = some r ∧ counters_only sc r.2 := by
  unfold urtwm_report_intr
  split
  · exact ⟨_, rfl, rfl⟩
  · exact rxeof_total h k sc buf len

theorem tx_side_refl (sc : urtwm_softc) : tx_side sc sc :=
  ⟨rfl, rfl, [], by simp, by simp⟩

theorem tx_side_trans {a b c : urtwm_softc} (h1 : tx_side a b) (h2 : tx_side b c) :
    tx_side a c := by
  obtain ⟨a1, a2, t1, a3, a4⟩ := h1
  obtain ⟨b1, b2, t2, b3, b4⟩ := h2
  refine ⟨b1.trans a1, b2.trans a2, t1 ++ t2, ?_, ?_⟩
  · rw [b3, a3, List.append_assoc]
  · intro c hc
    rcases List.mem_append.mp hc with hc | hc
    · exact a4 c hc
    · exact b4 c hc

theorem tx_side_call (sc : urtwm_softc) (c : kcall) (hc : quiet c = true) :
    tx_side sc (call sc c) :=
  ⟨rfl, rfl, [c], rfl, by simpa using hc⟩

theorem tx_side_tx_start (h : urtwm_hdr) (sc : urtwm_softc) (m : mbuf) (type : Nat)
    (data : urtwm_data) : tx_side sc (urtwm_tx_start h sc m type data) := by
  unfold urtwm_tx_start
  exact ⟨rfl, rfl, [_], rfl, by simp [quiet]⟩

theorem tx_side_tx_data (h : urtwm_hdr) (k : kernel) (sc : urtwm_softc) (ni : Nat) (m : mbuf)
    (data : urtwm_data) : tx_side sc (urtwm_tx_data h k sc ni m data).2 := by
  unfold urtwm_tx_data
  simp only
  split
  · split
    · exact tx_side_refl sc
    · split
      · split
        · exact tx_side_tx_start _ _ _ _ _
        · exact tx_side_refl sc
      · exact tx_side_tx_start _ _ _ _ _
  · exact tx_side_tx_start _ _ _ _ _

theorem tx_side_start_loop (h : urtwm_hdr) (k : kernel) (l : List mbuf) :
    ∀ sc : urtwm_softc, tx_side sc (urtwm_start_loop h k l sc) := by
  induction l with
  | nil => intro sc; exact ⟨rfl, rfl, [], by simp [urtwm_start_loop], by simp⟩
  | cons m q ih =>
    intro sc
    rw [urtwm_start_loop]
    unfold urtwm_getbuf _urtwm_getbuf
    cases hq : sc.sc_tx_inactive with
    | nil => simp only [hq]; exact ⟨rfl, rfl, [], by simp, by simp⟩
    | cons bf rest =>
      simp only [hq]
      have h1 : tx_side sc { sc with sc_snd := q, sc_tx_inactive := rest } :=
        ⟨rfl, rfl, [], by simp, by simp⟩
      have h2 := tx_side_tx_data h k { sc with sc_snd := q, sc_tx_inactive := rest } m.rcvif m bf
      obtain ⟨e, sc2, he⟩ : ∃ e sc2,
          urtwm_tx_data h k { sc with sc_snd := q, sc_tx_inactive := rest } m.rcvif m bf
            = (e, sc2) := ⟨_, _, rfl⟩
      rw [he] at h2 ⊢
      cases e with
      | zero => exact tx_side_trans h1 (tx_side_trans h2 (ih sc2))
      | succ e =>
        simp only
        refine tx_side_trans h1 (tx_side_trans h2 ?_)
        exact ⟨rfl, rfl, [kcall.m_freem m, kcall.ieee80211_free_node m.rcvif], by simp [call],
          by simp [quiet]⟩

theorem tx_side_start (h : urtwm_hdr) (k : kernel) (sc : urtwm_softc) :
    tx_side sc (urtwm_start h k sc) :=
  tx_side_start_loop h k _ sc

/-! ## RX buffer pool -/

theorem foldl_input_fields (m : List mbuf) :
    ∀ sc : urtwm_softc,
      (m.foldl (fun s f => call s (kcall.ieee80211_input f)) sc).sc_rx_active = sc.sc_rx_active ∧
      (m.foldl (fun s f => call s (kcall.ieee80211_input f)) sc).sc_rx_inactive
        = sc.sc_rx_inactive ∧
      ∃ t, (m.foldl (fun s f => call s (kcall.ieee80211_input f)) sc).trace = sc.trace ++ t ∧
        ∀ c ∈ t, quiet c = true := by
  induction m with
  | nil => intro sc; exact ⟨rfl, rfl, [], by simp, by simp⟩
  | cons f m ih =>
    intro sc
    simp only [List.foldl_cons]
    obtain ⟨h1, h2, t, h3, h4⟩ := ih (call sc (kcall.ieee80211_input f))
    refine ⟨h1, h2, kcall.ieee80211_input f :: t, ?_, ?_⟩
    · rw [h3]; simp [call]
    · intro c hc
      rcases List.mem_cons.mp hc with hc | hc
      · subst hc; rfl
      · exact h4 c hc

/-- What `tr_setup` of the RX callback does to the queues and the trace. -/
theorem rx_tr_setup_cons (sc : urtwm_softc) (xfer : Nat) (m : List mbuf) (x : urtwm_data)
    (q : List urtwm_data) (hq : sc.sc_rx_inactive = x :: q) :
    (rx_tr_setup sc xfer m).sc_rx_inactive = q ∧
    (rx_tr_setup sc xfer m).sc_rx_active = sc.sc_rx_active ++ [x] ∧
    ∃ t, (rx_tr_setup sc xfer m).trace =
        sc.trace ++ [kcall.usbd_xfer_set_frame_data xfer x.id none,
          kcall.usbd_transfer_submit xfer] ++ t ∧ ∀ c ∈ t, quiet c = true := by
  unfold rx_tr_setup
  simp only [hq]
  obtain ⟨h1, h2, t, h3, h4⟩ := foldl_input_fields m
    (call (call { sc with sc_rx_inactive := q, sc_rx_active := sc.sc_rx_active ++ [x] }
      (kcall.usbd_xfer_set_frame_data xfer x.id none)) (kcall.usbd_transfer_submit xfer))
  refine ⟨h2, h1, t, ?_, h4⟩
  rw [h3]
  simp [call]

theorem rx_tr_setup_nil (sc : urtwm_softc) (xfer : Nat) (m : List mbuf)
    (hq : sc.sc_rx_inactive = []) : rx_tr_setup sc xfer m = sc := by
  unfold rx_tr_setup
  simp only [hq]

theorem rx_ids_tr_setup (sc : urtwm_softc) (xfer : Nat) (m : List mbuf) :
    rx_ids (rx_tr_setup sc xfer m) = rx_ids sc := by
  cases hq : sc.sc_rx_inactive with
  | nil => rw [rx_tr_setup_nil sc xfer m hq]
  | cons x q =>
    obtain ⟨h1, h2, -⟩ := rx_tr_setup_cons sc xfer m x q hq
    simp only [rx_ids, h1, h2, hq, coe_ids_append, coe_ids_cons, coe_ids_nil, add_zero]
    abel

theorem rx_ids_counters {sc sc1 : urtwm_softc} (hc : counters_only sc sc1) :
    rx_ids sc1 = rx_ids sc := by
  unfold counters_only at hc
  rw [hc]
  rfl

theorem rx_switch_total (h : urtwm_hdr) (k : kernel) (sc : urtwm_softc) (xfer : Nat)
    (st : usb_state) (error : Nat) (buf : List Nat) (len : Nat) :
    ∃ sc1, rx_callback_switch h k sc xfer st error buf len = some sc1 ∧
      rx_ids sc1 = rx_ids sc := by
  unfold rx_callback_switch
  cases st with
  | USB_ST_SETUP => exact ⟨_, rfl, rx_ids_tr_setup _ _ _⟩
  | USB_ST_TRANSFERRED =>
    cases hq : sc.sc_rx_active with
    | nil => exact ⟨_, rfl, rx_ids_tr_setup _ _ _⟩
    | cons d rest =>
      simp only
      obtain ⟨r, hr1, hr2⟩ := report_intr_total h k { sc with sc_rx_active := rest } buf len
      rw [hr1]
      refine ⟨_, rfl, ?_⟩
      rw [rx_ids_tr_setup]
      have := rx_ids_counters hr2
      simp only [rx_ids, coe_ids_append, coe_ids_cons, coe_ids_nil, add_zero, hq] at this ⊢
      rw [add_right_comm, this]
      abel
  | USB_ST_ERROR =>
    simp only
    split
    · refine ⟨_, rfl, ?_⟩
      rw [rx_ids_tr_setup]
      cases hq : sc.sc_rx_active with
      | nil => rfl
      | cons d rest =>
        simp only [rx_ids, call, hq, coe_ids_append, coe_ids_cons, coe_ids_nil, add_zero]
        abel
    · refine ⟨_, rfl, ?_⟩
      cases hq : sc.sc_rx_active with
      | nil => rfl
      | cons d rest =>
        simp only [rx_ids, hq, coe_ids_append, coe_ids_cons, coe_ids_nil, add_zero]
        abel

theorem rx_ids_tx_side {sc sc1 : urtwm_softc} (hs : tx_side sc sc1) :
    rx_ids sc1 = rx_ids sc := by
  obtain ⟨h1, h2, -⟩ := hs
  simp only [rx_ids, h1, h2]

theorem rx_callback_total (h : urtwm_hdr) (k : kernel) (sc : urtwm_softc) (xfer : Nat)
    (st : usb_state) (error : Nat) (buf : List Nat) (len : Nat) :
    ∃ sc1, urtwm_bulk_rx_callback h k sc xfer st error buf len = some sc1 ∧
      rx_ids sc1 = rx_ids sc := by
  unfold urtwm_bulk_rx_callback
  obtain ⟨sc1, h1, h2⟩ := rx_switch_total h k sc xfer st error buf len
  rw [h1]
  exact ⟨_, rfl, (rx_ids_tx_side (tx_side_start h k sc1)).trans h2⟩

theorem rx_run_total (h : urtwm_hdr) (k : kernel) (evs : List rx_event) :
    ∀ sc : urtwm_softc, ∃ sc1, rx_run h k sc evs = some sc1 ∧ rx_ids sc1 = rx_ids sc := by
  induction evs with
  | nil => intro sc; exact ⟨sc, rfl, rfl⟩
  | cons e es ih =>
    intro sc
    obtain ⟨sc1, h1, h2⟩ := rx_callback_total h k sc e.xfer e.st e.error e.buf e.len
    obtain ⟨sc2, h3, h4⟩ := ih sc1
    refine ⟨sc2, ?_, h4.trans h2⟩
    rw [rx_run, h1]
    exact h3

theorem rx_ids_alloc (h : urtwm_hdr) (k : kernel) (sc0 : urtwm_softc)
    (halloc : (urtwm_alloc_rx_list h k sc0).1 = 0) :
    rx_ids (urtwm_alloc_rx_list h k sc0).2 = (List.range h.URTWM_RX_LIST_COUNT : Multiset Nat) ∧
    (urtwm_alloc_rx_list h k sc0).2.sc_rx_active = [] := by
  unfold urtwm_alloc_rx_list at halloc ⊢
  simp only at halloc ⊢
  split
  · rename_i he
    rw [if_pos he] at halloc
    exact absurd halloc he
  · refine ⟨?_, rfl⟩
    simp only [rx_ids, ids_alloc_fold, coe_ids_nil, add_zero]

/-- The completed-transfer step of the RX callback on a non-empty active queue. -/
theorem rx_transferred_step (h : urtwm_hdr) (k : kernel) (sc : urtwm_softc) (xfer error : Nat)
    (buf : List Nat) (len : Nat) (d x : urtwm_data) (rest q : List urtwm_data)
    (ha : sc.sc_rx_active = d :: rest) (hq : sc.sc_rx_inactive ++ [d] = x :: q) :
    ∃ sc1, urtwm_bulk_rx_callback h k sc xfer usb_state.USB_ST_TRANSFERRED error buf len
        = some sc1 ∧
      sc1.sc_rx_inactive = q ∧ sc1.sc_rx_active = rest ++ [x] ∧
      (sc.trace ++ [kcall.usbd_xfer_set_frame_data xfer x.id none,
          kcall.usbd_transfer_submit xfer]) <+: sc1.trace := by
  unfold urtwm_bulk_rx_callback rx_callback_switch
  simp only [ha]
  obtain ⟨r, hr1, hr2⟩ := report_intr_total h k { sc with sc_rx_active := rest } buf len
  rw [hr1]
  simp only [Option.map_some']
  have hi : ({ r.2 with sc_rx_inactive := r.2.sc_rx_inactive ++ [d] } : urtwm_softc).sc_rx_inactive
      = x :: q := by
    unfold counters_only at hr2
    rw [hr2]
    exact hq
  obtain ⟨h1, h2, t, h3, -⟩ := rx_tr_setup_cons
    { r.2 with sc_rx_inactive := r.2.sc_rx_inactive ++ [d] } xfer r.1 x q hi
  obtain ⟨s1, s2, t2, s3, -⟩ := tx_side_start h k
    (rx_tr_setup { r.2 with sc_rx_inactive := r.2.sc_rx_inactive ++ [d] } xfer r.1)
  refine ⟨_, rfl, s2.trans h1, ?_, ?_⟩
  · rw [s1, h2]
    unfold counters_only at hr2
    rw [hr2]
  · rw [s3, h3]
    have : ({ r.2 with sc_rx_inactive := r.2.sc_rx_inactive ++ [d] } : urtwm_softc).trace
        = sc.trace := by
      unfold counters_only at hr2
      rw [hr2]
    rw [this]
    exact ⟨t ++ t2, by simp⟩


/-- C2 (RX buffer pool conservation).  From the state built by a successful
`urtwm_alloc_rx_list` (active empty, all descriptors inactive), every finite sequence of
`urtwm_bulk_rx_callback` invocations (state TRANSFERRED, SETUP or error, cancelled or
not, any buffer content) returns, and afterwards every descriptor index below
`URTWM_RX_LIST_COUNT` occurs exactly once in `sc_rx_inactive` and `sc_rx_active` taken
together, no other index occurs and the two lengths sum to `URTWM_RX_LIST_COUNT`.
Moreover, in any state, a completed transfer with an active buffer `d` appends `d` to
the inactive queue first: the buffer armed next is the head `x` of
`sc_rx_inactive ++ [d]`, which moves to the tail of the active queue. -/
theorem rx_pool_conservation (h : urtwm_hdr) (k : kernel) (sc0 : urtwm_softc)
    (evs : List rx_event) (halloc : (urtwm_alloc_rx_list h k sc0).1 = 0) :
    (urtwm_alloc_rx_list h k sc0).2.sc_rx_active = [] ∧
    (urtwm_alloc_rx_list h k sc0).2.sc_rx_inactive.length = h.URTWM_RX_LIST_COUNT ∧
    (∃ sc, rx_run h k (urtwm_alloc_rx_list h k sc0).2 evs = some sc ∧
      (∀ i, i < h.URTWM_RX_LIST_COUNT →
        (ids sc.sc_rx_inactive).count i + (ids sc.sc_rx_active).count i = 1) ∧
      (∀ i, h.URTWM_RX_LIST_COUNT ≤ i →
        (ids sc.sc_rx_inactive).count i + (ids sc.sc_rx_active).count i = 0) ∧
      sc.sc_rx_inactive.length + sc.sc_rx_active.length = h.URTWM_RX_LIST_COUNT) ∧
    (∀ (sc : urtwm_softc) (xfer error : Nat) (buf : List Nat) (len : Nat)
        (d x : urtwm_data) (rest q : List urtwm_data),
      sc.sc_rx_active = d :: rest → sc.sc_rx_inactive ++ [d] = x :: q →
      ∃ sc1, urtwm_bulk_rx_callback h k sc xfer usb_state.USB_ST_TRANSFERRED error buf len
          = some sc1 ∧
        sc1.sc_rx_inactive = q ∧ sc1.sc_rx_active = rest ++ [x] ∧
        (sc.trace ++ [kcall.usbd_xfer_set_frame_data xfer x.id none,
            kcall.usbd_transfer_submit xfer]) <+: sc1.trace) := by
  obtain ⟨h0, ha⟩ := rx_ids_alloc h k sc0 halloc
  obtain ⟨sc, hrun, hids⟩ := rx_run_total h k evs (urtwm_alloc_rx_list h k sc0).2
  rw [h0] at hids
  have hcount : ∀ i, (ids sc.sc_rx_inactive).count i + (ids sc.sc_rx_active).count i =
      (List.range h.URTWM_RX_LIST_COUNT).count i := by
    intro i
    have := congrArg (Multiset.count i) hids
    simpa only [rx_ids, Multiset.count_add, Multiset.coe_count] using this
  have hlen0 := congrArg Multiset.card h0
  have hlen := congrArg Multiset.card hids
  simp only [rx_ids, Multiset.card_add, Multiset.coe_card, ids, List.length_map,
    List.length_range, ha, List.length_nil, add_zero] at hlen hlen0
  refine ⟨ha, hlen0, ⟨sc, hrun, ?_, ?_, hlen⟩, ?_⟩
  · intro i hi
    rw [hcount i]
    exact List.count_eq_one_of_mem (List.nodup_range _) (List.mem_range.mpr hi)
  · intro i hi
    rw [hcount i]
    exact List.count_eq_zero_of_not_mem (by simp [List.mem_range]; omega)
  · intro sc xfer error buf len d x rest q h1 h2
    exact rx_transferred_step h k sc xfer error buf len d x rest q h1 h2

theorem rx_pool_conservation_witness :
    (urtwm_alloc_rx_list sample_hdr sample_kernel (softc_zero 4 4)).1 = 0 ∧
    ∃ sc, rx_run sample_hdr sample_kernel
        (urtwm_alloc_rx_list sample_hdr sample_kernel (softc_zero 4 4)).2
        [⟨0, usb_state.USB_ST_SETUP, 0, [], 0⟩,
          ⟨0, usb_state.USB_ST_TRANSFERRED, 0, [1, 2, 3], 3⟩,
          ⟨0, usb_state.USB_ST_ERROR, 5, [], 0⟩] = some sc ∧
      sc.sc_rx_inactive.length + sc.sc_rx_active.length = 2 :=
  ⟨by decide,
    (rx_pool_conservation sample_hdr sample_kernel (softc_zero 4 4)
      [⟨0, usb_state.USB_ST_SETUP, 0, [], 0⟩,
        ⟨0, usb_state.USB_ST_TRANSFERRED, 0, [1, 2, 3], 3⟩,
        ⟨0, usb_state.USB_ST_ERROR, 5, [], 0⟩] (by decide)).2.2.1.imp
      (fun _ hsc => ⟨hsc.1, hsc.2.2.2⟩)⟩

/-! ## Command queue -/

theorem mod_add_ne_self (a j n : Nat) (ha : a < n) (hj0 : 0 < j) (hjn : j < n) :
    (a + j) % n ≠ a := by
  intro he
  by_cases hlt : a + j < n
  · rw [Nat.mod_eq_of_lt hlt] at he
    omega
  · have h1 : (a + j) % n = a + j - n := by
      rw [Nat.mod_eq_sub_mod (by omega)]
      exact Nat.mod_eq_of_lt (by omega)
    rw [h1] at he
    omega

theorem mod_succ_shift (a i n : Nat) : ((a + 1) % n + i) % n = (a + (i + 1)) % n := by
  rw [Nat.mod_add_mod]
  congr 1
  omega

theorem getD_set_eq (q : List urtwm_cmdq) (i : Nat) (x d : urtwm_cmdq) (hi : i < q.length) :
    (q.set i x).getD i d = x := by
  simp [List.getD_eq_getElem?_getD, hi]

theorem getD_set_ne (q : List urtwm_cmdq) (i j : Nat) (x d : urtwm_cmdq) (hij : i ≠ j) :
    (q.set i x).getD j d = q.getD j d := by
  simp [List.getD_eq_getElem?_getD, List.getElem?_set_ne hij]

theorem cmd_sleepable_free (h : urtwm_hdr) (sc : urtwm_softc) (r : cmd_req)
    (hfree : (cmdq_at h sc sc.cmdq_last).func = none) :
    urtwm_cmd_sleepable h sc r.ptr r.len (some r.func) =
      (0, call
        { sc with
            cmdq := sc.cmdq.set sc.cmdq_last (cmd_slot (cmdq_at h sc sc.cmdq_last).data r)
            cmdq_last := (sc.cmdq_last + 1) % h.URTWM_CMDQ_SIZE }
        kcall.ieee80211_runtask) := by
  unfold urtwm_cmd_sleepable
  rw [if_neg (by simp [hfree])]
  rfl

theorem cmd_sleepable_full (h : urtwm_hdr) (sc : urtwm_softc) (ptr : Option (List Nat))
    (len : Nat) (func : Option Nat) (hfull : (cmdq_at h sc sc.cmdq_last).func ≠ none) :
    urtwm_cmd_sleepable h sc ptr len func = (EAGAIN, sc) := by
  unfold urtwm_cmd_sleepable
  rw [if_pos hfull]

theorem submit_all_spec (h : urtwm_hdr) (rs : List cmd_req) :
    ∀ sc : urtwm_softc, sc.cmdq.length = h.URTWM_CMDQ_SIZE →
      sc.cmdq_last < h.URTWM_CMDQ_SIZE → rs.length ≤ h.URTWM_CMDQ_SIZE →
      (∀ i, i < rs.length →
        (cmdq_at h sc ((sc.cmdq_last + i) % h.URTWM_CMDQ_SIZE)).func = none) →
      (cmd_submit_all h sc rs).1 = List.replicate rs.length 0 ∧
      (cmd_submit_all h sc rs).2.cmdq.length = h.URTWM_CMDQ_SIZE ∧
      (cmd_submit_all h sc rs).2.cmdq_last = (sc.cmdq_last + rs.length) % h.URTWM_CMDQ_SIZE ∧
      (cmd_submit_all h sc rs).2.cmdq_first = sc.cmdq_first ∧
      (cmd_submit_all h sc rs).2.sc_flags = sc.sc_flags ∧
      (∀ i r, rs[i]? = some r →
        cmdq_at h (cmd_submit_all h sc rs).2 ((sc.cmdq_last + i) % h.URTWM_CMDQ_SIZE) =
          cmd_slot (cmdq_at h sc ((sc.cmdq_last + i) % h.URTWM_CMDQ_SIZE)).data r) ∧
      (∀ j, (∀ i, i < rs.length → j ≠ (sc.cmdq_last + i) % h.URTWM_CMDQ_SIZE) →
        cmdq_at h (cmd_submit_all h sc rs).2 j = cmdq_at h sc j) := by
  induction rs with
  | nil =>
    intro sc hlen hlast _ _
    refine ⟨rfl, hlen, ?_, rfl, rfl, ?_, ?_⟩
    · simp [cmd_submit_all, Nat.mod_eq_of_lt hlast]
    · intro i r hr; simp at hr
    · intro j _; rfl
  | cons r rs ih =>
    intro sc hlen hlast hrs hfree
    have hn : 0 < h.URTWM_CMDQ_SIZE := by omega
    have hl0 : (sc.cmdq_last + 0) % h.URTWM_CMDQ_SIZE = sc.cmdq_last := by
      rw [Nat.add_zero, Nat.mod_eq_of_lt hlast]
    have hfree0 : (cmdq_at h sc sc.cmdq_last).func = none := by
      have := hfree 0 (by simp)
      rwa [hl0] at this
    simp only [List.length_cons] at hrs hfree
    rw [cmd_submit_all, cmd_sleepable_free h sc r hfree0]
    simp only
    set sc1 : urtwm_softc := call
        { sc with
            cmdq := sc.cmdq.set sc.cmdq_last (cmd_slot (cmdq_at h sc sc.cmdq_last).data r)
            cmdq_last := (sc.cmdq_last + 1) % h.URTWM_CMDQ_SIZE }
        kcall.ieee80211_runtask with hsc1
    have e_last : sc1.cmdq_last = (sc.cmdq_last + 1) % h.URTWM_CMDQ_SIZE := rfl
    have e_at_ne : ∀ j, j ≠ sc.cmdq_last → cmdq_at h sc1 j = cmdq_at h sc j := by
      intro j hj
      simp only [hsc1, cmdq_at, call]
      exact getD_set_ne _ _ _ _ _ (Ne.symm hj)
    have e_at_eq : cmdq_at h sc1 sc.cmdq_last
        = cmd_slot (cmdq_at h sc sc.cmdq_last).data r := by
      simp only [hsc1, cmdq_at, call]
      exact getD_set_eq _ _ _ _ (by rw [hlen]; exact hlast)
    have hpos : ∀ i, i < rs.length →
        (sc1.cmdq_last + i) % h.URTWM_CMDQ_SIZE ≠ sc.cmdq_last := by
      intro i hi
      rw [e_last, mod_succ_shift]
      exact mod_add_ne_self _ _ _ hlast (by omega) (by omega)
    obtain ⟨c1, c2, c3, c4, c5, c6, c7⟩ := ih sc1 (by simp [hsc1, call, hlen])
      (by rw [e_last]; exact Nat.mod_lt _ hn) (by omega) (by
        intro i hi
        rw [e_at_ne _ (hpos i hi), e_last, mod_succ_shift]
        exact hfree (i + 1) (by omega))
    refine ⟨?_, c2, ?_, ?_, ?_, ?_, ?_⟩
    · rw [c1]; rfl
    · rw [c3, e_last, mod_succ_shift]; rfl
    · rw [c4]; rfl
    · rw [c5]; rfl
    · intro i r1 hr1
      cases i with
      | zero =>
        simp only [List.getElem?_cons_zero, Option.some.injEq] at hr1
        subst hr1
        rw [hl0, c7 _ (fun i hi => (hpos i hi).symm), e_at_eq]
      | succ i =>
        simp only [List.getElem?_cons_succ] at hr1
        have hi : i < rs.length := by
          by_contra hc
          rw [List.getElem?_eq_none (by omega)] at hr1
          exact absurd hr1 (by simp)
        have := c6 i r1 hr1
        rw [e_at_ne _ (hpos i hi), e_last, mod_succ_shift] at this
        exact this
    · intro j hj
      have hj0 : j ≠ sc.cmdq_last := by
        have := hj 0 (by simp)
        rwa [hl0] at this
      rw [c7 j (by
        intro i hi
        rw [e_last, mod_succ_shift]
        exact hj (i + 1) (by simp only [List.length_cons]; omega)), e_at_ne j hj0]

theorem cmdq_loop_none (h : urtwm_hdr) (fuel : Nat) (sc : urtwm_softc)
    (hf : (cmdq_at h sc sc.cmdq_first).func = none) :
    urtwm_cmdq_loop h fuel sc = some sc := by
  unfold urtwm_cmdq_loop
  simp only [hf]

theorem cmdq_loop_some (h : urtwm_hdr) (fuel : Nat) (sc : urtwm_softc) (f : Nat)
    (hf : (cmdq_at h sc sc.cmdq_first).func = some f) :
    urtwm_cmdq_loop h (fuel + 1) sc =
      urtwm_cmdq_loop h fuel
        { sc with
            cmdq_first := (sc.cmdq_first + 1) % h.URTWM_CMDQ_SIZE
            trace := sc.trace ++ [kcall.cmd_func f (cmdq_at h sc sc.cmdq_first).data]
            cmdq := sc.cmdq.set sc.cmdq_first (cmdq_zero h) } := by
  conv_lhs => unfold urtwm_cmdq_loop
  simp only [hf]
  rfl

theorem cmdq_loop_spec (h : urtwm_hdr) (cmds : List (Nat × List Nat)) :
    ∀ (fuel : Nat) (sc : urtwm_softc), holds_cmds h sc cmds → cmds.length ≤ fuel →
      ∃ sc1, urtwm_cmdq_loop h fuel sc = some sc1 ∧
        sc1.trace = sc.trace ++ cmds.map (fun c => kcall.cmd_func c.1 c.2) ∧
        (∀ j, (cmdq_at h sc1 j).func = none) ∧
        sc1.cmdq_first = (sc.cmdq_first + cmds.length) % h.URTWM_CMDQ_SIZE ∧
        sc1 = { sc with cmdq := sc1.cmdq, cmdq_first := sc1.cmdq_first, trace := sc1.trace } := by
  induction cmds with
  | nil =>
    intro fuel sc hh _
    obtain ⟨h1, h2, h3, h4, h5⟩ := hh
    refine ⟨sc, cmdq_loop_none h fuel sc (h5 _ (by simp)), by simp, ?_, ?_, rfl⟩
    · intro j; exact h5 j (by simp)
    · simp [Nat.mod_eq_of_lt h2]
  | cons c cmds ih =>
    intro fuel sc hh hfuel
    obtain ⟨h1, h2, h3, h4, h5⟩ := hh
    have hn : 0 < h.URTWM_CMDQ_SIZE := by omega
    simp only [List.length_cons] at h3 hfuel
    have hl0 : (sc.cmdq_first + 0) % h.URTWM_CMDQ_SIZE = sc.cmdq_first := by
      rw [Nat.add_zero, Nat.mod_eq_of_lt h2]
    have hslot : cmdq_at h sc sc.cmdq_first = { data := c.2, func := some c.1 } := by
      have := h4 0 c (by simp)
      rwa [hl0] at this
    obtain ⟨fuel1, rfl⟩ : ∃ fuel1, fuel = fuel1 + 1 := ⟨fuel - 1, by omega⟩
    rw [cmdq_loop_some h fuel1 sc c.1 (by rw [hslot])]
    set sc1 : urtwm_softc :=
        { sc with
            cmdq_first := (sc.cmdq_first + 1) % h.URTWM_CMDQ_SIZE
            trace := sc.trace ++ [kcall.cmd_func c.1 (cmdq_at h sc sc.cmdq_first).data]
            cmdq := sc.cmdq.set sc.cmdq_first (cmdq_zero h) } with hsc1
    have e_first : sc1.cmdq_first = (sc.cmdq_first + 1) % h.URTWM_CMDQ_SIZE := rfl
    have e_at_ne : ∀ j, j ≠ sc.cmdq_first → cmdq_at h sc1 j = cmdq_at h sc j := by
      intro j hj
      simp only [hsc1, cmdq_at]
      exact getD_set_ne _ _ _ _ _ (Ne.symm hj)
    have e_at_eq : cmdq_at h sc1 sc.cmdq_first = cmdq_zero h := by
      simp only [hsc1, cmdq_at]
      exact getD_set_eq _ _ _ _ (by rw [h1]; exact h2)
    have hpos : ∀ i, i < cmds.length →
        (sc1.cmdq_first + i) % h.URTWM_CMDQ_SIZE ≠ sc.cmdq_first := by
      intro i hi
      rw [e_first, mod_succ_shift]
      exact mod_add_ne_self _ _ _ h2 (by omega) (by omega)
    have hh1 : holds_cmds h sc1 cmds := by
      refine ⟨by simp [hsc1, h1], by rw [e_first]; exact Nat.mod_lt _ hn, by omega, ?_, ?_⟩
      · intro i c1 hc1
        have hi : i < cmds.length := by
          by_contra hc
          rw [List.getElem?_eq_none (by omega)] at hc1
          exact absurd hc1 (by simp)
        rw [e_at_ne _ (hpos i hi), e_first, mod_succ_shift]
        exact h4 (i + 1) c1 (by simpa using hc1)
      · intro j hj
        by_cases hj0 : j = sc.cmdq_first
        · rw [hj0, e_at_eq]; rfl
        · rw [e_at_ne j hj0]
          apply h5
          intro i hi
          cases i with
          | zero => rw [hl0]; exact hj0
          | succ i =>
            have := hj i (by simp only [List.length_cons] at hi; omega)
            rwa [e_first, mod_succ_shift] at this
    obtain ⟨sc2, r1, r2, r3, r4, r5⟩ := ih fuel1 sc1 hh1 (by omega)
    refine ⟨sc2, r1, ?_, r3, ?_, ?_⟩
    · rw [r2, hsc1, hslot]
      simp
    · rw [r4, e_first, mod_succ_shift]; rfl
    · rw [r5]

theorem cmd_queued_length (h : urtwm_hdr) (sc : urtwm_softc) (l : Nat) (rs : List cmd_req) :
    ∀ i, (cmd_queued h sc l i rs).length = rs.length := by
  induction rs with
  | nil => intro i; rfl
  | cons r rs ih => intro i; simp [cmd_queued, ih]

theorem cmd_queued_get (h : urtwm_hdr) (sc : urtwm_softc) (l : Nat) (rs : List cmd_req) :
    ∀ i j c, (cmd_queued h sc l i rs)[j]? = some c →
      ∃ r, rs[j]? = some r ∧
        c = (r.func, (cmd_slot (cmdq_at h sc ((l + (i + j)) % h.URTWM_CMDQ_SIZE)).data r).data) := by
  induction rs with
  | nil => intro i j c hc; simp [cmd_queued] at hc
  | cons r rs ih =>
    intro i j c hc
    cases j with
    | zero =>
      simp only [cmd_queued, List.getElem?_cons_zero, Option.some.injEq] at hc
      exact ⟨r, by simp, hc.symm⟩
    | succ j =>
      simp only [cmd_queued, List.getElem?_cons_succ] at hc
      obtain ⟨r1, h1, h2⟩ := ih (i + 1) j c hc
      refine ⟨r1, by simpa using h1, ?_⟩
      rw [h2]
      have : i + 1 + j = i + (j + 1) := by omega
      rw [this]

theorem slots_free_of_mem (h : urtwm_hdr) (sc : urtwm_softc)
    (hempty : ∀ s ∈ sc.cmdq, s.func = none) (j : Nat) : (cmdq_at h sc j).func = none := by
  unfold cmdq_at
  rw [List.getD_eq_getElem?_getD]
  cases hj : sc.cmdq[j]? with
  | none => rfl
  | some s => exact hempty s (List.getElem?_mem hj)

theorem mem_free_of_slots (h : urtwm_hdr) (sc : urtwm_softc)
    (hfree : ∀ j, (cmdq_at h sc j).func = none) : ∀ s ∈ sc.cmdq, s.func = none := by
  intro s hs
  obtain ⟨j, hj, hjs⟩ := List.getElem_of_mem hs
  have := hfree j
  unfold cmdq_at at this
  rw [List.getD_eq_getElem?_getD, List.getElem?_eq_getElem hj] at this
  simpa [hjs] using this

/-- After at most `URTWM_CMDQ_SIZE` submissions into an empty queue the queue holds the
submitted commands in submission order. -/
theorem holds_after_submit (h : urtwm_hdr) (sc : urtwm_softc) (rs : List cmd_req)
    (hlen : sc.cmdq.length = h.URTWM_CMDQ_SIZE)
    (hempty : ∀ s ∈ sc.cmdq, s.func = none)
    (hfl : sc.cmdq_first = sc.cmdq_last) (hlast : sc.cmdq_last < h.URTWM_CMDQ_SIZE)
    (hrs : rs.length ≤ h.URTWM_CMDQ_SIZE) :
    holds_cmds h (cmd_submit_all h sc rs).2 (cmd_queued h sc sc.cmdq_last 0 rs) := by
  obtain ⟨c1, c2, c3, c4, c5, c6, c7⟩ := submit_all_spec h rs sc hlen hlast hrs
    (fun i _ => slots_free_of_mem h sc hempty _)
  refine ⟨c2, by rw [c4, hfl]; exact hlast, by rw [cmd_queued_length]; exact hrs, ?_, ?_⟩
  · intro i c hc
    obtain ⟨r, hr1, hr2⟩ := cmd_queued_get h sc sc.cmdq_last rs 0 i c hc
    rw [c4, hfl, c6 i r hr1, hr2]
    simp only [Nat.zero_add]
    rfl
  · intro j hj
    rw [c7 j (by
      intro i hi
      have := hj i (by rw [cmd_queued_length]; exact hi)
      rwa [c4, hfl] at this)]
    exact slots_free_of_mem h sc hempty j

/-- C3 (command queue capacity and overflow).  From an empty queue (every slot free,
`cmdq_first = cmdq_last`), `URTWM_CMDQ_SIZE` consecutive `urtwm_cmd_sleepable` calls with
non-NULL handlers all return 0; every further call returns `EAGAIN` and leaves the
whole state unchanged; the i-th submitted command sits in slot `(cmdq_last + i) %
URTWM_CMDQ_SIZE` with its handler and its parameter bytes, and `cmdq_first` and
`cmdq_last` have their initial values. -/
theorem cmdq_overflow (h : urtwm_hdr) (sc : urtwm_softc) (rs : List cmd_req)
    (hlen : sc.cmdq.length = h.URTWM_CMDQ_SIZE)
    (hempty : ∀ s ∈ sc.cmdq, s.func = none)
    (hfl : sc.cmdq_first = sc.cmdq_last) (hlast : sc.cmdq_last < h.URTWM_CMDQ_SIZE)
    (hrs : rs.length = h.URTWM_CMDQ_SIZE) :
    (cmd_submit_all h sc rs).1 = List.replicate h.URTWM_CMDQ_SIZE 0 ∧
    (∀ (ptr : Option (List Nat)) (len : Nat) (func : Option Nat),
      urtwm_cmd_sleepable h (cmd_submit_all h sc rs).2 ptr len func =
        (EAGAIN, (cmd_submit_all h sc rs).2)) ∧
    (∀ i r, rs[i]? = some r →
      cmdq_at h (cmd_submit_all h sc rs).2 ((sc.cmdq_last + i) % h.URTWM_CMDQ_SIZE) =
        cmd_slot (cmdq_at h sc ((sc.cmdq_last + i) % h.URTWM_CMDQ_SIZE)).data r) ∧
    (cmd_submit_all h sc rs).2.cmdq_first = sc.cmdq_first ∧
    (cmd_submit_all h sc rs).2.cmdq_last = sc.cmdq_last ∧
    (cmd_submit_all h sc rs).2.cmdq_first = (cmd_submit_all h sc rs).2.cmdq_last := by
  obtain ⟨c1, c2, c3, c4, c5, c6, c7⟩ := submit_all_spec h rs sc hlen hlast (by omega)
    (fun i _ => slots_free_of_mem h sc hempty _)
  have hl : (cmd_submit_all h sc rs).2.cmdq_last = sc.cmdq_last := by
    rw [c3, hrs, Nat.add_mod_right, Nat.mod_eq_of_lt hlast]
  refine ⟨by rw [c1, hrs], ?_, c6, c4, hl, by rw [c4, hl, hfl]⟩
  intro ptr len func
  apply cmd_sleepable_full
  rw [hl]
  obtain ⟨r, hr⟩ : ∃ r, rs[0]? = some r := by
    cases rs with
    | nil => simp at hrs; omega
    | cons r rs => exact ⟨r, by simp⟩
  have := c6 0 r hr
  rw [Nat.add_zero, Nat.mod_eq_of_lt hlast] at this
  rw [this]
  simp [cmd_slot]

/-- C4 (command queue FIFO).  After N submissions (N at most `URTWM_CMDQ_SIZE`) into an
empty queue, all of which return 0, one run of `urtwm_cmdq_cb` with the RUNNING flag set
returns, invokes exactly the N handlers in submission order, each with the parameter
bytes its slot received at submission, and ends with every slot free and
`cmdq_first = cmdq_last`. -/
theorem cmdq_fifo (h : urtwm_hdr) (sc : urtwm_softc) (rs : List cmd_req)
    (hlen : sc.cmdq.length = h.URTWM_CMDQ_SIZE)
    (hempty : ∀ s ∈ sc.cmdq, s.func = none)
    (hfl : sc.cmdq_first = sc.cmdq_last) (hlast : sc.cmdq_last < h.URTWM_CMDQ_SIZE)
    (hrs : rs.length ≤ h.URTWM_CMDQ_SIZE)
    (hrun : sc.sc_flags &&& h.URTWM_RUNNING ≠ 0) :
    (cmd_submit_all h sc rs).1 = List.replicate rs.length 0 ∧
    ∃ sc2, urtwm_cmdq_cb h (cmd_submit_all h sc rs).2 = some sc2 ∧
      sc2.trace = (cmd_submit_all h sc rs).2.trace ++
        cmd_calls (cmd_queued h sc sc.cmdq_last 0 rs) ∧
      (∀ s ∈ sc2.cmdq, s.func = none) ∧ sc2.cmdq_first = sc2.cmdq_last := by
  obtain ⟨c1, c2, c3, c4, c5, -, -⟩ := submit_all_spec h rs sc hlen hlast hrs
    (fun i _ => slots_free_of_mem h sc hempty _)
  have hh := holds_after_submit h sc rs hlen hempty hfl hlast hrs
  obtain ⟨sc2, r1, r2, r3, r4, r5⟩ := cmdq_loop_spec h _ (cmd_submit_all h sc rs).2.cmdq.length
    _ hh (by rw [cmd_queued_length, c2]; exact hrs)
  refine ⟨c1, sc2, ?_, r2, mem_free_of_slots h sc2 r3, ?_⟩
  · unfold urtwm_cmdq_cb
    rw [if_neg (by rw [c5]; exact hrun)]
    exact r1
  · rw [r4, cmd_queued_length, c4, hfl, r5, c3]


theorem cmdq_overflow_witness :
    (softc_zero 4 4).cmdq.length = sample_hdr.URTWM_CMDQ_SIZE ∧
    (∀ s ∈ (softc_zero 4 4).cmdq, s.func = none) ∧
    (softc_zero 4 4).cmdq_first = (softc_zero 4 4).cmdq_last ∧
    (softc_zero 4 4).cmdq_last < sample_hdr.URTWM_CMDQ_SIZE ∧
    sample_reqs.length = sample_hdr.URTWM_CMDQ_SIZE ∧
    (cmd_submit_all sample_hdr (softc_zero 4 4) sample_reqs).1 = [0, 0, 0, 0] ∧
    urtwm_cmd_sleepable sample_hdr (cmd_submit_all sample_hdr (softc_zero 4 4) sample_reqs).2
        (some [9, 9]) 2 (some 15) =
      (EAGAIN, (cmd_submit_all sample_hdr (softc_zero 4 4) sample_reqs).2) :=
  ⟨by decide, by decide, rfl, by decide, rfl,
    (cmdq_overflow sample_hdr (softc_zero 4 4) sample_reqs (by decide) (by decide) rfl
      (by decide) rfl).1,
    (cmdq_overflow sample_hdr (softc_zero 4 4) sample_reqs (by decide) (by decide) rfl
      (by decide) rfl).2.1 _ _ _⟩

theorem cmdq_fifo_witness :
    ({ softc_zero 4 4 with sc_flags := 2 } : urtwm_softc).cmdq.length
      = sample_hdr.URTWM_CMDQ_SIZE ∧
    (∀ s ∈ ({ softc_zero 4 4 with sc_flags := 2 } : urtwm_softc).cmdq, s.func = none) ∧
    (sample_reqs.take 3).length ≤ sample_hdr.URTWM_CMDQ_SIZE ∧
    ({ softc_zero 4 4 with sc_flags := 2 } : urtwm_softc).sc_flags &&&
      sample_hdr.URTWM_RUNNING ≠ 0 ∧
    ∃ sc2, urtwm_cmdq_cb sample_hdr
        (cmd_submit_all sample_hdr { softc_zero 4 4 with sc_flags := 2 }
          (sample_reqs.take 3)).2 = some sc2 ∧
      sc2.trace =
        (cmd_submit_all sample_hdr { softc_zero 4 4 with sc_flags := 2 }
          (sample_reqs.take 3)).2.trace ++
        cmd_calls (cmd_queued sample_hdr { softc_zero 4 4 with sc_flags := 2 } 0 0
          (sample_reqs.take 3)) ∧
      (∀ s ∈ sc2.cmdq, s.func = none) ∧ sc2.cmdq_first = sc2.cmdq_last :=
  ⟨by decide, by decide, by decide, by decide,
    (cmdq_fifo sample_hdr { softc_zero 4 4 with sc_flags := 2 } (sample_reqs.take 3)
      (by decide) (by decide) rfl (by decide) (by decide) (by decide)).2⟩

/-- C5 (command retention while not running).  With the RUNNING flag clear,
`urtwm_cmdq_cb` returns the state unchanged, whatever the queue holds (no handler is
invoked, no slot or index changes).  Commands submitted into an empty queue while the
flag is clear therefore stay queued, and the first `urtwm_cmdq_cb` run made once the
flag is set (any value `flags` of `sc_flags` with the RUNNING bit) invokes them all, in
submission order, and leaves every slot free with `cmdq_first = cmdq_last`. -/
theorem cmdq_retention (h : urtwm_hdr) (sc : urtwm_softc) (rs : List cmd_req) (flags : Nat)
    (hlen : sc.cmdq.length = h.URTWM_CMDQ_SIZE)
    (hempty : ∀ s ∈ sc.cmdq, s.func = none)
    (hfl : sc.cmdq_first = sc.cmdq_last) (hlast : sc.cmdq_last < h.URTWM_CMDQ_SIZE)
    (hrs : rs.length ≤ h.URTWM_CMDQ_SIZE)
    (hstop : sc.sc_flags &&& h.URTWM_RUNNING = 0)
    (hrun : flags &&& h.URTWM_RUNNING ≠ 0) :
    (∀ s : urtwm_softc, s.sc_flags &&& h.URTWM_RUNNING = 0 → urtwm_cmdq_cb h s = some s) ∧
    urtwm_cmdq_cb h (cmd_submit_all h sc rs).2 = some (cmd_submit_all h sc rs).2 ∧
    ∃ sc2, urtwm_cmdq_cb h { (cmd_submit_all h sc rs).2 with sc_flags := flags } = some sc2 ∧
      sc2.trace = (cmd_submit_all h sc rs).2.trace ++
        cmd_calls (cmd_queued h sc sc.cmdq_last 0 rs) ∧
      (∀ s ∈ sc2.cmdq, s.func = none) ∧ sc2.cmdq_first = sc2.cmdq_last := by
  have hoff : ∀ s : urtwm_softc, s.sc_flags &&& h.URTWM_RUNNING = 0 →
      urtwm_cmdq_cb h s = some s := by
    intro s hs
    unfold urtwm_cmdq_cb
    rw [if_pos hs]
  obtain ⟨c1, c2, c3, c4, c5, -, -⟩ := submit_all_spec h rs sc hlen hlast hrs
    (fun i _ => slots_free_of_mem h sc hempty _)
  have hh := holds_after_submit h sc rs hlen hempty hfl hlast hrs
  have hh2 : holds_cmds h { (cmd_submit_all h sc rs).2 with sc_flags := flags }
      (cmd_queued h sc sc.cmdq_last 0 rs) := hh
  obtain ⟨sc2, r1, r2, r3, r4, r5⟩ := cmdq_loop_spec h _ (cmd_submit_all h sc rs).2.cmdq.length
    _ hh2 (by rw [cmd_queued_length, c2]; exact hrs)
  refine ⟨hoff, hoff _ (by rw [c5]; exact hstop), sc2, ?_, r2, mem_free_of_slots h sc2 r3, ?_⟩
  · unfold urtwm_cmdq_cb
    rw [if_neg hrun]
    exact r1
  · rw [r4, cmd_queued_length, r5]
    show ((cmd_submit_all h sc rs).2.cmdq_first + rs.length) % h.URTWM_CMDQ_SIZE
      = (cmd_submit_all h sc rs).2.cmdq_last
    rw [c4, hfl, c3]

theorem cmdq_retention_witness :
    (softc_zero 4 4).sc_flags &&& sample_hdr.URTWM_RUNNING = 0 ∧
    (3 : Nat) &&& sample_hdr.URTWM_RUNNING ≠ 0 ∧
    urtwm_cmdq_cb sample_hdr (cmd_submit_all sample_hdr (softc_zero 4 4) sample_reqs).2 =
      some (cmd_submit_all sample_hdr (softc_zero 4 4) sample_reqs).2 ∧
    ∃ sc2, urtwm_cmdq_cb sample_hdr
        { (cmd_submit_all sample_hdr (softc_zero 4 4) sample_reqs).2 with sc_flags := 3 }
          = some sc2 ∧
      sc2.trace = (cmd_submit_all sample_hdr (softc_zero 4 4) sample_reqs).2.trace ++
        cmd_calls (cmd_queued sample_hdr (softc_zero 4 4) 0 0 sample_reqs) ∧
      (∀ s ∈ sc2.cmdq, s.func = none) ∧ sc2.cmdq_first = sc2.cmdq_last :=
  ⟨by decide, by decide,
    (cmdq_retention sample_hdr (softc_zero 4 4) sample_reqs 3 (by decide) (by decide) rfl
      (by decide) (by decide) (by decide) (by decide)).2⟩

/-! ## Descriptor checksum -/

theorem xor_bytes (a b c d : Nat) (ha : a < 256) (hc : c < 256) :
    (a + 256 * b) ^^^ (c + 256 * d) = (a ^^^ c) + 256 * (b ^^^ d) := by
  have hac : a ^^^ c < 2 ^ 8 := Nat.xor_lt_two_pow (by omega) (by omega)
  apply Nat.eq_of_testBit_eq
  intro j
  have e1 : a + 256 * b = 2 ^ 8 * b + a := by omega
  have e2 : c + 256 * d = 2 ^ 8 * d + c := by omega
  have e3 : (a ^^^ c) + 256 * (b ^^^ d) = 2 ^ 8 * (b ^^^ d) + (a ^^^ c) := by omega
  rw [e1, e2, e3, Nat.testBit_xor, Nat.testBit_mul_pow_two_add _ (by omega : a < 2 ^ 8),
    Nat.testBit_mul_pow_two_add _ (by omega : c < 2 ^ 8), Nat.testBit_mul_pow_two_add _ hac]
  split <;> simp [Nat.testBit_xor]

theorem getD_lt_256 (txd : List Nat) (hb : ∀ b ∈ txd, b < 256) (i : Nat) :
    txd.getD i 0 < 256 := by
  rw [List.getD_eq_getElem?_getD]
  cases hi : txd[i]? with
  | none => simp
  | some b => simpa using hb b (List.getElem?_mem hi)

theorem xor_fold_succ (f : Nat → Nat) (n : Nat) :
    xor_fold f (n + 1) = xor_fold f n ^^^ f n := by
  simp [xor_fold, List.range_succ]

theorem xor_fold_lt (f : Nat → Nat) (hf : ∀ i, f i < 256) (n : Nat) : xor_fold f n < 256 := by
  induction n with
  | zero => simp [xor_fold]
  | succ n ih =>
    rw [xor_fold_succ]
    exact Nat.xor_lt_two_pow (n := 8) ih (hf n)

theorem tx_checksum_sum_succ (be : Bool) (txd : List Nat) (n : Nat) :
    tx_checksum_sum be txd (n + 1) = (tx_checksum_sum be txd n ^^^ read16 be txd n) % 65536 := by
  simp [tx_checksum_sum, List.range_succ]

/-- The loop of `urtwm_tx_checksum` never overflows its `uint16_t` and computes the XOR of
the even-offset bytes and the XOR of the odd-offset bytes side by side. -/
theorem tx_checksum_sum_eq (be : Bool) (txd : List Nat) (hb : ∀ b ∈ txd, b < 256) (n : Nat) :
    tx_checksum_sum be txd n =
      if be then 256 * xor_fold (fun i => txd.getD (2 * i) 0) n +
          xor_fold (fun i => txd.getD (2 * i + 1) 0) n
      else xor_fold (fun i => txd.getD (2 * i) 0) n +
          256 * xor_fold (fun i => txd.getD (2 * i + 1) 0) n := by
  have he := xor_fold_lt (fun i => txd.getD (2 * i) 0) (fun i => getD_lt_256 txd hb _)
  have ho := xor_fold_lt (fun i => txd.getD (2 * i + 1) 0) (fun i => getD_lt_256 txd hb _)
  induction n with
  | zero => cases be <;> simp [tx_checksum_sum, xor_fold]
  | succ n ih =>
    rw [tx_checksum_sum_succ, ih, xor_fold_succ, xor_fold_succ]
    have h0 := getD_lt_256 txd hb (2 * n)
    have h1 := getD_lt_256 txd hb (2 * n + 1)
    have hen := he n
    have hon := ho n
    have hen1 := he (n + 1)
    have hon1 := ho (n + 1)
    rw [xor_fold_succ] at hen1 hon1
    cases be with
    | true =>
      simp only [read16, if_true]
      rw [Nat.add_comm (256 * _) (xor_fold _ n), Nat.add_comm (256 * _) (txd.getD (2 * n + 1) 0),
        xor_bytes _ _ _ _ hon h1, Nat.mod_eq_of_lt (by omega)]
      omega
    | false =>
      simp only [read16, Bool.false_eq_true, if_false]
      rw [xor_bytes _ _ _ _ hen h0, Nat.mod_eq_of_lt (by omega)]

theorem write16_getD (be : Bool) (txd : List Nat) (off v : Nat)
    (hoff : off + 2 ≤ txd.length) :
    (write16 be txd off v).length = txd.length ∧
    read16_at be (write16 be txd off v) off = v ∧
    (write16 be txd off v).getD off 0 = (if be then v / 256 else v % 256) ∧
    (write16 be txd off v).getD (off + 1) 0 = (if be then v % 256 else v / 256) ∧
    (∀ j, j ≠ off → j ≠ off + 1 → (write16 be txd off v).getD j 0 = txd.getD j 0) := by
  have g0 : ∀ a b : Nat, ((txd.set off a).set (off + 1) b).getD off 0 = a := by
    intro a b
    rw [List.getD_eq_getElem?_getD, List.getElem?_set_ne (by omega), List.getElem?_set_self (by omega)]
    rfl
  have g1 : ∀ a b : Nat, ((txd.set off a).set (off + 1) b).getD (off + 1) 0 = b := by
    intro a b
    rw [List.getD_eq_getElem?_getD, List.getElem?_set_self (by simp; omega)]
    rfl
  have g2 : ∀ (a b j : Nat), j ≠ off → j ≠ off + 1 →
      ((txd.set off a).set (off + 1) b).getD j 0 = txd.getD j 0 := by
    intro a b j h1 h2
    rw [List.getD_eq_getElem?_getD, List.getD_eq_getElem?_getD,
      List.getElem?_set_ne (Ne.symm h2), List.getElem?_set_ne (Ne.symm h1)]
  cases be with
  | true =>
    simp only [write16, read16_at, if_true, g0, g1]
    refine ⟨by simp, by omega, trivial, trivial, fun j h1 h2 => g2 _ _ j h1 h2⟩
  | false =>
    simp only [write16, read16_at, Bool.false_eq_true, if_false, g0, g1]
    refine ⟨by simp, by omega, trivial, trivial, fun j h1 h2 => g2 _ _ j h1 h2⟩


theorem xor_fold_read16 (be : Bool) (txd : List Nat) (hb : ∀ b ∈ txd, b < 256) (n : Nat) :
    xor_fold (read16 be txd) n = tx_checksum_sum be txd n := by
  induction n with
  | zero => simp [tx_checksum_sum, xor_fold]
  | succ n ih =>
    rw [tx_checksum_sum_succ, xor_fold_succ, ih]
    have h1 : tx_checksum_sum be txd (n + 1) < 65536 := by
      rw [tx_checksum_sum_succ]
      exact Nat.mod_lt _ (by omega)
    have hs : tx_checksum_sum be txd n < 2 ^ 16 := by
      rw [tx_checksum_sum_eq be txd hb n]
      have he := xor_fold_lt (fun i => txd.getD (2 * i) 0) (fun i => getD_lt_256 txd hb _) n
      have ho := xor_fold_lt (fun i => txd.getD (2 * i + 1) 0)
        (fun i => getD_lt_256 txd hb _) n
      split <;> omega
    have hr : read16 be txd n < 2 ^ 16 := by
      have h0 := getD_lt_256 txd hb (2 * n)
      have h1 := getD_lt_256 txd hb (2 * n + 1)
      unfold read16
      split <;> omega
    exact (Nat.mod_eq_of_lt (Nat.xor_lt_two_pow hs hr)).symm

/-- C6 (descriptor checksum definition).  For every descriptor (a list of bytes that
contains the `txdsum` field) and either host byte order, `urtwm_tx_checksum` keeps the
length, stores in `txdsum` the XOR of the sixteen 16-bit words of bytes 0..31 as they
stood on entry (the value the host reads back), puts the XOR of the sixteen even-offset
bytes in the low-address byte of the field and the XOR of the sixteen odd-offset bytes
in the next byte, so that the field read as little-endian is the XOR of the sixteen
little-endian words, and changes no other byte. -/
theorem tx_checksum_spec (h : urtwm_hdr) (be : Bool) (txd : List Nat)
    (hb : ∀ b ∈ txd, b < 256) (hoff : h.offsetof_txdsum + 2 ≤ txd.length) :
    (urtwm_tx_checksum h be txd).length = txd.length ∧
    read16_at be (urtwm_tx_checksum h be txd) h.offsetof_txdsum =
      xor_fold (read16 be txd) 16 ∧
    (urtwm_tx_checksum h be txd).getD h.offsetof_txdsum 0 =
      xor_fold (fun i => txd.getD (2 * i) 0) 16 ∧
    (urtwm_tx_checksum h be txd).getD (h.offsetof_txdsum + 1) 0 =
      xor_fold (fun i => txd.getD (2 * i + 1) 0) 16 ∧
    read16_at false (urtwm_tx_checksum h be txd) h.offsetof_txdsum =
      xor_fold (read16 false txd) 16 ∧
    (∀ j, j ≠ h.offsetof_txdsum → j ≠ h.offsetof_txdsum + 1 →
      (urtwm_tx_checksum h be txd).getD j 0 = txd.getD j 0) := by
  have he := xor_fold_lt (fun i => txd.getD (2 * i) 0) (fun i => getD_lt_256 txd hb _) 16
  have ho := xor_fold_lt (fun i => txd.getD (2 * i + 1) 0) (fun i => getD_lt_256 txd hb _) 16
  obtain ⟨w1, w2, w3, w4, w5⟩ :=
    write16_getD be txd h.offsetof_txdsum (tx_checksum_sum be txd (32 / 2)) hoff
  have hsum := tx_checksum_sum_eq be txd hb 16
  have hv : (32 / 2 : Nat) = 16 := rfl
  rw [hv] at w1 w2 w3 w4 w5
  have b0 : (urtwm_tx_checksum h be txd).getD h.offsetof_txdsum 0 =
      xor_fold (fun i => txd.getD (2 * i) 0) 16 := by
    unfold urtwm_tx_checksum
    rw [hv, w3, hsum]
    cases be
    · simp only [Bool.false_eq_true, if_false]; omega
    · simp only [if_true]; omega
  have b1 : (urtwm_tx_checksum h be txd).getD (h.offsetof_txdsum + 1) 0 =
      xor_fold (fun i => txd.getD (2 * i + 1) 0) 16 := by
    unfold urtwm_tx_checksum
    rw [hv, w4, hsum]
    cases be
    · simp only [Bool.false_eq_true, if_false]; omega
    · simp only [if_true]; omega
  refine ⟨w1, ?_, b0, b1, ?_, w5⟩
  · rw [xor_fold_read16 be txd hb]
    exact w2
  · rw [xor_fold_read16 false txd hb, tx_checksum_sum_eq false txd hb 16]
    simp only [read16_at, Bool.false_eq_true, if_false, b0, b1]

theorem tx_checksum_spec_witness :
    (∀ b ∈ sample_txd, b < 256) ∧ sample_hdr.offsetof_txdsum + 2 ≤ sample_txd.length ∧
    (urtwm_tx_checksum sample_hdr true sample_txd).getD 28 0 =
      xor_fold (fun i => sample_txd.getD (2 * i) 0) 16 ∧
    (urtwm_tx_checksum sample_hdr true sample_txd).getD 29 0 =
      xor_fold (fun i => sample_txd.getD (2 * i + 1) 0) 16 :=
  ⟨by decide, by decide,
    (tx_checksum_spec sample_hdr true sample_txd (by decide) (by decide)).2.2.1,
    (tx_checksum_spec sample_hdr true sample_txd (by decide) (by decide)).2.2.2.1⟩

/-! ## RX record segmentation -/

theorem to_size_t_nat (n : Nat) (hn : n < 2 ^ 31) : to_size_t (n : Int) = n := by
  unfold to_size_t
  norm_num
  omega

theorem to_size_t_neg (x : Int) (h1 : -8 < x) (h2 : x < 0) :
    to_size_t x = (18446744073709551616 + x).toNat := by
  unfold to_size_t
  norm_num
  omega

theorem rx_copy_ok (h : urtwm_hdr) (k : kernel) (sc : urtwm_softc) (buf : List Nat)
    (off totlen : Nat) (hrun : sc.sc_flags &&& h.URTWM_RUNNING ≠ 0)
    (halloc : ∀ n sz, k.m_get2 n sz = true) (hok : rec_ok h buf off = true) :
    urtwm_rx_copy_to_mbuf h k sc buf off totlen =
      (some (rx_mbuf buf off totlen), { sc with n_m_get2 := sc.n_m_get2 + 1 }) := by
  unfold rec_ok rec_pktlen at hok
  simp only [decide_eq_true_eq] at hok
  unfold urtwm_rx_copy_to_mbuf
  simp only
  rw [if_neg hrun, if_neg (by simp [hok.1]), if_neg (by omega), if_pos (halloc _ _)]

theorem rx_copy_bad (h : urtwm_hdr) (k : kernel) (sc : urtwm_softc) (buf : List Nat)
    (off totlen : Nat) (hrun : sc.sc_flags &&& h.URTWM_RUNNING ≠ 0)
    (hok : rec_ok h buf off = false) :
    urtwm_rx_copy_to_mbuf h k sc buf off totlen =
      (none, { sc with ic_ierrors := sc.ic_ierrors + 1 }) := by
  unfold rec_ok rec_pktlen at hok
  simp only [decide_eq_false_iff_not, not_and_or, not_le] at hok
  unfold urtwm_rx_copy_to_mbuf
  simp only
  rw [if_neg hrun]
  rcases hok with hok | hok
  · rw [if_pos hok]
  · by_cases hc : le32_at buf off &&& (h.R92C_RXDW0_CRCERR ||| h.R92C_RXDW0_ICVERR) ≠ 0
    · rw [if_pos hc]
    · rw [if_neg hc, if_pos hok]

/-- One full iteration of the loop of `urtwm_rxeof` on a complete record. -/
theorem rxeof_loop_step (h : urtwm_hdr) (k : kernel) (fuel : Nat) (sc : urtwm_softc)
    (buf : List Nat) (off len : Nat) (chain : List mbuf) (hlen : len < 2 ^ 31)
    (hst : h.sizeof_rx_stat ≤ len) (hp : rec_pktlen h buf off ≠ 0)
    (ht : rec_totlen h buf off ≤ len) :
    urtwm_rxeof_loop h k (fuel + 1) sc buf off (len : Int) chain =
      urtwm_rxeof_loop h k fuel
        (urtwm_rx_copy_to_mbuf h k sc buf off (rec_totlen h buf off)).2 buf
        (off + rec_adv h buf off len) ((len : Int) - (rec_adv h buf off len : Int))
        (match (urtwm_rx_copy_to_mbuf h k sc buf off (rec_totlen h buf off)).1 with
          | some m => chain ++ [m]
          | none => chain) := by
  rw [urtwm_rxeof_loop]
  simp only
  rw [if_pos (by rw [to_size_t_nat len hlen]; exact hst)]
  unfold rec_pktlen at hp
  rw [if_neg hp]
  unfold rec_totlen rec_infosz rec_pktlen at ht
  rw [if_neg (by push_cast; omega)]
  unfold rec_adv rec_totlen rec_infosz rec_pktlen
  simp only [Nat.cast_lt]

/-- The loop of `urtwm_rxeof` stops where no complete record follows. -/
theorem rxeof_loop_stop (h : urtwm_hdr) (k : kernel) (fuel : Nat) (sc : urtwm_softc)
    (buf : List Nat) (off : Nat) (len : Int) (chain : List mbuf)
    (hstop : to_size_t len < h.sizeof_rx_stat ∨ rec_pktlen h buf off = 0 ∨
      len < (rec_totlen h buf off : Int)) :
    urtwm_rxeof_loop h k (fuel + 1) sc buf off len chain = some (chain, sc) := by
  rw [urtwm_rxeof_loop]
  simp only
  unfold rec_totlen rec_infosz rec_pktlen at hstop
  split
  · split
    · rfl
    · split
      · rfl
      · rename_i h1 h2 h3
        exfalso
        rcases hstop with hs | hs | hs
        · omega
        · exact h2 hs
        · exact h3 hs
  · rfl

theorem rec_adv_ge (h : urtwm_hdr) (buf : List Nat) (off len : Nat) :
    rec_totlen h buf off ≤ rec_adv h buf off len := by
  unfold rec_adv
  split
  · exact roundup2_8_ge _
  · exact le_refl _

theorem rec_totlen_pos (h : urtwm_hdr) (buf : List Nat) (off : Nat)
    (hp : rec_pktlen h buf off ≠ 0) : 0 < rec_totlen h buf off := by
  unfold rec_totlen
  omega

/-- The loop of `urtwm_rxeof` on a buffer that holds the records at `offs`: it returns,
links one frame per well-formed record in buffer order and counts one input error per
malformed record. -/
theorem rxeof_loop_parse (h : urtwm_hdr) (k : kernel) (buf : List Nat)
    (halloc : ∀ n sz, k.m_get2 n sz = true) :
    ∀ (offs : List Nat) (fuel : Nat) (sc : urtwm_softc) (off len : Nat) (chain : List mbuf),
      sc.sc_flags &&& h.URTWM_RUNNING ≠ 0 → len < 2 ^ 31 → len ≤ fuel →
      rx_holds h buf off len offs = true →
      urtwm_rxeof_loop h k (fuel + 1) sc buf off (len : Int) chain =
        some (chain ++ rx_frames h buf offs,
          { sc with
              ic_ierrors := sc.ic_ierrors + rx_bad h buf offs
              n_m_get2 := sc.n_m_get2 + rx_good h buf offs }) := by
  intro offs
  induction offs with
  | nil =>
    intro fuel sc off len chain _ hlen _ hh
    simp only [rx_holds, decide_eq_true_eq] at hh
    rw [rxeof_loop_stop h k fuel sc buf off len chain (by
      rw [to_size_t_nat len hlen]
      rcases hh with hh | hh | hh
      · exact Or.inl hh
      · exact Or.inr (Or.inl hh)
      · exact Or.inr (Or.inr (by exact_mod_cast hh)))]
    simp [rx_frames, rx_bad, rx_good]
  | cons o os ih =>
    intro fuel sc off len chain hrun hlen hfuel hh
    simp only [rx_holds, Bool.and_eq_true, Bool.or_eq_true, decide_eq_true_eq] at hh
    obtain ⟨⟨rfl, hp, ht⟩, hrest⟩ := hh
    have hpos := rec_totlen_pos h buf o hp
    have hadv := rec_adv_ge h buf o len
    have hst : h.sizeof_rx_stat ≤ len := by
      unfold rec_totlen at ht
      omega
    rw [rxeof_loop_step h k fuel sc buf o len chain hlen hst hp ht]
    obtain ⟨fuel1, rfl⟩ : ∃ fuel1, fuel = fuel1 + 1 := ⟨fuel - 1, by omega⟩
    cases hok : rec_ok h buf o with
    | true =>
      rw [rx_copy_ok h k sc buf o _ hrun halloc hok]
      simp only
      rcases hrest with ⟨h1, h2⟩ | ⟨h1, rfl⟩
      · have hc : (len : Int) - (rec_adv h buf o len : Int) =
            ((len - rec_adv h buf o len : Nat) : Int) := by omega
        rw [hc, ih fuel1 { sc with n_m_get2 := sc.n_m_get2 + 1 } _ _ _ hrun (by omega) (by omega) h2]
        simp [rx_frames, rx_bad, rx_good, hok]
        omega
      · rw [rxeof_loop_stop h k fuel1 _ buf _ _ _ (Or.inr (Or.inr (by omega)))]
        simp [rx_frames, rx_bad, rx_good, hok]
    | false =>
      rw [rx_copy_bad h k sc buf o _ hrun hok]
      simp only
      rcases hrest with ⟨h1, h2⟩ | ⟨h1, rfl⟩
      · have hc : (len : Int) - (rec_adv h buf o len : Int) =
            ((len - rec_adv h buf o len : Nat) : Int) := by omega
        rw [hc, ih fuel1 { sc with ic_ierrors := sc.ic_ierrors + 1 } _ _ _ hrun (by omega) (by omega) h2]
        simp [rx_frames, rx_bad, rx_good, hok]
        omega
      · rw [rxeof_loop_stop h k fuel1 _ buf _ _ _ (Or.inr (Or.inr (by omega)))]
        simp [rx_frames, rx_bad, rx_good, hok]

theorem rxeof_parse (h : urtwm_hdr) (k : kernel) (sc : urtwm_softc) (buf : List Nat)
    (len : Nat) (offs : List Nat) (halloc : ∀ n sz, k.m_get2 n sz = true)
    (hrun : sc.sc_flags &&& h.URTWM_RUNNING ≠ 0) (hlen : len < 2 ^ 31)
    (hh : rx_holds h buf 0 len offs = true) :
    urtwm_rxeof h k sc buf (len : Int) =
      some (rx_frames h buf offs,
        { sc with
            ic_ierrors := sc.ic_ierrors + rx_bad h buf offs
            n_m_get2 := sc.n_m_get2 + rx_good h buf offs }) := by
  unfold urtwm_rxeof
  rw [Int.toNat_ofNat, rxeof_loop_parse h k buf halloc offs len sc 0 len [] hrun hlen
    (le_refl _) hh]
  simp

theorem rx_frames_append (h : urtwm_hdr) (buf : List Nat) (p q : List Nat) :
    rx_frames h buf (p ++ q) = rx_frames h buf p ++ rx_frames h buf q := by
  simp [rx_frames]

theorem rx_bad_append (h : urtwm_hdr) (buf : List Nat) (p q : List Nat) :
    rx_bad h buf (p ++ q) = rx_bad h buf p + rx_bad h buf q := by
  simp [rx_bad]

theorem rx_good_append (h : urtwm_hdr) (buf : List Nat) (p q : List Nat) :
    rx_good h buf (p ++ q) = rx_good h buf p + rx_good h buf q := by
  simp [rx_good]

/-- C7, amended (RX record segmentation).  With the device RUNNING and every `m_get2`
call succeeding, for every buffer that holds two well-formed records, the second at the
next 8-byte boundary after the first, `urtwm_rxeof` returns exactly two frames, in
buffer order, of lengths status size + info size + packet length of record 1 and of
record 2, and counts no input error; for the same buffer with its length cut anywhere
inside the second record it returns exactly the first frame and counts no input error. -/
theorem rx_segmentation (h : urtwm_hdr) (k : kernel) (sc : urtwm_softc) (buf : List Nat)
    (hrun : sc.sc_flags &&& h.URTWM_RUNNING ≠ 0)
    (halloc : ∀ n sz, k.m_get2 n sz = true)
    (hstat : 0 < h.sizeof_rx_stat)
    (hok1 : rec_ok h buf 0 = true)
    (hok2 : rec_ok h buf (roundup2_8 (rec_totlen h buf 0)) = true)
    (hint : roundup2_8 (rec_totlen h buf 0) +
      rec_totlen h buf (roundup2_8 (rec_totlen h buf 0)) < 2 ^ 31) :
    urtwm_rxeof h k sc buf
        ((roundup2_8 (rec_totlen h buf 0) +
          rec_totlen h buf (roundup2_8 (rec_totlen h buf 0)) : Nat) : Int) =
      some ([rx_mbuf buf 0 (rec_totlen h buf 0),
          rx_mbuf buf (roundup2_8 (rec_totlen h buf 0))
            (rec_totlen h buf (roundup2_8 (rec_totlen h buf 0)))],
        { sc with n_m_get2 := sc.n_m_get2 + 2 }) ∧
    (rx_mbuf buf 0 (rec_totlen h buf 0)).m_len =
      h.sizeof_rx_stat + rec_infosz h buf 0 + rec_pktlen h buf 0 ∧
    (rx_mbuf buf (roundup2_8 (rec_totlen h buf 0))
        (rec_totlen h buf (roundup2_8 (rec_totlen h buf 0)))).m_len =
      h.sizeof_rx_stat + rec_infosz h buf (roundup2_8 (rec_totlen h buf 0)) +
        rec_pktlen h buf (roundup2_8 (rec_totlen h buf 0)) ∧
    (∀ len : Nat, roundup2_8 (rec_totlen h buf 0) ≤ len →
      len < roundup2_8 (rec_totlen h buf 0) +
        rec_totlen h buf (roundup2_8 (rec_totlen h buf 0)) →
      urtwm_rxeof h k sc buf (len : Int) =
        some ([rx_mbuf buf 0 (rec_totlen h buf 0)],
          { sc with n_m_get2 := sc.n_m_get2 + 1 })) := by
  have hp1 : rec_pktlen h buf 0 ≠ 0 := by
    simp only [rec_ok, decide_eq_true_eq, sizeof_ieee80211_frame_ack] at hok1
    omega
  have hp2 : rec_pktlen h buf (roundup2_8 (rec_totlen h buf 0)) ≠ 0 := by
    simp only [rec_ok, decide_eq_true_eq, sizeof_ieee80211_frame_ack] at hok2
    omega
  have ht1 := rec_totlen_pos h buf 0 hp1
  have ht2 := rec_totlen_pos h buf _ hp2
  have hr := roundup2_8_ge (rec_totlen h buf 0)
  generalize hr1 : roundup2_8 (rec_totlen h buf 0) = r1 at *
  generalize ht2e : rec_totlen h buf r1 = t2 at *
  refine ⟨?_, rfl, ?_, ?_⟩
  · have hh : rx_holds h buf 0 (r1 + t2) [0, r1] = true := by
      have a1 : rec_adv h buf 0 (r1 + t2) = r1 := by
        unfold rec_adv
        rw [if_pos (by omega), hr1]
      have a2 : rec_adv h buf r1 t2 = t2 := by
        unfold rec_adv
        rw [ht2e, if_neg (by omega)]
      simp only [rx_holds, Bool.and_eq_true, Bool.or_eq_true, decide_eq_true_eq, a1,
        Nat.zero_add, Nat.add_sub_cancel_left, a2, ht2e, Nat.sub_self]
      refine ⟨⟨trivial, hp1, by omega⟩, Or.inl ⟨by omega, ⟨trivial, hp2, le_refl _⟩,
        Or.inl ⟨le_refl _, Or.inl hstat⟩⟩⟩
    rw [rxeof_parse h k sc buf (r1 + t2) [0, r1] halloc hrun hint hh]
    simp [rx_frames, rx_bad, rx_good, hok1, hok2, ht2e]
  · rw [← ht2e]; rfl
  · intro len hl1 hl2
    have hh : rx_holds h buf 0 len [0] = true := by
      simp only [rx_holds, Bool.and_eq_true, Bool.or_eq_true, decide_eq_true_eq, Nat.zero_add]
      refine ⟨⟨trivial, hp1, by omega⟩, Or.inl ?_⟩
      unfold rec_adv
      split
      · rw [hr1]
        exact ⟨hl1, Or.inr (Or.inr (by omega))⟩
      · exact ⟨by omega, Or.inl (by omega)⟩
    rw [rxeof_parse h k sc buf len [0] halloc hrun (by omega) hh]
    simp [rx_frames, rx_bad, rx_good, hok1]

theorem rx_segmentation_witness :
    sample_running.sc_flags &&& sample_hdr.URTWM_RUNNING ≠ 0 ∧
    rec_ok sample_hdr sample_rxbuf 0 = true ∧
    rec_ok sample_hdr sample_rxbuf (roundup2_8 (rec_totlen sample_hdr sample_rxbuf 0)) = true ∧
    urtwm_rxeof sample_hdr sample_kernel sample_running sample_rxbuf
        ((roundup2_8 (rec_totlen sample_hdr sample_rxbuf 0) +
          rec_totlen sample_hdr sample_rxbuf
            (roundup2_8 (rec_totlen sample_hdr sample_rxbuf 0)) : Nat) : Int) =
      some ([rx_mbuf sample_rxbuf 0 (rec_totlen sample_hdr sample_rxbuf 0),
          rx_mbuf sample_rxbuf (roundup2_8 (rec_totlen sample_hdr sample_rxbuf 0))
            (rec_totlen sample_hdr sample_rxbuf
              (roundup2_8 (rec_totlen sample_hdr sample_rxbuf 0)))],
        { sample_running with n_m_get2 := sample_running.n_m_get2 + 2 }) :=
  ⟨by decide, by decide, by decide,
    (rx_segmentation sample_hdr sample_kernel sample_running sample_rxbuf (by decide)
      (fun _ _ => rfl) (by decide) (by decide) (by decide) (by decide)).1⟩

/-- C7 as stated fails when the allocator refuses the buffers: the two records of the
sample buffer are well formed and back to back, the device is RUNNING, and
`urtwm_rxeof` returns no frame and counts two input errors. -/
theorem rx_segmentation_counterexample :
    sample_running.sc_flags &&& sample_hdr.URTWM_RUNNING ≠ 0 ∧
    rec_ok sample_hdr sample_rxbuf 0 = true ∧ rec_ok sample_hdr sample_rxbuf 40 = true ∧
    roundup2_8 (rec_totlen sample_hdr sample_rxbuf 0) = 40 ∧
    40 + rec_totlen sample_hdr sample_rxbuf 40 = 74 ∧
    urtwm_rxeof sample_hdr nomem_kernel sample_running sample_rxbuf 74 =
      some ([], { sample_running with ic_ierrors := 2, n_m_get2 := 2 }) := by
  decide


theorem rx_frames_all_ok (h : urtwm_hdr) (buf : List Nat) (l : List Nat)
    (hl : ∀ p ∈ l, rec_ok h buf p = true) :
    rx_frames h buf l = l.map (fun p => rx_mbuf buf p (rec_totlen h buf p)) ∧
    rx_bad h buf l = 0 ∧ rx_good h buf l = l.length := by
  induction l with
  | nil => simp [rx_frames, rx_bad, rx_good]
  | cons p l ih =>
    have hp := hl p (List.mem_cons_self _ _)
    obtain ⟨i1, i2, i3⟩ := ih (fun q hq => hl q (List.mem_cons_of_mem _ hq))
    unfold rx_frames rx_bad rx_good at *
    simp [hp, i1, i2, i3]

/-- C8, amended (malformed RX records are dropped, not forwarded).  With the device
RUNNING and every `m_get2` call succeeding, let the buffer hold the records at the
offsets `pre`, then `o`, then `post`, the record at `o` having the CRC or the ICV error
flag set or a (non-zero) packet length below `sizeof(struct ieee80211_frame_ack)`.
Then `urtwm_rxeof` returns the frames of the well-formed records of `pre` followed by
those of `post`, in buffer order, none for `o`, and the record at `o` accounts for
exactly one input error; when all other records are well formed, all of them are
returned and the input-error counter grows by exactly one. -/
theorem rx_malformed_dropped (h : urtwm_hdr) (k : kernel) (sc : urtwm_softc)
    (buf : List Nat) (len : Nat) (pre : List Nat) (o : Nat) (post : List Nat)
    (hrun : sc.sc_flags &&& h.URTWM_RUNNING ≠ 0)
    (halloc : ∀ n sz, k.m_get2 n sz = true) (hlen : len < 2 ^ 31)
    (hh : rx_holds h buf 0 len (pre ++ o :: post) = true)
    (hbad : rec_ok h buf o = false) :
    urtwm_rxeof h k sc buf (len : Int) =
      some (rx_frames h buf pre ++ rx_frames h buf post,
        { sc with
            ic_ierrors := sc.ic_ierrors + (rx_bad h buf pre + 1 + rx_bad h buf post)
            n_m_get2 := sc.n_m_get2 + (rx_good h buf pre + rx_good h buf post) }) ∧
    ((∀ p ∈ pre, rec_ok h buf p = true) → (∀ p ∈ post, rec_ok h buf p = true) →
      urtwm_rxeof h k sc buf (len : Int) =
        some ((pre ++ post).map (fun p => rx_mbuf buf p (rec_totlen h buf p)),
          { sc with
              ic_ierrors := sc.ic_ierrors + 1
              n_m_get2 := sc.n_m_get2 + (pre.length + post.length) })) := by
  have hmain : urtwm_rxeof h k sc buf (len : Int) =
      some (rx_frames h buf pre ++ rx_frames h buf post,
        { sc with
            ic_ierrors := sc.ic_ierrors + (rx_bad h buf pre + 1 + rx_bad h buf post)
            n_m_get2 := sc.n_m_get2 + (rx_good h buf pre + rx_good h buf post) }) := by
    rw [rxeof_parse h k sc buf len _ halloc hrun hlen hh, rx_frames_append, rx_bad_append,
      rx_good_append]
    have e1 : rx_frames h buf (o :: post) = rx_frames h buf post := by
      simp [rx_frames, hbad]
    have e2 : rx_bad h buf (o :: post) = 1 + rx_bad h buf post := by
      simp [rx_bad, hbad]
      omega
    have e3 : rx_good h buf (o :: post) = rx_good h buf post := by
      simp [rx_good, hbad]
    rw [e1, e2, e3, Nat.add_assoc (rx_bad h buf pre) 1]
  refine ⟨hmain, ?_⟩
  intro h1 h2
  obtain ⟨a1, a2, a3⟩ := rx_frames_all_ok h buf pre h1
  obtain ⟨b1, b2, b3⟩ := rx_frames_all_ok h buf post h2
  rw [hmain, a1, a2, a3, b1, b2, b3, List.map_append]

theorem rx_malformed_dropped_witness :
    sample_running.sc_flags &&& sample_hdr.URTWM_RUNNING ≠ 0 ∧
    rx_holds sample_hdr sample_rxbuf_crc 0 114 ([0] ++ 40 :: [80]) = true ∧
    rec_ok sample_hdr sample_rxbuf_crc 40 = false ∧
    urtwm_rxeof sample_hdr sample_kernel sample_running sample_rxbuf_crc ((114 : Nat) : Int) =
      some (rx_frames sample_hdr sample_rxbuf_crc [0] ++ rx_frames sample_hdr sample_rxbuf_crc [80],
        { sample_running with
            ic_ierrors := sample_running.ic_ierrors +
              (rx_bad sample_hdr sample_rxbuf_crc [0] + 1 + rx_bad sample_hdr sample_rxbuf_crc [80])
            n_m_get2 := sample_running.n_m_get2 +
              (rx_good sample_hdr sample_rxbuf_crc [0] +
                rx_good sample_hdr sample_rxbuf_crc [80]) }) :=
  ⟨by decide, by decide, by decide,
    (rx_malformed_dropped sample_hdr sample_kernel sample_running sample_rxbuf_crc 114 [0] 40
      [80] (by decide) (fun _ _ => rfl) (by decide) (by decide) (by decide)).1⟩

/-- C8 as stated fails in two ways.  A record whose declared packet length is zero
(hence below `sizeof(struct ieee80211_frame_ack)`) ends the parse: no input error is
counted and the well-formed record that follows it is not returned.  And when the
allocator refuses the buffers, the well-formed records around a malformed one are not
returned either. -/
theorem rx_malformed_dropped_counterexample :
    sample_running.sc_flags &&& sample_hdr.URTWM_RUNNING ≠ 0 ∧
    (rec_pktlen sample_hdr sample_rxbuf_zero 0 < sizeof_ieee80211_frame_ack ∧
      rec_ok sample_hdr sample_rxbuf_zero 24 = true ∧
      24 + rec_totlen sample_hdr sample_rxbuf_zero 24 = 58 ∧
      urtwm_rxeof sample_hdr sample_kernel sample_running sample_rxbuf_zero 58 =
        some ([], sample_running)) ∧
    (rec_ok sample_hdr sample_rxbuf_crc 0 = true ∧
      rec_ok sample_hdr sample_rxbuf_crc 40 = false ∧
      rec_ok sample_hdr sample_rxbuf_crc 80 = true ∧
      urtwm_rxeof sample_hdr nomem_kernel sample_running sample_rxbuf_crc 114 =
        some ([], { sample_running with ic_ierrors := 3, n_m_get2 := 2 })) := by
  decide

/-! ## TX backpressure -/

theorem tx_data_ok_iff (h : urtwm_hdr) (k : kernel) (sc : urtwm_softc) (m : mbuf)
    (bf : urtwm_data) :
    (urtwm_tx_data h k sc m.rcvif m bf).1 = 0 ↔ tx_encodable k m = true := by
  unfold urtwm_tx_data tx_encodable
  simp only
  split
  · cases hk : k.ieee80211_crypto_encap m.rcvif m with
    | none => simp [ENOBUFS]
    | some r =>
      obtain ⟨key, m1⟩ := r
      simp only
      by_cases hs : key.wk_flags &&& IEEE80211_KEY_SWCRYPT = 0
      · by_cases hc : known_cipher key = true
        · simp [hs, hc]
        · simp [hs, hc, EINVAL]
      · simp [hs]
  · simp

theorem tx_data_encodable (h : urtwm_hdr) (k : kernel) (sc : urtwm_softc) (m : mbuf)
    (bf : urtwm_data) (he : tx_encodable k m = true) :
    urtwm_tx_data h k sc m.rcvif m bf =
      (0, call { sc with sc_tx_pending := sc.sc_tx_pending ++ [tx_filled h k m bf] }
        (kcall.usbd_transfer_start
          (if m.m_data.getD 0 0 &&& IEEE80211_FC0_TYPE_MASK = IEEE80211_FC0_TYPE_CTL ∨
              m.m_data.getD 0 0 &&& IEEE80211_FC0_TYPE_MASK = IEEE80211_FC0_TYPE_MGT then
            h.URTWM_BULK_TX_VO
          else wme2queue_qid h (tx_sent k m).wme_ac))) := by
  unfold tx_encodable at he
  unfold urtwm_tx_data tx_filled tx_sent urtwm_tx_start
  simp only
  split
  · rename_i hp
    rw [if_pos hp] at he
    cases hk : k.ieee80211_crypto_encap m.rcvif m with
    | none => rw [hk] at he; simp at he
    | some r =>
      obtain ⟨key, m1⟩ := r
      rw [hk] at he
      simp only at he ⊢
      by_cases hs : key.wk_flags &&& IEEE80211_KEY_SWCRYPT = 0
      · have hc : known_cipher key = true := by simpa [hs] using he
        simp [hs, hc]
      · simp [hs]
  · simp

/-- The loop of `urtwm_start` when every frame encodes: frames and free descriptors are
paired off in order until one of the two lists is exhausted. -/
theorem start_loop_backpressure (h : urtwm_hdr) (k : kernel) (l : List mbuf)
    (hl : ∀ m ∈ l, tx_encodable k m = true) :
    ∀ sc : urtwm_softc,
      (urtwm_start_loop h k l sc).sc_snd = l.drop sc.sc_tx_inactive.length ∧
      (urtwm_start_loop h k l sc).sc_tx_inactive = sc.sc_tx_inactive.drop l.length ∧
      (urtwm_start_loop h k l sc).sc_tx_pending =
        sc.sc_tx_pending ++ List.zipWith (tx_filled h k) l sc.sc_tx_inactive ∧
      (urtwm_start_loop h k l sc).sc_tx_active = sc.sc_tx_active ∧
      (urtwm_start_loop h k l sc).oerrors = sc.oerrors := by
  induction l with
  | nil =>
    intro sc
    simp [urtwm_start_loop]
  | cons m q ih =>
    intro sc
    rw [urtwm_start_loop]
    unfold urtwm_getbuf _urtwm_getbuf
    cases hq : sc.sc_tx_inactive with
    | nil => simp [hq]
    | cons bf rest =>
      simp only [hq]
      rw [tx_data_encodable h k _ m bf (hl m (List.mem_cons_self _ _))]
      simp only
      obtain ⟨i1, i2, i3, i4, i5⟩ := ih (fun x hx => hl x (List.mem_cons_of_mem _ hx))
        (call { sc with sc_snd := q, sc_tx_inactive := rest,
                        sc_tx_pending := sc.sc_tx_pending ++ [tx_filled h k m bf] }
          (kcall.usbd_transfer_start
            (if m.m_data.getD 0 0 &&& IEEE80211_FC0_TYPE_MASK = IEEE80211_FC0_TYPE_CTL ∨
                m.m_data.getD 0 0 &&& IEEE80211_FC0_TYPE_MASK = IEEE80211_FC0_TYPE_MGT then
              h.URTWM_BULK_TX_VO
            else wme2queue_qid h (tx_sent k m).wme_ac)))
      refine ⟨?_, ?_, ?_, ?_, ?_⟩
      · rw [i1]; simp [call]
      · rw [i2]; simp [call]
      · rw [i3]; simp [call]
      · rw [i4]; rfl
      · rw [i5]; rfl


theorem drop_min_left {α : Type} (l : List α) (k : Nat) :
    l.drop (min l.length k) = l.drop k := by
  by_cases hk : l.length ≤ k
  · rw [Nat.min_eq_left hk, List.drop_length, List.drop_eq_nil_of_le hk]
  · rw [Nat.min_eq_right (by omega)]

/-- C9 (TX backpressure).  With k descriptors in `sc_tx_inactive` and n frames in
`sc_snd`, all of which encode successfully, `urtwm_start` appends to `sc_tx_pending`
the first min(n, k) frames in send-queue order, the i-th frame in the i-th descriptor
of the inactive queue, removes those descriptors from the inactive queue and leaves the
other n - min(n, k) frames in `sc_snd` in their order; no output error is counted.  When
k < n the inactive queue ends empty, so the buffer request for frame k + 1 returns
NULL, and that frame is back at the head of `sc_snd`. -/
theorem tx_backpressure (h : urtwm_hdr) (k : kernel) (sc : urtwm_softc)
    (henc : ∀ m ∈ sc.sc_snd, tx_encodable k m = true) :
    (urtwm_start h k sc).sc_tx_pending =
      sc.sc_tx_pending ++ List.zipWith (tx_filled h k)
        (sc.sc_snd.take (min sc.sc_snd.length sc.sc_tx_inactive.length))
        (sc.sc_tx_inactive.take (min sc.sc_snd.length sc.sc_tx_inactive.length)) ∧
    (urtwm_start h k sc).sc_snd =
      sc.sc_snd.drop (min sc.sc_snd.length sc.sc_tx_inactive.length) ∧
    (urtwm_start h k sc).sc_tx_inactive =
      sc.sc_tx_inactive.drop (min sc.sc_snd.length sc.sc_tx_inactive.length) ∧
    (urtwm_start h k sc).sc_tx_active = sc.sc_tx_active ∧
    (urtwm_start h k sc).oerrors = sc.oerrors ∧
    (sc.sc_tx_inactive.length < sc.sc_snd.length →
      (urtwm_getbuf (urtwm_start h k sc)).1 = none ∧
      (urtwm_start h k sc).sc_snd.head? = sc.sc_snd[sc.sc_tx_inactive.length]?) := by
  obtain ⟨i1, i2, i3, i4, i5⟩ := start_loop_backpressure h k sc.sc_snd henc sc
  have e1 : (urtwm_start h k sc).sc_snd =
      sc.sc_snd.drop (min sc.sc_snd.length sc.sc_tx_inactive.length) := by
    unfold urtwm_start
    rw [i1, drop_min_left]
  have e2 : (urtwm_start h k sc).sc_tx_inactive =
      sc.sc_tx_inactive.drop (min sc.sc_snd.length sc.sc_tx_inactive.length) := by
    unfold urtwm_start
    rw [i2, Nat.min_comm, drop_min_left]
  refine ⟨?_, e1, e2, i4, i5, ?_⟩
  · unfold urtwm_start
    rw [i3]
    congr 1
    rw [← List.take_zipWith, List.take_of_length_le]
    simp
  · intro hlt
    constructor
    · unfold urtwm_getbuf _urtwm_getbuf
      rw [e2, Nat.min_eq_right (by omega), List.drop_length]
    · rw [e1, Nat.min_eq_right (by omega), List.head?_drop]

theorem tx_backpressure_witness :
    (∀ m ∈ ({ (urtwm_alloc_tx_list sample_hdr sample_kernel sample_running).2 with
        sc_snd := sample_snd } : urtwm_softc).sc_snd, tx_encodable sample_kernel m = true) ∧
    (urtwm_start sample_hdr sample_kernel
      { (urtwm_alloc_tx_list sample_hdr sample_kernel sample_running).2 with
        sc_snd := sample_snd }).sc_snd = [sample_frame 5 7] ∧
    ids (urtwm_start sample_hdr sample_kernel
      { (urtwm_alloc_tx_list sample_hdr sample_kernel sample_running).2 with
        sc_snd := sample_snd }).sc_tx_pending = [3, 2, 1, 0] ∧
    (urtwm_getbuf (urtwm_start sample_hdr sample_kernel
      { (urtwm_alloc_tx_list sample_hdr sample_kernel sample_running).2 with
        sc_snd := sample_snd })).1 = none :=
  ⟨by decide,
    (tx_backpressure sample_hdr sample_kernel
      { (urtwm_alloc_tx_list sample_hdr sample_kernel sample_running).2 with
        sc_snd := sample_snd } (by decide)).2.1,
    by decide,
    ((tx_backpressure sample_hdr sample_kernel
      { (urtwm_alloc_tx_list sample_hdr sample_kernel sample_running).2 with
        sc_snd := sample_snd } (by decide)).2.2.2.2.2 (by decide)).1⟩

/-! ## Stall and submit in the error state -/

theorem new_calls_of_append (sc sc1 : urtwm_softc) (t : List kcall)
    (ht : sc1.trace = sc.trace ++ t) : new_calls sc sc1 = t := by
  unfold new_calls
  rw [ht, List.drop_left]

theorem txeof_trace (sc : urtwm_softc) (d : urtwm_data) (status : Nat) :
    (urtwm_txeof sc d status).sc_tx_pending = sc.sc_tx_pending ∧
    ∃ t, (urtwm_txeof sc d status).trace = sc.trace ++ t ∧ ∀ c ∈ t, quiet c = true := by
  unfold urtwm_txeof
  cases d.ni with
  | none =>
    simp only
    split <;> exact ⟨rfl, [], by simp, by simp⟩
  | some ni =>
    simp only
    split <;> exact ⟨rfl, [kcall.ieee80211_tx_complete ni d.m status], rfl, by simp [quiet]⟩

/-- The label `tr_setup` of the TX callback submits exactly when a buffer is pending. -/
theorem tx_tr_setup_trace (sc : urtwm_softc) (xfer : Nat) :
    (sc.sc_tx_pending = [] ∧ (tx_tr_setup sc xfer).trace = sc.trace) ∨
    (∃ d, sc.sc_tx_pending.head? = some d ∧
      (tx_tr_setup sc xfer).trace = sc.trace ++
        [kcall.usbd_xfer_set_frame_data xfer d.id (some d.buflen),
          kcall.usbd_transfer_submit xfer]) := by
  unfold tx_tr_setup
  cases hq : sc.sc_tx_pending with
  | nil => left; exact ⟨rfl, rfl⟩
  | cons d rest => right; exact ⟨d, rfl, by simp [call]⟩

/-- The TX callback in the error state, entered with a non-empty active queue. -/
theorem tx_error_calls (h : urtwm_hdr) (k : kernel) (sc : urtwm_softc) (xfer error : Nat)
    (ha : sc.sc_tx_active ≠ []) :
    (error = USB_ERR_CANCELLED →
      ∀ c ∈ new_calls sc (urtwm_bulk_tx_callback h k sc xfer usb_state.USB_ST_ERROR error),
        quiet c = true) ∧
    (error ≠ USB_ERR_CANCELLED →
      kcall.usbd_xfer_set_stall xfer ∈
        new_calls sc (urtwm_bulk_tx_callback h k sc xfer usb_state.USB_ST_ERROR error) ∧
      (kcall.usbd_transfer_submit xfer ∈
          new_calls sc (urtwm_bulk_tx_callback h k sc xfer usb_state.USB_ST_ERROR error) ↔
        sc.sc_tx_pending ≠ [])) := by
  obtain ⟨d, rest, hd⟩ : ∃ d rest, sc.sc_tx_active = d :: rest := by
    cases hq : sc.sc_tx_active with
    | nil => exact absurd hq ha
    | cons d rest => exact ⟨d, rest, rfl⟩
  obtain ⟨hp, t1, ht1, hq1⟩ := txeof_trace { sc with sc_tx_active := rest } d 1
  constructor
  · intro he
    have hsw : tx_callback_switch sc xfer usb_state.USB_ST_ERROR error =
        urtwm_txeof { sc with sc_tx_active := rest } d 1 := by
      unfold tx_callback_switch
      simp only [hd]
      rw [if_neg (by simp [he])]
    obtain ⟨-, -, t2, ht2, hq2⟩ := tx_side_start h k
      (tx_callback_switch sc xfer usb_state.USB_ST_ERROR error)
    unfold urtwm_bulk_tx_callback
    rw [new_calls_of_append sc _ (t1 ++ t2) (by rw [ht2, hsw, ht1]; simp)]
    intro c hc
    rcases List.mem_append.mp hc with hc | hc
    · exact hq1 c hc
    · exact hq2 c hc
  · intro he
    have hsw : tx_callback_switch sc xfer usb_state.USB_ST_ERROR error =
        tx_tr_setup (call (urtwm_txeof { sc with sc_tx_active := rest } d 1)
          (kcall.usbd_xfer_set_stall xfer)) xfer := by
      unfold tx_callback_switch
      simp only [hd]
      rw [if_pos he]
    obtain ⟨-, -, t2, ht2, hq2⟩ := tx_side_start h k
      (tx_callback_switch sc xfer usb_state.USB_ST_ERROR error)
    unfold urtwm_bulk_tx_callback
    have hpend : (call (urtwm_txeof { sc with sc_tx_active := rest } d 1)
        (kcall.usbd_xfer_set_stall xfer)).sc_tx_pending = sc.sc_tx_pending := hp
    have htr : (call (urtwm_txeof { sc with sc_tx_active := rest } d 1)
        (kcall.usbd_xfer_set_stall xfer)).trace
        = sc.trace ++ (t1 ++ [kcall.usbd_xfer_set_stall xfer]) := by
      simp [call, ht1]
    have hns : kcall.usbd_transfer_submit xfer ∉ t1 := fun hc => by
      simpa [quiet] using hq1 _ hc
    have hns2 : kcall.usbd_transfer_submit xfer ∉ t2 := fun hc => by
      simpa [quiet] using hq2 _ hc
    rcases tx_tr_setup_trace (call (urtwm_txeof { sc with sc_tx_active := rest } d 1)
        (kcall.usbd_xfer_set_stall xfer)) xfer with ⟨e1, e2⟩ | ⟨p, e1, e2⟩
    · rw [hpend] at e1
      rw [new_calls_of_append sc _ (t1 ++ [kcall.usbd_xfer_set_stall xfer] ++ t2)
        (by rw [ht2, hsw, e2, htr]; simp)]
      refine ⟨by simp, ?_⟩
      simp [e1, hns, hns2]
    · rw [hpend] at e1
      rw [new_calls_of_append sc _ (t1 ++ [kcall.usbd_xfer_set_stall xfer] ++
          [kcall.usbd_xfer_set_frame_data xfer p.id (some p.buflen),
            kcall.usbd_transfer_submit xfer] ++ t2)
        (by rw [ht2, hsw, e2, htr]; simp)]
      refine ⟨by simp, ?_⟩
      have : sc.sc_tx_pending ≠ [] := by
        intro hc
        rw [hc] at e1
        simp at e1
      simp [this]


/-- The RX callback in the error state. -/
theorem rx_error_calls (h : urtwm_hdr) (k : kernel) (sc : urtwm_softc) (xfer error : Nat)
    (buf : List Nat) (len : Nat) :
    (∃ sc1, urtwm_bulk_rx_callback h k sc xfer usb_state.USB_ST_ERROR USB_ERR_CANCELLED buf len
        = some sc1 ∧ ∀ c ∈ new_calls sc sc1, quiet c = true) ∧
    (error ≠ USB_ERR_CANCELLED →
      ∃ sc1, urtwm_bulk_rx_callback h k sc xfer usb_state.USB_ST_ERROR error buf len
          = some sc1 ∧
        kcall.usbd_xfer_set_stall xfer ∈ new_calls sc sc1 ∧
        (kcall.usbd_transfer_submit xfer ∈ new_calls sc sc1 ↔
          (sc.sc_rx_active ≠ [] ∨ sc.sc_rx_inactive ≠ []))) := by
  obtain ⟨sc1, hsc1⟩ : ∃ sc1 : urtwm_softc, sc1 =
      (match sc.sc_rx_active with
        | [] => sc
        | data :: rest =>
          { sc with sc_rx_active := rest, sc_rx_inactive := sc.sc_rx_inactive ++ [data] }) :=
    ⟨_, rfl⟩
  have htr1 : sc1.trace = sc.trace := by
    rw [hsc1]; cases sc.sc_rx_active <;> rfl
  have hin1 : sc1.sc_rx_inactive = [] ↔ (sc.sc_rx_active = [] ∧ sc.sc_rx_inactive = []) := by
    rw [hsc1]
    cases hq : sc.sc_rx_active with
    | nil => simp
    | cons d rest => simp
  constructor
  · have hsw : rx_callback_switch h k sc xfer usb_state.USB_ST_ERROR USB_ERR_CANCELLED buf len
        = some sc1 := by
      unfold rx_callback_switch
      simp only [ne_eq, not_true_eq_false, if_false]
      rw [hsc1]
    obtain ⟨-, -, t2, ht2, hq2⟩ := tx_side_start h k sc1
    refine ⟨urtwm_start h k sc1, by unfold urtwm_bulk_rx_callback; rw [hsw]; rfl, ?_⟩
    rw [new_calls_of_append sc _ t2 (by rw [ht2, htr1])]
    exact hq2
  · intro he
    have hsw : rx_callback_switch h k sc xfer usb_state.USB_ST_ERROR error buf len
        = some (rx_tr_setup
            { call sc1 (kcall.usbd_xfer_set_stall xfer) with
              ic_ierrors := (call sc1 (kcall.usbd_xfer_set_stall xfer)).ic_ierrors + 1 } xfer []) := by
      unfold rx_callback_switch
      simp only
      rw [if_pos he, hsc1]
    obtain ⟨-, -, t2, ht2, hq2⟩ := tx_side_start h k (rx_tr_setup
            { call sc1 (kcall.usbd_xfer_set_stall xfer) with
              ic_ierrors := (call sc1 (kcall.usbd_xfer_set_stall xfer)).ic_ierrors + 1 } xfer [])
    have hns2 : kcall.usbd_transfer_submit xfer ∉ t2 := fun hc => by
      simpa [quiet] using hq2 _ hc
    refine ⟨_, by unfold urtwm_bulk_rx_callback; rw [hsw]; rfl, ?_⟩
    cases hq : sc1.sc_rx_inactive with
    | nil =>
      have hnil := rx_tr_setup_nil
        { call sc1 (kcall.usbd_xfer_set_stall xfer) with
          ic_ierrors := (call sc1 (kcall.usbd_xfer_set_stall xfer)).ic_ierrors + 1 }
        xfer [] hq
      rw [new_calls_of_append sc _ ([kcall.usbd_xfer_set_stall xfer] ++ t2)
        (by rw [ht2, hnil]; simp [call, htr1])]
      refine ⟨by simp, ?_⟩
      have := hin1.mp hq
      simp [this.1, this.2, hns2]
    | cons x q =>
      obtain ⟨-, -, t3, ht3, hq3⟩ := rx_tr_setup_cons
        { call sc1 (kcall.usbd_xfer_set_stall xfer) with
          ic_ierrors := (call sc1 (kcall.usbd_xfer_set_stall xfer)).ic_ierrors + 1 }
        xfer [] x q hq
      rw [new_calls_of_append sc _ ([kcall.usbd_xfer_set_stall xfer] ++
          [kcall.usbd_xfer_set_frame_data xfer x.id none, kcall.usbd_transfer_submit xfer] ++
          t3 ++ t2)
        (by rw [ht2, ht3]; simp [call, htr1])]
      refine ⟨by simp, ?_⟩
      have hne : ¬ (sc.sc_rx_active = [] ∧ sc.sc_rx_inactive = []) := by
        intro hc
        rw [hin1.mpr hc] at hq
        simp at hq
      have : sc.sc_rx_active ≠ [] ∨ sc.sc_rx_inactive ≠ [] := by
        by_contra hcon
        push_neg at hcon
        exact hne hcon
      simp [this]

/-- C10, amended (cancellation never re-arms).  Entered in the error state with
`USB_ERR_CANCELLED`, `urtwm_intr_rx_callback` and `urtwm_bulk_rx_callback` (in every
queue state) and `urtwm_bulk_tx_callback` (with a non-empty active queue) issue neither
`usbd_xfer_set_stall` nor `usbd_transfer_submit`.  Entered with any other error, the
interrupt callback sets the stall and submits; the RX callback sets the stall and
submits exactly when an RX buffer exists (some RX queue is non-empty); the TX callback
with a non-empty active queue sets the stall and submits exactly when a buffer is
pending. -/
theorem cancel_never_rearms (h : urtwm_hdr) (k : kernel) (sc : urtwm_softc)
    (xfer error : Nat) (buf : List Nat) (len : Nat) (he : error ≠ USB_ERR_CANCELLED) :
    urtwm_intr_rx_callback sc xfer usb_state.USB_ST_ERROR USB_ERR_CANCELLED = sc ∧
    new_calls sc (urtwm_intr_rx_callback sc xfer usb_state.USB_ST_ERROR error) =
      [kcall.usbd_xfer_set_stall xfer, kcall.usbd_xfer_set_frame_len xfer,
        kcall.usbd_transfer_submit xfer] ∧
    (∃ sc1, urtwm_bulk_rx_callback h k sc xfer usb_state.USB_ST_ERROR USB_ERR_CANCELLED buf len
        = some sc1 ∧ ∀ c ∈ new_calls sc sc1, quiet c = true) ∧
    (∃ sc1, urtwm_bulk_rx_callback h k sc xfer usb_state.USB_ST_ERROR error buf len
        = some sc1 ∧
      kcall.usbd_xfer_set_stall xfer ∈ new_calls sc sc1 ∧
      (kcall.usbd_transfer_submit xfer ∈ new_calls sc sc1 ↔
        (sc.sc_rx_active ≠ [] ∨ sc.sc_rx_inactive ≠ []))) ∧
    (sc.sc_tx_active ≠ [] →
      (∀ c ∈ new_calls sc
          (urtwm_bulk_tx_callback h k sc xfer usb_state.USB_ST_ERROR USB_ERR_CANCELLED),
        quiet c = true) ∧
      kcall.usbd_xfer_set_stall xfer ∈
        new_calls sc (urtwm_bulk_tx_callback h k sc xfer usb_state.USB_ST_ERROR error) ∧
      (kcall.usbd_transfer_submit xfer ∈
          new_calls sc (urtwm_bulk_tx_callback h k sc xfer usb_state.USB_ST_ERROR error) ↔
        sc.sc_tx_pending ≠ [])) := by
  refine ⟨?_, ?_, (rx_error_calls h k sc xfer error buf len).1,
    (rx_error_calls h k sc xfer error buf len).2 he, ?_⟩
  · simp [urtwm_intr_rx_callback]
  · apply new_calls_of_append
    simp [urtwm_intr_rx_callback, he, intr_tr_setup, call]
  · intro ha
    exact ⟨(tx_error_calls h k sc xfer USB_ERR_CANCELLED ha).1 rfl,
      (tx_error_calls h k sc xfer error ha).2 he⟩

theorem cancel_never_rearms_witness :
    (7 : Nat) ≠ USB_ERR_CANCELLED ∧ sample_tx_busy.sc_tx_active ≠ [] ∧
    kcall.usbd_xfer_set_stall 4 ∈
      new_calls sample_tx_busy
        (urtwm_bulk_tx_callback sample_hdr sample_kernel sample_tx_busy 4
          usb_state.USB_ST_ERROR 7) :=
  ⟨by decide, by decide,
    ((cancel_never_rearms sample_hdr sample_kernel sample_tx_busy 4 7 [] 0
      (by decide)).2.2.2.2 (by decide)).2.1⟩

/-- C10 as stated fails in four queue states.  With an error other than
`USB_ERR_CANCELLED`: the TX callback with an active buffer and nothing pending sets the
stall but submits nothing; the RX callback with both RX queues empty sets the stall but
submits nothing; the TX callback with an empty active queue sets no stall.  With
`USB_ERR_CANCELLED`: the TX callback with an empty active queue and a pending buffer
submits that buffer. -/
theorem cancel_never_rearms_counterexample :
    (7 : Nat) ≠ USB_ERR_CANCELLED ∧
    new_calls sample_tx_last
        (urtwm_bulk_tx_callback sample_hdr sample_kernel sample_tx_last 4
          usb_state.USB_ST_ERROR 7) =
      [kcall.ieee80211_tx_complete 7 (some (sample_frame 0 7)) 1,
        kcall.usbd_xfer_set_stall 4] ∧
    (urtwm_bulk_rx_callback sample_hdr sample_kernel sample_running 0
        usb_state.USB_ST_ERROR 7 [] 0).map (new_calls sample_running) =
      some [kcall.usbd_xfer_set_stall 0] ∧
    new_calls sample_tx_idle
        (urtwm_bulk_tx_callback sample_hdr sample_kernel sample_tx_idle 4
          usb_state.USB_ST_ERROR 7) =
      [kcall.usbd_xfer_set_frame_data 4 1 (some 43), kcall.usbd_transfer_submit 4] ∧
    new_calls sample_tx_idle
        (urtwm_bulk_tx_callback sample_hdr sample_kernel sample_tx_idle 4
          usb_state.USB_ST_ERROR USB_ERR_CANCELLED) =
      [kcall.usbd_xfer_set_frame_data 4 1 (some 43), kcall.usbd_transfer_submit 4] := by
  decide

/-! ## Transmit power: channel groups -/

theorem power_group_2ghz_eq (c : ieee80211_channel) (h2 : IEEE80211_IS_CHAN_2GHZ c = true) :
    urtwm_get_power_group c =
      urtwm_get_power_group { ic_flags := IEEE80211_CHAN_2GHZ, ic_ieee := c.ic_ieee } := by
  have h0 : IEEE80211_IS_CHAN_2GHZ
      { ic_flags := IEEE80211_CHAN_2GHZ, ic_ieee := c.ic_ieee } = true := by
    simp [IEEE80211_IS_CHAN_2GHZ, IEEE80211_IS_CHAN_5GHZ, IEEE80211_CHAN_2GHZ, IEEE80211_CHAN_5GHZ]
  simp only [urtwm_get_power_group, h2, h0, if_true]

theorem power_group_5ghz_eq (c : ieee80211_channel) (h2 : IEEE80211_IS_CHAN_2GHZ c = false)
    (h5 : IEEE80211_IS_CHAN_5GHZ c = true) :
    urtwm_get_power_group c =
      urtwm_get_power_group { ic_flags := IEEE80211_CHAN_5GHZ, ic_ieee := c.ic_ieee } := by
  have h0 : IEEE80211_IS_CHAN_2GHZ
      { ic_flags := IEEE80211_CHAN_5GHZ, ic_ieee := c.ic_ieee } = false := by
    simp [IEEE80211_IS_CHAN_2GHZ, IEEE80211_CHAN_2GHZ, IEEE80211_CHAN_5GHZ]
    rfl
  have h1 : IEEE80211_IS_CHAN_5GHZ
      { ic_flags := IEEE80211_CHAN_5GHZ, ic_ieee := c.ic_ieee } = true := by
    simp [IEEE80211_IS_CHAN_2GHZ, IEEE80211_IS_CHAN_5GHZ, IEEE80211_CHAN_2GHZ, IEEE80211_CHAN_5GHZ]
  simp only [urtwm_get_power_group, h2, h5, h0, h1, if_true, Bool.false_eq_true, if_false]

theorem power_group_table_2ghz :
    ∀ n ∈ urtwm_chan_2ghz,
      0 ≤ urtwm_get_power_group { ic_flags := IEEE80211_CHAN_2GHZ, ic_ieee := n } ∧
      urtwm_get_power_group { ic_flags := IEEE80211_CHAN_2GHZ, ic_ieee := n } ≤ 4 := by
  decide

theorem power_group_table_5ghz :
    ∀ n ∈ urtwm_chan_5ghz,
      0 ≤ urtwm_get_power_group { ic_flags := IEEE80211_CHAN_5GHZ, ic_ieee := n } ∧
      urtwm_get_power_group { ic_flags := IEEE80211_CHAN_5GHZ, ic_ieee := n } ≤ 13 := by
  decide

/-- C17. `urtwm_get_power_group` returns a group in 0..4 for every channel number of
`urtwm_chan_2ghz` on a 2.4 GHz channel and a group in 0..13 for every channel number of
`urtwm_chan_5ghz` on a 5 GHz channel, so never `-1`; 2.4 GHz channel 1 is in group 0,
5 GHz channel 36 in group 0 and 5 GHz channel 165 in group 12. -/
theorem power_group_range :
    (∀ c : ieee80211_channel, IEEE80211_IS_CHAN_2GHZ c = true →
      c.ic_ieee ∈ urtwm_chan_2ghz →
      0 ≤ urtwm_get_power_group c ∧ urtwm_get_power_group c ≤ 4 ∧
      urtwm_get_power_group c ≠ -1) ∧
    (∀ c : ieee80211_channel, IEEE80211_IS_CHAN_2GHZ c = false →
      IEEE80211_IS_CHAN_5GHZ c = true → c.ic_ieee ∈ urtwm_chan_5ghz →
      0 ≤ urtwm_get_power_group c ∧ urtwm_get_power_group c ≤ 13 ∧
      urtwm_get_power_group c ≠ -1) ∧
    (∀ c : ieee80211_channel, IEEE80211_IS_CHAN_2GHZ c = true → c.ic_ieee = 1 →
      urtwm_get_power_group c = 0) ∧
    (∀ c : ieee80211_channel, IEEE80211_IS_CHAN_2GHZ c = false →
      IEEE80211_IS_CHAN_5GHZ c = true → c.ic_ieee = 36 → urtwm_get_power_group c = 0) ∧
    (∀ c : ieee80211_channel, IEEE80211_IS_CHAN_2GHZ c = false →
      IEEE80211_IS_CHAN_5GHZ c = true → c.ic_ieee = 165 → urtwm_get_power_group c = 12) := by
  refine ⟨?_, ?_, ?_, ?_, ?_⟩
  · intro c h2 hm
    rw [power_group_2ghz_eq c h2]
    have := power_group_table_2ghz c.ic_ieee hm
    omega
  · intro c h2 h5 hm
    rw [power_group_5ghz_eq c h2 h5]
    have := power_group_table_5ghz c.ic_ieee hm
    omega
  · intro c h2 h1
    rw [power_group_2ghz_eq c h2, h1]
    decide
  · intro c h2 h5 h1
    rw [power_group_5ghz_eq c h2 h5, h1]
    decide
  · intro c h2 h5 h1
    rw [power_group_5ghz_eq c h2 h5, h1]
    decide

theorem power_group_range_witness :
    (0 ≤ urtwm_get_power_group (chan_2ghz 14 IEEE80211_CHAN_HT20) ∧
     urtwm_get_power_group (chan_2ghz 14 IEEE80211_CHAN_HT20) ≤ 4 ∧
     urtwm_get_power_group (chan_2ghz 14 IEEE80211_CHAN_HT20) ≠ -1) ∧
    urtwm_get_power_group (chan_2ghz 14 IEEE80211_CHAN_HT20) = 4 :=
  ⟨power_group_range.1 (chan_2ghz 14 IEEE80211_CHAN_HT20) (by decide) (by decide),
   by decide⟩
theorem power_group_mono_2ghz :
    ∀ a ∈ urtwm_chan_2ghz, ∀ b ∈ urtwm_chan_2ghz, a ≤ b →
      urtwm_get_power_group { ic_flags := IEEE80211_CHAN_2GHZ, ic_ieee := a } ≤
      urtwm_get_power_group { ic_flags := IEEE80211_CHAN_2GHZ, ic_ieee := b } := by
  decide

set_option maxRecDepth 100000 in
theorem power_group_mono_5ghz :
    ∀ a ∈ urtwm_chan_5ghz, ∀ b ∈ urtwm_chan_5ghz, a ≤ b →
      urtwm_get_power_group { ic_flags := IEEE80211_CHAN_5GHZ, ic_ieee := a } ≤
      urtwm_get_power_group { ic_flags := IEEE80211_CHAN_5GHZ, ic_ieee := b } := by
  decide

theorem power_group_onto_2ghz :
    ∀ g ∈ List.range 5, ∃ n ∈ urtwm_chan_2ghz,
      urtwm_get_power_group { ic_flags := IEEE80211_CHAN_2GHZ, ic_ieee := n } = (g : Int) := by
  decide

theorem power_group_onto_5ghz :
    ∀ g ∈ List.range 14, ∃ n ∈ urtwm_chan_5ghz,
      urtwm_get_power_group { ic_flags := IEEE80211_CHAN_5GHZ, ic_ieee := n } = (g : Int) := by
  decide

/-- C18. Within each band the group returned by `urtwm_get_power_group` is non-decreasing
in the channel number over the channel table of the band, and the groups of the table
take every value 0..4 on 2.4 GHz and every value 0..13 on 5 GHz. -/
theorem power_group_monotone :
    (∀ c d : ieee80211_channel, IEEE80211_IS_CHAN_2GHZ c = true →
      IEEE80211_IS_CHAN_2GHZ d = true → c.ic_ieee ∈ urtwm_chan_2ghz →
      d.ic_ieee ∈ urtwm_chan_2ghz → c.ic_ieee ≤ d.ic_ieee →
      urtwm_get_power_group c ≤ urtwm_get_power_group d) ∧
    (∀ c d : ieee80211_channel, IEEE80211_IS_CHAN_2GHZ c = false →
      IEEE80211_IS_CHAN_5GHZ c = true → IEEE80211_IS_CHAN_2GHZ d = false →
      IEEE80211_IS_CHAN_5GHZ d = true → c.ic_ieee ∈ urtwm_chan_5ghz →
      d.ic_ieee ∈ urtwm_chan_5ghz → c.ic_ieee ≤ d.ic_ieee →
      urtwm_get_power_group c ≤ urtwm_get_power_group d) ∧
    (∀ g : Nat, g ≤ 4 → ∃ n ∈ urtwm_chan_2ghz, ∀ c : ieee80211_channel,
      IEEE80211_IS_CHAN_2GHZ c = true → c.ic_ieee = n →
      urtwm_get_power_group c = (g : Int)) ∧
    (∀ g : Nat, g ≤ 13 → ∃ n ∈ urtwm_chan_5ghz, ∀ c : ieee80211_channel,
      IEEE80211_IS_CHAN_2GHZ c = false → IEEE80211_IS_CHAN_5GHZ c = true →
      c.ic_ieee = n → urtwm_get_power_group c = (g : Int)) := by
  refine ⟨?_, ?_, ?_, ?_⟩
  · intro c d hc hd hmc hmd hle
    rw [power_group_2ghz_eq c hc, power_group_2ghz_eq d hd]
    exact power_group_mono_2ghz _ hmc _ hmd hle
  · intro c d hc2 hc5 hd2 hd5 hmc hmd hle
    rw [power_group_5ghz_eq c hc2 hc5, power_group_5ghz_eq d hd2 hd5]
    exact power_group_mono_5ghz _ hmc _ hmd hle
  · intro g hg
    obtain ⟨n, hn, he⟩ := power_group_onto_2ghz g (List.mem_range.mpr (by omega))
    refine ⟨n, hn, ?_⟩
    intro c hc hcn
    rw [power_group_2ghz_eq c hc, hcn]
    exact he
  · intro g hg
    obtain ⟨n, hn, he⟩ := power_group_onto_5ghz g (List.mem_range.mpr (by omega))
    refine ⟨n, hn, ?_⟩
    intro c hc2 hc5 hcn
    rw [power_group_5ghz_eq c hc2 hc5, hcn]
    exact he

theorem power_group_monotone_witness :
    urtwm_get_power_group (chan_5ghz 64 0) ≤ urtwm_get_power_group (chan_5ghz 100 0) ∧
    urtwm_get_power_group (chan_5ghz 64 0) = 3 ∧
    urtwm_get_power_group (chan_5ghz 100 0) = 4 :=
  ⟨power_group_monotone.2.1 (chan_5ghz 64 0) (chan_5ghz 100 0) (by decide) (by decide)
     (by decide) (by decide) (by decide) (by decide) (by decide),
   by decide, by decide⟩

/-! ## Descriptor checksum: recomputation and sensitivity -/

theorem xor_fold_congr (f g : Nat → Nat) (n : Nat) (hfg : ∀ i, i < n → g i = f i) :
    xor_fold g n = xor_fold f n := by
  induction n with
  | zero => simp [xor_fold]
  | succ n ih =>
    rw [xor_fold_succ, xor_fold_succ, ih (fun i hi => hfg i (by omega)), hfg n (by omega)]

theorem xor_fold_update (f g : Nat → Nat) (w n : Nat) (hw : w < n)
    (hfg : ∀ i, i ≠ w → g i = f i) :
    xor_fold g n = xor_fold f n ^^^ f w ^^^ g w := by
  induction n with
  | zero => omega
  | succ n ih =>
    rw [xor_fold_succ, xor_fold_succ]
    by_cases hwn : w = n
    · subst hwn
      rw [xor_fold_congr f g w (fun i hi => hfg i (by omega)), Nat.xor_assoc (xor_fold f w),
        Nat.xor_self, Nat.xor_zero]
    · rw [ih (by omega), hfg n (fun h => hwn h.symm)]
      ac_rfl

theorem xor_cancel_mid (a x y : Nat) (h : a ^^^ x ^^^ y = a) : x = y := by
  have h1 : a ^^^ (a ^^^ x ^^^ y) = a ^^^ a := by rw [h]
  rw [Nat.xor_assoc, ← Nat.xor_assoc a a, Nat.xor_self, Nat.zero_xor] at h1
  exact Nat.xor_eq_zero.mp h1
theorem list_ext_getD (l1 l2 : List Nat) (hl : l1.length = l2.length)
    (h : ∀ j, l1.getD j 0 = l2.getD j 0) : l1 = l2 := by
  apply List.ext_getElem hl
  intro n h1 h2
  have := h n
  rwa [List.getD_eq_getElem _ _ h1, List.getD_eq_getElem _ _ h2] at this

theorem read16_at_even (be : Bool) (txd : List Nat) (w : Nat) :
    read16_at be txd (2 * w) = read16 be txd w := rfl

theorem read16_lt (be : Bool) (txd : List Nat) (hb : ∀ b ∈ txd, b < 256) (i : Nat) :
    read16 be txd i < 65536 := by
  have h0 := getD_lt_256 txd hb (2 * i)
  have h1 := getD_lt_256 txd hb (2 * i + 1)
  unfold read16
  split <;> omega

theorem tx_checksum_sum_lt (be : Bool) (txd : List Nat) (n : Nat) :
    tx_checksum_sum be txd n < 65536 := by
  cases n with
  | zero => simp [tx_checksum_sum]
  | succ n =>
    rw [tx_checksum_sum_succ]
    exact Nat.mod_lt _ (by omega)

theorem write16_bytes (be : Bool) (txd : List Nat) (off v : Nat)
    (hb : ∀ b ∈ txd, b < 256) (hv : v < 65536) : ∀ b ∈ write16 be txd off v, b < 256 := by
  intro b hm
  have h1 : ∀ (l : List Nat) (i a : Nat), (∀ x ∈ l, x < 256) → a < 256 →
      ∀ x ∈ l.set i a, x < 256 := by
    intro l i a hl ha x hx
    rcases List.mem_or_eq_of_mem_set hx with h | h
    · exact hl x h
    · omega
  unfold write16 at hm
  split at hm
  · exact h1 _ _ _ (h1 _ _ _ hb (by omega)) (by omega) b hm
  · exact h1 _ _ _ (h1 _ _ _ hb (by omega)) (by omega) b hm

theorem read16_write16 (be : Bool) (txd : List Nat) (w v : Nat)
    (hoff : 2 * w + 2 ≤ txd.length) (i : Nat) :
    read16 be (write16 be txd (2 * w) v) i = if i = w then v else read16 be txd i := by
  obtain ⟨_, w2, _, _, w5⟩ := write16_getD be txd (2 * w) v hoff
  by_cases hi : i = w
  · subst hi
    rw [if_pos rfl, ← read16_at_even, w2]
  · rw [if_neg hi]
    unfold read16
    rw [w5 (2 * i) (by omega) (by omega), w5 (2 * i + 1) (by omega) (by omega)]

/-- Writing back the two bytes a 16-bit field holds leaves the descriptor as it is. -/
theorem write16_read16 (be : Bool) (txd l : List Nat) (off : Nat)
    (hb : ∀ b ∈ txd, b < 256) (hoff : off + 2 ≤ txd.length) (hl : l.length = txd.length)
    (hj : ∀ j, j ≠ off → j ≠ off + 1 → l.getD j 0 = txd.getD j 0) :
    write16 be l off (read16_at be txd off) = txd := by
  obtain ⟨w1, _, w3, w4, w5⟩ := write16_getD be l off (read16_at be txd off) (by omega)
  have h0 := getD_lt_256 txd hb off
  have h1 := getD_lt_256 txd hb (off + 1)
  apply list_ext_getD _ _ (by omega)
  intro j
  by_cases hj0 : j = off
  · subst hj0
    rw [w3]
    unfold read16_at
    cases be
    · simp only [Bool.false_eq_true, if_false]; omega
    · simp only [if_true]; omega
  · by_cases hj1 : j = off + 1
    · subst hj1
      rw [w4]
      unfold read16_at
      cases be
      · simp only [Bool.false_eq_true, if_false]; omega
      · simp only [if_true]; omega
    · rw [w5 j hj0 hj1, hj j hj0 hj1]

/-- The checksum the second call computes is the value `txdsum` held before the first. -/
theorem tx_checksum_sum_twice (h : urtwm_hdr) (be : Bool) (txd : List Nat) (w : Nat)
    (hb : ∀ b ∈ txd, b < 256) (hw : w < 16) (he : h.offsetof_txdsum = 2 * w)
    (hoff : h.offsetof_txdsum + 2 ≤ txd.length) :
    tx_checksum_sum be (urtwm_tx_checksum h be txd) 16 = read16 be txd w := by
  have hs := tx_checksum_sum_lt be txd 16
  have hv : (32 / 2 : Nat) = 16 := rfl
  have hb1 : ∀ b ∈ urtwm_tx_checksum h be txd, b < 256 :=
    write16_bytes be txd _ _ hb (by rw [hv]; exact hs)
  rw [← xor_fold_read16 be _ hb1,
    xor_fold_update (read16 be txd) (read16 be (urtwm_tx_checksum h be txd)) w 16 hw
      (fun i hi => by
        unfold urtwm_tx_checksum
        rw [hv, he, read16_write16 be txd w _ (by omega), if_neg hi])]
  have hw1 : read16 be (urtwm_tx_checksum h be txd) w = tx_checksum_sum be txd 16 := by
    unfold urtwm_tx_checksum
    rw [hv, he, read16_write16 be txd w _ (by omega), if_pos rfl]
  rw [hw1, xor_fold_read16 be txd hb, Nat.xor_comm (tx_checksum_sum be txd 16),
    Nat.xor_assoc, Nat.xor_self, Nat.xor_zero]

/-- C19. When the `txdsum` field is one of the sixteen 16-bit words the checksum covers,
a second call of `urtwm_tx_checksum` on the unmodified result of the first stores the
value `txdsum` held before the first call and so gives back the descriptor as it was:
the second call stores the same value as the first exactly when the first call stored
the value that was already there. -/
theorem tx_checksum_twice (h : urtwm_hdr) (be : Bool) (txd : List Nat) (w : Nat)
    (hb : ∀ b ∈ txd, b < 256) (hw : w < 16) (he : h.offsetof_txdsum = 2 * w)
    (hoff : h.offsetof_txdsum + 2 ≤ txd.length) :
    urtwm_tx_checksum h be (urtwm_tx_checksum h be txd) = txd ∧
    read16_at be (urtwm_tx_checksum h be (urtwm_tx_checksum h be txd)) h.offsetof_txdsum =
      read16_at be txd h.offsetof_txdsum ∧
    (read16_at be (urtwm_tx_checksum h be (urtwm_tx_checksum h be txd)) h.offsetof_txdsum =
      read16_at be (urtwm_tx_checksum h be txd) h.offsetof_txdsum ↔
      read16_at be (urtwm_tx_checksum h be txd) h.offsetof_txdsum =
        read16_at be txd h.offsetof_txdsum) := by
  have h2 := tx_checksum_sum_twice h be txd w hb hw he hoff
  obtain ⟨w1, _, _, _, w5⟩ :=
    write16_getD be txd h.offsetof_txdsum (tx_checksum_sum be txd (32 / 2)) hoff
  have hinv : urtwm_tx_checksum h be (urtwm_tx_checksum h be txd) = txd := by
    have e : urtwm_tx_checksum h be (urtwm_tx_checksum h be txd) =
        write16 be (urtwm_tx_checksum h be txd) h.offsetof_txdsum
          (read16_at be txd h.offsetof_txdsum) := by
      show write16 be (urtwm_tx_checksum h be txd) h.offsetof_txdsum
        (tx_checksum_sum be (urtwm_tx_checksum h be txd) 16) = _
      rw [h2, he, read16_at_even]
    rw [e]
    exact write16_read16 be txd _ _ hb hoff w1 w5
  refine ⟨hinv, by rw [hinv], ?_⟩
  rw [hinv]
  exact eq_comm

theorem tx_checksum_twice_witness :
    (∀ b ∈ sample_txd, b < 256) ∧ (14 : Nat) < 16 ∧ sample_hdr.offsetof_txdsum = 2 * 14 ∧
    sample_hdr.offsetof_txdsum + 2 ≤ sample_txd.length ∧
    urtwm_tx_checksum sample_hdr false (urtwm_tx_checksum sample_hdr false sample_txd) =
      sample_txd :=
  ⟨by decide, by decide, by decide, by decide,
    (tx_checksum_twice sample_hdr false sample_txd 14 (by decide) (by decide) (by decide)
      (by decide)).1⟩

/-- A descriptor as `urtwm_tx_data` builds it (the `txdsum` field is still zero): the
first call of `urtwm_tx_checksum` stores 0x8008, the second call on the unmodified
result stores 0. -/
theorem tx_checksum_twice_counterexample :
    read16_at false (urtwm_tx_checksum sample_hdr false sample_txd_fresh) 28 = 0x8008 ∧
    read16_at false
      (urtwm_tx_checksum sample_hdr false (urtwm_tx_checksum sample_hdr false sample_txd_fresh))
      28 = 0 := by
  decide
theorem byte_set_eq (l : List Nat) (i x : Nat) (hi : i < l.length) :
    (l.set i x).getD i 0 = x := by
  simp [List.getD_eq_getElem?_getD, hi]

theorem byte_set_ne (l : List Nat) (i j x : Nat) (hij : i ≠ j) :
    (l.set i x).getD j 0 = l.getD j 0 := by
  simp [List.getD_eq_getElem?_getD, List.getElem?_set_ne hij]

theorem read16_set_other (be : Bool) (txd : List Nat) (p v i : Nat) (hi : i ≠ p / 2) :
    read16 be (txd.set p v) i = read16 be txd i := by
  unfold read16
  rw [byte_set_ne txd p (2 * i) v (by omega), byte_set_ne txd p (2 * i + 1) v (by omega)]

theorem read16_set_word (be : Bool) (txd : List Nat) (p v : Nat) (hp : p < txd.length)
    (hb : ∀ b ∈ txd, b < 256) (hne : v ≠ txd.getD p 0) :
    read16 be (txd.set p v) (p / 2) ≠ read16 be txd (p / 2) := by
  have h0 := getD_lt_256 txd hb (2 * (p / 2))
  have h1 := getD_lt_256 txd hb (2 * (p / 2) + 1)
  unfold read16
  rcases Nat.mod_two_eq_zero_or_one p with hpar | hpar
  · have e : 2 * (p / 2) = p := by omega
    rw [e] at h0 ⊢
    rw [byte_set_eq txd p v hp, byte_set_ne txd p (p + 1) v (by omega)]
    split <;> omega
  · have e : 2 * (p / 2) + 1 = p := by omega
    rw [e] at h1 ⊢
    rw [byte_set_eq txd p v hp, byte_set_ne txd p (2 * (p / 2)) v (by omega)]
    split <;> omega

theorem set_bytes (txd : List Nat) (p v : Nat) (hb : ∀ b ∈ txd, b < 256) (hv : v < 256) :
    ∀ b ∈ txd.set p v, b < 256 := by
  intro b hm
  rcases List.mem_or_eq_of_mem_set hm with h | h
  · exact hb b h
  · omega

/-- C20. Replacing one byte of the first 32 bytes of a descriptor by a different byte
value changes the value the XOR-fold of `urtwm_tx_checksum` computes over those bytes,
for either host byte order; when the `txdsum` field lies within the descriptor the
value `urtwm_tx_checksum` stores in it changes as well. -/
theorem tx_checksum_sensitive (h : urtwm_hdr) (be : Bool) (txd : List Nat) (p v : Nat)
    (hb : ∀ b ∈ txd, b < 256) (hlen : 32 ≤ txd.length) (hp : p < 32) (hv : v < 256)
    (hne : v ≠ txd.getD p 0) :
    tx_checksum_sum be (txd.set p v) (32 / 2) ≠ tx_checksum_sum be txd (32 / 2) ∧
    (h.offsetof_txdsum + 2 ≤ txd.length →
      read16_at be (urtwm_tx_checksum h be (txd.set p v)) h.offsetof_txdsum ≠
        read16_at be (urtwm_tx_checksum h be txd) h.offsetof_txdsum) := by
  have hv16 : (32 / 2 : Nat) = 16 := rfl
  have hb1 := set_bytes txd p v hb hv
  have hsum : tx_checksum_sum be (txd.set p v) (32 / 2) ≠ tx_checksum_sum be txd (32 / 2) := by
    rw [hv16, ← xor_fold_read16 be _ hb1, ← xor_fold_read16 be _ hb,
      xor_fold_update (read16 be txd) (read16 be (txd.set p v)) (p / 2) 16 (by omega)
        (fun i hi => read16_set_other be txd p v i hi)]
    intro hc
    exact read16_set_word be txd p v (by omega) hb hne (xor_cancel_mid _ _ _ hc).symm
  refine ⟨hsum, ?_⟩
  intro hoff
  have a1 := (write16_getD be (txd.set p v) h.offsetof_txdsum
    (tx_checksum_sum be (txd.set p v) (32 / 2)) (by simpa using hoff)).2.1
  have a2 := (write16_getD be txd h.offsetof_txdsum
    (tx_checksum_sum be txd (32 / 2)) hoff).2.1
  unfold urtwm_tx_checksum
  rw [a1, a2]
  exact hsum

theorem tx_checksum_sensitive_witness :
    (∀ b ∈ sample_txd, b < 256) ∧ 32 ≤ sample_txd.length ∧ (17 : Nat) < 32 ∧
    (0x1e : Nat) < 256 ∧ 0x1e ≠ sample_txd.getD 17 0 ∧
    tx_checksum_sum true (sample_txd.set 17 0x1e) (32 / 2) ≠
      tx_checksum_sum true sample_txd (32 / 2) :=
  ⟨by decide, by decide, by decide, by decide, by decide,
    (tx_checksum_sensitive sample_hdr true sample_txd 17 0x1e (by decide) (by decide)
      (by decide) (by decide) (by decide)).1⟩

/-! ## Unknown cipher -/

theorem tx_data_unknown (h : urtwm_hdr) (k : kernel) (sc : urtwm_softc) (ni : Nat) (m : mbuf)
    (data : urtwm_data) (hp : m.m_data.getD 1 0 &&& IEEE80211_FC1_PROTECTED ≠ 0)
    (hu : unknown_cipher k ni m = true) :
    urtwm_tx_data h k sc ni m data = (EINVAL, sc) := by
  unfold unknown_cipher at hu
  unfold urtwm_tx_data
  cases he : k.ieee80211_crypto_encap ni m with
  | none => rw [he] at hu; exact absurd hu (by simp)
  | some r =>
    obtain ⟨key, m1⟩ := r
    rw [he] at hu
    simp only [Bool.and_eq_true, decide_eq_true_eq, Bool.not_eq_true'] at hu
    simp only [hp, hu.1, hu.2, ne_eq, not_false_eq_true, if_true, Bool.false_eq_true, if_false]

theorem tx_raw_unknown (h : urtwm_hdr) (k : kernel) (sc : urtwm_softc) (ni : Nat) (m : mbuf)
    (data : urtwm_data) (params : ieee80211_bpf_params)
    (hp : params.ibp_flags &&& IEEE80211_BPF_CRYPTO ≠ 0)
    (hu : unknown_cipher k ni m = true) :
    urtwm_tx_raw h k sc ni m data params = (EINVAL, sc) := by
  unfold unknown_cipher at hu
  unfold urtwm_tx_raw
  cases he : k.ieee80211_crypto_encap ni m with
  | none => rw [he] at hu; exact absurd hu (by simp)
  | some r =>
    obtain ⟨key, m1⟩ := r
    rw [he] at hu
    simp only [Bool.and_eq_true, decide_eq_true_eq, Bool.not_eq_true'] at hu
    simp only [hp, hu.1, hu.2, ne_eq, not_false_eq_true, if_true, Bool.false_eq_true, if_false]
/-- C11. A frame whose hardware key has a cipher other than WEP, TKIP and AES-CCM makes
`urtwm_tx_data` and `urtwm_tx_raw` return `EINVAL` with the softc untouched, so nothing
is appended to `sc_tx_pending`; `urtwm_raw_xmit` then returns `EINVAL` and `urtwm_start`
(the frame being first in the send queue) counts an output error and stops, and after
either caller the inactive, pending and active queues are the lists they were before
the call: the descriptor taken from the head of `sc_tx_inactive` is back at its head. -/
theorem tx_unknown_cipher (h : urtwm_hdr) (k : kernel) :
    (∀ (sc : urtwm_softc) (ni : Nat) (m : mbuf) (data : urtwm_data),
      m.m_data.getD 1 0 &&& IEEE80211_FC1_PROTECTED ≠ 0 → unknown_cipher k ni m = true →
      urtwm_tx_data h k sc ni m data = (EINVAL, sc)) ∧
    (∀ (sc : urtwm_softc) (ni : Nat) (m : mbuf) (data : urtwm_data)
      (params : ieee80211_bpf_params),
      params.ibp_flags &&& IEEE80211_BPF_CRYPTO ≠ 0 → unknown_cipher k ni m = true →
      urtwm_tx_raw h k sc ni m data params = (EINVAL, sc)) ∧
    (∀ (sc : urtwm_softc) (ni : Nat) (m : mbuf) (params : Option ieee80211_bpf_params),
      sc.sc_flags &&& h.URTWM_RUNNING ≠ 0 → sc.sc_tx_inactive ≠ [] →
      (match params with
        | none => m.m_data.getD 1 0 &&& IEEE80211_FC1_PROTECTED ≠ 0
        | some p => p.ibp_flags &&& IEEE80211_BPF_CRYPTO ≠ 0) →
      unknown_cipher k ni m = true →
      urtwm_raw_xmit h k sc ni m params = (EINVAL, call sc (kcall.m_freem m)) ∧
      (urtwm_raw_xmit h k sc ni m params).2.sc_tx_inactive = sc.sc_tx_inactive ∧
      (urtwm_raw_xmit h k sc ni m params).2.sc_tx_pending = sc.sc_tx_pending ∧
      (urtwm_raw_xmit h k sc ni m params).2.sc_tx_active = sc.sc_tx_active) ∧
    (∀ (sc : urtwm_softc) (m : mbuf) (q : List mbuf),
      sc.sc_snd = m :: q → sc.sc_tx_inactive ≠ [] →
      m.m_data.getD 1 0 &&& IEEE80211_FC1_PROTECTED ≠ 0 →
      unknown_cipher k m.rcvif m = true →
      urtwm_start h k sc =
        call (call { sc with oerrors := sc.oerrors + 1, sc_snd := q } (kcall.m_freem m))
          (kcall.ieee80211_free_node m.rcvif) ∧
      (urtwm_start h k sc).sc_tx_inactive = sc.sc_tx_inactive ∧
      (urtwm_start h k sc).sc_tx_pending = sc.sc_tx_pending ∧
      (urtwm_start h k sc).sc_tx_active = sc.sc_tx_active) := by
  refine ⟨fun sc ni m data hp hu => tx_data_unknown h k sc ni m data hp hu,
    fun sc ni m data params hp hu => tx_raw_unknown h k sc ni m data params hp hu, ?_, ?_⟩
  · intro sc ni m params hrun hne hp hu
    obtain ⟨bf, rest, hq⟩ : ∃ bf rest, sc.sc_tx_inactive = bf :: rest := by
      cases hl : sc.sc_tx_inactive with
      | nil => exact absurd hl hne
      | cons bf rest => exact ⟨bf, rest, rfl⟩
    have hg : urtwm_getbuf sc = (some bf, { sc with sc_tx_inactive := rest }) := by
      simp only [urtwm_getbuf, _urtwm_getbuf, hq]
    have e : urtwm_raw_xmit h k sc ni m params = (EINVAL, call sc (kcall.m_freem m)) := by
      cases params with
      | none =>
        have hd := tx_data_unknown h k { sc with sc_tx_inactive := rest } ni m bf hp hu
        simp only [urtwm_raw_xmit, if_neg hrun, hg, hd]
        rw [if_pos (by decide)]
        simp only [call, ← hq]
      | some p =>
        have hd := tx_raw_unknown h k { sc with sc_tx_inactive := rest } ni m bf p hp hu
        simp only [urtwm_raw_xmit, if_neg hrun, hg, hd]
        rw [if_pos (by decide)]
        simp only [call, ← hq]
    rw [e]
    exact ⟨rfl, rfl, rfl, rfl⟩
  · intro sc m q hs hne hp hu
    obtain ⟨bf, rest, hq⟩ : ∃ bf rest, sc.sc_tx_inactive = bf :: rest := by
      cases hl : sc.sc_tx_inactive with
      | nil => exact absurd hl hne
      | cons bf rest => exact ⟨bf, rest, rfl⟩
    have hg : urtwm_getbuf { sc with sc_snd := q } =
        (some bf, { sc with sc_snd := q, sc_tx_inactive := rest }) := by
      simp only [urtwm_getbuf, _urtwm_getbuf, hq]
    have e : urtwm_start h k sc =
        call (call { sc with oerrors := sc.oerrors + 1, sc_snd := q } (kcall.m_freem m))
          (kcall.ieee80211_free_node m.rcvif) := by
      unfold urtwm_start
      rw [hs]
      unfold urtwm_start_loop
      rw [hg]
      simp only [tx_data_unknown h k _ m.rcvif m bf hp hu]
      simp only [call, ← hq, EINVAL]
    rw [e]
    exact ⟨rfl, rfl, rfl, rfl⟩

theorem tx_unknown_cipher_witness :
    (sample_tx_mixed.sc_snd = sample_protected 1 7 :: [sample_frame 2 7] ∧
     sample_tx_mixed.sc_tx_inactive ≠ [] ∧
     (sample_protected 1 7).m_data.getD 1 0 &&& IEEE80211_FC1_PROTECTED ≠ 0 ∧
     unknown_cipher cipher6_kernel (sample_protected 1 7).rcvif (sample_protected 1 7) = true) ∧
    (urtwm_start sample_hdr cipher6_kernel sample_tx_mixed).sc_tx_inactive =
      [sample_txdata 2, sample_txdata 3] ∧
    (urtwm_start sample_hdr cipher6_kernel sample_tx_mixed).sc_tx_pending =
      [sample_txdata 1] ∧
    (urtwm_start sample_hdr cipher6_kernel sample_tx_mixed).sc_tx_active =
      [sample_txdata 0] :=
  ⟨⟨by decide, by decide, by decide, by decide⟩,
    ((tx_unknown_cipher sample_hdr cipher6_kernel).2.2.2 sample_tx_mixed
      (sample_protected 1 7) [sample_frame 2 7] (by decide) (by decide) (by decide)
      (by decide)).2⟩

/-! ## Control requests -/

theorem do_request_loop_fail (u : usb_stack) (t n e : Nat)
    (hf : ∀ j, j < t → u.req_error (n + j) ≠ 0) :
    urtwm_do_request_loop u t n e = (if t = 0 then e else u.req_error (n + t - 1), n + t) := by
  induction t generalizing n e with
  | zero => simp [urtwm_do_request_loop]
  | succ t ih =>
    have h0 := hf 0 (by omega)
    simp only [Nat.add_zero] at h0
    simp only [urtwm_do_request_loop, if_neg h0]
    rw [ih (n + 1) _ (fun j hj => by
      have := hf (j + 1) (by omega)
      rwa [show n + (j + 1) = n + 1 + j by omega] at this)]
    by_cases ht : t = 0
    · subst ht
      simp
    · rw [if_neg ht, if_neg (by omega)]
      simp only [Prod.mk.injEq]
      constructor
      · congr 1
        omega
      · omega

theorem do_request_loop_first (u : usb_stack) (t n e k : Nat) (hk : k < t)
    (hf : ∀ j, j < k → u.req_error (n + j) ≠ 0) (hs : u.req_error (n + k) = 0) :
    urtwm_do_request_loop u t n e = (0, n + k + 1) := by
  induction t generalizing n e k with
  | zero => omega
  | succ t ih =>
    cases k with
    | zero =>
      simp only [Nat.add_zero] at hs
      simp only [urtwm_do_request_loop, hs, if_true, Nat.add_zero]
    | succ k =>
      have h0 := hf 0 (by omega)
      simp only [Nat.add_zero] at h0
      simp only [urtwm_do_request_loop, if_neg h0]
      rw [ih (n + 1) _ k (by omega) (fun j hj => by
        have := hf (j + 1) (by omega)
        rwa [show n + (j + 1) = n + 1 + j by omega] at this)
        (by rwa [show n + 1 + k = n + (k + 1) by omega])]
      simp only [Prod.mk.injEq, true_and]
      omega

theorem do_request_loop_count (u : usb_stack) (t n e : Nat) :
    n ≤ (urtwm_do_request_loop u t n e).2 ∧ (urtwm_do_request_loop u t n e).2 ≤ n + t := by
  induction t generalizing n e with
  | zero => simp [urtwm_do_request_loop]
  | succ t ih =>
    simp only [urtwm_do_request_loop]
    split
    · simp
    · have := ih (n + 1) (u.req_error n)
      omega

theorem do_request_loop_once (u : usb_stack) (t n e : Nat) :
    n + 1 ≤ (urtwm_do_request_loop u (t + 1) n e).2 := by
  rw [urtwm_do_request_loop]
  split
  · simp
  · have := (do_request_loop_count u t (n + 1) (u.req_error n)).1
    omega

/-- C14. Whatever the USB stack answers, `urtwm_do_request` calls
`usbd_do_request_flags` at least once and at most ten times; if the k-th call
(1 ≤ k ≤ 10) is the first that succeeds it makes exactly k calls and returns success;
if all ten calls fail it returns the error of the tenth and has made exactly ten
calls. -/
theorem do_request_bounded (u : usb_stack) (n : Nat) :
    n + 1 ≤ (urtwm_do_request u n).2 ∧ (urtwm_do_request u n).2 ≤ n + 10 ∧
    (∀ k, 1 ≤ k → k ≤ 10 → (∀ j, j < k - 1 → u.req_error (n + j) ≠ 0) →
      u.req_error (n + (k - 1)) = 0 → urtwm_do_request u n = (0, n + k)) ∧
    ((∀ j, j < 10 → u.req_error (n + j) ≠ 0) →
      urtwm_do_request u n = (u.req_error (n + 9), n + 10)) := by
  refine ⟨?_, (do_request_loop_count u 10 n 0).2, ?_, ?_⟩
  · exact do_request_loop_once u 9 n 0
  · intro k h1 h10 hf hs
    unfold urtwm_do_request
    rw [do_request_loop_first u 10 n 0 (k - 1) (by omega) hf hs]
    simp only [Prod.mk.injEq, true_and]
    omega
  · intro hf
    unfold urtwm_do_request
    rw [do_request_loop_fail u 10 n 0 hf]
    simp

theorem do_request_bounded_witness :
    ((3 : Nat) ≥ 1 ∧ (3 : Nat) ≤ 10 ∧
      (∀ j, j < 3 - 1 → (flaky_stack 2).req_error (0 + j) ≠ 0) ∧
      (flaky_stack 2).req_error (0 + (3 - 1)) = 0) ∧
    urtwm_do_request (flaky_stack 2) 0 = (0, 0 + 3) :=
  ⟨⟨by decide, by decide, by decide, by decide⟩,
    (do_request_bounded (flaky_stack 2) 0).2.2.1 3 (by decide) (by decide) (by decide)
      (by decide)⟩

/-! ## Transmit power -/

theorem power_set_length (p : List Nat) (a : Int) (v : Nat) :
    (power_set p a v).length = p.length := by
  unfold power_set
  split <;> simp

theorem power_get_set (p : List Nat) (a r : Int) (v : Nat) :
    power_get (power_set p a v) r =
      if r = a ∧ 0 ≤ a ∧ a.toNat < p.length then v else power_get p r := by
  unfold power_get power_set
  by_cases ha : 0 ≤ a
  · by_cases hr : 0 ≤ r
    · simp only [ha, hr, if_true, true_and]
      by_cases hra : r = a
      · subst hra
        by_cases hl : r.toNat < p.length
        · simp [hl, List.getD_eq_getElem?_getD]
        · have hl2 : p.length ≤ r.toNat := by omega
          have hl3 : (p.set r.toNat v).length ≤ r.toNat := by simpa using hl2
          simp [hl, List.getD_eq_getElem?_getD, List.getElem?_eq_none hl2,
            List.getElem?_eq_none hl3]
      · have hne : a.toNat ≠ r.toNat := by omega
        simp [hra, List.getD_eq_getElem?_getD, List.getElem?_set_ne hne]
    · have hra : r ≠ a := by omega
      simp [ha, hr, hra]
  · by_cases hra : r = a
    · subst hra
      simp [ha]
    · simp [ha, hra]

theorem for_ridx_fold_length (lo : Int) (f : Nat → Nat) (p : List Nat) (n : Nat) :
    ((List.range n).foldl
      (fun p (i : Nat) => power_set p (lo + (i : Int)) (f (power_get p (lo + (i : Int))))) p).length =
      p.length := by
  induction n with
  | zero => simp
  | succ n ih => rw [List.range_succ, List.foldl_append, List.foldl_cons, List.foldl_nil,
      power_set_length, ih]

theorem for_ridx_fold_get (lo : Int) (f : Nat → Nat) (p : List Nat) (n : Nat) :
    ∀ r : Int, power_get ((List.range n).foldl
      (fun p (i : Nat) => power_set p (lo + (i : Int)) (f (power_get p (lo + (i : Int))))) p) r =
      if lo ≤ r ∧ r < lo + n ∧ 0 ≤ r ∧ r.toNat < p.length then f (power_get p r)
      else power_get p r := by
  induction n with
  | zero =>
    intro r
    have : ¬ (lo ≤ r ∧ r < lo + ((0 : Nat) : Int) ∧ 0 ≤ r ∧ r.toNat < p.length) := by omega
    rw [if_neg this]
    rfl
  | succ n ih =>
    intro r
    rw [List.range_succ, List.foldl_append, List.foldl_cons, List.foldl_nil, power_get_set,
      for_ridx_fold_length]
    by_cases hr : r = lo + (n : Int)
    · subst hr
      by_cases hb : 0 ≤ lo + (n : Int) ∧ (lo + (n : Int)).toNat < p.length
      · rw [if_pos ⟨rfl, hb⟩, if_pos (by push_cast; omega)]
        congr 1
        rw [ih (lo + n), if_neg (by omega)]
      · rw [if_neg (by tauto), ih, if_neg (by omega), if_neg (by push_cast; omega)]
    · rw [if_neg (by tauto), ih]
      by_cases hc : lo ≤ r ∧ r < lo + (n : Int) ∧ 0 ≤ r ∧ r.toNat < p.length
      · rw [if_pos hc, if_pos (by push_cast; omega)]
      · rw [if_neg hc, if_neg (by push_cast; omega)]
theorem for_ridx_length (lo hi : Int) (f : Nat → Nat) (p : List Nat) :
    (for_ridx lo hi f p).length = p.length :=
  for_ridx_fold_length lo f p _

/-- The loop touches exactly the entries `lo..hi` that lie inside the array. -/
theorem for_ridx_get (lo hi : Int) (f : Nat → Nat) (p : List Nat) (r : Int) :
    power_get (for_ridx lo hi f p) r =
      if lo ≤ r ∧ r ≤ hi ∧ 0 ≤ r ∧ r.toNat < p.length then f (power_get p r)
      else power_get p r := by
  unfold for_ridx
  rw [for_ridx_fold_get]
  by_cases hc : lo ≤ r ∧ r ≤ hi ∧ 0 ≤ r ∧ r.toNat < p.length
  · rw [if_pos hc, if_pos (by omega)]
  · rw [if_neg hc, if_neg (by omega)]

theorem power_get_outside (p : List Nat) (r : Int) (h : ¬ (0 ≤ r ∧ r.toNat < p.length)) :
    power_get p r = 0 := by
  unfold power_get
  by_cases hr : 0 ≤ r
  · rw [if_pos hr, List.getD_eq_getElem?_getD, List.getElem?_eq_none (by omega)]
    rfl
  · rw [if_neg hr]

theorem power_get_zero (n : Nat) (r : Int) : power_get (power_zero n) r = 0 := by
  unfold power_get power_zero
  split
  · rw [List.getD_eq_getElem?_getD]
    cases h : (List.replicate n 0)[r.toNat]? with
    | none => rfl
    | some b =>
      have := List.getElem?_mem h
      simp only [List.mem_replicate] at this
      simp [this.2]
  · rfl

/-- C15. After `urtwm_get_txpower` has filled a zeroed power array, every entry
`power[ridx]` with `URTWM_RIDX_CCK1 ≤ ridx ≤ max_mcs`, where
`max_mcs = URTWM_RIDX_MCS(8 * ntxchains - 1)`, is at most `R92C_MAX_TX_PWR`, for every
chain, channel, content of the calibration tables and value of the header constants;
on a channel with a valid power group the entry is the minimum of `R92C_MAX_TX_PWR` and
the value computed before the limit is applied, so a value above the limit ends equal
to the limit. -/
theorem txpower_clamped (rt : urtwm_rates) (sc : urtwm_txpwr) (junk : Int → Nat)
    (chain : Int) (c : ieee80211_channel) (n : Nat) :
    (∀ ridx : Int, rt.URTWM_RIDX_CCK1 ≤ ridx →
      ridx ≤ rt.URTWM_RIDX_MCS (sc.ntxchains * 8 - 1) →
      power_get (urtwm_get_txpower rt sc junk chain c (power_zero n)) ridx ≤
        rt.R92C_MAX_TX_PWR) ∧
    (urtwm_get_power_group c ≠ -1 → ∀ ridx : Int, rt.URTWM_RIDX_CCK1 ≤ ridx →
      ridx ≤ rt.URTWM_RIDX_MCS (sc.ntxchains * 8 - 1) →
      power_get (urtwm_get_txpower rt sc junk chain c (power_zero n)) ridx =
        min (power_get (txpower_unclamped rt sc junk chain c (urtwm_get_power_group c)
          (power_zero n)) ridx) rt.R92C_MAX_TX_PWR) := by
  have key : urtwm_get_power_group c ≠ -1 → ∀ ridx : Int, rt.URTWM_RIDX_CCK1 ≤ ridx →
      ridx ≤ rt.URTWM_RIDX_MCS (sc.ntxchains * 8 - 1) →
      power_get (urtwm_get_txpower rt sc junk chain c (power_zero n)) ridx =
        min (power_get (txpower_unclamped rt sc junk chain c (urtwm_get_power_group c)
          (power_zero n)) ridx) rt.R92C_MAX_TX_PWR := by
    intro hg ridx h1 h2
    simp only [urtwm_get_txpower, if_neg hg]
    rw [for_ridx_get]
    by_cases hb : 0 ≤ ridx ∧ ridx.toNat < (txpower_unclamped rt sc junk chain c
        (urtwm_get_power_group c) (power_zero n)).length
    · rw [if_pos ⟨h1, h2, hb⟩]
      split <;> omega
    · rw [if_neg (by tauto), power_get_outside _ _ hb]
      simp
  refine ⟨?_, key⟩
  intro ridx h1 h2
  by_cases hg : urtwm_get_power_group c = -1
  · simp only [urtwm_get_txpower, if_pos hg]
    rw [power_get_zero]
    exact Nat.zero_le _
  · rw [key hg ridx h1 h2]
    exact Nat.min_le_right _ _

theorem txpower_clamped_witness :
    urtwm_get_power_group (chan_5ghz 36 IEEE80211_CHAN_HT20) ≠ -1 ∧
    sample_rates.URTWM_RIDX_CCK1 ≤ 19 ∧
    19 ≤ sample_rates.URTWM_RIDX_MCS ((sample_txpwr 60 5).ntxchains * 8 - 1) ∧
    power_get (txpower_unclamped sample_rates (sample_txpwr 60 5) (fun _ => 0) 0
      (chan_5ghz 36 IEEE80211_CHAN_HT20) 0 (power_zero 28)) 19 = 65 ∧
    power_get (urtwm_get_txpower sample_rates (sample_txpwr 60 5) (fun _ => 0) 0
      (chan_5ghz 36 IEEE80211_CHAN_HT20) (power_zero 28)) 19 ≤ 0x3f :=
  ⟨by decide, by decide, by decide, by decide,
    (txpower_clamped sample_rates (sample_txpwr 60 5) (fun _ => 0) 0
      (chan_5ghz 36 IEEE80211_CHAN_HT20) 28).1 19 (by decide) (by decide)⟩

theorem write_addrs_append (a b : List reg_op) :
    write_addrs (a ++ b) = write_addrs a ++ write_addrs b := by
  simp [write_addrs, List.filterMap_append]

theorem write_1_ops (u : usb_stack) (s : ctl_state) (addr val : Nat) :
    (urtwm_write_1 u s addr val).2.ops =
      s.ops ++ [reg_op.write (addr % 65536) 1 (val % 2 ^ 8) (urtwm_write_1 u s addr val).1] :=
  rfl

theorem write_2_ops (u : usb_stack) (s : ctl_state) (addr val : Nat) :
    (urtwm_write_2 u s addr val).2.ops =
      s.ops ++ [reg_op.write (addr % 65536) 2 (val % 2 ^ 16) (urtwm_write_2 u s addr val).1] :=
  rfl

theorem write_4_ops (u : usb_stack) (s : ctl_state) (addr val : Nat) :
    (urtwm_write_4 u s addr val).2.ops =
      s.ops ++ [reg_op.write (addr % 65536) 4 (val % 2 ^ 32) (urtwm_write_4 u s addr val).1] :=
  rfl

theorem read_1_reads (u : usb_stack) (addr : Nat) :
    reads_reg (fun s => urtwm_read_1 u s addr) (addr % 65536) 1 := by
  intro s
  exact ⟨_, _, rfl, rfl⟩

theorem read_2_reads (u : usb_stack) (addr : Nat) :
    reads_reg (fun s => urtwm_read_2 u s addr) (addr % 65536) 2 := by
  intro s
  exact ⟨_, _, rfl, rfl⟩

theorem read_4_reads (u : usb_stack) (addr : Nat) :
    reads_reg (fun s => urtwm_read_4 u s addr) (addr % 65536) 4 := by
  intro s
  exact ⟨_, _, rfl, rfl⟩
theorem write_addrs_write_1 (u : usb_stack) (s : ctl_state) (addr val : Nat) :
    write_addrs (urtwm_write_1 u s addr val).2.ops = write_addrs s.ops ++ [addr % 65536] := by
  rw [write_1_ops, write_addrs_append]
  rfl

theorem write_addrs_read_1 (u : usb_stack) (s : ctl_state) (addr : Nat) :
    write_addrs (urtwm_read_1 u s addr).2.ops = write_addrs s.ops := by
  obtain ⟨v, e, _, h⟩ := read_1_reads u addr s
  simp only at h
  rw [h, write_addrs_append]
  simp [write_addrs]

theorem write_addrs_setbits_1 (u : usb_stack) (s : ctl_state) (addr clr set : Nat) :
    write_addrs (urtwm_setbits_1 u s addr clr set).2.ops =
      write_addrs s.ops ++ [addr % 65536] := by
  unfold urtwm_setbits_1
  rw [write_addrs_write_1, write_addrs_read_1]

theorem write_addrs_setbits_1_shift (u : usb_stack) (s : ctl_state)
    (addr clr set shift : Nat) :
    write_addrs (urtwm_setbits_1_shift u s addr clr set shift).2.ops =
      write_addrs s.ops ++ [(addr + shift) % 65536] := by
  unfold urtwm_setbits_1_shift
  rw [write_addrs_setbits_1]

/-- What a polling loop over a register read leaves in the log: at most `n` reads of
the register; `n` reads none of which satisfied the condition when the loop timed out,
and a last read that satisfied it otherwise. -/
theorem poll_loop_reads (rd : ctl_state → Nat × ctl_state) (done : Nat → Bool)
    (addr len : Nat) (hrd : reads_reg rd addr len) (n : Nat) (s : ctl_state) :
    ∃ L : List reg_op, (poll_loop rd done n s).2.ops = s.ops ++ L ∧ L.length ≤ n ∧
      (∀ op ∈ L, ∃ v e, op = reg_op.read addr len v e) ∧
      ((poll_loop rd done n s).1 = false →
        L.length = n ∧ ∀ op ∈ L, done op.value = false) ∧
      ((poll_loop rd done n s).1 = true →
        ∃ op, L.getLast? = some op ∧ done op.value = true) := by
  induction n generalizing s with
  | zero =>
    refine ⟨[], by simp [poll_loop], by simp, by simp, ?_, ?_⟩
    · intro _
      simp
    · intro h
      simp [poll_loop] at h
  | succ n ih =>
    obtain ⟨v, e, hv, ho⟩ := hrd s
    by_cases hd : done (rd s).1 = true
    · refine ⟨[reg_op.read addr len v e], ?_, by simp, ?_, ?_, ?_⟩
      · simp only [poll_loop, hd, if_true]
        exact ho
      · intro op hop
        simp only [List.mem_singleton] at hop
        exact ⟨v, e, hop⟩
      · intro h
        simp [poll_loop, hd] at h
      · intro _
        refine ⟨reg_op.read addr len v e, rfl, ?_⟩
        rw [← hv]
        exact hd
    · obtain ⟨L, h1, h2, h3, h4, h5⟩ := ih (rd s).2
      have e1 : poll_loop rd done (n + 1) s = poll_loop rd done n (rd s).2 := by
        simp only [poll_loop, hd, Bool.false_eq_true, if_false]
      rw [e1]
      refine ⟨reg_op.read addr len v e :: L, ?_, by simp; omega, ?_, ?_, ?_⟩
      · rw [h1, ho]
        simp
      · intro op hop
        rcases List.mem_cons.mp hop with h | h
        · exact ⟨v, e, h⟩
        · exact h3 op h
      · intro h
        obtain ⟨h6, h7⟩ := h4 h
        refine ⟨by simp [h6], ?_⟩
        intro op hop
        rcases List.mem_cons.mp hop with h | h
        · rw [h, ← hv]
          simpa using hd
        · exact h7 op h
      · intro h
        obtain ⟨op, h6, h7⟩ := h5 h
        refine ⟨op, ?_, h7⟩
        cases L with
        | nil => simp at h6
        | cons x xs => simpa [List.getLast?_cons_cons] using h6

theorem write_addrs_poll (rd : ctl_state → Nat × ctl_state) (done : Nat → Bool)
    (addr len : Nat) (hrd : reads_reg rd addr len) (n : Nat) (s : ctl_state) :
    write_addrs (poll_loop rd done n s).2.ops = write_addrs s.ops := by
  obtain ⟨L, h1, _, h3, _, _⟩ := poll_loop_reads rd done addr len hrd n s
  rw [h1, write_addrs_append]
  have : write_addrs L = [] := by
    unfold write_addrs
    rw [List.filterMap_eq_nil_iff]
    intro op hop
    obtain ⟨v, e, h⟩ := h3 op hop
    rw [h]
  rw [this, List.append_nil]
/-! ## Power off -/

/-- The three stages of `urtwm_power_off`: the writes before the Tx-queue drain poll,
the writes between the two polls and the writes after the MAC turn-off poll. -/
theorem power_off_shape (k : urtwm_consts) (u : usb_stack) (s : ctl_state) :
    ∃ s3 s15 s19 : ctl_state,
      write_addrs s3.ops = write_addrs s.ops ++ (power_off_writes k).take 3 ∧
      write_addrs s15.ops =
        write_addrs (poll_loop (fun s => urtwm_read_4 u s (k "R88E_SCH_TXCMD"))
          (fun v => v = 0) 5000 s3).2.ops ++ ((power_off_writes k).drop 3).take 12 ∧
      write_addrs s19.ops =
        write_addrs (poll_loop (fun s => urtwm_read_2 u s (k "R92C_APS_FSMCO"))
          (fun v => v &&& k "R92C_APS_FSMCO_APFM_OFF" = 0) 5000 s15).2.ops ++
          (power_off_writes k).drop 15 ∧
      (∃ v e, s19.ops.getLast? =
        some (reg_op.write ((k "R92C_GPIO_INTM" + 2) % 65536) 1 v e)) ∧
      urtwm_power_off k u s =
        if (poll_loop (fun s => urtwm_read_4 u s (k "R88E_SCH_TXCMD"))
            (fun v => v = 0) 5000 s3).1 = true then
          if (poll_loop (fun s => urtwm_read_2 u s (k "R92C_APS_FSMCO"))
              (fun v => v &&& k "R92C_APS_FSMCO_APFM_OFF" = 0) 5000 s15).1 = true then
            (none, s19)
          else
            (some 0, (poll_loop (fun s => urtwm_read_2 u s (k "R92C_APS_FSMCO"))
              (fun v => v &&& k "R92C_APS_FSMCO_APFM_OFF" = 0) 5000 s15).2)
        else
          (some 0, (poll_loop (fun s => urtwm_read_4 u s (k "R88E_SCH_TXCMD"))
            (fun v => v = 0) 5000 s3).2) := by
  refine ⟨(run_steps ((urtwm_power_off_steps k u).take 3) s).2,
    (run_steps (((urtwm_power_off_steps k u).drop 4).take 12)
      (poll_loop (fun s => urtwm_read_4 u s (k "R88E_SCH_TXCMD")) (fun v => v = 0) 5000
        (run_steps ((urtwm_power_off_steps k u).take 3) s).2).2).2,
    (run_steps ((urtwm_power_off_steps k u).drop 17)
      (poll_loop (fun s => urtwm_read_2 u s (k "R92C_APS_FSMCO"))
        (fun v => v &&& k "R92C_APS_FSMCO_APFM_OFF" = 0) 5000
        (run_steps (((urtwm_power_off_steps k u).drop 4).take 12)
          (poll_loop (fun s => urtwm_read_4 u s (k "R88E_SCH_TXCMD")) (fun v => v = 0) 5000
            (run_steps ((urtwm_power_off_steps k u).take 3) s).2).2).2).2).2,
    ?_, ?_, ?_, ?_, rfl⟩
  · simp only [urtwm_power_off_steps, List.take, run_steps, write_addrs_setbits_1,
      write_addrs_write_1, write_addrs_setbits_1_shift, power_off_writes,
      List.append_assoc, List.cons_append, List.nil_append]
  · generalize (poll_loop (fun s => urtwm_read_4 u s (k "R88E_SCH_TXCMD")) (fun v => v = 0)
      5000 (run_steps ((urtwm_power_off_steps k u).take 3) s).2).2 = t
    simp only [urtwm_power_off_steps, List.take, List.drop, run_steps, write_addrs_setbits_1,
      write_addrs_write_1, write_addrs_setbits_1_shift, power_off_writes,
      List.append_assoc, List.cons_append, List.nil_append]
  · generalize (poll_loop (fun s => urtwm_read_2 u s (k "R92C_APS_FSMCO"))
        (fun v => v &&& k "R92C_APS_FSMCO_APFM_OFF" = 0) 5000
        (run_steps (((urtwm_power_off_steps k u).drop 4).take 12)
          (poll_loop (fun s => urtwm_read_4 u s (k "R88E_SCH_TXCMD")) (fun v => v = 0) 5000
            (run_steps ((urtwm_power_off_steps k u).take 3) s).2).2).2).2 = t
    simp only [urtwm_power_off_steps, List.take, List.drop, run_steps, write_addrs_setbits_1,
      write_addrs_write_1, write_addrs_setbits_1_shift, power_off_writes,
      List.append_assoc, List.cons_append, List.nil_append]
  · generalize (poll_loop (fun s => urtwm_read_2 u s (k "R92C_APS_FSMCO"))
        (fun v => v &&& k "R92C_APS_FSMCO_APFM_OFF" = 0) 5000
        (run_steps (((urtwm_power_off_steps k u).drop 4).take 12)
          (poll_loop (fun s => urtwm_read_4 u s (k "R88E_SCH_TXCMD")) (fun v => v = 0) 5000
            (run_steps ((urtwm_power_off_steps k u).take 3) s).2).2).2).2 = t
    simp only [urtwm_power_off_steps, List.drop, run_steps]
    generalize (urtwm_setbits_1_shift u _ (k "R92C_APS_FSMCO") (k "R92C_APS_FSMCO_AFSM_PCIE")
      (k "R92C_APS_FSMCO_AFSM_HSUS") 1).2 = t2
    unfold urtwm_setbits_1
    rw [write_1_ops, List.getLast?_append]
    exact ⟨_, _, rfl⟩
/-- C13. `urtwm_power_off` returns before its last step in exactly two cases, whatever
the other register reads and writes return: when the Tx-queue drain poll times out
(all 5000 reads of `R88E_SCH_TXCMD` non-zero; only the first three writes were made),
and when the MAC turn-off poll times out (all 5000 reads of `R92C_APS_FSMCO` have the
`APFM_OFF` bit set; only the first fifteen writes were made).  In every other run it
writes all nineteen registers of the sequence in program order, the last write being
the one to `R92C_GPIO_INTM + 2` that enables GPIO9 as external wake-up. -/
theorem power_off_returns (k : urtwm_consts) (u : usb_stack) (s : ctl_state) :
    ((urtwm_power_off k u s).1 = none →
      write_addrs (urtwm_power_off k u s).2.ops = write_addrs s.ops ++ power_off_writes k ∧
      ∃ v e, (urtwm_power_off k u s).2.ops.getLast? =
        some (reg_op.write ((k "R92C_GPIO_INTM" + 2) % 65536) 1 v e)) ∧
    ((urtwm_power_off k u s).1 ≠ none →
      (write_addrs (urtwm_power_off k u s).2.ops =
          write_addrs s.ops ++ (power_off_writes k).take 3 ∧
        ∃ L : List reg_op, L <:+ (urtwm_power_off k u s).2.ops ∧ L.length = 5000 ∧
          ∀ op ∈ L, (∃ v e, op = reg_op.read (k "R88E_SCH_TXCMD" % 65536) 4 v e) ∧
            op.value ≠ 0) ∨
      (write_addrs (urtwm_power_off k u s).2.ops =
          write_addrs s.ops ++ (power_off_writes k).take 15 ∧
        ∃ L : List reg_op, L <:+ (urtwm_power_off k u s).2.ops ∧ L.length = 5000 ∧
          ∀ op ∈ L, (∃ v e, op = reg_op.read (k "R92C_APS_FSMCO" % 65536) 2 v e) ∧
            op.value &&& k "R92C_APS_FSMCO_APFM_OFF" ≠ 0)) := by
  obtain ⟨s3, s15, s19, h3, h15, h19, hlast, he⟩ := power_off_shape k u s
  have w1 := write_addrs_poll _ (fun v => decide (v = 0)) _ _
    (read_4_reads u (k "R88E_SCH_TXCMD")) 5000 s3
  have w2 := write_addrs_poll _ (fun v => decide (v &&& k "R92C_APS_FSMCO_APFM_OFF" = 0)) _ _
    (read_2_reads u (k "R92C_APS_FSMCO")) 5000 s15
  obtain ⟨L1, a1, _, a3, a4, _⟩ := poll_loop_reads _ (fun v => decide (v = 0)) _ _
    (read_4_reads u (k "R88E_SCH_TXCMD")) 5000 s3
  obtain ⟨L2, b1, _, b3, b4, _⟩ := poll_loop_reads _
    (fun v => decide (v &&& k "R92C_APS_FSMCO_APFM_OFF" = 0)) _ _
    (read_2_reads u (k "R92C_APS_FSMCO")) 5000 s15
  rw [w1] at h15
  rw [w2] at h19
  have t15 : write_addrs s15.ops = write_addrs s.ops ++ (power_off_writes k).take 15 := by
    rw [h15, h3]
    simp [power_off_writes]
  have t19 : write_addrs s19.ops = write_addrs s.ops ++ power_off_writes k := by
    rw [h19, t15]
    simp [power_off_writes]
  rw [he]
  by_cases p1 : (poll_loop (fun s => urtwm_read_4 u s (k "R88E_SCH_TXCMD"))
      (fun v => decide (v = 0)) 5000 s3).1 = true
  · by_cases p2 : (poll_loop (fun s => urtwm_read_2 u s (k "R92C_APS_FSMCO"))
        (fun v => decide (v &&& k "R92C_APS_FSMCO_APFM_OFF" = 0)) 5000 s15).1 = true
    · rw [if_pos p1, if_pos p2]
      exact ⟨fun _ => ⟨t19, hlast⟩, fun h => absurd rfl h⟩
    · rw [if_pos p1, if_neg p2]
      refine ⟨fun h => by simp at h, fun _ => Or.inr ⟨by rw [w2, t15], L2, ?_, ?_, ?_⟩⟩
      · exact ⟨s15.ops, b1.symm⟩
      · exact (b4 (by simpa using p2)).1
      · intro op hop
        refine ⟨b3 op hop, ?_⟩
        have := (b4 (by simpa using p2)).2 op hop
        simpa using this
  · rw [if_neg p1]
    refine ⟨fun h => by simp at h, fun _ => Or.inl ⟨by rw [w1, h3], L1, ?_, ?_, ?_⟩⟩
    · exact ⟨s3.ops, a1.symm⟩
    · exact (a4 (by simpa using p1)).1
    · intro op hop
      refine ⟨a3 op hop, ?_⟩
      have := (a4 (by simpa using p1)).2 op hop
      simpa using this

theorem power_off_returns_witness :
    (urtwm_power_off sample_consts quiet_stack ctl_zero).1 = none ∧
    write_addrs (urtwm_power_off sample_consts quiet_stack ctl_zero).2.ops =
      write_addrs ctl_zero.ops ++ power_off_writes sample_consts ∧
    power_off_writes sample_consts =
      [0x4ec, 0x100, 0x522, 0x002, 0x002, 0x100, 0x101, 0x553, 0x003, 0x080, 0x01f, 0x04f,
        0x049, 0x006, 0x005, 0x000, 0x020, 0x005, 0x04a] :=
  ⟨by decide,
    ((power_off_returns sample_consts quiet_stack ctl_zero).1 (by decide)).1,
    by decide⟩
theorem run_steps_append (A B : List seq_step) (s : ctl_state)
    (h : (run_steps A s).1 = none) :
    run_steps (A ++ B) s = run_steps B (run_steps A s).2 := by
  induction A generalizing s with
  | nil => rfl
  | cons st A ih =>
    cases st with
    | chk a =>
      by_cases hc : (a s).1 ≠ 0
      · simp [run_steps, hc] at h
      · simp only [run_steps, if_neg hc] at h
        simp only [List.cons_append, run_steps, if_neg hc]
        exact ih _ h
    | ret a =>
      by_cases hc : (a s).1 ≠ 0
      · simp [run_steps, hc] at h
      · simp only [run_steps, if_neg hc] at h
        simp only [List.cons_append, run_steps, if_neg hc]
        exact ih _ h
    | ign a =>
      simp only [run_steps] at h
      simp only [List.cons_append, run_steps]
      exact ih _ h
    | poll n rd done err =>
      by_cases hc : (poll_loop rd done n s).1 = true
      · simp only [run_steps, if_pos hc] at h
        simp only [List.cons_append, run_steps, if_pos hc]
        exact ih _ h
      · simp [run_steps, hc] at h

/-- A polling loop times out when no read can satisfy its condition. -/
theorem poll_loop_stuck (rd : ctl_state → Nat × ctl_state) (done : Nat → Bool)
    (inv : ctl_state → Prop)
    (hinv : ∀ s, inv s → done (rd s).1 = false ∧ inv (rd s).2) (n : Nat) (s : ctl_state)
    (hs : inv s) : (poll_loop rd done n s).1 = false := by
  induction n generalizing s with
  | zero => rfl
  | succ n ih =>
    obtain ⟨h1, h2⟩ := hinv s hs
    simp only [poll_loop, h1, Bool.false_eq_true, if_false]
    exact ih _ h2

theorem stuck_stack_read_2 (s : ctl_state) (addr : Nat) (hs : 5 ≤ s.n_req) :
    (urtwm_read_2 stuck_stack s addr).1 = 0xffff ∧
    5 ≤ (urtwm_read_2 stuck_stack s addr).2.n_req := by
  have h1 : urtwm_do_request stuck_stack s.n_req = (0, s.n_req + 1) := rfl
  have h2 : stuck_stack.req_data (s.n_req + 1 - 1) = 0xffffffff := by
    have : s.n_req + 1 - 1 ≠ 4 := by omega
    simp only [stuck_stack, if_neg this]
  simp only [urtwm_read_2, urtwm_read_region_1, h1, h2]
  exact ⟨by decide, by omega⟩

/-- A run of `urtwm_power_off` in which the Tx-queue drain poll succeeds at its first
read (the fifth access reads 0 from `R88E_SCH_TXCMD`) and which still returns before
the last step: the `APFM_OFF` bit never clears, the function returns after fifteen of
the nineteen writes and the write to `R92C_GPIO_INTM + 2` (0x04a) is not made. -/
theorem power_off_returns_counterexample :
    (urtwm_power_off sample_consts stuck_stack ctl_zero).2.ops.get? 4 =
      some (reg_op.read 0x5f8 4 0 0) ∧
    (urtwm_power_off sample_consts stuck_stack ctl_zero).1 = some 0 ∧
    write_addrs (urtwm_power_off sample_consts stuck_stack ctl_zero).2.ops =
      (power_off_writes sample_consts).take 15 ∧
    0x04a ∉ write_addrs (urtwm_power_off sample_consts stuck_stack ctl_zero).2.ops := by
  have h16 : (run_steps ((urtwm_power_off_steps sample_consts stuck_stack).take 16)
      ctl_zero).1 = none := by decide
  have hn : 5 ≤ (run_steps ((urtwm_power_off_steps sample_consts stuck_stack).take 16)
      ctl_zero).2.n_req := by decide
  have hw : write_addrs (run_steps ((urtwm_power_off_steps sample_consts stuck_stack).take 16)
      ctl_zero).2.ops = (power_off_writes sample_consts).take 15 := by decide
  have hg : (run_steps ((urtwm_power_off_steps sample_consts stuck_stack).take 16)
      ctl_zero).2.ops.get? 4 = some (reg_op.read 0x5f8 4 0 0) := by decide
  have hl : 4 < (run_steps ((urtwm_power_off_steps sample_consts stuck_stack).take 16)
      ctl_zero).2.ops.length := by decide
  have he : urtwm_power_off sample_consts stuck_stack ctl_zero =
      run_steps ((urtwm_power_off_steps sample_consts stuck_stack).take 16 ++
        (urtwm_power_off_steps sample_consts stuck_stack).drop 16) ctl_zero := by
    unfold urtwm_power_off
    rw [List.take_append_drop]
  rw [run_steps_append _ _ _ h16] at he
  generalize (run_steps ((urtwm_power_off_steps sample_consts stuck_stack).take 16)
      ctl_zero).2 = t at hn hw hg hl he
  have hp := poll_loop_stuck (fun s => urtwm_read_2 stuck_stack s (sample_consts "R92C_APS_FSMCO"))
    (fun v => decide (v &&& sample_consts "R92C_APS_FSMCO_APFM_OFF" = 0))
    (fun s => 5 ≤ s.n_req)
    (fun s hs => by
      obtain ⟨h1, h2⟩ := stuck_stack_read_2 s (sample_consts "R92C_APS_FSMCO") hs
      refine ⟨?_, h2⟩
      simp only [h1]
      decide)
    5000 t hn
  have hd : run_steps ((urtwm_power_off_steps sample_consts stuck_stack).drop 16) t =
      (some 0, (poll_loop (fun s => urtwm_read_2 stuck_stack s (sample_consts "R92C_APS_FSMCO"))
        (fun v => decide (v &&& sample_consts "R92C_APS_FSMCO_APFM_OFF" = 0)) 5000 t).2) := by
    simp only [urtwm_power_off_steps, List.drop, run_steps, hp, Bool.false_eq_true, if_false]
  obtain ⟨L, b1, _, _, _, _⟩ := poll_loop_reads _
    (fun v => decide (v &&& sample_consts "R92C_APS_FSMCO_APFM_OFF" = 0)) _ _
    (read_2_reads stuck_stack (sample_consts "R92C_APS_FSMCO")) 5000 t
  have hwp := write_addrs_poll _
    (fun v => decide (v &&& sample_consts "R92C_APS_FSMCO_APFM_OFF" = 0)) _ _
    (read_2_reads stuck_stack (sample_consts "R92C_APS_FSMCO")) 5000 t
  rw [he, hd]
  refine ⟨?_, rfl, ?_, ?_⟩
  · show (poll_loop _ _ 5000 t).2.ops.get? 4 = _
    rw [b1, List.get?_eq_getElem?, List.getElem?_append_left hl, ← List.get?_eq_getElem?]
    exact hg
  · show write_addrs (poll_loop _ _ 5000 t).2.ops = _
    rw [hwp, hw]
  · show 0x04a ∉ write_addrs (poll_loop _ _ 5000 t).2.ops
    rw [hwp, hw]
    decide

/-! ## Checked register sequences -/

set_option maxRecDepth 100000 in
theorem rssi_cck_bytes :
    ∀ a ∈ List.range 256,
      urtwm_get_rssi_cck a =
        -6 - 2 * ((a &&& 0x1f : Nat) : Int) + rssi_cck_correction ((a >>> 5) &&& 7) ∧
      -100 ≤ urtwm_get_rssi_cck a ∧ urtwm_get_rssi_cck a ≤ 15 := by
  decide

/-- C30. For every value of the byte `agc_rpt`, `urtwm_get_rssi_cck` returns
`-6 - 2 * (agc_rpt & 0x1f)` plus the correction of the LNA index `(agc_rpt >> 5) & 7`
(+21, +5, -11, -24, -32 for the indices 0, 1, 2, 4, 5 and 0 for 3, 6, 7), computed over
the integers: the value lies between -100 and 15 and no `int8_t` conversion wraps. -/
theorem rssi_cck_formula (agc_rpt : Nat) (h : agc_rpt < 256) :
    urtwm_get_rssi_cck agc_rpt =
      -6 - 2 * ((agc_rpt &&& 0x1f : Nat) : Int) +
        rssi_cck_correction ((agc_rpt >>> 5) &&& 7) ∧
    -100 ≤ urtwm_get_rssi_cck agc_rpt ∧ urtwm_get_rssi_cck agc_rpt ≤ 15 :=
  rssi_cck_bytes agc_rpt (List.mem_range.mpr h)

theorem rssi_cck_formula_witness :
    (0xbf : Nat) < 256 ∧ urtwm_get_rssi_cck 0xbf = -100 ∧
    -100 ≤ urtwm_get_rssi_cck 0xbf ∧ urtwm_get_rssi_cck 0xbf ≤ 15 :=
  ⟨by decide, by decide, (rssi_cck_formula 0xbf (by decide)).2⟩
/-! ## Page counts of the TX queues -/

/-- The two register writes of `urtwm_dma_init` that load the page counts write the
values of `urtwm_dma_pages`. -/
theorem dma_init_steps_pages (k : urtwm_consts) (u : usb_stack) (ntx : Nat) :
    ((urtwm_dma_init_steps k u ntx).drop 1).take 2 =
      [ seq_step.chk (fun s => urtwm_write_1 u s (k "R92C_RQPN_NPQ")
          (to_uint32 (urtwm_dma_pages ntx (k "R88A_TX_PAGE_COUNT")
            (k "R88A_PUBQ_NPAGES")).normal)),
        seq_step.chk (fun s => urtwm_write_4 u s (k "R92C_RQPN")
          (SM (k "R92C_RQPN_PUBQ_M") (k "R92C_RQPN_PUBQ_S")
              (to_uint32 (k "R88A_PUBQ_NPAGES" : Int)) |||
            SM (k "R92C_RQPN_HPQ_M") (k "R92C_RQPN_HPQ_S")
              (to_uint32 (urtwm_dma_pages ntx (k "R88A_TX_PAGE_COUNT")
                (k "R88A_PUBQ_NPAGES")).high) |||
            SM (k "R92C_RQPN_LPQ_M") (k "R92C_RQPN_LPQ_S")
              (to_uint32 (urtwm_dma_pages ntx (k "R88A_TX_PAGE_COUNT")
                (k "R88A_PUBQ_NPAGES")).low) |||
            k "R92C_RQPN_LD")) ] :=
  rfl

theorem and_eq_zero_bit (a b : Nat) (h : a &&& b = 0) (i : Nat) :
    (a.testBit i && b.testBit i) = false := by
  rw [← Nat.testBit_and, h]
  exact Nat.zero_testBit i

theorem bit_lt_32 (m : Nat) (hm : m < 2 ^ 32) (i : Nat) (hi : m.testBit i = true) : i < 32 := by
  by_contra hc
  have h1 := Nat.testBit_implies_ge hi
  have h2 : 2 ^ 32 ≤ 2 ^ i := Nat.pow_le_pow_right (by decide) (by omega)
  omega

/-- A bit that is set by `|=` is set, and a bit disjoint from everything that was set
stays as it was. -/
theorem or_bits (x c d m : Nat) (hc : c < 2 ^ 32) (hd : d < 2 ^ 32) :
    (x ||| c % 2 ^ 32 ||| d % 2 ^ 32) &&& c = c ∧ (x ||| c % 2 ^ 32 ||| d % 2 ^ 32) &&& d = d ∧
    (c &&& m = 0 → d &&& m = 0 → (x ||| c % 2 ^ 32 ||| d % 2 ^ 32) &&& m = x &&& m) := by
  rw [Nat.mod_eq_of_lt hc, Nat.mod_eq_of_lt hd]
  refine ⟨?_, ?_, ?_⟩
  · apply Nat.eq_of_testBit_eq
    intro i
    simp only [Nat.testBit_and, Nat.testBit_or]
    cases x.testBit i <;> cases c.testBit i <;> cases d.testBit i <;> rfl
  · apply Nat.eq_of_testBit_eq
    intro i
    simp only [Nat.testBit_and, Nat.testBit_or]
    cases x.testBit i <;> cases c.testBit i <;> cases d.testBit i <;> rfl
  · intro h1 h2
    apply Nat.eq_of_testBit_eq
    intro i
    have b1 := and_eq_zero_bit c m h1 i
    have b2 := and_eq_zero_bit d m h2 i
    simp only [Nat.testBit_and, Nat.testBit_or]
    revert b1 b2
    cases x.testBit i <;> cases c.testBit i <;> cases d.testBit i <;> cases m.testBit i <;> simp

/-- Reading back a field that was zero and has been set with `SM`. -/
theorem field_get_set (y v M S w : Nat) (hM : M = (2 ^ w - 1) <<< S) (hM32 : M < 2 ^ 32)
    (hv : v < 2 ^ w) (hy : y &&& M = 0) :
    MS (y ||| SM M S v % 2 ^ 32) M S = v := by
  apply Nat.eq_of_testBit_eq
  intro i
  have hbit : M.testBit (S + i) = decide (i < w) := by
    rw [hM, Nat.testBit_shiftLeft, Nat.testBit_two_pow_sub_one]
    simp
  have hy1 := and_eq_zero_bit y M hy (S + i)
  unfold MS SM
  rw [Nat.testBit_shiftRight, Nat.testBit_and, Nat.testBit_or, Nat.testBit_mod_two_pow,
    Nat.testBit_and, Nat.testBit_shiftLeft, hbit]
  rw [hbit] at hy1
  by_cases hi : i < w
  · have h32 : S + i < 32 := bit_lt_32 M hM32 (S + i) (by rw [hbit]; simpa using hi)
    simp only [hi, decide_True, Bool.and_true] at hy1 ⊢
    simp [hy1, h32]
  · have hv2 : v.testBit i = false := by
      apply Nat.testBit_lt_two_pow
      exact Nat.lt_of_lt_of_le hv (Nat.pow_le_pow_right (by decide) (by omega))
    simp [hi, hv2]

/-- Setting a field leaves a disjoint field as it was. -/
theorem field_other (y v M S M2 S2 : Nat) (hd : M &&& M2 = 0) :
    MS (y ||| SM M S v % 2 ^ 32) M2 S2 = MS y M2 S2 := by
  apply Nat.eq_of_testBit_eq
  intro i
  have hb := and_eq_zero_bit M M2 hd (S2 + i)
  unfold MS SM
  simp only [Nat.testBit_shiftRight, Nat.testBit_and, Nat.testBit_or, Nat.testBit_mod_two_pow]
  revert hb
  cases y.testBit (S2 + i) <;> cases M.testBit (S2 + i) <;> cases M2.testBit (S2 + i) <;> simp

theorem or_and_zero (y a M : Nat) (hy : y &&& M = 0) (ha : a &&& M = 0) :
    (y ||| a) &&& M = 0 := by
  apply Nat.eq_of_testBit_eq
  intro i
  have b1 := and_eq_zero_bit y M hy i
  have b2 := and_eq_zero_bit a M ha i
  simp only [Nat.testBit_and, Nat.testBit_or, Nat.zero_testBit]
  revert b1 b2
  cases y.testBit i <;> cases a.testBit i <;> cases M.testBit i <;> simp

theorem sm_and_other (v M S M2 : Nat) (hd : M &&& M2 = 0) : SM M S v % 2 ^ 32 &&& M2 = 0 := by
  apply Nat.eq_of_testBit_eq
  intro i
  have hb := and_eq_zero_bit M M2 hd i
  unfold SM
  simp only [Nat.testBit_and, Nat.testBit_mod_two_pow, Nat.zero_testBit]
  revert hb
  cases M.testBit i <;> cases M2.testBit i <;> simp

/-- C21: on a descriptor whose protection fields are zero, and with the layout of the
header, `urtwm_tx_protection` sets CTS2SELF and not RTSEN for mode CTS-only, RTSEN and
not CTS2SELF for mode RTS/CTS, in both modes also HWRTSEN, the RTS rate field to
`URTWM_RIDX_OFDM24` and the RTS rate fallback limit to 0xf, touching no other byte of
the descriptor; for every other mode the descriptor is unchanged. -/
theorem tx_protection_bits (k : urtwm_consts) (w1 w2 : Nat) (txd : r88a_tx_desc) (mode : Nat)
    (hl : prot_layout k w1 w2)
    (hc : txd.txdw3 &&& k "R88A_TXDW3_CTS2SELF" = 0)
    (hr : txd.txdw3 &&& k "R88A_TXDW3_RTSEN" = 0)
    (h1 : txd.txdw4 &&& k "R88A_TXDW4_RTSRATE_M" = 0)
    (h2 : txd.txdw4 &&& k "R88A_TXDW4_RTSRATE_FB_LMT_M" = 0) :
    (mode = IEEE80211_PROT_CTSONLY →
      (urtwm_tx_protection k txd mode).txdw3 &&& k "R88A_TXDW3_CTS2SELF" =
        k "R88A_TXDW3_CTS2SELF" ∧
      (urtwm_tx_protection k txd mode).txdw3 &&& k "R88A_TXDW3_RTSEN" = 0) ∧
    (mode = IEEE80211_PROT_RTSCTS →
      (urtwm_tx_protection k txd mode).txdw3 &&& k "R88A_TXDW3_RTSEN" =
        k "R88A_TXDW3_RTSEN" ∧
      (urtwm_tx_protection k txd mode).txdw3 &&& k "R88A_TXDW3_CTS2SELF" = 0) ∧
    (mode = IEEE80211_PROT_CTSONLY ∨ mode = IEEE80211_PROT_RTSCTS →
      (urtwm_tx_protection k txd mode).txdw3 &&& k "R88A_TXDW3_HWRTSEN" =
        k "R88A_TXDW3_HWRTSEN" ∧
      MS (urtwm_tx_protection k txd mode).txdw4 (k "R88A_TXDW4_RTSRATE_M")
        (k "R88A_TXDW4_RTSRATE_S") = k "URTWM_RIDX_OFDM24" ∧
      MS (urtwm_tx_protection k txd mode).txdw4 (k "R88A_TXDW4_RTSRATE_FB_LMT_M")
        (k "R88A_TXDW4_RTSRATE_FB_LMT_S") = 0xf ∧
      (urtwm_tx_protection k txd mode).rest = txd.rest) ∧
    (mode ≠ IEEE80211_PROT_CTSONLY → mode ≠ IEEE80211_PROT_RTSCTS →
      urtwm_tx_protection k txd mode = txd) := by
  obtain ⟨l1, l2, l3, l4, l5, l6, l7, l8, l9, l10, l11, l12, l13⟩ := hl
  have hne : IEEE80211_PROT_RTSCTS ≠ IEEE80211_PROT_CTSONLY := by decide
  have rate : ∀ y : Nat, y &&& k "R88A_TXDW4_RTSRATE_M" = 0 →
      y &&& k "R88A_TXDW4_RTSRATE_FB_LMT_M" = 0 →
      MS (y ||| SM (k "R88A_TXDW4_RTSRATE_M") (k "R88A_TXDW4_RTSRATE_S")
          (k "URTWM_RIDX_OFDM24") % 2 ^ 32 |||
        SM (k "R88A_TXDW4_RTSRATE_FB_LMT_M") (k "R88A_TXDW4_RTSRATE_FB_LMT_S") 0xf % 2 ^ 32)
        (k "R88A_TXDW4_RTSRATE_M") (k "R88A_TXDW4_RTSRATE_S") = k "URTWM_RIDX_OFDM24" ∧
      MS (y ||| SM (k "R88A_TXDW4_RTSRATE_M") (k "R88A_TXDW4_RTSRATE_S")
          (k "URTWM_RIDX_OFDM24") % 2 ^ 32 |||
        SM (k "R88A_TXDW4_RTSRATE_FB_LMT_M") (k "R88A_TXDW4_RTSRATE_FB_LMT_S") 0xf % 2 ^ 32)
        (k "R88A_TXDW4_RTSRATE_FB_LMT_M") (k "R88A_TXDW4_RTSRATE_FB_LMT_S") = 0xf := by
    intro y y1 y2
    have l11b : k "R88A_TXDW4_RTSRATE_FB_LMT_M" &&& k "R88A_TXDW4_RTSRATE_M" = 0 := by
      rw [Nat.land_comm]; exact l11
    constructor
    · rw [field_other _ _ _ _ _ _ l11b]
      exact field_get_set y _ _ _ w1 l7 l9 l12 y1
    · exact field_get_set _ _ _ _ w2 l8 l10 l13
        (or_and_zero _ _ _ y2 (sm_and_other _ _ _ _ l11))
  refine ⟨?_, ?_, ?_, ?_⟩
  · intro hm
    subst hm
    have b := or_bits txd.txdw3 (k "R88A_TXDW3_CTS2SELF") (k "R88A_TXDW3_HWRTSEN")
      (k "R88A_TXDW3_RTSEN") l1 l3
    simp only [urtwm_tx_protection, if_true, true_or]
    exact ⟨b.1, by rw [b.2.2 l4 l5]; exact hr⟩
  · intro hm
    subst hm
    have b := or_bits txd.txdw3 (k "R88A_TXDW3_RTSEN") (k "R88A_TXDW3_HWRTSEN")
      (k "R88A_TXDW3_CTS2SELF") l2 l3
    have l4b : k "R88A_TXDW3_RTSEN" &&& k "R88A_TXDW3_CTS2SELF" = 0 := by
      rw [Nat.land_comm]; exact l4
    simp only [urtwm_tx_protection, if_neg hne, if_true, or_true]
    exact ⟨b.1, by rw [b.2.2 l4b l6]; exact hc⟩
  · intro hm
    rcases hm with hm | hm
    · subst hm
      have b := or_bits txd.txdw3 (k "R88A_TXDW3_CTS2SELF") (k "R88A_TXDW3_HWRTSEN") 0 l1 l3
      simp only [urtwm_tx_protection, if_true, true_or]
      exact ⟨b.2.1, (rate _ h1 h2).1, (rate _ h1 h2).2, trivial⟩
    · subst hm
      have b := or_bits txd.txdw3 (k "R88A_TXDW3_RTSEN") (k "R88A_TXDW3_HWRTSEN") 0 l2 l3
      simp only [urtwm_tx_protection, if_neg hne, if_true, or_true]
      exact ⟨b.2.1, (rate _ h1 h2).1, (rate _ h1 h2).2, trivial⟩
  · intro n1 n2
    have n3 : ¬ (mode = IEEE80211_PROT_CTSONLY ∨ mode = IEEE80211_PROT_RTSCTS) := by
      rintro (h | h)
      · exact n1 h
      · exact n2 h
    simp only [urtwm_tx_protection, if_neg n1, if_neg n2, if_neg n3]

theorem prot_consts_layout : prot_layout prot_consts 5 4 := by
  unfold prot_layout
  decide

theorem tx_protection_bits_witness :
    (urtwm_tx_protection prot_consts sample_desc IEEE80211_PROT_CTSONLY).txdw3 = 0x2900 ∧
    (urtwm_tx_protection prot_consts sample_desc IEEE80211_PROT_RTSCTS).txdw4 = 0x0803e000 ∧
    MS (urtwm_tx_protection prot_consts sample_desc IEEE80211_PROT_RTSCTS).txdw4
      (prot_consts "R88A_TXDW4_RTSRATE_M") (prot_consts "R88A_TXDW4_RTSRATE_S") =
        prot_consts "URTWM_RIDX_OFDM24" :=
  ⟨by decide, by decide,
    ((tx_protection_bits prot_consts 5 4 sample_desc IEEE80211_PROT_RTSCTS prot_consts_layout
      (by decide) (by decide) (by decide) (by decide)).2.2.1 (Or.inr rfl)).2.1⟩

/-! ## The completion step of the TX callback -/

theorem tx_start_active (h : urtwm_hdr) (sc : urtwm_softc) (m : mbuf) (type : Nat)
    (data : urtwm_data) :
    (urtwm_tx_start h sc m type data).sc_tx_active = sc.sc_tx_active ∧
    (urtwm_tx_start h sc m type data).sc_tx_n_active = sc.sc_tx_n_active := by
  unfold urtwm_tx_start
  exact ⟨rfl, rfl⟩

theorem tx_data_active (h : urtwm_hdr) (k : kernel) (sc : urtwm_softc) (ni : Nat) (m : mbuf)
    (data : urtwm_data) :
    (urtwm_tx_data h k sc ni m data).2.sc_tx_active = sc.sc_tx_active ∧
    (urtwm_tx_data h k sc ni m data).2.sc_tx_n_active = sc.sc_tx_n_active := by
  unfold urtwm_tx_data
  simp only
  split
  · split
    · exact ⟨rfl, rfl⟩
    · split
      · split
        · exact tx_start_active _ _ _ _ _
        · exact ⟨rfl, rfl⟩
      · exact tx_start_active _ _ _ _ _
  · exact tx_start_active _ _ _ _ _

theorem start_loop_active (h : urtwm_hdr) (k : kernel) (l : List mbuf) :
    ∀ sc : urtwm_softc,
      (urtwm_start_loop h k l sc).sc_tx_active = sc.sc_tx_active ∧
      (urtwm_start_loop h k l sc).sc_tx_n_active = sc.sc_tx_n_active := by
  induction l with
  | nil => intro sc; exact ⟨rfl, rfl⟩
  | cons m q ih =>
    intro sc
    rw [urtwm_start_loop]
    unfold urtwm_getbuf _urtwm_getbuf
    cases hq : sc.sc_tx_inactive with
    | nil => simp [hq]
    | cons bf rest =>
      simp only [hq]
      have h2 := tx_data_active h k { sc with sc_snd := q, sc_tx_inactive := rest } m.rcvif m bf
      obtain ⟨e, sc2, he⟩ : ∃ e sc2,
          urtwm_tx_data h k { sc with sc_snd := q, sc_tx_inactive := rest } m.rcvif m bf
            = (e, sc2) := ⟨_, _, rfl⟩
      rw [he] at h2 ⊢
      cases e with
      | zero =>
        have h3 := ih sc2
        exact ⟨h3.1.trans h2.1, h3.2.trans h2.2⟩
      | succ e => exact h2

/-- The calls `urtwm_txeof` makes for a completed descriptor. -/
theorem txeof_fields (sc : urtwm_softc) (d : urtwm_data) (status : Nat) :
    (urtwm_txeof sc d status).sc_tx_active = sc.sc_tx_active ∧
    (urtwm_txeof sc d status).sc_tx_pending = sc.sc_tx_pending ∧
    (urtwm_txeof sc d status).sc_tx_inactive =
      sc.sc_tx_inactive ++ [{ d with ni := none, m := none }] ∧
    (urtwm_txeof sc d status).sc_tx_n_active = sc.sc_tx_n_active - 1 ∧
    (urtwm_txeof sc d status).trace = sc.trace ++
      (match d.ni with
       | some ni => [kcall.ieee80211_tx_complete ni d.m status]
       | none => []) := by
  unfold urtwm_txeof
  cases d.ni with
  | none =>
    simp only
    split
    · exact ⟨rfl, rfl, rfl, rfl, by simp⟩
    · rename_i hn
      exact ⟨rfl, rfl, rfl, by simp at hn; simp [hn], by simp⟩
  | some ni =>
    simp only [call]
    split
    · exact ⟨rfl, rfl, rfl, rfl, rfl⟩
    · rename_i hn
      exact ⟨rfl, rfl, rfl, by simp at hn; simp [hn], rfl⟩

/-- C23: entered in state TRANSFERRED with `data` at the head of `sc_tx_active`, the
TX callback removes `data` from the active queue, clears its node and frame
references and appends it to the tail of `sc_tx_inactive`, and decrements
`sc_tx_n_active` only if it is positive (the truncated subtraction); then, if
`sc_tx_pending` is `p :: q`, it moves `p` to the tail of the active queue, submits it
and increments `sc_tx_n_active`, and if `sc_tx_pending` is empty it submits nothing and
sets `sc_tx_n_active` to zero.  The call of `urtwm_start` that ends the callback
changes neither the active queue nor the counter. -/
theorem tx_completion_step (h : urtwm_hdr) (k : kernel) (sc : urtwm_softc) (xfer error : Nat)
    (data : urtwm_data) (rest : List urtwm_data) (ha : sc.sc_tx_active = data :: rest) :
    urtwm_bulk_tx_callback h k sc xfer usb_state.USB_ST_TRANSFERRED error =
      urtwm_start h k (tx_callback_switch sc xfer usb_state.USB_ST_TRANSFERRED error) ∧
    (urtwm_bulk_tx_callback h k sc xfer usb_state.USB_ST_TRANSFERRED error).sc_tx_active =
      (tx_callback_switch sc xfer usb_state.USB_ST_TRANSFERRED error).sc_tx_active ∧
    (urtwm_bulk_tx_callback h k sc xfer usb_state.USB_ST_TRANSFERRED error).sc_tx_n_active =
      (tx_callback_switch sc xfer usb_state.USB_ST_TRANSFERRED error).sc_tx_n_active ∧
    (tx_callback_switch sc xfer usb_state.USB_ST_TRANSFERRED error).sc_tx_inactive =
      sc.sc_tx_inactive ++ [{ data with ni := none, m := none }] ∧
    (sc.sc_tx_pending = [] →
      (tx_callback_switch sc xfer usb_state.USB_ST_TRANSFERRED error).sc_tx_active = rest ∧
      (tx_callback_switch sc xfer usb_state.USB_ST_TRANSFERRED error).sc_tx_pending = [] ∧
      (tx_callback_switch sc xfer usb_state.USB_ST_TRANSFERRED error).sc_tx_n_active = 0 ∧
      (tx_callback_switch sc xfer usb_state.USB_ST_TRANSFERRED error).trace = sc.trace ++
        (match data.ni with
         | some ni => [kcall.ieee80211_tx_complete ni data.m 0]
         | none => [])) ∧
    (∀ p q, sc.sc_tx_pending = p :: q →
      (tx_callback_switch sc xfer usb_state.USB_ST_TRANSFERRED error).sc_tx_active =
        rest ++ [p] ∧
      (tx_callback_switch sc xfer usb_state.USB_ST_TRANSFERRED error).sc_tx_pending = q ∧
      (tx_callback_switch sc xfer usb_state.USB_ST_TRANSFERRED error).sc_tx_n_active =
        sc.sc_tx_n_active - 1 + 1 ∧
      (tx_callback_switch sc xfer usb_state.USB_ST_TRANSFERRED error).trace = sc.trace ++
        (match data.ni with
         | some ni => [kcall.ieee80211_tx_complete ni data.m 0]
         | none => []) ++
        [kcall.usbd_xfer_set_frame_data xfer p.id (some p.buflen),
          kcall.usbd_transfer_submit xfer]) := by
  have hs := start_loop_active h k
    (tx_callback_switch sc xfer usb_state.USB_ST_TRANSFERRED error).sc_snd
    (tx_callback_switch sc xfer usb_state.USB_ST_TRANSFERRED error)
  have e := txeof_fields { sc with sc_tx_active := rest } data 0
  obtain ⟨e1, e2, e3, e4, e5⟩ := e
  have hsw : tx_callback_switch sc xfer usb_state.USB_ST_TRANSFERRED error =
      tx_tr_setup (urtwm_txeof { sc with sc_tx_active := rest } data 0) xfer := by
    simp only [tx_callback_switch, ha]
  refine ⟨rfl, hs.1, hs.2, ?_, ?_, ?_⟩
  · rw [hsw]
    unfold tx_tr_setup
    split
    · exact e3
    · exact e3
  · intro hp
    rw [hsw]
    have hp2 : (urtwm_txeof { sc with sc_tx_active := rest } data 0).sc_tx_pending = [] := by
      rw [e2]; exact hp
    simp only [tx_tr_setup, hp2]
    exact ⟨e1, trivial, trivial, e5⟩
  · intro p q hp
    rw [hsw]
    have hp2 : (urtwm_txeof { sc with sc_tx_active := rest } data 0).sc_tx_pending = p :: q := by
      rw [e2]; exact hp
    simp only [tx_tr_setup, hp2, call]
    rw [e1, e4, e5]
    simp

theorem tx_completion_step_witness :
    sample_tx_busy.sc_tx_active = [sample_txdata 0] ∧
    (urtwm_bulk_tx_callback sample_hdr sample_kernel sample_tx_busy 3
        usb_state.USB_ST_TRANSFERRED 0).sc_tx_active = [sample_txdata 1] ∧
    (tx_callback_switch sample_tx_busy 3 usb_state.USB_ST_TRANSFERRED 0).sc_tx_inactive =
      [{ id := 0, ni := none, m := none, buflen := 43 }] :=
  ⟨rfl, by decide,
    (tx_completion_step sample_hdr sample_kernel sample_tx_busy 3 0 (sample_txdata 0) [] rfl).2.2.2.1⟩
/-! ## Order of TX submissions -/

theorem tx_submitted_append (a b : List kcall) :
    tx_submitted (a ++ b) = tx_submitted a ++ tx_submitted b := by
  simp [tx_submitted, List.filterMap_append]

theorem tx_order_tx_start (h : urtwm_hdr) (sc : urtwm_softc) (m : mbuf) (type : Nat)
    (data : urtwm_data) :
    tx_submitted (urtwm_tx_start h sc m type data).trace = tx_submitted sc.trace ∧
    ids (urtwm_tx_start h sc m type data).sc_tx_pending = ids sc.sc_tx_pending ++ [data.id] := by
  unfold urtwm_tx_start
  simp only [call, tx_submitted_append]
  constructor
  · simp [tx_submitted]
  · simp only [ids, List.map_append, List.map_cons, List.map_nil]
    split <;> rfl

/-- The step from `sc` to `sc1` submits nothing and only appends to the pending
queue. -/
def queues_only (sc sc1 : urtwm_softc) : Prop :=
  tx_submitted sc1.trace = tx_submitted sc.trace ∧
    ∃ new, ids sc1.sc_tx_pending = ids sc.sc_tx_pending ++ new

theorem queues_only_refl (sc : urtwm_softc) : queues_only sc sc :=
  ⟨rfl, [], by simp⟩

theorem queues_only_trans {a b c : urtwm_softc} (h1 : queues_only a b) (h2 : queues_only b c) :
    queues_only a c := by
  obtain ⟨e1, n1, p1⟩ := h1
  obtain ⟨e2, n2, p2⟩ := h2
  exact ⟨e2.trans e1, n1 ++ n2, by rw [p2, p1, List.append_assoc]⟩

theorem queues_only_tx_start (h : urtwm_hdr) (sc : urtwm_softc) (m : mbuf) (type : Nat)
    (data : urtwm_data) : queues_only sc (urtwm_tx_start h sc m type data) :=
  ⟨(tx_order_tx_start h sc m type data).1, [data.id], (tx_order_tx_start h sc m type data).2⟩

theorem queues_only_tx_data (h : urtwm_hdr) (k : kernel) (sc : urtwm_softc) (ni : Nat)
    (m : mbuf) (data : urtwm_data) : queues_only sc (urtwm_tx_data h k sc ni m data).2 := by
  unfold urtwm_tx_data
  simp only
  split
  · split
    · exact queues_only_refl sc
    · split
      · split
        · exact queues_only_tx_start _ _ _ _ _
        · exact queues_only_refl sc
      · exact queues_only_tx_start _ _ _ _ _
  · exact queues_only_tx_start _ _ _ _ _

theorem queues_only_tx_raw (h : urtwm_hdr) (k : kernel) (sc : urtwm_softc) (ni : Nat)
    (m : mbuf) (data : urtwm_data) (p : ieee80211_bpf_params) :
    queues_only sc (urtwm_tx_raw h k sc ni m data p).2 := by
  unfold urtwm_tx_raw
  simp only
  split
  · split
    · exact queues_only_refl sc
    · split
      · split
        · exact queues_only_tx_start _ _ _ _ _
        · exact queues_only_refl sc
      · exact queues_only_tx_start _ _ _ _ _
  · exact queues_only_tx_start _ _ _ _ _

theorem queues_only_start_loop (h : urtwm_hdr) (k : kernel) (l : List mbuf) :
    ∀ sc : urtwm_softc, queues_only sc (urtwm_start_loop h k l sc) := by
  induction l with
  | nil => intro sc; exact ⟨rfl, [], by simp [urtwm_start_loop]⟩
  | cons m q ih =>
    intro sc
    rw [urtwm_start_loop]
    unfold urtwm_getbuf _urtwm_getbuf
    cases hq : sc.sc_tx_inactive with
    | nil => simp only [hq]; exact ⟨rfl, [], by simp⟩
    | cons bf rest =>
      simp only [hq]
      have h1 : queues_only sc { sc with sc_snd := q, sc_tx_inactive := rest } :=
        ⟨rfl, [], by simp⟩
      have h2 := queues_only_tx_data h k { sc with sc_snd := q, sc_tx_inactive := rest }
        m.rcvif m bf
      obtain ⟨e, sc2, he⟩ : ∃ e sc2,
          urtwm_tx_data h k { sc with sc_snd := q, sc_tx_inactive := rest } m.rcvif m bf
            = (e, sc2) := ⟨_, _, rfl⟩
      rw [he] at h2 ⊢
      cases e with
      | zero => exact queues_only_trans h1 (queues_only_trans h2 (ih sc2))
      | succ e =>
        simp only
        refine queues_only_trans h1 (queues_only_trans h2 ?_)
        exact ⟨by simp [call, tx_submitted_append, tx_submitted], [], by simp [call]⟩

theorem queues_only_start (h : urtwm_hdr) (k : kernel) (sc : urtwm_softc) :
    queues_only sc (urtwm_start h k sc) :=
  queues_only_start_loop h k _ sc

theorem queues_only_tx_beacon (h : urtwm_hdr) (sc : urtwm_softc) (bcn : mbuf) :
    queues_only sc (urtwm_tx_beacon h sc bcn).2 := by
  unfold urtwm_tx_beacon urtwm_getbuf _urtwm_getbuf
  cases hq : sc.sc_tx_inactive with
  | nil => exact queues_only_refl sc
  | cons bf rest =>
    simp only
    have h1 : queues_only sc { sc with sc_tx_inactive := rest } := ⟨rfl, [], by simp⟩
    exact queues_only_trans h1 (queues_only_tx_start _ _ _ _ _)

theorem queues_only_raw_xmit (h : urtwm_hdr) (k : kernel) (sc : urtwm_softc) (ni : Nat)
    (m : mbuf) (params : Option ieee80211_bpf_params) :
    queues_only sc (urtwm_raw_xmit h k sc ni m params).2 := by
  unfold urtwm_raw_xmit
  split
  · exact ⟨by simp [call, tx_submitted_append, tx_submitted], [], by simp [call]⟩
  · unfold urtwm_getbuf _urtwm_getbuf
    cases hq : sc.sc_tx_inactive with
    | nil => exact ⟨by simp [call, tx_submitted_append, tx_submitted], [], by simp [call]⟩
    | cons bf rest =>
      simp only
      have h1 : queues_only sc { sc with sc_tx_inactive := rest } := ⟨rfl, [], by simp⟩
      have key : ∀ r : Nat × urtwm_softc,
          queues_only { sc with sc_tx_inactive := rest } r.2 →
          queues_only sc (if r.1 ≠ 0 then
            (r.1, call { r.2 with sc_tx_inactive := bf :: r.2.sc_tx_inactive } (kcall.m_freem m))
            else (r.1, r.2)).2 := by
        intro r hr
        split
        · refine queues_only_trans h1 (queues_only_trans hr ?_)
          exact ⟨by simp [call, tx_submitted_append, tx_submitted], [], by simp [call]⟩
        · exact queues_only_trans h1 hr
      cases params with
      | none => exact key _ (queues_only_tx_data h k _ ni m bf)
      | some p => exact key _ (queues_only_tx_raw h k _ ni m bf p)

theorem queues_only_txeof (sc : urtwm_softc) (d : urtwm_data) (status : Nat) :
    queues_only sc (urtwm_txeof sc d status) := by
  obtain ⟨_, e2, _, _, e5⟩ := txeof_fields sc d status
  refine ⟨?_, [], by rw [e2]; simp⟩
  rw [e5, tx_submitted_append]
  cases d.ni <;> simp [tx_submitted]

/-- What the label `tr_setup` submits: nothing when the pending queue is empty, else
its head, on the transfer whose callback is running. -/
theorem tr_setup_submits (sc : urtwm_softc) (xfer : Nat) :
    (sc.sc_tx_pending = [] ∧ (tx_tr_setup sc xfer).sc_tx_pending = [] ∧
      tx_submitted (tx_tr_setup sc xfer).trace = tx_submitted sc.trace) ∨
    (∃ d rest, sc.sc_tx_pending = d :: rest ∧ (tx_tr_setup sc xfer).sc_tx_pending = rest ∧
      tx_submitted (tx_tr_setup sc xfer).trace = tx_submitted sc.trace ++ [(xfer, d.id)]) := by
  unfold tx_tr_setup
  cases hq : sc.sc_tx_pending with
  | nil => left; exact ⟨rfl, rfl, rfl⟩
  | cons d rest =>
    right
    exact ⟨d, rest, rfl, rfl, by simp [call, tx_submitted_append, tx_submitted]⟩

/-- The switch of the TX callback submits at most one buffer: the head of the pending
queue, on the transfer whose callback is running. -/
theorem switch_submits (sc : urtwm_softc) (xfer : Nat) (st : usb_state) (error : Nat) :
    ((tx_callback_switch sc xfer st error).sc_tx_pending = sc.sc_tx_pending ∧
      tx_submitted (tx_callback_switch sc xfer st error).trace = tx_submitted sc.trace) ∨
    (∃ d rest, sc.sc_tx_pending = d :: rest ∧
      (tx_callback_switch sc xfer st error).sc_tx_pending = rest ∧
      tx_submitted (tx_callback_switch sc xfer st error).trace =
        tx_submitted sc.trace ++ [(xfer, d.id)]) := by
  have base : ∀ s : urtwm_softc, s.sc_tx_pending = sc.sc_tx_pending →
      tx_submitted s.trace = tx_submitted sc.trace →
      (((tx_tr_setup s xfer).sc_tx_pending = sc.sc_tx_pending ∧
        tx_submitted (tx_tr_setup s xfer).trace = tx_submitted sc.trace) ∨
      (∃ d rest, sc.sc_tx_pending = d :: rest ∧
        (tx_tr_setup s xfer).sc_tx_pending = rest ∧
        tx_submitted (tx_tr_setup s xfer).trace = tx_submitted sc.trace ++ [(xfer, d.id)])) := by
    intro s hp ht
    rcases tr_setup_submits s xfer with ⟨a, b, c⟩ | ⟨d, rest, a, b, c⟩
    · left; exact ⟨by rw [b, ← hp, a], by rw [c, ht]⟩
    · right; exact ⟨d, rest, by rw [← hp, a], b, by rw [c, ht]⟩
  have eof : ∀ (rest : List urtwm_data) (d : urtwm_data) (status : Nat),
      (urtwm_txeof { sc with sc_tx_active := rest } d status).sc_tx_pending = sc.sc_tx_pending ∧
      tx_submitted (urtwm_txeof { sc with sc_tx_active := rest } d status).trace =
        tx_submitted sc.trace := by
    intro rest d status
    obtain ⟨_, e2, _, _, e5⟩ := txeof_fields { sc with sc_tx_active := rest } d status
    refine ⟨e2, ?_⟩
    rw [e5, tx_submitted_append]
    cases d.ni <;> simp [tx_submitted]
  unfold tx_callback_switch
  cases st with
  | USB_ST_SETUP => exact base sc rfl rfl
  | USB_ST_TRANSFERRED =>
    cases hq : sc.sc_tx_active with
    | nil => exact base sc rfl rfl
    | cons d rest => exact base _ (eof rest d 0).1 (eof rest d 0).2
  | USB_ST_ERROR =>
    cases hq : sc.sc_tx_active with
    | nil => exact base sc rfl rfl
    | cons d rest =>
      simp only
      split
      · refine base _ (eof rest d 1).1 ?_
        simp only [call, tx_submitted_append]
        rw [(eof rest d 1).2]
        simp [tx_submitted]
      · left; exact eof rest d 1

theorem tx_order_of_queues_only {sc sc1 : urtwm_softc} (hq : queues_only sc sc1) :
    ∃ new, tx_order sc1 = tx_order sc ++ new := by
  obtain ⟨e, new, p⟩ := hq
  exact ⟨new, by simp only [tx_order, e, p, List.append_assoc]⟩

theorem tx_order_switch (sc : urtwm_softc) (xfer : Nat) (st : usb_state) (error : Nat) :
    tx_order (tx_callback_switch sc xfer st error) = tx_order sc := by
  rcases switch_submits sc xfer st error with ⟨a, b⟩ | ⟨d, rest, a, b, c⟩
  · simp only [tx_order, a, b]
  · simp only [tx_order, a, b, c, ids, List.map_append, List.map_cons, List.map_nil,
      List.append_assoc, List.singleton_append]

theorem tx_order_step (h : urtwm_hdr) (k : kernel) (sc : urtwm_softc) (op : tx_op) :
    ∃ new, tx_order (tx_step h k sc op) = tx_order sc ++ new := by
  cases op with
  | start => exact tx_order_of_queues_only (queues_only_start h k sc)
  | raw_xmit ni m params => exact tx_order_of_queues_only (queues_only_raw_xmit h k sc ni m params)
  | tx_beacon bcn => exact tx_order_of_queues_only (queues_only_tx_beacon h sc bcn)
  | bulk_tx_callback xfer st error =>
    obtain ⟨new, hn⟩ := tx_order_of_queues_only
      (queues_only_start h k (tx_callback_switch sc xfer st error))
    exact ⟨new, by simp only [tx_step, urtwm_bulk_tx_callback]; rw [hn, tx_order_switch]⟩

theorem tx_order_run (h : urtwm_hdr) (k : kernel) (ops : List tx_op) :
    ∀ sc : urtwm_softc, ∃ new, tx_order (tx_run h k sc ops) = tx_order sc ++ new := by
  induction ops with
  | nil => intro sc; exact ⟨[], by simp [tx_run]⟩
  | cons op ops ih =>
    intro sc
    obtain ⟨n1, h1⟩ := tx_order_step h k sc op
    obtain ⟨n2, h2⟩ := ih (tx_step h k sc op)
    refine ⟨n1 ++ n2, ?_⟩
    simp only [tx_run, List.foldl_cons] at h2 ⊢
    rw [h2, h1, List.append_assoc]

theorem tx_submit_calls_append (a b : List kcall) :
    tx_submit_calls (a ++ b) = tx_submit_calls a ++ tx_submit_calls b := by
  simp [tx_submit_calls, List.filterMap_append]

theorem tx_submit_calls_quiet (t : List kcall) (h : ∀ c ∈ t, quiet c = true) :
    tx_submit_calls t = [] := by
  unfold tx_submit_calls
  rw [List.filterMap_eq_nil_iff]
  intro c hc
  have hq := h c hc
  cases c <;> simp_all [quiet]

theorem tx_submit_calls_tx_side {sc sc1 : urtwm_softc} (h : tx_side sc sc1) :
    tx_submit_calls sc1.trace = tx_submit_calls sc.trace := by
  obtain ⟨_, _, t, ht, hq⟩ := h
  rw [ht, tx_submit_calls_append, tx_submit_calls_quiet t hq, List.append_nil]

/-- The trace of `urtwm_tx_start`: one call, `usbd_transfer_start` on the transfer
selected by the frame type and the access category. -/
theorem tx_start_trace (h : urtwm_hdr) (sc : urtwm_softc) (m : mbuf) (type : Nat)
    (data : urtwm_data) :
    (urtwm_tx_start h sc m type data).trace = sc.trace ++
      [kcall.usbd_transfer_start
        (if type = IEEE80211_FC0_TYPE_CTL ∨ type = IEEE80211_FC0_TYPE_MGT then
          h.URTWM_BULK_TX_VO
        else wme2queue_qid h m.wme_ac)] := by
  unfold urtwm_tx_start
  rfl

/-- What the label `tr_setup` hands to the USB stack: nothing when the pending queue is
empty, else its head, with one call of `usbd_transfer_submit`, both on the transfer
whose callback is running. -/
theorem tr_setup_submits_on (sc : urtwm_softc) (xfer : Nat) :
    (sc.sc_tx_pending = [] ∧ (tx_tr_setup sc xfer).sc_tx_pending = [] ∧
      tx_submitted (tx_tr_setup sc xfer).trace = tx_submitted sc.trace ∧
      tx_submit_calls (tx_tr_setup sc xfer).trace = tx_submit_calls sc.trace) ∨
    (∃ d rest, sc.sc_tx_pending = d :: rest ∧ (tx_tr_setup sc xfer).sc_tx_pending = rest ∧
      tx_submitted (tx_tr_setup sc xfer).trace = tx_submitted sc.trace ++ [(xfer, d.id)] ∧
      tx_submit_calls (tx_tr_setup sc xfer).trace = tx_submit_calls sc.trace ++ [xfer]) := by
  unfold tx_tr_setup
  cases hq : sc.sc_tx_pending with
  | nil => left; exact ⟨rfl, rfl, rfl, rfl⟩
  | cons d rest =>
    right
    exact ⟨d, rest, rfl, rfl, by simp [call, tx_submitted_append, tx_submitted],
      by simp [call, tx_submit_calls_append, tx_submit_calls]⟩

/-- The switch of the TX callback hands over at most one buffer: the head of the
pending queue, with one call of `usbd_transfer_submit`, both on the transfer whose
callback is running. -/
theorem switch_submits_on (sc : urtwm_softc) (xfer : Nat) (st : usb_state) (error : Nat) :
    ((tx_callback_switch sc xfer st error).sc_tx_pending = sc.sc_tx_pending ∧
      tx_submitted (tx_callback_switch sc xfer st error).trace = tx_submitted sc.trace ∧
      tx_submit_calls (tx_callback_switch sc xfer st error).trace =
        tx_submit_calls sc.trace) ∨
    (∃ d rest, sc.sc_tx_pending = d :: rest ∧
      (tx_callback_switch sc xfer st error).sc_tx_pending = rest ∧
      tx_submitted (tx_callback_switch sc xfer st error).trace =
        tx_submitted sc.trace ++ [(xfer, d.id)] ∧
      tx_submit_calls (tx_callback_switch sc xfer st error).trace =
        tx_submit_calls sc.trace ++ [xfer]) := by
  have base : ∀ s : urtwm_softc, s.sc_tx_pending = sc.sc_tx_pending →
      tx_submitted s.trace = tx_submitted sc.trace →
      tx_submit_calls s.trace = tx_submit_calls sc.trace →
      (((tx_tr_setup s xfer).sc_tx_pending = sc.sc_tx_pending ∧
        tx_submitted (tx_tr_setup s xfer).trace = tx_submitted sc.trace ∧
        tx_submit_calls (tx_tr_setup s xfer).trace = tx_submit_calls sc.trace) ∨
      (∃ d rest, sc.sc_tx_pending = d :: rest ∧
        (tx_tr_setup s xfer).sc_tx_pending = rest ∧
        tx_submitted (tx_tr_setup s xfer).trace = tx_submitted sc.trace ++ [(xfer, d.id)] ∧
        tx_submit_calls (tx_tr_setup s xfer).trace = tx_submit_calls sc.trace ++ [xfer])) := by
    intro s hp ht hs
    rcases tr_setup_submits_on s xfer with ⟨a, b, c, e⟩ | ⟨d, rest, a, b, c, e⟩
    · left; exact ⟨by rw [b, ← hp, a], by rw [c, ht], by rw [e, hs]⟩
    · right; exact ⟨d, rest, by rw [← hp, a], b, by rw [c, ht], by rw [e, hs]⟩
  have eof : ∀ (rest : List urtwm_data) (d : urtwm_data) (status : Nat),
      (urtwm_txeof { sc with sc_tx_active := rest } d status).sc_tx_pending = sc.sc_tx_pending ∧
      tx_submitted (urtwm_txeof { sc with sc_tx_active := rest } d status).trace =
        tx_submitted sc.trace ∧
      tx_submit_calls (urtwm_txeof { sc with sc_tx_active := rest } d status).trace =
        tx_submit_calls sc.trace := by
    intro rest d status
    obtain ⟨_, e2, _, _, e5⟩ := txeof_fields { sc with sc_tx_active := rest } d status
    refine ⟨e2, ?_, ?_⟩
    · rw [e5, tx_submitted_append]
      cases d.ni <;> simp [tx_submitted]
    · rw [e5, tx_submit_calls_append]
      cases d.ni <;> simp [tx_submit_calls]
  unfold tx_callback_switch
  cases st with
  | USB_ST_SETUP => exact base sc rfl rfl rfl
  | USB_ST_TRANSFERRED =>
    cases hq : sc.sc_tx_active with
    | nil => exact base sc rfl rfl rfl
    | cons d rest => exact base _ (eof rest d 0).1 (eof rest d 0).2.1 (eof rest d 0).2.2
  | USB_ST_ERROR =>
    cases hq : sc.sc_tx_active with
    | nil => exact base sc rfl rfl rfl
    | cons d rest =>
      simp only
      split
      · refine base _ (eof rest d 1).1 ?_ ?_
        · simp only [call, tx_submitted_append]
          rw [(eof rest d 1).2.1]
          simp [tx_submitted]
        · simp only [call, tx_submit_calls_append]
          rw [(eof rest d 1).2.2]
          simp [tx_submit_calls]
      · left; exact eof rest d 1

/-- C24 (as amended): TX buffers are submitted in one FIFO order over all classes.
`urtwm_tx_start` appends the buffer to the tail of the one pending queue and makes
one call, `usbd_transfer_start` on the transfer it selected: the VO transfer for
management and control frames, the transfer `wme2queue[ac].qid` for data frames.  One
run of `urtwm_bulk_tx_callback` for the transfer `xfer` hands over at most one buffer,
the head of `sc_tx_pending`, with one call of `usbd_transfer_submit`, both on `xfer`
itself, and otherwise only appends to the pending queue; hence over any sequence of
operations the descriptors submitted so far followed by the pending ones only grow at
the end: buffers are submitted in the order in which they were queued. -/
theorem tx_submission_fifo (h : urtwm_hdr) (k : kernel) (sc : urtwm_softc) :
    (∀ m type data,
      (urtwm_tx_start h sc m type data).trace = sc.trace ++
        [kcall.usbd_transfer_start
          (if type = IEEE80211_FC0_TYPE_CTL ∨ type = IEEE80211_FC0_TYPE_MGT then
            h.URTWM_BULK_TX_VO
          else wme2queue_qid h m.wme_ac)] ∧
      tx_submitted (urtwm_tx_start h sc m type data).trace = tx_submitted sc.trace ∧
      ids (urtwm_tx_start h sc m type data).sc_tx_pending =
        ids sc.sc_tx_pending ++ [data.id]) ∧
    wme2queue_qid h 0 = h.URTWM_BULK_TX_BE ∧ wme2queue_qid h 1 = h.URTWM_BULK_TX_BK ∧
    wme2queue_qid h 2 = h.URTWM_BULK_TX_VI ∧ wme2queue_qid h 3 = h.URTWM_BULK_TX_VO ∧
    (∀ xfer st error, ∃ new,
      (tx_submitted (urtwm_bulk_tx_callback h k sc xfer st error).trace =
          tx_submitted sc.trace ∧
        tx_submit_calls (urtwm_bulk_tx_callback h k sc xfer st error).trace =
          tx_submit_calls sc.trace ∧
        ids (urtwm_bulk_tx_callback h k sc xfer st error).sc_tx_pending =
          ids sc.sc_tx_pending ++ new) ∨
      (∃ d rest, sc.sc_tx_pending = d :: rest ∧
        tx_submitted (urtwm_bulk_tx_callback h k sc xfer st error).trace =
          tx_submitted sc.trace ++ [(xfer, d.id)] ∧
        tx_submit_calls (urtwm_bulk_tx_callback h k sc xfer st error).trace =
          tx_submit_calls sc.trace ++ [xfer] ∧
        ids (urtwm_bulk_tx_callback h k sc xfer st error).sc_tx_pending = ids rest ++ new)) ∧
    (∀ ops, ∃ new, tx_order (tx_run h k sc ops) = tx_order sc ++ new) := by
  refine ⟨fun m type data =>
      ⟨tx_start_trace h sc m type data, tx_order_tx_start h sc m type data⟩,
    rfl, rfl, rfl, rfl, ?_, fun ops => tx_order_run h k ops sc⟩
  intro xfer st error
  obtain ⟨e, new, p⟩ := queues_only_start h k (tx_callback_switch sc xfer st error)
  have q := tx_submit_calls_tx_side (tx_side_start h k (tx_callback_switch sc xfer st error))
  refine ⟨new, ?_⟩
  unfold urtwm_bulk_tx_callback
  rcases switch_submits_on sc xfer st error with ⟨a, b, c⟩ | ⟨d, rest, a, b, c, f⟩
  · left; exact ⟨by rw [e, b], by rw [q, c], by rw [p, a]⟩
  · right; exact ⟨d, rest, a, by rw [e, c], by rw [q, f], by rw [p, b]⟩

theorem tx_submission_fifo_witness :
    (urtwm_tx_start sample_hdr sample_tx_last (sample_mgt 1 7) IEEE80211_FC0_TYPE_MGT
        (fresh_data 1)).trace = sample_tx_last.trace ++ [kcall.usbd_transfer_start 4] ∧
    (urtwm_tx_start sample_hdr sample_tx_last (sample_frame 2 7) IEEE80211_FC0_TYPE_DATA
        (fresh_data 2)).trace = sample_tx_last.trace ++ [kcall.usbd_transfer_start 1] ∧
    tx_submit_calls (urtwm_bulk_tx_callback sample_hdr sample_kernel sample_tx_busy 4
        usb_state.USB_ST_TRANSFERRED 0).trace = [4] :=
  ⟨((tx_submission_fifo sample_hdr sample_kernel sample_tx_last).1 (sample_mgt 1 7)
      IEEE80211_FC0_TYPE_MGT (fresh_data 1)).1,
    ((tx_submission_fifo sample_hdr sample_kernel sample_tx_last).1 (sample_frame 2 7)
      IEEE80211_FC0_TYPE_DATA (fresh_data 2)).1,
    by decide⟩

/-- C24 as stated fails: with a buffer in flight, a management frame is queued (for
the VO transfer, 4) and then a data frame of access category 0 (for the BE transfer,
1); the callback of the BE transfer, run in state SETUP, submits the management frame
on transfer 1. -/
theorem tx_submission_fifo_counterexample :
    sample_hdr.URTWM_BULK_TX_VO = 4 ∧ wme2queue_qid sample_hdr 0 = 1 ∧
    new_calls sample_tx_last
        (urtwm_tx_start sample_hdr sample_tx_last (sample_mgt 1 7) IEEE80211_FC0_TYPE_MGT
          (fresh_data 1)) = [kcall.usbd_transfer_start 4] ∧
    tx_submitted
        (urtwm_bulk_tx_callback sample_hdr sample_kernel
          (urtwm_tx_start sample_hdr
            (urtwm_tx_start sample_hdr sample_tx_last (sample_mgt 1 7) IEEE80211_FC0_TYPE_MGT
              (fresh_data 1))
            (sample_frame 2 7) IEEE80211_FC0_TYPE_DATA { fresh_data 2 with ni := some 7 })
          1 usb_state.USB_ST_SETUP 0).trace = [(1, 1)] := by
  decide

/-! ## Endpoint setup -/

/-- C25 fails in the code: the cases of the `switch` in `urtwm_setup_endpoints` fall
through, so for every number of bulk-out pipes from 1 to 4 all four priority classes
end on `addr[0]`.  With three pipes at the addresses 2, 3 and 4 the code puts VI, BE
and BK on endpoint 2, where the mapping by case has VI on 3 and BE and BK on 4. -/
theorem setup_endpoints_fallthrough :
    (∀ (addr : List Nat) (e : Nat) (c : tx_config) (ntx : Nat), ntx ∈ [1, 2, 3, 4] →
      (urtwm_setup_endpoints 4 ntx addr e c).2 =
        { BE := addr.getD 0 0, BK := addr.getD 0 0, VI := addr.getD 0 0,
          VO := addr.getD 0 0 }) ∧
    urtwm_setup_endpoints 4 3 [2, 3, 4] 0 urtwm_config =
      (0, { BE := 2, BK := 2, VI := 2, VO := 2 }) ∧
    spec_endpoint_mapping 3 [2, 3, 4] { urtwm_config with VO := 2 } =
      { BE := 4, BK := 4, VI := 3, VO := 2 } := by
  refine ⟨?_, by decide, by decide⟩
  intro addr e c ntx hn
  simp only [List.mem_cons, List.mem_singleton, List.not_mem_nil, or_false] at hn
  rcases hn with rfl | rfl | rfl | rfl <;> by_cases he : e = 0 <;>
    simp [urtwm_setup_endpoints, setup_endpoints_switch, he]
/-! ## Reads of the RX parser -/

/-- C22 fails in the code: on a transfer of 35 bytes that starts with a record of 34
bytes, `urtwm_rxeof` rounds the record length up to 40, the remaining length becomes
-5, the test `len >= sizeof(*stat)` of the loop compares it as an unsigned value and
holds, and the status word at offset 40 is read, 5 bytes past the end of the transfer.
The parse then stops and returns the one frame. -/
theorem rxeof_reads_past_len :
    to_size_t (-5) ≥ sample_hdr.sizeof_rx_stat ∧
    urtwm_rxeof_reads sample_hdr sample_kernel 36 sample_running sample_rxbuf_odd 0 35 =
      [(0, 35), (40, -5)] ∧
    (urtwm_rxeof sample_hdr sample_kernel sample_running sample_rxbuf_odd 35).map
      (fun r => r.1.map mbuf.m_len) = some [34] := by
  decide

/-! ## Shape of the LLT table -/

theorem reg_writes_append (a b : List reg_op) :
    reg_writes (a ++ b) = reg_writes a ++ reg_writes b := by
  simp [reg_writes, List.filterMap_append]

theorem reg_writes_reads (rd : ctl_state → Nat × ctl_state) (addr len : Nat)
    (hrd : reads_reg rd addr len) (s : ctl_state) :
    reg_writes (rd s).2.ops = reg_writes s.ops := by
  obtain ⟨v, e, _, h⟩ := hrd s
  rw [h, reg_writes_append]
  simp [reg_writes]

theorem reg_writes_write_4 (u : usb_stack) (s : ctl_state) (addr val : Nat) :
    reg_writes (urtwm_write_4 u s addr val).2.ops =
      reg_writes s.ops ++ [(addr % 65536, val % 2 ^ 32, (urtwm_write_4 u s addr val).1)] := by
  rw [write_4_ops, reg_writes_append]
  rfl

theorem llt_write_poll_log (k : urtwm_consts) (u : usb_stack) (n : Nat) (s : ctl_state) :
    reg_writes (llt_write_poll k u n s).2.ops = reg_writes s.ops ∧
    ((llt_write_poll k u n s).1 = 0 ∨ (llt_write_poll k u n s).1 = ETIMEDOUT) := by
  induction n generalizing s with
  | zero => exact ⟨rfl, Or.inr rfl⟩
  | succ n ih =>
    simp only [llt_write_poll]
    have hr := reg_writes_reads _ _ _ (read_4_reads u (k "R92C_LLT_INIT")) s
    simp only at hr
    split
    · exact ⟨hr, Or.inl rfl⟩
    · exact ⟨(ih _).1.trans hr, (ih _).2⟩

/-- One call of `urtwm_llt_write` makes one register write, of the LLT word, and
returns 0 only if that write succeeded, `EIO` if it failed and `ETIMEDOUT` if it
succeeded and the poll timed out. -/
theorem llt_write_log (k : urtwm_consts) (u : usb_stack) (s : ctl_state) (addr data : Nat) :
    ∃ e, reg_writes (urtwm_llt_write k u s addr data).2.ops =
        reg_writes s.ops ++ [(k "R92C_LLT_INIT" % 65536, llt_word k addr data, e)] ∧
      ((urtwm_llt_write k u s addr data).1 = 0 → e = 0) ∧
      ((urtwm_llt_write k u s addr data).1 ≠ 0 →
        (urtwm_llt_write k u s addr data).1 = if e ≠ 0 then EIO else ETIMEDOUT) := by
  unfold urtwm_llt_write llt_word
  simp only
  generalize (SM (k "R92C_LLT_INIT_OP_M") (k "R92C_LLT_INIT_OP_S") (k "R92C_LLT_INIT_OP_WRITE") |||
      SM (k "R92C_LLT_INIT_ADDR_M") (k "R92C_LLT_INIT_ADDR_S") addr |||
      SM (k "R92C_LLT_INIT_DATA_M") (k "R92C_LLT_INIT_DATA_S") data) = w
  have hw := reg_writes_write_4 u s (k "R92C_LLT_INIT") w
  have hp := llt_write_poll_log k u 20 (urtwm_write_4 u s (k "R92C_LLT_INIT") w).2
  refine ⟨(urtwm_write_4 u s (k "R92C_LLT_INIT") w).1, ?_, ?_, ?_⟩
  · split
    · exact hw
    · rw [hp.1]
      exact hw
  · split
    · intro h
      exact absurd h (show EIO ≠ 0 by decide)
    · rename_i hc
      intro _
      simpa using hc
  · split
    · intro _
      rfl
    · intro hne
      rcases hp.2 with h0 | h1
      · exact absurd h0 hne
      · exact h1

/-- The log of a run of LLT writes: all of them when the run returns 0, and else the
writes up to the first one that fails, whose error is returned. -/
theorem llt_run_log (k : urtwm_consts) (u : usb_stack) (calls : List (Nat × Nat)) :
    ∀ s : ctl_state,
      ((llt_run k u calls s).1 = 0 →
        reg_writes (llt_run k u calls s).2.ops = reg_writes s.ops ++
          calls.map (fun c => (k "R92C_LLT_INIT" % 65536, llt_word k c.1 c.2, 0))) ∧
      ((llt_run k u calls s).1 ≠ 0 →
        ∃ j e, j < calls.length ∧
          reg_writes (llt_run k u calls s).2.ops = reg_writes s.ops ++
            (calls.take j).map (fun c => (k "R92C_LLT_INIT" % 65536, llt_word k c.1 c.2, 0)) ++
            [(k "R92C_LLT_INIT" % 65536,
              llt_word k (calls.getD j (0, 0)).1 (calls.getD j (0, 0)).2, e)] ∧
          (llt_run k u calls s).1 = if e ≠ 0 then EIO else ETIMEDOUT) := by
  induction calls with
  | nil =>
    intro s
    exact ⟨fun _ => by simp [llt_run], fun h => absurd rfl h⟩
  | cons c rest ih =>
    intro s
    obtain ⟨e, h1, h2, h3⟩ := llt_write_log k u s c.1 c.2
    simp only [llt_run]
    by_cases hc : (urtwm_llt_write k u s c.1 c.2).1 ≠ 0
    · rw [if_pos hc]
      refine ⟨fun h => absurd h hc, fun _ => ⟨0, e, by simp, ?_, h3 hc⟩⟩
      rw [h1]
      simp
    · rw [if_neg hc]
      have he : e = 0 := h2 (by simpa using hc)
      obtain ⟨i1, i2⟩ := ih (urtwm_llt_write k u s c.1 c.2).2
      constructor
      · intro h
        rw [i1 h, h1, he]
        simp
      · intro h
        obtain ⟨j, e2, hj, hl, hr⟩ := i2 h
        refine ⟨j + 1, e2, by simp; omega, ?_, hr⟩
        rw [hl, h1, he]
        simp

theorem llt_run_append (k : urtwm_consts) (u : usb_stack) (a b : List (Nat × Nat)) :
    ∀ s : ctl_state, llt_run k u (a ++ b) s =
      if (llt_run k u a s).1 ≠ 0 then llt_run k u a s else llt_run k u b (llt_run k u a s).2 := by
  induction a with
  | nil => intro s; simp [llt_run]
  | cons c rest ih =>
    intro s
    simp only [List.cons_append, llt_run]
    by_cases hc : (urtwm_llt_write k u s c.1 c.2).1 ≠ 0
    · simp only [if_pos hc]
    · simp only [if_neg hc]
      exact ih _

theorem llt_init_loop_run (k : urtwm_consts) (u : usb_stack) (n : Nat) :
    ∀ (i : Nat) (s : ctl_state), llt_init_loop k u n i s =
      llt_run k u ((List.range' i n).map (fun j => (j, j + 1))) s := by
  induction n with
  | zero => intro i s; rfl
  | succ n ih =>
    intro i s
    simp only [llt_init_loop, List.range'_succ, List.map_cons, llt_run]
    split
    · rfl
    · exact ih _ _

theorem llt_run_single (k : urtwm_consts) (u : usb_stack) (c : Nat × Nat) (s : ctl_state) :
    llt_run k u [c] s = urtwm_llt_write k u s c.1 c.2 := by
  simp only [llt_run]
  split
  · rfl
  · rename_i hc
    have h0 : (urtwm_llt_write k u s c.1 c.2).1 = 0 := by simpa using hc
    exact Prod.ext h0.symm rfl

theorem llt_init_run (k : urtwm_consts) (u : usb_stack) (s : ctl_state) :
    urtwm_llt_init k u s =
      llt_run k u (llt_init_calls (k "R88A_TX_PAGE_COUNT") (k "R88A_TXPKTBUF_COUNT")) s := by
  unfold urtwm_llt_init llt_init_calls
  simp only [llt_run_append, llt_run_single, llt_init_loop_run]
  split_ifs <;> rfl

theorem llt_init_calls_table (pc pb : Nat) (h : pc + 2 ≤ pb) :
    llt_init_calls pc pb = spec_llt_table pc pb := by
  obtain ⟨n, rfl⟩ : ∃ n, pb = pc + 1 + n + 1 := ⟨pb - 1 - (pc + 1), by omega⟩
  have hn : pc + 1 + n + 1 - 1 - (pc + 1) = n := by omega
  unfold llt_init_calls spec_llt_table
  rw [hn]
  have e1 : List.range' 0 (pc + 1 + n + 1) =
      List.range' 0 pc ++ [pc] ++ List.range' (pc + 1) n ++ [pc + 1 + n] := by
    have a1 := List.range'_append 0 pc 1 1
    have a2 := List.range'_append 0 (pc + 1) n 1
    have a3 := List.range'_append 0 (pc + 1 + n) 1 1
    simp only [Nat.one_mul, Nat.zero_add, List.range'_one] at a1 a2 a3
    rw [show 1 + pc = pc + 1 by omega] at a1
    rw [show n + (pc + 1) = pc + 1 + n by omega] at a2
    rw [show 1 + (pc + 1 + n) = pc + 1 + n + 1 by omega] at a3
    rw [← a3, ← a2, ← a1]
  rw [e1]
  simp only [List.map_append, List.map_cons, List.map_nil]
  congr 1
  · congr 1
    · congr 1
      · apply List.map_congr_left
        intro i hi
        rw [List.mem_range'_1] at hi
        rw [if_pos (by omega)]
      · simp
    · apply List.map_congr_left
      intro i hi
      rw [List.mem_range'_1] at hi
      rw [if_neg (by omega), if_neg (by omega), if_pos (by omega)]
  · rw [if_neg (by omega), if_neg (by omega), if_neg (by omega)]

/-- C26: with `page_count + 1 <= pktbuf_count - 1`, `urtwm_llt_init` makes the
`urtwm_llt_write` calls of the table (address `i` for `i = 0, ..., pktbuf_count - 1` in
increasing order, data `i + 1` below `page_count`, 0xff at `page_count`, `i + 1` between
`page_count` and `pktbuf_count - 1`, and `page_count + 1` at the last address) one after
the other and stops at the first that fails.  A run that returns 0 has made exactly these
`pktbuf_count` register writes, all successful; a run that returns an error has made the
writes of the entries before some entry `j`, then the write of entry `j`, and nothing
after it, and returns the error of that call: `EIO` if the register write failed,
`ETIMEDOUT` if the poll after it timed out. -/
theorem llt_init_table (k : urtwm_consts) (u : usb_stack) (s : ctl_state)
    (h : k "R88A_TX_PAGE_COUNT" + 1 ≤ k "R88A_TXPKTBUF_COUNT" - 1) :
    (spec_llt_table (k "R88A_TX_PAGE_COUNT") (k "R88A_TXPKTBUF_COUNT")).length =
      k "R88A_TXPKTBUF_COUNT" ∧
    urtwm_llt_init k u s =
      llt_run k u (spec_llt_table (k "R88A_TX_PAGE_COUNT") (k "R88A_TXPKTBUF_COUNT")) s ∧
    ((urtwm_llt_init k u s).1 = 0 →
      reg_writes (urtwm_llt_init k u s).2.ops = reg_writes s.ops ++
        (spec_llt_table (k "R88A_TX_PAGE_COUNT") (k "R88A_TXPKTBUF_COUNT")).map
          (fun c => (k "R92C_LLT_INIT" % 65536, llt_word k c.1 c.2, 0))) ∧
    ((urtwm_llt_init k u s).1 ≠ 0 →
      ∃ j e, j < k "R88A_TXPKTBUF_COUNT" ∧
        reg_writes (urtwm_llt_init k u s).2.ops = reg_writes s.ops ++
          ((spec_llt_table (k "R88A_TX_PAGE_COUNT") (k "R88A_TXPKTBUF_COUNT")).take j).map
            (fun c => (k "R92C_LLT_INIT" % 65536, llt_word k c.1 c.2, 0)) ++
          [(k "R92C_LLT_INIT" % 65536,
            llt_word k
              ((spec_llt_table (k "R88A_TX_PAGE_COUNT") (k "R88A_TXPKTBUF_COUNT")).getD j
                (0, 0)).1
              ((spec_llt_table (k "R88A_TX_PAGE_COUNT") (k "R88A_TXPKTBUF_COUNT")).getD j
                (0, 0)).2, e)] ∧
        (urtwm_llt_init k u s).1 = if e ≠ 0 then EIO else ETIMEDOUT) := by
  have ht := llt_init_calls_table (k "R88A_TX_PAGE_COUNT") (k "R88A_TXPKTBUF_COUNT") (by omega)
  have hr := llt_init_run k u s
  rw [ht] at hr
  have hlen : (spec_llt_table (k "R88A_TX_PAGE_COUNT") (k "R88A_TXPKTBUF_COUNT")).length =
      k "R88A_TXPKTBUF_COUNT" := by
    simp [spec_llt_table]
  obtain ⟨l1, l2⟩ := llt_run_log k u
    (spec_llt_table (k "R88A_TX_PAGE_COUNT") (k "R88A_TXPKTBUF_COUNT")) s
  rw [← hr] at l1 l2
  refine ⟨hlen, hr, l1, ?_⟩
  intro hne
  obtain ⟨j, e, hj, hl, he⟩ := l2 hne
  exact ⟨j, e, by rw [← hlen]; exact hj, hl, he⟩

theorem llt_init_table_witness :
    (urtwm_llt_init sample_consts ready_stack ctl_zero).1 = 0 ∧
    spec_llt_table 3 6 = [(0, 1), (1, 2), (2, 3), (3, 0xff), (4, 5), (5, 4)] ∧
    reg_writes (urtwm_llt_init sample_consts ready_stack ctl_zero).2.ops =
      (spec_llt_table 3 6).map
        (fun c => (sample_consts "R92C_LLT_INIT" % 65536, llt_word sample_consts c.1 c.2, 0)) :=
  ⟨by decide, by decide,
    (llt_init_table sample_consts ready_stack ctl_zero (by decide)).2.2.1 (by decide)⟩
/-! ## Hardware key installation -/

/-- One call of `urtwm_cam_write`: the two register writes, successful, when it returns
0, and else the writes up to the one that failed. -/
theorem cam_write_log (k : urtwm_consts) (u : usb_stack) (s : ctl_state) (c : Nat × Nat) :
    ((urtwm_cam_write k u s c.1 c.2).1 = 0 →
      reg_writes (urtwm_cam_write k u s c.1 c.2).2.ops = reg_writes s.ops ++ cam_ops k c) ∧
    ((urtwm_cam_write k u s c.1 c.2).1 ≠ 0 →
      ∃ t, reg_writes (urtwm_cam_write k u s c.1 c.2).2.ops = reg_writes s.ops ++ t ∧
        cam_ops_failed k c t) := by
  unfold urtwm_cam_write cam_ops cam_ops_failed
  simp only
  generalize (k "R92C_CAMCMD_POLLING" ||| k "R92C_CAMCMD_WRITE" |||
    SM (k "R92C_CAMCMD_ADDR_M") (k "R92C_CAMCMD_ADDR_S") c.1) = w
  have h1 := reg_writes_write_4 u s (k "R92C_CAMWRITE") c.2
  have h2 := reg_writes_write_4 u (urtwm_write_4 u s (k "R92C_CAMWRITE") c.2).2 (k "R92C_CAMCMD") w
  by_cases hc1 : (urtwm_write_4 u s (k "R92C_CAMWRITE") c.2).1 ≠ 0
  · simp only [if_pos hc1]
    refine ⟨fun h => absurd h (show EIO ≠ 0 by decide), fun _ => ⟨_, h1, _, hc1, Or.inl rfl⟩⟩
  · simp only [if_neg hc1]
    have e1 : (urtwm_write_4 u s (k "R92C_CAMWRITE") c.2).1 = 0 := by simpa using hc1
    rw [e1] at h1
    by_cases hc2 : (urtwm_write_4 u (urtwm_write_4 u s (k "R92C_CAMWRITE") c.2).2
        (k "R92C_CAMCMD") w).1 ≠ 0
    · simp only [if_pos hc2]
      refine ⟨fun h => absurd h (show EIO ≠ 0 by decide), fun _ => ⟨_, ?_, _, hc2, Or.inr rfl⟩⟩
      rw [h2, h1, List.append_assoc]
      rfl
    · simp only [if_neg hc2]
      have e2 : (urtwm_write_4 u (urtwm_write_4 u s (k "R92C_CAMWRITE") c.2).2
          (k "R92C_CAMCMD") w).1 = 0 := by simpa using hc2
      rw [e2] at h2
      refine ⟨fun _ => ?_, fun h => absurd rfl h⟩
      rw [h2, h1, List.append_assoc]
      rfl

/-- The log of a run of CAM writes: all of them when the run returns 0, and else the
writes of the calls before the first one that fails, followed by what that call wrote. -/
theorem cam_run_log (k : urtwm_consts) (u : usb_stack) (calls : List (Nat × Nat)) :
    ∀ s : ctl_state,
      ((cam_run k u calls s).1 = 0 →
        reg_writes (cam_run k u calls s).2.ops = reg_writes s.ops ++
          (calls.map (cam_ops k)).flatten) ∧
      ((cam_run k u calls s).1 ≠ 0 →
        ∃ j t, j < calls.length ∧
          reg_writes (cam_run k u calls s).2.ops = reg_writes s.ops ++
            ((calls.take j).map (cam_ops k)).flatten ++ t ∧
          cam_ops_failed k (calls.getD j (0, 0)) t) := by
  induction calls with
  | nil =>
    intro s
    exact ⟨fun _ => by simp [cam_run], fun h => absurd rfl h⟩
  | cons c rest ih =>
    intro s
    obtain ⟨h1, h2⟩ := cam_write_log k u s c
    simp only [cam_run]
    by_cases hc : (urtwm_cam_write k u s c.1 c.2).1 ≠ 0
    · rw [if_pos hc]
      obtain ⟨t, ht, hf⟩ := h2 hc
      refine ⟨fun h => absurd h hc, fun _ => ⟨0, t, by simp, ?_, by simpa using hf⟩⟩
      rw [ht]
      simp
    · rw [if_neg hc]
      have h0 := h1 (by simpa using hc)
      obtain ⟨i1, i2⟩ := ih (urtwm_cam_write k u s c.1 c.2).2
      constructor
      · intro h
        rw [i1 h, h0]
        simp
      · intro h
        obtain ⟨j, t, hj, hl, hf⟩ := i2 h
        refine ⟨j + 1, t, by simp; omega, ?_, by simpa using hf⟩
        rw [hl, h0]
        simp

theorem cam_run_append (k : urtwm_consts) (u : usb_stack) (a b : List (Nat × Nat)) :
    ∀ s : ctl_state, cam_run k u (a ++ b) s =
      if (cam_run k u a s).1 ≠ 0 then cam_run k u a s else cam_run k u b (cam_run k u a s).2 := by
  induction a with
  | nil => intro s; simp [cam_run]
  | cons c rest ih =>
    intro s
    simp only [List.cons_append, cam_run]
    by_cases hc : (urtwm_cam_write k u s c.1 c.2).1 ≠ 0
    · simp only [if_pos hc]
    · simp only [if_neg hc]
      exact ih _

theorem key_set_loop_run (k : urtwm_consts) (c : cam_macros) (u : usb_stack) (key : cam_key)
    (n : Nat) :
    ∀ (i : Nat) (s : ctl_state), key_set_loop k c u key n i s =
      cam_run k u ((List.range' i n).map
        (fun j => (c.R92C_CAM_KEY key.wk_keyix j, le32_at key.wk_key (j * 4)))) s := by
  induction n with
  | zero => intro i s; rfl
  | succ n ih =>
    intro i s
    simp only [key_set_loop, List.range'_succ, List.map_cons, cam_run]
    split
    · rfl
    · exact ih _ _

/-- With a known cipher `urtwm_key_set_cb` is the run of its six CAM writes. -/
theorem key_set_cb_run (k : urtwm_consts) (c : cam_macros) (u : usb_stack) (key : cam_key)
    (sc : urtwm_softc) (s : ctl_state) (algo : Nat) (ha : key_set_algo k key = some algo) :
    urtwm_key_set_cb k c u key sc s = (sc, (cam_run k u (key_set_calls k c key algo) s).2) := by
  unfold urtwm_key_set_cb key_set_calls
  rw [ha]
  simp only [cam_run_append, key_set_loop_run]
  generalize cam_run k u ((List.range' 0 4).map
    (fun j => (c.R92C_CAM_KEY key.wk_keyix j, le32_at key.wk_key (j * 4)))) s = r
  simp only [cam_run]
  split_ifs <;> rfl

/-- C28: `urtwm_key_set_cb` never assigns a field of the softc, so the RUNNING flag is as
before.  With a cipher other than WEP, TKIP and AES-CCM it makes no register access.
With one of these ciphers it issues its six CAM writes in the order key word 0, 1, 2,
3, control word 1, control word 0, stopping at the first that fails: when all succeed
the log holds the twelve register writes in that order, each successful, the control
word 0 with its VALID bit last; when the call number `j` fails the log holds the writes
of the calls before `j`, all successful, then what call `j` wrote up to its failed
register write, and nothing after it. -/
theorem key_valid_last (k : urtwm_consts) (c : cam_macros) (u : usb_stack) (key : cam_key)
    (sc : urtwm_softc) (s : ctl_state) :
    (urtwm_key_set_cb k c u key sc s).1 = sc ∧
    (key_set_algo k key = none → urtwm_key_set_cb k c u key sc s = (sc, s)) ∧
    (∀ algo, key_set_algo k key = some algo →
      (key_set_calls k c key algo).length = 6 ∧
      (key_set_calls k c key algo).getLast? =
        some (c.R92C_CAM_CTL0 key.wk_keyix, cam_ctl0_word k key algo) ∧
      (urtwm_key_set_cb k c u key sc s).2 =
        (cam_run k u (key_set_calls k c key algo) s).2 ∧
      ((cam_run k u (key_set_calls k c key algo) s).1 = 0 →
        reg_writes (urtwm_key_set_cb k c u key sc s).2.ops = reg_writes s.ops ++
          ((key_set_calls k c key algo).map (cam_ops k)).flatten) ∧
      ((cam_run k u (key_set_calls k c key algo) s).1 ≠ 0 →
        ∃ j t, j < 6 ∧
          reg_writes (urtwm_key_set_cb k c u key sc s).2.ops = reg_writes s.ops ++
            (((key_set_calls k c key algo).take j).map (cam_ops k)).flatten ++ t ∧
          cam_ops_failed k ((key_set_calls k c key algo).getD j (0, 0)) t)) := by
  refine ⟨?_, ?_, ?_⟩
  · cases ha : key_set_algo k key with
    | none => simp [urtwm_key_set_cb, ha]
    | some algo => rw [key_set_cb_run k c u key sc s algo ha]
  · intro ha
    simp [urtwm_key_set_cb, ha]
  · intro algo ha
    have hr := key_set_cb_run k c u key sc s algo ha
    obtain ⟨l1, l2⟩ := cam_run_log k u (key_set_calls k c key algo) s
    have hlen : (key_set_calls k c key algo).length = 6 := by simp [key_set_calls]
    refine ⟨hlen, by simp [key_set_calls], by rw [hr], ?_, ?_⟩
    · intro h0
      rw [hr]
      exact l1 h0
    · intro hne
      obtain ⟨j, t, hj, hl, hf⟩ := l2 hne
      exact ⟨j, t, by rw [← hlen]; exact hj, by rw [hr]; exact hl, hf⟩

set_option maxRecDepth 100000 in
theorem key_valid_last_witness :
    key_set_algo cam_consts sample_key = some 4 ∧
    cam_ctl0_word cam_consts sample_key 4 = 0x0b0a8010 ∧
    (cam_run cam_consts (broken_stack 6) (key_set_calls cam_consts sample_cam sample_key 4)
      ctl_zero).1 = EIO ∧
    reg_writes (urtwm_key_set_cb cam_consts sample_cam quiet_stack sample_key sample_running
        ctl_zero).2.ops =
      [(0x674, 0x04030201, 0), (0x670, 0x8001002a, 0), (0x674, 0x08070605, 0),
        (0x670, 0x8001002b, 0), (0x674, 0x0c0b0a09, 0), (0x670, 0x8001002c, 0),
        (0x674, 0x100f0e0d, 0), (0x670, 0x8001002d, 0), (0x674, 0x0f0e0d0c, 0),
        (0x670, 0x80010029, 0), (0x674, 0x0b0a8010, 0), (0x670, 0x80010028, 0)] ∧
    reg_writes (urtwm_key_set_cb cam_consts sample_cam (broken_stack 6) sample_key
        sample_running ctl_zero).2.ops =
      [(0x674, 0x04030201, 0), (0x670, 0x8001002a, 0), (0x674, 0x08070605, 0),
        (0x670, 0x8001002b, 0), (0x674, 0x0c0b0a09, 0), (0x670, 0x8001002c, 0),
        (0x674, 0x100f0e0d, 18)] ∧
    (urtwm_key_set_cb cam_consts sample_cam (broken_stack 6) sample_key sample_running
        ctl_zero).1.sc_flags = 2 :=
  ⟨by decide, by decide, by decide, by decide, by decide,
    congrArg urtwm_softc.sc_flags
      (key_valid_last cam_consts sample_cam (broken_stack 6) sample_key sample_running
        ctl_zero).1⟩
/-! ## Band change -/

theorem write_addrs_write_4 (u : usb_stack) (s : ctl_state) (addr val : Nat) :
    write_addrs (urtwm_write_4 u s addr val).2.ops = write_addrs s.ops ++ [addr % 65536] := by
  rw [write_4_ops, write_addrs_append]
  rfl

theorem write_addrs_reads (rd : ctl_state → Nat × ctl_state) (addr len : Nat)
    (hrd : reads_reg rd addr len) (s : ctl_state) :
    write_addrs (rd s).2.ops = write_addrs s.ops := by
  obtain ⟨v, e, _, h⟩ := hrd s
  rw [h, write_addrs_append]
  simp [write_addrs]

theorem write_addrs_setbits_4 (u : usb_stack) (s : ctl_state) (addr clr set : Nat) :
    write_addrs (urtwm_setbits_4 u s addr clr set).2.ops =
      write_addrs s.ops ++ [addr % 65536] := by
  unfold urtwm_setbits_4
  rw [write_addrs_write_4]
  exact congrArg (· ++ [addr % 65536]) (write_addrs_reads _ _ _ (read_4_reads u addr) s)

theorem band_step_writes (k : urtwm_consts) (u : usb_stack) (st : band_step) (s : ctl_state) :
    write_addrs (st.run k u s).ops = write_addrs s.ops ++ st.writes := by
  cases st with
  | setbits_4 addr clr set => exact write_addrs_setbits_4 u s addr clr set
  | write_1 addr val => exact write_addrs_write_1 u s addr val
  | txpkt_poll =>
    simp only [band_step.run, band_step.writes, List.append_nil]
    have hp := write_addrs_poll (fun s1 => urtwm_read_2 u s1 (k "R88A_TXPKT_EMPTY"))
      (fun v => v &&& 0x30 = 0x30) _ _ (read_2_reads u (k "R88A_TXPKT_EMPTY")) 100 s
    split
    · exact hp
    · rw [write_addrs_reads _ _ _ (read_2_reads u (k "R88A_TXPKT_EMPTY")), hp]

theorem band_run_writes (k : urtwm_consts) (u : usb_stack) (steps : List band_step) :
    ∀ s : ctl_state, write_addrs (band_run k u steps s).ops =
      write_addrs s.ops ++ (steps.map band_step.writes).flatten := by
  induction steps with
  | nil => intro s; simp [band_run]
  | cons st rest ih =>
    intro s
    have h := ih (st.run k u s)
    simp only [band_run, List.foldl_cons] at h ⊢
    rw [h, band_step_writes]
    simp

theorem band_check_force (k : urtwm_consts) (u : usb_stack) (c : ieee80211_channel)
    (force : Int) (s : ctl_state) (hf : force ≠ 0) : band_check k u c force s = (false, s) := by
  unfold band_check
  rw [if_pos hf]

theorem band_check_read (k : urtwm_consts) (u : usb_stack) (c : ieee80211_channel)
    (s : ctl_state) :
    band_check k u c 0 s =
      (Bool.xor (IEEE80211_IS_CHAN_5GHZ c) (decide (cck_check k u s &&& k "R88A_CCK_CHECK_5GHZ" = 0)),
        (urtwm_read_1 u s (k "R88A_CCK_CHECK")).2) := by
  unfold band_check cck_check
  rw [if_neg (by decide)]

/-- C29: for a channel of exactly one band.  Called with `force = 0`,
`urtwm_band_change` reads `R88A_CCK_CHECK` and does nothing more (no register write)
when the channel is a 5 GHz channel and the 5 GHz bit of the value read is set, or the
channel is a 2.4 GHz channel and the bit is clear; when the two disagree it runs the
sequence of the channel's band after that read.  Called with `force != 0` it runs the
sequence of the channel's band from the state it was entered in, whatever the
register holds.  The sequence of a band and the two swing writes make the register
writes of its statements, in order. -/
theorem band_change_skip (k : urtwm_consts) (u : usb_stack) (sc : band_softc)
    (c : ieee80211_channel) (s : ctl_state)
    (hband : IEEE80211_IS_CHAN_2GHZ c = !IEEE80211_IS_CHAN_5GHZ c) :
    (IEEE80211_IS_CHAN_5GHZ c = true → cck_check k u s &&& k "R88A_CCK_CHECK_5GHZ" ≠ 0 →
      urtwm_band_change k u sc c 0 s = (urtwm_read_1 u s (k "R88A_CCK_CHECK")).2 ∧
      write_addrs (urtwm_band_change k u sc c 0 s).ops = write_addrs s.ops) ∧
    (IEEE80211_IS_CHAN_5GHZ c = false → cck_check k u s &&& k "R88A_CCK_CHECK_5GHZ" = 0 →
      urtwm_band_change k u sc c 0 s = (urtwm_read_1 u s (k "R88A_CCK_CHECK")).2 ∧
      write_addrs (urtwm_band_change k u sc c 0 s).ops = write_addrs s.ops) ∧
    (IEEE80211_IS_CHAN_5GHZ c = true → cck_check k u s &&& k "R88A_CCK_CHECK_5GHZ" = 0 →
      urtwm_band_change k u sc c 0 s =
        band_run k u
          (band_5ghz_steps k sc.lna_type ++ band_swing_steps k (sc.tx_bbswing_5g % 256))
          (urtwm_read_1 u s (k "R88A_CCK_CHECK")).2) ∧
    (IEEE80211_IS_CHAN_5GHZ c = false → cck_check k u s &&& k "R88A_CCK_CHECK_5GHZ" ≠ 0 →
      urtwm_band_change k u sc c 0 s =
        band_run k u
          (band_2ghz_steps k sc.lna_type ++ band_swing_steps k (sc.tx_bbswing_2g % 256))
          (urtwm_read_1 u s (k "R88A_CCK_CHECK")).2) ∧
    (∀ force : Int, force ≠ 0 →
      urtwm_band_change k u sc c force s =
        if IEEE80211_IS_CHAN_5GHZ c then
          band_run k u
            (band_5ghz_steps k sc.lna_type ++ band_swing_steps k (sc.tx_bbswing_5g % 256)) s
        else
          band_run k u
            (band_2ghz_steps k sc.lna_type ++ band_swing_steps k (sc.tx_bbswing_2g % 256)) s) ∧
    (∀ s1 : ctl_state,
      write_addrs (band_run k u
          (band_2ghz_steps k sc.lna_type ++ band_swing_steps k (sc.tx_bbswing_2g % 256))
          s1).ops =
        write_addrs s1.ops ++
          ((band_2ghz_steps k sc.lna_type).map band_step.writes).flatten ++
          [k "R88A_TX_SCALE(0)" % 65536, k "R88A_TX_SCALE(1)" % 65536] ∧
      write_addrs (band_run k u
          (band_5ghz_steps k sc.lna_type ++ band_swing_steps k (sc.tx_bbswing_5g % 256))
          s1).ops =
        write_addrs s1.ops ++
          ((band_5ghz_steps k sc.lna_type).map band_step.writes).flatten ++
          [k "R88A_TX_SCALE(0)" % 65536, k "R88A_TX_SCALE(1)" % 65536] ∧
      9 ≤ ((band_2ghz_steps k sc.lna_type).map band_step.writes).flatten.length + 2 ∧
      9 ≤ ((band_5ghz_steps k sc.lna_type).map band_step.writes).flatten.length + 2) := by
  have hr := band_check_read k u c s
  have hw := write_addrs_reads _ _ _ (read_1_reads u (k "R88A_CCK_CHECK")) s
  simp only at hw
  refine ⟨?_, ?_, ?_, ?_, ?_, ?_⟩
  · intro h5 hbit
    have e : urtwm_band_change k u sc c 0 s = (urtwm_read_1 u s (k "R88A_CCK_CHECK")).2 := by
      unfold urtwm_band_change
      simp only [hr, h5, hbit, decide_False, Bool.xor_false, if_true]
    exact ⟨e, by rw [e, hw]⟩
  · intro h5 hbit
    have e : urtwm_band_change k u sc c 0 s = (urtwm_read_1 u s (k "R88A_CCK_CHECK")).2 := by
      unfold urtwm_band_change
      simp only [hr, h5, hbit, decide_True, Bool.false_xor, if_true]
    exact ⟨e, by rw [e, hw]⟩
  · intro h5 hbit
    have h2 : IEEE80211_IS_CHAN_2GHZ c = false := by rw [hband, h5]; rfl
    unfold urtwm_band_change
    simp [hr, h5, h2, hbit]
  · intro h5 hbit
    have h2 : IEEE80211_IS_CHAN_2GHZ c = true := by rw [hband, h5]; rfl
    unfold urtwm_band_change
    simp [hr, h5, h2, hbit]
  · intro force hf
    unfold urtwm_band_change
    rw [band_check_force k u c force s hf]
    cases h5 : IEEE80211_IS_CHAN_5GHZ c
    · have h2 : IEEE80211_IS_CHAN_2GHZ c = true := by rw [hband, h5]; rfl
      simp [h2]
    · have h2 : IEEE80211_IS_CHAN_2GHZ c = false := by rw [hband, h5]; rfl
      simp [h2]
  · intro s1
    refine ⟨?_, ?_, ?_, ?_⟩
    · rw [band_run_writes]
      simp [band_swing_steps, band_step.writes]
    · rw [band_run_writes]
      simp [band_swing_steps, band_step.writes]
    · unfold band_2ghz_steps
      split <;> simp [band_step.writes]
    · unfold band_5ghz_steps
      split <;> simp [band_step.writes]

theorem chan_2ghz_band : IEEE80211_IS_CHAN_2GHZ (chan_2ghz 6 0) =
    !IEEE80211_IS_CHAN_5GHZ (chan_2ghz 6 0) := by
  decide

set_option maxRecDepth 100000 in
theorem band_change_skip_witness :
    cck_check band_consts (const_stack 0) ctl_zero &&& band_consts "R88A_CCK_CHECK_5GHZ" = 0 ∧
    (urtwm_band_change band_consts (const_stack 0) sample_band_softc (chan_2ghz 6 0) 0
      ctl_zero).ops = [reg_op.read 0x454 1 0 0] ∧
    write_addrs (urtwm_band_change band_consts (const_stack 0x80) sample_band_softc
      (chan_2ghz 6 0) 0 ctl_zero).ops =
      [0x808, 0xcb0, 0xcb0, 0xc1c, 0x440, 0x808, 0x454, 0xc1c, 0xe1c] ∧
    write_addrs (urtwm_band_change band_consts (const_stack 0) sample_band_softc
      (chan_2ghz 6 0) 0 ctl_zero).ops = write_addrs ctl_zero.ops :=
  ⟨by decide, by decide, by decide,
    ((band_change_skip band_consts (const_stack 0) sample_band_softc (chan_2ghz 6 0) ctl_zero
      chan_2ghz_band).2.1 (by decide) (by decide)).2⟩

end Urtwm
